import Mathlib

/-!
# CNStream source module: decoder engine and sink adapter

A shallow embedding of `modules/source/src/ffmpeg_decoder.cpp` (the classes
`MluDecoder` and `FFmpegCpuDecoder`) and of `RawImgMemHandlerImpl::SendFlowEos`
from `modules/source/src/data_handler_rawimg.hpp`.

Conventions of the embedding.

* Member functions become functions on an explicit state record.  A function
  that can crash (null dereference, `MLOG(FATAL)`, division by zero) or spin
  forever returns `Option`; `none` stands for "does not return".
* Every call that leaves the decoder (sink calls and accelerator calls) is
  appended to the ghost field `log`, in program order.
* Answers of the outside world (return codes of the accelerator, handles
  returned by the sink, callbacks that arrive while the code is spinning in a
  `yield` loop) are explicit arguments: each operation takes a script of the
  answers it will receive.  A script that ends while the code still waits for
  an answer gives `none`.
* Pointers are `Option` (or `Bool` when only nullness is observed).
-/

namespace CNStream

/-! ## Machine integers -/

/-- Modelled from the spec: the header declaring `frame_count_`, `frame_id_` and
`interval_` is not part of the sources; they are taken as 64-bit unsigned
counters (as `frame_id_` of `RawImgMemHandlerImpl` is), so increments wrap at
this modulus. -/
def UINT64_MOD : Nat := 18446744073709551616

/-- Modulus of `uint32_t` arithmetic. -/
def UINT32_MOD : Nat := 4294967296

/-- Conversion of a C `int` to a 64-bit unsigned integer. -/
def toSizeT (i : Int) : Nat := (i % (UINT64_MOD : Int)).toNat

/-- Conversion of a C `int` to `uint32_t`. -/
def toU32 (i : Int) : Nat := (i % (UINT32_MOD : Int)).toNat

/-- The value of a 32-bit `int` expression whose mathematical result is `i`:
the result wraps around in two's complement. -/
def toInt32 (i : Int) : Int := (i + 2147483648) % 4294967296 - 2147483648

/-! ## Sink adapter: `RawImgMemHandlerImpl` -/

/-- Calls made by the sink adapter on the `RawImgMemHandler` behind it. -/
inductive HandlerCall where
  /-- The call `handler_.CreateFrameInfo(eos)` and whether it gave a frame. -/
  | CreateFrameInfo (eos : Bool) (ok : Bool)
  /-- The call `handler_.SendData(data)`; `eos` tells whether `data` is the EOS frame. -/
  | SendData (eos : Bool)
  deriving DecidableEq, Repr

/-- The part of `RawImgMemHandlerImpl` that `SendFlowEos` reads and writes. -/
structure RawImgMemHandlerImpl where
  eos_sent_ : Bool
  /-- Ghost: calls made downstream so far, oldest first. -/
  trace : List HandlerCall
  deriving DecidableEq, Repr

/-- The function `RawImgMemHandlerImpl::SendFlowEos`.  `created` is the answer of
`CreateFrameInfo(true)` (`true`: a frame, `false`: null); it is only
consulted when the call gets that far. -/
def RawImgMemHandlerImpl.SendFlowEos (h : RawImgMemHandlerImpl) (created : Bool) :
    RawImgMemHandlerImpl :=
  if h.eos_sent_ then h
  else
    let h1 := { h with trace := h.trace ++ [HandlerCall.CreateFrameInfo true created] }
    if !created then h1
    else { h1 with trace := h1.trace ++ [HandlerCall.SendData true], eos_sent_ := true }

/-- Number of EOS frames sent downstream in a trace. -/
def eosFramesSent (t : List HandlerCall) : Nat :=
  t.count (HandlerCall.SendData true)

/-- Any number of successive `SendFlowEos` calls, one scripted answer per call. -/
def RawImgMemHandlerImpl.SendFlowEosMany (h : RawImgMemHandlerImpl) :
    List Bool → RawImgMemHandlerImpl
  | [] => h
  | r :: rs => (h.SendFlowEos r).SendFlowEosMany rs

/-! ## Data model of the decoders -/

/-- The codec identifiers of `AVCodecID` that the code distinguishes. -/
inductive AVCodecID where
  | AV_CODEC_ID_MJPEG
  | AV_CODEC_ID_H264
  | AV_CODEC_ID_HEVC
  /-- Any other codec identifier. -/
  | OTHER (n : Nat)
  deriving DecidableEq, Repr

/-- The colour spaces of `AVColorSpace` that the code distinguishes. -/
inductive AVColorSpace where
  | AVCOL_SPC_BT709
  | AVCOL_SPC_BT2020_CL
  | AVCOL_SPC_BT2020_NCL
  | AVCOL_SPC_BT470BG
  | AVCOL_SPC_SMPTE170M
  | OTHER (n : Nat)
  deriving DecidableEq, Repr

/-- Field order of a demuxed stream (`AVFieldOrder`). -/
inductive AVFieldOrder where
  | AV_FIELD_UNKNOWN
  | AV_FIELD_PROGRESSIVE
  | AV_FIELD_TT
  | AV_FIELD_BB
  | AV_FIELD_TB
  | AV_FIELD_BT
  deriving DecidableEq, Repr

/-- The fields of `AVStream::codecpar` read by `MluDecoder::Create(AVStream*, int)`. -/
structure AVStream where
  codec_id : AVCodecID
  width : Int
  height : Int
  field_order : AVFieldOrder
  color_space : AVColorSpace
  deriving DecidableEq, Repr

/-- Stream description captured at open (`VideoStreamInfo`). -/
structure VideoStreamInfo where
  codec_id : AVCodecID
  codec_width : Int
  codec_height : Int
  progressive : Int
  color_space : AVColorSpace
  extra_data : List Nat
  deriving DecidableEq, Repr

/-- Output target of `DataSourceParam::output_type_`; `OUTPUT_INVALID` stands
for any value other than the two enumerators. -/
inductive OutputType where
  | OUTPUT_CPU
  | OUTPUT_MLU
  | OUTPUT_INVALID
  deriving DecidableEq, Repr

/-- The fields of `DataSourceParam` read by the decoders. -/
structure DataSourceParam where
  output_type_ : OutputType
  device_id_ : Int
  input_buf_number_ : Nat
  output_buf_number_ : Nat
  reuse_cndec_buf : Bool
  apply_stride_align_for_scaler_ : Bool
  deriving DecidableEq, Repr

/-- Elementary-stream packet (`ESPacket`); `flags` is a bit set. -/
structure ESPacket where
  size : Nat
  pts : Nat
  flags : Nat
  deriving DecidableEq, Repr

/-- Modelled from the spec: the header declaring `ESPacket` is not part of the
sources; its end-of-stream flag is taken as the bit `0x01`, the value of
`ImagePacket::FLAG_EOS` in `data_handler_rawimg.hpp`. -/
def ESPacket.FLAG_EOS : Nat := 1

/-- Return codes of the accelerator library that the code compares against.
The header defining them is not part of the sources, so they are parameters. -/
structure CnCodecRet where
  CNCODEC_SUCCESS : Int
  CNCODEC_TIMEOUT : Int
  deriving DecidableEq, Repr

/-- Codec selected in `cnvideoDecCreateInfo::codec`; `UNSET` is the value left
by `memset`, `RAW` a value reported by the accelerator. -/
inductive cncodecType where
  | UNSET
  | CNCODEC_H264
  | CNCODEC_HEVC
  | RAW (n : Nat)
  deriving DecidableEq, Repr

/-- Colour space selected in `cnvideoDecCreateInfo::colorSpace`. -/
inductive cncodecColorSpace where
  | UNSET
  | CNCODEC_COLOR_SPACE_BT_709
  | CNCODEC_COLOR_SPACE_BT_2020
  | CNCODEC_COLOR_SPACE_BT_601
  deriving DecidableEq, Repr

/-- The fields of `cnvideoDecCreateInfo` that vary (the constant ones,
`instance`, `pixelFmt`, `bitDepthMinus8`, `allocType` and `userContext`, are left out). -/
structure cnvideoDecCreateInfo where
  deviceId : Int
  codec : cncodecType
  colorSpace : cncodecColorSpace
  width : Nat
  height : Nat
  progressive : Nat
  inputBufNum : Nat
  outputBufNum : Nat
  suggestedLibAllocBitStrmBufSize : Nat
  deriving DecidableEq, Repr

/-- The fields of `cnjpegDecCreateInfo` that vary. -/
structure cnjpegDecCreateInfo where
  deviceId : Int
  width : Nat
  height : Nat
  inputBufNum : Nat
  outputBufNum : Nat
  suggestedLibAllocBitStrmBufSize : Nat
  deriving DecidableEq, Repr

/-- Pixel formats of a decoded hardware frame. -/
inductive cncodecPixelFormat where
  | CNCODEC_PIX_FMT_NV12
  | CNCODEC_PIX_FMT_NV21
  | OTHER (n : Nat)
  deriving DecidableEq, Repr

/-- Pixel formats of a frame descriptor. -/
inductive CNDataFormat where
  | CN_INVALID
  | CN_PIXEL_FORMAT_YUV420_NV12
  | CN_PIXEL_FORMAT_YUV420_NV21
  deriving DecidableEq, Repr

/-- The function `PixelFmt2CnDataFormat`. -/
def PixelFmt2CnDataFormat (pformat : cncodecPixelFormat) : CNDataFormat :=
  match pformat with
  | .CNCODEC_PIX_FMT_NV12 => .CN_PIXEL_FORMAT_YUV420_NV12
  | .CNCODEC_PIX_FMT_NV21 => .CN_PIXEL_FORMAT_YUV420_NV21
  | _ => .CN_INVALID

/-- A hardware frame (`cncodecFrame`); a frame is identified by `buf`. -/
structure cncodecFrame where
  buf : Nat
  width : Nat
  height : Nat
  pixelFmt : cncodecPixelFormat
  channel : Nat
  deriving DecidableEq, Repr

/-- Output of the video session (`cnvideoDecOutput`). -/
structure cnvideoDecOutput where
  frame : cncodecFrame
  pts : Nat
  deriving DecidableEq, Repr

/-- Output of the still-image session (`cnjpegDecOutput`). -/
structure cnjpegDecOutput where
  frame : cncodecFrame
  pts : Nat
  result : Int
  deriving DecidableEq, Repr

/-- Sequence information reported by the accelerator (`cnvideoDecSequenceInfo`). -/
structure cnvideoDecSequenceInfo where
  codec : cncodecType
  width : Nat
  height : Nat
  minOutputBufNum : Nat
  deriving DecidableEq, Repr

/-- Device of a frame descriptor (`DevContext::dev_type`). -/
inductive DevType where
  | INVALID
  | CPU
  | MLU
  deriving DecidableEq, Repr

/-- The picture part of a descriptor (`CNDataFrame`).  `deAllocator_` tells
whether a reuse token is attached; strides and plane pointers are left out. -/
structure CNDataFrame where
  frame_id : Nat
  width : Int
  height : Int
  fmt : CNDataFormat
  dev_type : DevType
  dev_id : Int
  ddr_channel : Int
  deAllocator_ : Bool
  deriving DecidableEq, Repr

/-- Modelled from the spec: the header declaring the descriptor flags is not part
of the sources; `CN_FRAME_FLAG_INVALID`, the flag of a descriptor that carries
only a timestamp, is taken as a bit of its own. -/
def CN_FRAME_FLAG_INVALID : Nat := 2

/-- A descriptor handed to the sink (`CNFrameInfo`). -/
structure CNFrameInfo where
  timestamp : Nat
  flags : Nat
  dataframe : Option CNDataFrame
  deriving DecidableEq, Repr

/-- Calls that leave the decoder: the sink's `SendFrameInfo` and `SendFlowEos`,
and the accelerator's entry points (with the session handle they are given). -/
inductive Call where
  | SendFrameInfo (data : CNFrameInfo)
  | SendFlowEos
  | cnvideoDecCreate
  | cnvideoDecSetAttributes (h : Option Nat) (stride_align : Nat)
  | cnvideoDecStart (h : Option Nat)
  | cnvideoDecFeedData (h : Option Nat) (eos : Bool) (streamLength : Nat) (pts : Nat)
  | cnvideoDecAbort (h : Option Nat)
  | cnvideoDecStop (h : Option Nat)
  | cnvideoDecDestroy (h : Option Nat)
  | cnvideoDecAddReference (h : Option Nat) (buf : Nat)
  | cnvideoDecReleaseReference (h : Option Nat) (buf : Nat)
  | cnjpegDecCreate
  | cnjpegDecFeedData (h : Option Nat) (eos : Bool) (streamLength : Nat) (pts : Nat)
  | cnjpegDecAbort (h : Option Nat)
  | cnjpegDecDestroy (h : Option Nat)
  | cnjpegDecAddReference (h : Option Nat) (buf : Nat)
  | cnjpegDecReleaseReference (h : Option Nat) (buf : Nat)
  deriving DecidableEq, Repr

/-- State of `MluDecoder`.  `handler_` is `true` when the sink pointer is
non-null; the atomic flags hold `0` or `1` and are booleans here. -/
structure MluDecoder where
  handler_ : Bool
  param_ : DataSourceParam
  interval_ : Int
  frame_count_ : Nat
  frame_id_ : Nat
  info_ : VideoStreamInfo
  instance_ : Option Nat
  jpg_instance_ : Option Nat
  create_info_ : cnvideoDecCreateInfo
  create_jpg_info_ : cnjpegDecCreateInfo
  eos_got_ : Bool
  eos_sent_ : Bool
  cndec_abort_flag_ : Bool
  cndec_error_flag_ : Bool
  cndec_start_flag_ : Bool
  cndec_buf_ref_count_ : Nat
  /-- Ghost: calls that left the decoder so far, oldest first. -/
  log : List Call
  deriving DecidableEq, Repr

/-- Append a call to the log. -/
def MluDecoder.emit (d : MluDecoder) (c : Call) : MluDecoder :=
  { d with log := d.log ++ [c] }

/-! ## `MluDecoder`: frame and event callbacks -/

/-- Answers of the outside world during the processing of one frame. -/
structure FrameEnv where
  /-- Successive answers of `handler_->CreateFrameInfo()`: `true` is a frame, `false` is null. -/
  frameInfo : List Bool
  /-- Whether `new (std::nothrow) CNDataFrame()` gives an object. -/
  dataframeAlloc : Bool
  /-- Whether `CNStreamMallocHost` gives a buffer. -/
  hostAlloc : Bool
  deriving DecidableEq, Repr

/-- The loop `while (1) { data = CreateFrameInfo(); if (data) break; sleep; if (stop) return; }`
where `stop` is `cndec_abort_flag_ || cndec_error_flag_`; the flags are not
changed by another thread while the loop runs.  Result `true`: a frame was
obtained; `false`: the loop gave up; `none`: the sink never answers. -/
def createFrameInfoLoop (stop : Bool) : List Bool → Option Bool
  | [] => none
  | true :: _ => some true
  | false :: rest => if stop then some false else createFrameInfoLoop stop rest

/-- Common body of `MluDecoder::ProcessFrame` and `MluDecoder::ProcessJpegFrame`
(the two differ only in the type of `output` and of the deallocator).  The
result is the new state, the return value and `*reused`.

Modelled from the spec: the constructor of the deallocator is in a header that
is not part of the sources; a descriptor that carries a reuse token adds its
buffer to the pending set, so `cndec_buf_ref_count_` goes up by one. -/
def MluDecoder.processDecodedFrame (d : MluDecoder) (frame : cncodecFrame) (pts : Nat)
    (env : FrameEnv) : Option (MluDecoder × Int × Bool) :=
  if !d.handler_ then none
  else
    match createFrameInfoLoop (d.cndec_abort_flag_ || d.cndec_error_flag_) env.frameInfo with
    | none => none
    | some false => some (d, -1, false)
    | some true =>
      if d.cndec_abort_flag_ || d.cndec_error_flag_ then some (d, -1, false)
      else if !env.dataframeAlloc then some (d, -1, false)
      else
        let frame_id := d.frame_id_
        let d1 := { d with frame_id_ := (d.frame_id_ + 1) % UINT64_MOD }
        match d.param_.output_type_ with
        | .OUTPUT_MLU =>
          let reused := d.param_.reuse_cndec_buf
          let d2 := if reused then
              { d1 with cndec_buf_ref_count_ := d1.cndec_buf_ref_count_ + 1 } else d1
          let dataframe : CNDataFrame :=
            { frame_id := frame_id, width := frame.width, height := frame.height,
              fmt := PixelFmt2CnDataFormat frame.pixelFmt, dev_type := .MLU,
              dev_id := d.param_.device_id_, ddr_channel := frame.channel,
              deAllocator_ := reused }
          some (d2.emit (.SendFrameInfo { timestamp := pts, flags := 0, dataframe := some dataframe }),
                0, reused)
        | .OUTPUT_CPU =>
          if !env.hostAlloc then none
          else
            let dataframe : CNDataFrame :=
              { frame_id := frame_id, width := frame.width, height := frame.height,
                fmt := PixelFmt2CnDataFormat frame.pixelFmt, dev_type := .CPU,
                dev_id := -1, ddr_channel := 0, deAllocator_ := false }
            some (d1.emit (.SendFrameInfo { timestamp := pts, flags := 0, dataframe := some dataframe }),
                  0, false)
        | .OUTPUT_INVALID => none

/-- The function `MluDecoder::ProcessFrame`. -/
def MluDecoder.ProcessFrame (d : MluDecoder) (output : cnvideoDecOutput) (env : FrameEnv) :
    Option (MluDecoder × Int × Bool) :=
  d.processDecodedFrame output.frame output.pts env

/-- The function `MluDecoder::ProcessJpegFrame`. -/
def MluDecoder.ProcessJpegFrame (d : MluDecoder) (output : cnjpegDecOutput) (env : FrameEnv) :
    Option (MluDecoder × Int × Bool) :=
  d.processDecodedFrame output.frame output.pts env

/-- The function `MluDecoder::VideoFrameCallback`.  A zero `interval_` makes
`frame_count_++ % interval_` a division by zero. -/
def MluDecoder.VideoFrameCallback (d : MluDecoder) (output : cnvideoDecOutput) (env : FrameEnv) :
    Option MluDecoder :=
  if output.frame.width = 0 || output.frame.height = 0 then some d
  else if toSizeT d.interval_ = 0 then none
  else
    let count := d.frame_count_
    let d1 := { d with frame_count_ := (d.frame_count_ + 1) % UINT64_MOD }
    if count % toSizeT d.interval_ = 0 then
      let d2 := d1.emit (.cnvideoDecAddReference d1.instance_ output.frame.buf)
      match d2.ProcessFrame output env with
      | none => none
      | some (d3, _, reused) =>
        if !reused then some (d3.emit (.cnvideoDecReleaseReference d3.instance_ output.frame.buf))
        else some d3
    else some d1

/-- The function `MluDecoder::JpegFrameCallback`. -/
def MluDecoder.JpegFrameCallback (d : MluDecoder) (output : cnjpegDecOutput) (env : FrameEnv) :
    Option MluDecoder :=
  if output.result ≠ 0 then
    if !d.handler_ then none
    else
      match createFrameInfoLoop (d.cndec_abort_flag_ || d.cndec_error_flag_) env.frameInfo with
      | none => none
      | some false => some d
      | some true =>
        some (d.emit (.SendFrameInfo
          { timestamp := output.pts, flags := CN_FRAME_FLAG_INVALID, dataframe := none }))
  else if toSizeT d.interval_ = 0 then none
  else
    let count := d.frame_count_
    let d1 := { d with frame_count_ := (d.frame_count_ + 1) % UINT64_MOD }
    if count % toSizeT d.interval_ = 0 then
      let d2 := d1.emit (.cnjpegDecAddReference d1.jpg_instance_ output.frame.buf)
      match d2.ProcessJpegFrame output env with
      | none => none
      | some (d3, _, reused) =>
        if !reused then some (d3.emit (.cnjpegDecReleaseReference d3.jpg_instance_ output.frame.buf))
        else some d3
    else some d1

/-- The function `MluDecoder::SequenceCallback`.  `flowDepth` is the value of
`cnstream::GetFlowDepth()`, `startRet` the return code of `cnvideoDecStart`. -/
def MluDecoder.SequenceCallback (K : CnCodecRet) (d : MluDecoder)
    (pFormat : cnvideoDecSequenceInfo) (flowDepth : Nat) (startRet : Int) : MluDecoder :=
  let ci := { d.create_info_ with
    codec := pFormat.codec, height := pFormat.height, width := pFormat.width }
  let out_buf_num := d.param_.output_buf_number_ % UINT32_MOD
  let out_buf_num := if d.param_.reuse_cndec_buf then (out_buf_num + flowDepth) % UINT32_MOD
    else out_buf_num
  let out_buf_num := (out_buf_num + ci.inputBufNum) % UINT32_MOD
  let ci := if out_buf_num > pFormat.minOutputBufNum then { ci with outputBufNum := out_buf_num }
    else { ci with outputBufNum := (pFormat.minOutputBufNum + 1) % UINT32_MOD }
  let ci := if ci.outputBufNum > 32 then { ci with outputBufNum := 32 } else ci
  let d1 := ({ d with create_info_ := ci }).emit (.cnvideoDecStart d.instance_)
  if K.CNCODEC_SUCCESS ≠ startRet then d1
  else { d1 with cndec_start_flag_ := true }

/-- The function `MluDecoder::CorruptCallback` (it only logs). -/
def MluDecoder.CorruptCallback (d : MluDecoder) (_frameNumber _frameCount : Nat) : MluDecoder := d

/-- The function `MluDecoder::VideoEosCallback`. -/
def MluDecoder.VideoEosCallback (d : MluDecoder) : Option MluDecoder :=
  if !d.handler_ then none
  else some { d.emit .SendFlowEos with eos_got_ := true }

/-- The function `MluDecoder::VideoResetCallback`. -/
def MluDecoder.VideoResetCallback (d : MluDecoder) : MluDecoder :=
  { d with cndec_abort_flag_ := true }

/-- The function `MluDecoder::JpegEosCallback`. -/
def MluDecoder.JpegEosCallback (d : MluDecoder) : Option MluDecoder :=
  if !d.handler_ then none
  else some { d.emit .SendFlowEos with eos_got_ := true }

/-- The function `MluDecoder::JpegResetCallback`. -/
def MluDecoder.JpegResetCallback (d : MluDecoder) : MluDecoder :=
  { d with cndec_abort_flag_ := true }

/-- An event delivered to `VideoDecodeCallback`, with its payload and with the
answers of the outside world needed while it is handled. -/
inductive VideoEvent where
  | CNCODEC_CB_EVENT_NEW_FRAME (output : cnvideoDecOutput) (env : FrameEnv)
  | CNCODEC_CB_EVENT_SEQUENCE (pFormat : cnvideoDecSequenceInfo) (flowDepth : Nat) (startRet : Int)
  | CNCODEC_CB_EVENT_EOS
  | CNCODEC_CB_EVENT_SW_RESET
  | CNCODEC_CB_EVENT_HW_RESET
  | CNCODEC_CB_EVENT_OUT_OF_MEMORY
  | CNCODEC_CB_EVENT_ABORT_ERROR
  | CNCODEC_CB_EVENT_STREAM_CORRUPT (frameNumber frameCount : Nat)
  /-- Any other event type. -/
  | OTHER
  deriving DecidableEq, Repr

/-- The function `VideoDecodeCallback`; the result carries the return value. -/
def VideoDecodeCallback (K : CnCodecRet) (pThis : MluDecoder) : VideoEvent → Option (MluDecoder × Int)
  | .CNCODEC_CB_EVENT_NEW_FRAME output env => (pThis.VideoFrameCallback output env).map (·, 0)
  | .CNCODEC_CB_EVENT_SEQUENCE pFormat flowDepth startRet =>
    some (pThis.SequenceCallback K pFormat flowDepth startRet, 0)
  | .CNCODEC_CB_EVENT_EOS => pThis.VideoEosCallback.map (·, 0)
  | .CNCODEC_CB_EVENT_SW_RESET => some (pThis.VideoResetCallback, 0)
  | .CNCODEC_CB_EVENT_HW_RESET => some (pThis.VideoResetCallback, 0)
  | .CNCODEC_CB_EVENT_OUT_OF_MEMORY => pThis.VideoEosCallback.map (·, 0)
  | .CNCODEC_CB_EVENT_ABORT_ERROR => pThis.VideoEosCallback.map (·, 0)
  | .CNCODEC_CB_EVENT_STREAM_CORRUPT frameNumber frameCount =>
    some (pThis.CorruptCallback frameNumber frameCount, 0)
  | .OTHER => some (pThis, 0)

/-- An event delivered to `JpegEventCallback`; `data` of a new frame may be null. -/
inductive JpegEvent where
  | CNCODEC_CB_EVENT_EOS
  | CNCODEC_CB_EVENT_SW_RESET
  | CNCODEC_CB_EVENT_HW_RESET
  | CNCODEC_CB_EVENT_NEW_FRAME (data : Option cnjpegDecOutput) (env : FrameEnv)
  | CNCODEC_CB_EVENT_SEQUENCE
  | CNCODEC_CB_EVENT_OUT_OF_MEMORY
  | CNCODEC_CB_EVENT_ABORT_ERROR
  | CNCODEC_CB_EVENT_STREAM_CORRUPT
  /-- Any other event type. -/
  | OTHER
  deriving DecidableEq, Repr

/-- The function `JpegEventCallback`; the result carries the return value. -/
def JpegEventCallback (context : MluDecoder) : JpegEvent → Option (MluDecoder × Int)
  | .CNCODEC_CB_EVENT_EOS => context.JpegEosCallback.map (·, 0)
  | .CNCODEC_CB_EVENT_SW_RESET => some (context.JpegResetCallback, 0)
  | .CNCODEC_CB_EVENT_HW_RESET => some (context.JpegResetCallback, 0)
  | .CNCODEC_CB_EVENT_NEW_FRAME data env =>
    match data with
    | some output => (context.JpegFrameCallback output env).map (·, 0)
    | none => some (context, 0)
  | _ => some (context, -1)

/-- Something that happens on another thread while the decoder spins in a
`yield` loop: an accelerator callback, the consumer giving back a reused
buffer, or nothing. -/
inductive EnvEvent where
  | video (ev : VideoEvent)
  | jpeg (ev : JpegEvent)
  | release (jpeg : Bool) (buf : Nat)
  | idle
  deriving DecidableEq, Repr

/-- Modelled from the spec: the destructor of the deallocator is in a header that
is not part of the sources; when the consumer gives a reused buffer back, the
hardware reference is released and the buffer leaves the pending set. -/
def MluDecoder.releaseBuffer (d : MluDecoder) (jpeg : Bool) (buf : Nat) : MluDecoder :=
  let d1 := if jpeg then d.emit (.cnjpegDecReleaseReference d.jpg_instance_ buf)
    else d.emit (.cnvideoDecReleaseReference d.instance_ buf)
  { d1 with cndec_buf_ref_count_ := d1.cndec_buf_ref_count_ - 1 }

/-- Effect of one concurrent event on the decoder. -/
def MluDecoder.applyEnvEvent (K : CnCodecRet) (d : MluDecoder) : EnvEvent → Option MluDecoder
  | .video ev => (VideoDecodeCallback K d ev).map (·.1)
  | .jpeg ev => (JpegEventCallback d ev).map (·.1)
  | .release jpeg buf => some (d.releaseBuffer jpeg buf)
  | .idle => some d

/-! ## `MluDecoder`: waiting loops -/

/-- The loop `while (cndec_buf_ref_count_.load()) { yield(); }`: every turn lets
one scripted event happen.  The result carries the events not yet consumed. -/
def MluDecoder.waitBufRefs (K : CnCodecRet) :
    List EnvEvent → MluDecoder → Option (MluDecoder × List EnvEvent)
  | [], d => if d.cndec_buf_ref_count_ = 0 then some (d, []) else none
  | e :: es, d =>
    if d.cndec_buf_ref_count_ = 0 then some (d, e :: es)
    else
      match d.applyEnvEvent K e with
      | none => none
      | some d1 => MluDecoder.waitBufRefs K es d1

/-- The loop `while (!eos_got_.load()) { yield(); if (cndec_abort_flag_.load()) break; }`. -/
def MluDecoder.waitEosGot (K : CnCodecRet) :
    List EnvEvent → MluDecoder → Option (MluDecoder × List EnvEvent)
  | [], d => if d.eos_got_ then some (d, []) else if d.cndec_abort_flag_ then some (d, []) else none
  | e :: es, d =>
    if d.eos_got_ then some (d, e :: es)
    else
      match d.applyEnvEvent K e with
      | none => none
      | some d1 => if d1.cndec_abort_flag_ then some (d1, es) else MluDecoder.waitEosGot K es d1

/-- The loop `while (cndec_buf_ref_count_.load()) { yield(); if (cndec_abort_flag_.load()) break; }`. -/
def MluDecoder.waitBufRefsOrAbort (K : CnCodecRet) :
    List EnvEvent → MluDecoder → Option (MluDecoder × List EnvEvent)
  | [], d =>
    if d.cndec_buf_ref_count_ = 0 then some (d, [])
    else if d.cndec_abort_flag_ then some (d, []) else none
  | e :: es, d =>
    if d.cndec_buf_ref_count_ = 0 then some (d, e :: es)
    else
      match d.applyEnvEvent K e with
      | none => none
      | some d1 =>
        if d1.cndec_abort_flag_ then some (d1, es) else MluDecoder.waitBufRefsOrAbort K es d1

/-! ## `MluDecoder`: open -/

/-- Answers of the accelerator to one attempt to create a session: the handle it
would hand out, the return code of the create call and the return code of
`cnvideoDecSetAttributes`.  A create call that fails leaves the handle
untouched. -/
structure CreateEnv where
  handle : Nat
  createRet : Int
  setAttrRet : Int
  deriving DecidableEq, Repr

/-- The value of `YUV420SP_STRIDE_ALIGN_FOR_SCALER`. -/
def YUV420SP_STRIDE_ALIGN_FOR_SCALER : Nat := 128

/-- The expression `codec_width * codec_height * 3 / 2 / 2 + YUV420SP_STRIDE_ALIGN_FOR_SCALER`
in 32-bit `int` arithmetic (each product and the sum wrap around, the divisions
truncate towards zero), stored in a `uint32_t`. -/
def suggestedBitStrmBufSize (info : VideoStreamInfo) : Nat :=
  toU32 (toInt32 (Int.tdiv (Int.tdiv
    (toInt32 (toInt32 (info.codec_width * info.codec_height) * 3)) 2) 2
    + (YUV420SP_STRIDE_ALIGN_FOR_SCALER : Int)))

/-- The value of `create_info_` after `memset(&create_info_, 0, ...)`. -/
def cnvideoDecCreateInfo.zero : cnvideoDecCreateInfo :=
  { deviceId := 0, codec := .UNSET, colorSpace := .UNSET, width := 0, height := 0,
    progressive := 0, inputBufNum := 0, outputBufNum := 0,
    suggestedLibAllocBitStrmBufSize := 0 }

/-- The value of `create_jpg_info_` after `memset(&create_jpg_info_, 0, ...)`. -/
def cnjpegDecCreateInfo.zero : cnjpegDecCreateInfo :=
  { deviceId := 0, width := 0, height := 0, inputBufNum := 0, outputBufNum := 0,
    suggestedLibAllocBitStrmBufSize := 0 }

/-- The function `MluDecoder::CreateVideoDecoder`. -/
def MluDecoder.CreateVideoDecoder (K : CnCodecRet) (d : MluDecoder) (info : VideoStreamInfo)
    (env : CreateEnv) : MluDecoder × Bool :=
  if d.instance_.isSome then (d, false)
  else
    let ci := { cnvideoDecCreateInfo.zero with deviceId := d.param_.device_id_ }
    let codec : Option cncodecType :=
      match info.codec_id with
      | .AV_CODEC_ID_H264 => some .CNCODEC_H264
      | .AV_CODEC_ID_HEVC => some .CNCODEC_HEVC
      | _ => none
    match codec with
    | none => ({ d with create_info_ := ci }, false)
    | some c =>
      let colorSpace : cncodecColorSpace :=
        match info.color_space with
        | .AVCOL_SPC_BT709 => .CNCODEC_COLOR_SPACE_BT_709
        | .AVCOL_SPC_BT2020_CL => .CNCODEC_COLOR_SPACE_BT_2020
        | .AVCOL_SPC_BT2020_NCL => .CNCODEC_COLOR_SPACE_BT_2020
        | .AVCOL_SPC_BT470BG => .CNCODEC_COLOR_SPACE_BT_601
        | .AVCOL_SPC_SMPTE170M => .CNCODEC_COLOR_SPACE_BT_601
        | _ => .CNCODEC_COLOR_SPACE_BT_709
      let ci := { ci with
        codec := c, colorSpace := colorSpace,
        width := toU32 info.codec_width, height := toU32 info.codec_height,
        progressive := toU32 info.progressive,
        inputBufNum := d.param_.input_buf_number_ % UINT32_MOD,
        outputBufNum := d.param_.output_buf_number_ % UINT32_MOD,
        suggestedLibAllocBitStrmBufSize := suggestedBitStrmBufSize info }
      let d1 := { d with
        create_info_ := ci, eos_got_ := false, eos_sent_ := false,
        cndec_abort_flag_ := false, cndec_error_flag_ := false, cndec_start_flag_ := false }
      let d2 := d1.emit .cnvideoDecCreate
      if K.CNCODEC_SUCCESS ≠ env.createRet then (d2, false)
      else
        let d3 := { d2 with instance_ := some env.handle }
        let stride_align := if d.param_.apply_stride_align_for_scaler_
          then YUV420SP_STRIDE_ALIGN_FOR_SCALER else 1
        let d4 := d3.emit (.cnvideoDecSetAttributes d3.instance_ stride_align)
        if K.CNCODEC_SUCCESS ≠ env.setAttrRet then (d4, false)
        else (d4, true)

/-- The function `MluDecoder::CreateJpegDecoder`. -/
def MluDecoder.CreateJpegDecoder (K : CnCodecRet) (d : MluDecoder) (info : VideoStreamInfo)
    (env : CreateEnv) : MluDecoder × Bool :=
  if d.jpg_instance_.isSome then (d, false)
  else if info.codec_width > 7680 || info.codec_height > 4320 then (d, false)
  else
    let ci : cnjpegDecCreateInfo :=
      { deviceId := d.param_.device_id_,
        width := toU32 info.codec_width, height := toU32 info.codec_height,
        inputBufNum := d.param_.input_buf_number_ % UINT32_MOD,
        outputBufNum := d.param_.output_buf_number_ % UINT32_MOD,
        suggestedLibAllocBitStrmBufSize := suggestedBitStrmBufSize info }
    let d1 := { d with
      create_jpg_info_ := ci, eos_got_ := false, eos_sent_ := false,
      cndec_abort_flag_ := false, cndec_error_flag_ := false }
    let d2 := d1.emit .cnjpegDecCreate
    if K.CNCODEC_SUCCESS ≠ env.createRet then (d2, false)
    else ({ d2 with jpg_instance_ := some env.handle }, true)

/-- The function `MluDecoder::Create(VideoStreamInfo *info, int interval)`. -/
def MluDecoder.Create (K : CnCodecRet) (d : MluDecoder) (info : VideoStreamInfo) (interval : Int)
    (env : CreateEnv) : MluDecoder × Bool :=
  let r := if info.codec_id = .AV_CODEC_ID_MJPEG then d.CreateJpegDecoder K info env
    else d.CreateVideoDecoder K info env
  if r.2 != true then (r.1, false)
  else
    ({ r.1 with interval_ := interval, frame_id_ := 0, frame_count_ := 0, info_ := info }, true)

/-- The function `MluDecoder::Create(AVStream *st, int interval)`. -/
def MluDecoder.CreateFromStream (K : CnCodecRet) (d : MluDecoder) (st : AVStream) (interval : Int)
    (env : CreateEnv) : MluDecoder × Bool :=
  if !d.handler_ then (d, false)
  else
    let progressive : Int :=
      match st.field_order with
      | .AV_FIELD_TT => 0
      | .AV_FIELD_BB => 0
      | .AV_FIELD_TB => 0
      | .AV_FIELD_BT => 0
      | _ => 1
    let info : VideoStreamInfo :=
      { codec_id := st.codec_id,
        codec_width := if st.width = 0 then 1920 else st.width,
        codec_height := if st.height = 0 then 1080 else st.height,
        progressive := progressive, color_space := st.color_space, extra_data := [] }
    d.Create K info interval env

/-! ## `MluDecoder`: feed -/

/-- Answers of the outside world during one `Process` call: the return codes
of the successive feed calls, the events that happen while the code waits for
the buffers before a restart, and the answers to the restart's create. -/
structure ProcessEnv where
  feed : List Int
  yields : List EnvEvent
  create : CreateEnv
  deriving DecidableEq, Repr

/-- The loop `while (retry_time) { ret = cnvideoDecFeedData(...); ... }` of the
video data path, started with `retry_time` attempts left.  The result `some b`
means that the loop executed `return b`; `none` that it ended with
`retry_time == 0`. -/
def MluDecoder.videoFeedLoop (K : CnCodecRet) (streamLength pts : Nat) :
    Nat → List Int → MluDecoder → Option (MluDecoder × Option Bool)
  | 0, _, d => some (d, none)
  | _ + 1, [], _ => none
  | retry_time + 1, ret :: rets, d =>
    let d1 := d.emit (.cnvideoDecFeedData d.instance_ false streamLength pts)
    if -K.CNCODEC_TIMEOUT = ret then MluDecoder.videoFeedLoop K streamLength pts retry_time rets d1
    else if K.CNCODEC_SUCCESS ≠ ret then some ({ d1 with cndec_error_flag_ := true }, some false)
    else some (d1, some true)

/-- The loop `while (retry_time) { ret = cnjpegDecFeedData(...); ... }` of the
still-image data path. -/
def MluDecoder.jpegFeedLoop (K : CnCodecRet) (streamLength pts : Nat) :
    Nat → List Int → MluDecoder → Option (MluDecoder × Option Bool)
  | 0, _, d => some (d, none)
  | _ + 1, [], _ => none
  | retry_time + 1, ret :: rets, d =>
    let d1 := d.emit (.cnjpegDecFeedData d.jpg_instance_ false streamLength pts)
    if K.CNCODEC_TIMEOUT = ret then MluDecoder.jpegFeedLoop K streamLength pts retry_time rets d1
    else if K.CNCODEC_SUCCESS ≠ ret then some ({ d1 with cndec_error_flag_ := true }, some false)
    else some (d1, some true)

/-- Whether `pkt && !(pkt->flags & ESPacket::FLAG_EOS)` holds. -/
def isDataPacket (pkt : Option ESPacket) : Bool :=
  match pkt with
  | none => false
  | some p => Nat.land p.flags ESPacket.FLAG_EOS = 0

/-- The function `MluDecoder::Process(ESPacket *pkt)`. -/
def MluDecoder.Process (K : CnCodecRet) (d : MluDecoder) (pkt : Option ESPacket)
    (env : ProcessEnv) : Option (MluDecoder × Bool) :=
  if d.cndec_abort_flag_ || d.cndec_error_flag_ then some (d, false)
  else if d.instance_.isSome then
    match pkt, isDataPacket pkt with
    | some p, true =>
      let streamLength :=
        if p.size > d.create_info_.suggestedLibAllocBitStrmBufSize
        then d.create_info_.suggestedLibAllocBitStrmBufSize else p.size
      match MluDecoder.videoFeedLoop K streamLength p.pts 3 env.feed d with
      | none => none
      | some (d1, some b) => some (d1, b)
      | some (d1, none) =>
        let d2 := { d1 with cndec_abort_flag_ := true }
        match MluDecoder.waitBufRefs K env.yields d2 with
        | none => none
        | some (d3, _) =>
          let d4 := { d3.emit (.cnvideoDecAbort d3.instance_) with instance_ := none }
          let r := d4.Create K d4.info_ d4.interval_ env.create
          if !r.2 then
            if !r.1.handler_ then none
            else some (r.1.emit .SendFlowEos, false)
          else some (r.1, true)
    | _, _ =>
      let d1 := { d with eos_sent_ := true }
      match env.feed with
      | [] => none
      | ret :: _ =>
        let d2 := d1.emit (.cnvideoDecFeedData d1.instance_ true 0 0)
        if -K.CNCODEC_TIMEOUT = ret then some ({ d2 with cndec_abort_flag_ := true }, false)
        else if K.CNCODEC_SUCCESS ≠ ret then some ({ d2 with cndec_error_flag_ := true }, false)
        else some (d2, true)
  else if d.jpg_instance_.isSome then
    match pkt, isDataPacket pkt with
    | some p, true =>
      let streamLength :=
        if p.size > d.create_jpg_info_.suggestedLibAllocBitStrmBufSize
        then d.create_jpg_info_.suggestedLibAllocBitStrmBufSize else p.size
      match MluDecoder.jpegFeedLoop K streamLength p.pts 3 env.feed d with
      | none => none
      | some (d1, some b) => some (d1, b)
      | some (d1, none) =>
        let d2 := { d1 with cndec_abort_flag_ := true }
        match MluDecoder.waitBufRefs K env.yields d2 with
        | none => none
        | some (d3, _) =>
          let d4 := { d3.emit (.cnjpegDecAbort d3.jpg_instance_) with jpg_instance_ := none }
          let r := d4.Create K d4.info_ d4.interval_ env.create
          if !r.2 then
            if !r.1.handler_ then none
            else some (r.1.emit .SendFlowEos, false)
          else some (r.1, true)
    | _, _ =>
      let d1 := { d with eos_sent_ := true }
      match env.feed with
      | [] => none
      | ret :: _ =>
        let d2 := d1.emit (.cnjpegDecFeedData d1.jpg_instance_ true 0 0)
        if K.CNCODEC_TIMEOUT = ret then some ({ d2 with cndec_abort_flag_ := true }, false)
        else if K.CNCODEC_SUCCESS ≠ ret then some ({ d2 with cndec_error_flag_ := true }, false)
        else some (d2, true)
  else some (d, false)

/-- The fields of `AVPacket` passed on by `Process(AVPacket *pkt, bool eos)`. -/
structure AVPacket where
  size : Nat
  pts : Nat
  deriving DecidableEq, Repr

/-- The function `MluDecoder::Process(AVPacket *pkt, bool eos)`. -/
def MluDecoder.ProcessAV (K : CnCodecRet) (d : MluDecoder) (pkt : Option AVPacket) (eos : Bool)
    (env : ProcessEnv) : Option (MluDecoder × Bool) :=
  let epkt : ESPacket :=
    match pkt, eos with
    | some p, false => { size := p.size, pts := p.pts, flags := 0 }
    | _, _ => { size := 0, pts := 0, flags := Nat.lor 0 ESPacket.FLAG_EOS }
  d.Process K (some epkt) env

/-! ## `MluDecoder`: close -/

/-- Answers of the outside world while one session is torn down: the return
code of the EOS feed, the events that happen while the code waits, and the
return codes of the stop and destroy calls. -/
structure TeardownEnv where
  feed : List Int
  yields : List EnvEvent
  stopRet : Int
  destroyRet : Int
  deriving DecidableEq, Repr

/-- The environment of the `Process(nullptr, true)` call made during teardown. -/
def TeardownEnv.processEnv (env : TeardownEnv) : ProcessEnv :=
  { feed := env.feed, yields := [], create := { handle := 0, createRet := 0, setAttrRet := 0 } }

/-- The function `MluDecoder::DestroyVideoDecoder`. -/
def MluDecoder.DestroyVideoDecoder (K : CnCodecRet) (d : MluDecoder) (env : TeardownEnv) :
    Option MluDecoder :=
  if d.instance_.isSome then
    if !d.cndec_start_flag_ then
      let d1 := { d.emit (.cnvideoDecAbort d.instance_) with instance_ := none }
      if !d1.handler_ then none else some (d1.emit .SendFlowEos)
    else
      let fed : Option MluDecoder :=
        if d.handler_ && !d.eos_sent_ then (d.ProcessAV K none true env.processEnv).map (·.1)
        else some d
      match fed with
      | none => none
      | some d1 =>
        match MluDecoder.waitEosGot K env.yields d1 with
        | none => none
        | some (d2, ys) =>
          match MluDecoder.waitBufRefsOrAbort K ys d2 with
          | none => none
          | some (d3, _) =>
            if d3.cndec_abort_flag_ then
              let d4 := { d3.emit (.cnvideoDecAbort d3.instance_) with instance_ := none }
              if !d4.handler_ then none else some (d4.emit .SendFlowEos)
            else
              let d4 := d3.emit (.cnvideoDecStop d3.instance_)
              if env.stopRet = -K.CNCODEC_TIMEOUT then
                let d5 := { d4.emit (.cnvideoDecAbort d4.instance_) with instance_ := none }
                if !d5.handler_ then none else some (d5.emit .SendFlowEos)
              else
                some { d4.emit (.cnvideoDecDestroy d4.instance_) with instance_ := none }
  else some d

/-- The function `MluDecoder::DestroyJpegDecoder`. -/
def MluDecoder.DestroyJpegDecoder (K : CnCodecRet) (d : MluDecoder) (env : TeardownEnv) :
    Option MluDecoder :=
  if d.jpg_instance_.isSome then
    let fed : Option MluDecoder :=
      if d.handler_ && !d.eos_sent_ then (d.ProcessAV K none true env.processEnv).map (·.1)
      else some d
    match fed with
    | none => none
    | some d1 =>
      match MluDecoder.waitEosGot K env.yields d1 with
      | none => none
      | some (d2, ys) =>
        match MluDecoder.waitBufRefsOrAbort K ys d2 with
        | none => none
        | some (d3, _) =>
          if d3.cndec_abort_flag_ then
            let d4 := { d3.emit (.cnjpegDecAbort d3.jpg_instance_) with jpg_instance_ := none }
            if !d4.handler_ then none else some (d4.emit .SendFlowEos)
          else
            some { d3.emit (.cnjpegDecDestroy d3.jpg_instance_) with jpg_instance_ := none }
  else some d

/-- Answers of the outside world during one `Destroy` call, for the teardown
of the video session and of the still-image session. -/
structure DestroyEnv where
  video : TeardownEnv
  jpeg : TeardownEnv
  deriving DecidableEq, Repr

/-- The function `MluDecoder::Destroy`. -/
def MluDecoder.Destroy (K : CnCodecRet) (d : MluDecoder) (env : DestroyEnv) : Option MluDecoder :=
  let afterVideo : Option MluDecoder :=
    if d.instance_.isSome then
      if !d.cndec_abort_flag_ then d.DestroyVideoDecoder K env.video
      else
        match MluDecoder.waitBufRefs K env.video.yields d with
        | none => none
        | some (d1, _) =>
          let d2 := { d1.emit (.cnvideoDecAbort d1.instance_) with instance_ := none }
          if !d2.handler_ then none else some (d2.emit .SendFlowEos)
    else some d
  match afterVideo with
  | none => none
  | some d1 =>
    if d1.jpg_instance_.isSome then
      if !d1.cndec_abort_flag_ then d1.DestroyJpegDecoder K env.jpeg
      else
        match MluDecoder.waitBufRefs K env.jpeg.yields d1 with
        | none => none
        | some (d2, _) =>
          let d3 := { d2.emit (.cnjpegDecAbort d2.jpg_instance_) with jpg_instance_ := none }
          if !d3.handler_ then none else some (d3.emit .SendFlowEos)
    else some d1

/-! ## `FFmpegCpuDecoder` -/

/-- The pixel formats of `AVPixelFormat` that the code distinguishes. -/
inductive AVPixelFormat where
  | AV_PIX_FMT_YUV420P
  | AV_PIX_FMT_YUVJ420P
  | AV_PIX_FMT_YUYV422
  | OTHER (n : Nat)
  deriving DecidableEq, Repr

/-- A decoded software frame (`AVFrame`).  `data0`, `data1`, `data2` give the byte
found at an offset from the plane pointers `data[0]`, `data[1]`, `data[2]`. -/
structure AVFrame where
  format : AVPixelFormat
  width : Int
  height : Int
  linesize0 : Int
  linesize1 : Int
  linesize2 : Int
  data0 : Int → Nat
  data1 : Int → Nat
  data2 : Int → Nat
  pts : Nat

/-- The bytes written by `memcpy(dst, src, n)`, as pairs of offset and value,
in order; `none` when `n` is negative (it would become a huge `size_t`). -/
def memcpyWrites (dst : Int) (src : Int → Nat) (srcOff : Int) (n : Int) :
    Option (List (Int × Nat)) :=
  if n < 0 then none
  else some ((List.range n.toNat).map fun i => (dst + (i : Int), src (srcOff + (i : Int))))

/-- The row loop that copies the luma plane in `FrameCvt2Yuv420sp`, rows
`row, row + 1, ...` (`rows` of them). -/
def lumaRowWrites (frame : AVFrame) (dst_stride : Int) : Nat → Nat → Option (List (Int × Nat))
  | _, 0 => some []
  | row, rows + 1 =>
    match memcpyWrites ((row : Int) * dst_stride) frame.data0 ((row : Int) * frame.linesize0)
        frame.linesize0 with
    | none => none
    | some ws =>
      match lumaRowWrites frame dst_stride (row + 1) rows with
      | none => none
      | some rest => some (ws ++ rest)

/-- One turn of the chroma row loop of `FrameCvt2Yuv420sp`. -/
def chromaRowWrites (frame : AVFrame) (dst_stride : Int) (nv21 : Bool) (row : Nat) :
    List (Int × Nat) :=
  let psrc_u : Int → Nat := fun col => frame.data1 (frame.linesize1 * (row : Int) + col)
  let psrc_v : Int → Nat := fun col => frame.data2 (frame.linesize2 * (row : Int) + col)
  let first := if nv21 then psrc_v else psrc_u
  let second := if nv21 then psrc_u else psrc_v
  let pdst_uvt : Int := dst_stride * frame.height + dst_stride * (row : Int)
  (List.range frame.linesize1.toNat).flatMap fun col =>
    [(pdst_uvt + (col : Int) * 2, first col), (pdst_uvt + (col : Int) * 2 + 1, second col)]

/-- The function `FFmpegCpuDecoder::FrameCvt2Yuv420sp`: the return value and the
bytes written to `sp` (offset and value, in order).  `none` when a `memcpy`
is given a negative size. -/
def FrameCvt2Yuv420sp (frame : AVFrame) (dst_stride : Int) (nv21 : Bool) :
    Option (Bool × List (Int × Nat)) :=
  if frame.format ≠ .AV_PIX_FMT_YUV420P ∧ frame.format ≠ .AV_PIX_FMT_YUVJ420P ∧
      frame.format ≠ .AV_PIX_FMT_YUYV422 then some (false, [])
  else
    let height := frame.height
    let src_stride := frame.linesize0
    let luma : Option (List (Int × Nat)) :=
      if dst_stride = src_stride then memcpyWrites 0 frame.data0 0 (src_stride * height)
      else lumaRowWrites frame dst_stride 0 height.toNat
    match luma with
    | none => none
    | some ys =>
      let uvs := (List.range (Int.tdiv height 2).toNat).flatMap
        fun row => chromaRowWrites frame dst_stride nv21 row
      some (true, ys ++ uvs)

/-- Calls that leave the software decoder. -/
inductive CpuCall where
  | SendFrameInfo (data : CNFrameInfo)
  | SendFlowEos
  | avcodec_decode_video2 (flush : Bool)
  | avcodec_free_context
  | av_freep_stream
  | av_frame_free
  deriving DecidableEq, Repr

/-- State of `FFmpegCpuDecoder`; the pointers `handler_`, `instance_`, `stream_`
and `av_frame_` are `true` when non-null. -/
structure FFmpegCpuDecoder where
  handler_ : Bool
  param_ : DataSourceParam
  interval_ : Int
  frame_count_ : Nat
  frame_id_ : Nat
  instance_ : Bool
  stream_ : Bool
  av_frame_ : Bool
  eos_got_ : Bool
  eos_sent_ : Bool
  /-- Ghost: calls that left the decoder so far, oldest first. -/
  log : List CpuCall
  deriving DecidableEq, Repr

/-- Append a call to the log. -/
def FFmpegCpuDecoder.emit (d : FFmpegCpuDecoder) (c : CpuCall) : FFmpegCpuDecoder :=
  { d with log := d.log ++ [c] }

/-- Answers of the outside world during the processing of one software frame. -/
structure CpuFrameEnv where
  /-- Successive answers of `handler_->CreateFrameInfo()`. -/
  frameInfo : List Bool
  /-- The value of `instance_->pix_fmt`. -/
  pix_fmt : AVPixelFormat
  /-- Whether `new (std::nothrow) CNDataFrame()` gives an object. -/
  dataframeAlloc : Bool
  /-- Whether `CNStreamMallocHost` gives a buffer. -/
  hostAlloc : Bool
  /-- Whether `cnrtMalloc` gives a device buffer. -/
  mluAlloc : Bool

/-- The loop `while (1) { data = CreateFrameInfo(); if (data) break; sleep; }`
of `FFmpegCpuDecoder::ProcessFrame`: `none` when the sink never answers. -/
def createFrameInfoForever : List Bool → Option Unit
  | [] => none
  | true :: _ => some ()
  | false :: rest => createFrameInfoForever rest

/-- The constant `CNRT_CHANNEL_TYPE_DUPLICATE` of the runtime library; nothing
depends on its value. -/
def CNRT_CHANNEL_TYPE_DUPLICATE : Int := -2

/-- The expression `std::ceil(1.0 * dst_stride / 128) * 128`. -/
def alignStride (dst_stride : Int) : Int :=
  -((-dst_stride) / (YUV420SP_STRIDE_ALIGN_FOR_SCALER : Int)) * (YUV420SP_STRIDE_ALIGN_FOR_SCALER : Int)

/-- The function `FFmpegCpuDecoder::ProcessFrame`; the result carries the return value. -/
def FFmpegCpuDecoder.ProcessFrame (d : FFmpegCpuDecoder) (frame : AVFrame) (env : CpuFrameEnv) :
    Option (FFmpegCpuDecoder × Bool) :=
  if toSizeT d.interval_ = 0 then none
  else
    let count := d.frame_count_
    let d1 := { d with frame_count_ := (d.frame_count_ + 1) % UINT64_MOD }
    if count % toSizeT d.interval_ ≠ 0 then some (d1, true)
    else if !d1.handler_ then none
    else
      match createFrameInfoForever env.frameInfo with
      | none => none
      | some () =>
        if !d1.instance_ then none
        else if env.pix_fmt ≠ .AV_PIX_FMT_YUV420P ∧ env.pix_fmt ≠ .AV_PIX_FMT_YUVJ420P ∧
            env.pix_fmt ≠ .AV_PIX_FMT_YUYV422 then some (d1, false)
        else if !env.dataframeAlloc then some (d1, false)
        else
          let dev : DevType × Int :=
            if d1.param_.output_type_ = .OUTPUT_MLU then (.MLU, d1.param_.device_id_)
            else (.CPU, -1)
          let dst_stride := if d1.param_.apply_stride_align_for_scaler_
            then alignStride frame.linesize0 else frame.linesize0
          if !env.hostAlloc then some (d1, false)
          else
            match FrameCvt2Yuv420sp frame dst_stride false with
            | none => none
            | some (false, _) => some (d1, false)
            | some (true, _) =>
              let send : FFmpegCpuDecoder × Bool :=
                let dataframe : CNDataFrame :=
                  { frame_id := d1.frame_id_, width := frame.width, height := frame.height,
                    fmt := .CN_PIXEL_FORMAT_YUV420_NV12, dev_type := dev.1, dev_id := dev.2,
                    ddr_channel := CNRT_CHANNEL_TYPE_DUPLICATE, deAllocator_ := false }
                (({ d1 with frame_id_ := (d1.frame_id_ + 1) % UINT64_MOD }).emit
                  (.SendFrameInfo { timestamp := frame.pts, flags := 0, dataframe := some dataframe }),
                 true)
              match d1.param_.output_type_ with
              | .OUTPUT_MLU => if !env.mluAlloc then some (d1, false) else some send
              | .OUTPUT_CPU => some send
              | .OUTPUT_INVALID => some (d1, false)

/-- Answers of the decode context during one `Process` call.  For a data
packet: the return code of `avcodec_decode_video2` and the frame it produced,
if any.  For EOS: the frames still buffered, which the successive drain calls
produce one by one before a call produces none. -/
structure CpuProcessEnv where
  ret : Int
  got : Option (AVFrame × CpuFrameEnv)
  flushed : List (AVFrame × CpuFrameEnv)

/-- The loop `do { avcodec_decode_video2(...); if (got_frame) ProcessFrame(av_frame_); } while (got_frame);`. -/
def FFmpegCpuDecoder.flushLoop :
    List (AVFrame × CpuFrameEnv) → FFmpegCpuDecoder → Option FFmpegCpuDecoder
  | [], d => some (d.emit (.avcodec_decode_video2 true))
  | (frame, fenv) :: rest, d =>
    match (d.emit (.avcodec_decode_video2 true)).ProcessFrame frame fenv with
    | none => none
    | some (d1, _) => FFmpegCpuDecoder.flushLoop rest d1

/-- The function `FFmpegCpuDecoder::Process(AVPacket *pkt, bool eos)`.  The
decode context is dereferenced by `avcodec_decode_video2`, so a null
`instance_` does not return. -/
def FFmpegCpuDecoder.Process (d : FFmpegCpuDecoder) (pkt : Option AVPacket) (eos : Bool)
    (env : CpuProcessEnv) : Option (FFmpegCpuDecoder × Bool) :=
  if !d.instance_ then none
  else if eos then
    let d1 := { d with eos_sent_ := true }
    match FFmpegCpuDecoder.flushLoop env.flushed d1 with
    | none => none
    | some d2 =>
      if !d2.handler_ then none
      else some ({ d2.emit .SendFlowEos with eos_got_ := true }, false)
  else
    match pkt with
    | none => none
    | some _ =>
      let d1 := d.emit (.avcodec_decode_video2 false)
      if env.ret < 0 then some (d1, true)
      else
        match env.got with
        | some (frame, fenv) =>
          match d1.ProcessFrame frame fenv with
          | none => none
          | some (d2, _) => some (d2, true)
        | none => some (d1, true)

/-- The function `FFmpegCpuDecoder::Process(ESPacket *pkt)`. -/
def FFmpegCpuDecoder.ProcessES (d : FFmpegCpuDecoder) (pkt : Option ESPacket)
    (env : CpuProcessEnv) : Option (FFmpegCpuDecoder × Bool) :=
  match pkt, isDataPacket pkt with
  | some p, true => d.Process (some { size := p.size, pts := p.pts }) false env
  | _, _ => d.Process none true env

/-- The function `FFmpegCpuDecoder::Destroy`.  `Process(nullptr, true)` returns
`false`, so the loop `while (Process(nullptr, true)) {}` makes one call; the
loop `while (!eos_got_.load()) yield();` does not end when `eos_got_` is clear,
since nothing else sets it. -/
def FFmpegCpuDecoder.Destroy (d : FFmpegCpuDecoder) (env : CpuProcessEnv) :
    Option FFmpegCpuDecoder :=
  let afterInstance : Option FFmpegCpuDecoder :=
    if d.instance_ then
      let fed : Option FFmpegCpuDecoder :=
        if d.handler_ && !d.eos_sent_ then
          match d.Process none true env with
          | none => none
          | some (d1, again) => if again then none else some d1
        else some d
      match fed with
      | none => none
      | some d1 =>
        if !d1.eos_got_ then none
        else some { d1.emit .avcodec_free_context with instance_ := false }
    else some d
  match afterInstance with
  | none => none
  | some d1 =>
    let d2 := if d1.stream_ then { d1.emit .av_freep_stream with stream_ := false } else d1
    let d3 := if d2.av_frame_ then { d2.emit .av_frame_free with av_frame_ := false } else d2
    some d3

/-- Answers of the library calls made by `FFmpegCpuDecoder::Create`: each field
tells whether the call of that name succeeds. -/
structure CpuCreateEnv where
  av_mallocz : Bool
  avcodec_find_decoder : Bool
  avcodec_alloc_context3 : Bool
  avcodec_parameters_to_context : Bool
  avcodec_open2 : Bool
  av_frame_alloc : Bool
  deriving DecidableEq, Repr

/-- The function `FFmpegCpuDecoder::Create(AVStream *st, int interval)`, in the
variant compiled for current library versions (the context is allocated with
`avcodec_alloc_context3`). -/
def FFmpegCpuDecoder.CreateFromStream (d : FFmpegCpuDecoder) (interval : Int)
    (env : CpuCreateEnv) : FFmpegCpuDecoder × Bool :=
  if !d.handler_ then (d, false)
  else if !env.avcodec_find_decoder then (d, false)
  else if !env.avcodec_alloc_context3 then ({ d with instance_ := false }, false)
  else
    let d1 := { d with instance_ := true }
    if !env.avcodec_parameters_to_context then (d1, false)
    else if !env.avcodec_open2 then (d1, false)
    else if !env.av_frame_alloc then ({ d1 with av_frame_ := false }, false)
    else
      ({ d1 with av_frame_ := true, interval_ := interval, frame_id_ := 0, frame_count_ := 0,
                 eos_got_ := false, eos_sent_ := false }, true)

/-- The function `FFmpegCpuDecoder::Create(VideoStreamInfo *info, int interval)`. -/
def FFmpegCpuDecoder.Create (d : FFmpegCpuDecoder) (_info : VideoStreamInfo) (interval : Int)
    (env : CpuCreateEnv) : FFmpegCpuDecoder × Bool :=
  if !d.handler_ then (d, false)
  else if !env.av_mallocz then ({ d with stream_ := false }, false)
  else ({ d with stream_ := true }).CreateFromStream interval env

/-! ## Runs -/

/-- One operation on an `MluDecoder`, by the caller or by the accelerator, with
the answers of the outside world it meets. -/
inductive MluOp where
  | Create (info : VideoStreamInfo) (interval : Int) (env : CreateEnv)
  | CreateFromStream (st : AVStream) (interval : Int) (env : CreateEnv)
  | Process (pkt : Option ESPacket) (env : ProcessEnv)
  | ProcessAV (pkt : Option AVPacket) (eos : Bool) (env : ProcessEnv)
  | videoEvent (ev : VideoEvent)
  | jpegEvent (ev : JpegEvent)
  | release (jpeg : Bool) (buf : Nat)
  | Destroy (env : DestroyEnv)
  deriving DecidableEq, Repr

/-- Effect of one operation. -/
def MluDecoder.step (K : CnCodecRet) (d : MluDecoder) : MluOp → Option MluDecoder
  | .Create info interval env => some (d.Create K info interval env).1
  | .CreateFromStream st interval env => some (d.CreateFromStream K st interval env).1
  | .Process pkt env => (d.Process K pkt env).map (·.1)
  | .ProcessAV pkt eos env => (d.ProcessAV K pkt eos env).map (·.1)
  | .videoEvent ev => (VideoDecodeCallback K d ev).map (·.1)
  | .jpegEvent ev => (JpegEventCallback d ev).map (·.1)
  | .release jpeg buf => some (d.releaseBuffer jpeg buf)
  | .Destroy env => d.Destroy K env

/-- Effect of a sequence of operations. -/
def MluDecoder.run (K : CnCodecRet) : List MluOp → MluDecoder → Option MluDecoder
  | [], d => some d
  | op :: ops, d =>
    match d.step K op with
    | none => none
    | some d1 => MluDecoder.run K ops d1

/-- Modelled from the spec: the class declaration is not part of the sources; a
decoder as constructed (state `Uninitialized`) has no session, clear flags and
counters, interval 1 and an empty log. -/
def MluDecoder.fresh (handler : Bool) (param : DataSourceParam) : MluDecoder :=
  { handler_ := handler, param_ := param, interval_ := 1, frame_count_ := 0, frame_id_ := 0,
    info_ := { codec_id := .OTHER 0, codec_width := 0, codec_height := 0, progressive := 0,
               color_space := .OTHER 0, extra_data := [] },
    instance_ := none, jpg_instance_ := none,
    create_info_ := cnvideoDecCreateInfo.zero, create_jpg_info_ := cnjpegDecCreateInfo.zero,
    eos_got_ := false, eos_sent_ := false, cndec_abort_flag_ := false,
    cndec_error_flag_ := false, cndec_start_flag_ := false, cndec_buf_ref_count_ := 0,
    log := [] }

/-- Modelled from the spec: the class declaration is not part of the sources; a
software decoder as constructed has no decode context, clear flags and
counters, interval 1 and an empty log. -/
def FFmpegCpuDecoder.fresh (handler : Bool) (param : DataSourceParam) : FFmpegCpuDecoder :=
  { handler_ := handler, param_ := param, interval_ := 1, frame_count_ := 0, frame_id_ := 0,
    instance_ := false, stream_ := false, av_frame_ := false, eos_got_ := false,
    eos_sent_ := false, log := [] }

/-- The descriptors in a log, in delivery order. -/
def sentFrames : List Call → List CNFrameInfo
  | [] => []
  | .SendFrameInfo data :: rest => data :: sentFrames rest
  | _ :: rest => sentFrames rest

/-- The frame ids of the descriptors in a log that carry a picture, in delivery order. -/
def sentFrameIds (log : List Call) : List Nat :=
  (sentFrames log).filterMap fun data => data.dataframe.map (·.frame_id)

/-- The descriptors in a log of the software decoder, in delivery order. -/
def cpuSentFrames : List CpuCall → List CNFrameInfo
  | [] => []
  | .SendFrameInfo data :: rest => data :: cpuSentFrames rest
  | _ :: rest => cpuSentFrames rest

/-- The frame ids of the descriptors in a log of the software decoder. -/
def cpuSentFrameIds (log : List CpuCall) : List Nat :=
  (cpuSentFrames log).filterMap fun data => data.dataframe.map (·.frame_id)

/-- Number of `SendFlowEos` calls in a log. -/
def flowEosCalls (log : List Call) : Nat := log.count .SendFlowEos

/-- The sink adapter fed with the `SendFlowEos` calls of a decoder log, one
after the other; `created n` is the answer of `CreateFrameInfo(true)` to the
`n`-th of them. -/
def replayFlowEos (created : Nat → Bool) : List Call → Nat → RawImgMemHandlerImpl →
    RawImgMemHandlerImpl
  | [], _, h => h
  | .SendFlowEos :: rest, n, h => replayFlowEos created rest (n + 1) (h.SendFlowEos (created n))
  | _ :: rest, n, h => replayFlowEos created rest n h

end CNStream

namespace CNStream

/-! ## Frame sequences -/

/-- A sequence of frames delivered to `VideoFrameCallback`, one after the other. -/
def MluDecoder.videoFrames :
    List (cnvideoDecOutput × FrameEnv) → MluDecoder → Option MluDecoder
  | [], d => some d
  | (output, env) :: rest, d =>
    match d.VideoFrameCallback output env with
    | none => none
    | some d1 => MluDecoder.videoFrames rest d1

/-- A sequence of frames delivered to `JpegFrameCallback`, one after the other. -/
def MluDecoder.jpegFrames :
    List (cnjpegDecOutput × FrameEnv) → MluDecoder → Option MluDecoder
  | [], d => some d
  | (output, env) :: rest, d =>
    match d.JpegFrameCallback output env with
    | none => none
    | some d1 => MluDecoder.jpegFrames rest d1

/-- A sequence of frames delivered to `FFmpegCpuDecoder::ProcessFrame`, one after the other. -/
def FFmpegCpuDecoder.frames :
    List (AVFrame × CpuFrameEnv) → FFmpegCpuDecoder → Option FFmpegCpuDecoder
  | [], d => some d
  | (frame, env) :: rest, d =>
    match d.ProcessFrame frame env with
    | none => none
    | some (d1, _) => FFmpegCpuDecoder.frames rest d1

/-- The sink hands out a frame at the first request and the allocations needed
for the configured output target succeed. -/
def FrameEnv.good (param : DataSourceParam) (env : FrameEnv) : Bool :=
  env.frameInfo.head? = some true && env.dataframeAlloc &&
    (param.output_type_ = .OUTPUT_MLU || (param.output_type_ = .OUTPUT_CPU && env.hostAlloc))

/-- A frame that the accelerator decoded with success: non-zero width and height. -/
def cncodecFrame.decoded (frame : cncodecFrame) : Bool :=
  frame.width ≠ 0 && frame.height ≠ 0

/-- The sink hands out a frame at some request, the pixel format is one of the
supported ones, and the allocations needed for the configured output target succeed. -/
def CpuFrameEnv.good (param : DataSourceParam) (env : CpuFrameEnv) : Bool :=
  true ∈ env.frameInfo &&
    (env.pix_fmt = .AV_PIX_FMT_YUV420P || env.pix_fmt = .AV_PIX_FMT_YUVJ420P ||
      env.pix_fmt = .AV_PIX_FMT_YUYV422) &&
    env.dataframeAlloc && env.hostAlloc &&
    ((param.output_type_ = .OUTPUT_MLU && env.mluAlloc) || param.output_type_ = .OUTPUT_CPU)

/-- A software frame that the conversion accepts: a supported pixel format and
sizes that are not negative. -/
def AVFrame.decoded (frame : AVFrame) : Bool :=
  (frame.format = .AV_PIX_FMT_YUV420P || frame.format = .AV_PIX_FMT_YUVJ420P ||
      frame.format = .AV_PIX_FMT_YUYV422) &&
    decide (0 ≤ frame.height) && decide (0 ≤ frame.linesize0)

/-- The decoder can deliver frames: a sink is attached, the abort and error
flags are clear and the output target is one of the two supported ones. -/
def MluDecoder.live (d : MluDecoder) : Bool :=
  d.handler_ && !d.cndec_abort_flag_ && !d.cndec_error_flag_ &&
    decide (d.param_.output_type_ ≠ .OUTPUT_INVALID)

end CNStream

namespace CNStream

/-- Two decoder states that differ at most in the two counters, the number of
pending buffers and the log. -/
def MluDecoder.sameSession (d d1 : MluDecoder) : Prop :=
  d1.handler_ = d.handler_ ∧ d1.param_ = d.param_ ∧ d1.interval_ = d.interval_ ∧
  d1.info_ = d.info_ ∧ d1.instance_ = d.instance_ ∧ d1.jpg_instance_ = d.jpg_instance_ ∧
  d1.create_info_ = d.create_info_ ∧ d1.create_jpg_info_ = d.create_jpg_info_ ∧
  d1.eos_got_ = d.eos_got_ ∧ d1.eos_sent_ = d.eos_sent_ ∧
  d1.cndec_abort_flag_ = d.cndec_abort_flag_ ∧ d1.cndec_error_flag_ = d.cndec_error_flag_ ∧
  d1.cndec_start_flag_ = d.cndec_start_flag_

/-- Two states of the software decoder that differ at most in the two counters and the log. -/
def FFmpegCpuDecoder.sameSession (d d1 : FFmpegCpuDecoder) : Prop :=
  d1.handler_ = d.handler_ ∧ d1.param_ = d.param_ ∧ d1.interval_ = d.interval_ ∧
  d1.instance_ = d.instance_ ∧ d1.stream_ = d.stream_ ∧ d1.av_frame_ = d.av_frame_ ∧
  d1.eos_got_ = d.eos_got_ ∧ d1.eos_sent_ = d.eos_sent_

end CNStream

namespace CNStream

/-- Whether a call goes to the sink. -/
def Call.isSink : Call → Bool
  | .SendFrameInfo _ => true
  | .SendFlowEos => true
  | _ => false

/-- The calls of a log that go to the sink, in order. -/
def sinkCalls (log : List Call) : List Call := log.filter Call.isSink

/-- Whether a call of the software decoder goes to the sink. -/
def CpuCall.isSink : CpuCall → Bool
  | .SendFrameInfo _ => true
  | .SendFlowEos => true
  | _ => false

/-- The calls of a log of the software decoder that go to the sink, in order. -/
def cpuSinkCalls (log : List CpuCall) : List CpuCall := log.filter CpuCall.isSink

end CNStream

namespace CNStream

/-! ## Which frames reach the sink -/

/-- The sink calls made between a log and a later log. -/
def newSinkCalls (before after : List Call) : List Call :=
  (sinkCalls after).drop (sinkCalls before).length

/-- The new sink calls are exactly one `SendFrameInfo` with the given timestamp. -/
def frameWasSent (pts : Nat) : List Call → Bool
  | [.SendFrameInfo data] => data.timestamp = pts
  | _ => false

/-- For every frame of a sequence delivered to `VideoFrameCallback`, whether
the callback sent it to the sink. -/
def MluDecoder.videoSent :
    List (cnvideoDecOutput × FrameEnv) → MluDecoder → Option (List Bool)
  | [], _ => some []
  | (output, env) :: rest, d =>
    match d.VideoFrameCallback output env with
    | none => none
    | some d1 =>
      (MluDecoder.videoSent rest d1).map
        fun flags => frameWasSent output.pts (newSinkCalls d.log d1.log) :: flags

/-- For every image of a sequence delivered to `JpegFrameCallback`, whether the
callback sent it to the sink. -/
def MluDecoder.jpegSent :
    List (cnjpegDecOutput × FrameEnv) → MluDecoder → Option (List Bool)
  | [], _ => some []
  | (output, env) :: rest, d =>
    match d.JpegFrameCallback output env with
    | none => none
    | some d1 =>
      (MluDecoder.jpegSent rest d1).map
        fun flags => frameWasSent output.pts (newSinkCalls d.log d1.log) :: flags

/-- The sink calls of the software decoder made between a log and a later log. -/
def newCpuSinkCalls (before after : List CpuCall) : List CpuCall :=
  (cpuSinkCalls after).drop (cpuSinkCalls before).length

/-- The new sink calls are exactly one `SendFrameInfo` with the given timestamp. -/
def cpuFrameWasSent (pts : Nat) : List CpuCall → Bool
  | [.SendFrameInfo data] => data.timestamp = pts
  | _ => false

/-- For every frame of a sequence given to `FFmpegCpuDecoder::ProcessFrame`,
whether it was sent to the sink. -/
def FFmpegCpuDecoder.sent :
    List (AVFrame × CpuFrameEnv) → FFmpegCpuDecoder → Option (List Bool)
  | [], _ => some []
  | (frame, env) :: rest, d =>
    match d.ProcessFrame frame env with
    | none => none
    | some (d1, _) =>
      (FFmpegCpuDecoder.sent rest d1).map
        fun flags => cpuFrameWasSent frame.pts (newCpuSinkCalls d.log d1.log) :: flags

/-- The sampling rule: frame `k` of `n`, the decode counter starting at `start`,
is kept exactly when the counter, which wraps at 64 bits, is a multiple of `N`. -/
def sampledFlags (N start n : Nat) : List Bool :=
  (List.range n).map fun k => decide ((start + k) % UINT64_MOD % N = 0)

/-! ## Concrete inputs -/

namespace Scenario

/-- Return codes: success is `0`, timeout is `3`. -/
def K : CnCodecRet := { CNCODEC_SUCCESS := 0, CNCODEC_TIMEOUT := 3 }

/-- Output on the device, no buffer reuse. -/
def param : DataSourceParam :=
  { output_type_ := .OUTPUT_MLU, device_id_ := 0, input_buf_number_ := 2,
    output_buf_number_ := 3, reuse_cndec_buf := false, apply_stride_align_for_scaler_ := false }

/-- An H264 stream of 1920x1080. -/
def h264 : VideoStreamInfo :=
  { codec_id := .AV_CODEC_ID_H264, codec_width := 1920, codec_height := 1080, progressive := 1,
    color_space := .AVCOL_SPC_BT709, extra_data := [] }

/-- An MJPEG stream of 1920x1080. -/
def mjpeg : VideoStreamInfo :=
  { codec_id := .AV_CODEC_ID_MJPEG, codec_width := 1920, codec_height := 1080, progressive := 1,
    color_space := .AVCOL_SPC_BT709, extra_data := [] }

/-- The accelerator creates a session with the given handle. -/
def createOk (handle : Nat) : CreateEnv := { handle := handle, createRet := 0, setAttrRet := 0 }

/-- The accelerator refuses to create a session. -/
def createFails : CreateEnv := { handle := 0, createRet := -1, setAttrRet := 0 }

/-- The sink hands out a frame at once and allocations succeed. -/
def frameEnv : FrameEnv := { frameInfo := [true], dataframeAlloc := true, hostAlloc := true }

/-- A decoded video frame with the given timestamp. -/
def videoOut (pts : Nat) : cnvideoDecOutput :=
  { frame := { buf := pts, width := 1920, height := 1080, pixelFmt := .CNCODEC_PIX_FMT_NV12,
               channel := 0 }, pts := pts }

/-- A decoded still image with the given timestamp. -/
def jpegOut (pts : Nat) : cnjpegDecOutput :=
  { frame := { buf := pts, width := 1920, height := 1080, pixelFmt := .CNCODEC_PIX_FMT_NV12,
               channel := 0 }, pts := pts, result := 0 }

/-- A 4x2 planar frame with the given timestamp. -/
def avFrame (pts : Nat) : AVFrame :=
  { format := .AV_PIX_FMT_YUV420P, width := 4, height := 2, linesize0 := 4, linesize1 := 2,
    linesize2 := 2, data0 := fun _ => 16, data1 := fun _ => 128, data2 := fun _ => 128,
    pts := pts }

/-- The sink hands out a frame at once, the format is planar 4:2:0, allocations succeed. -/
def cpuFrameEnv : CpuFrameEnv :=
  { frameInfo := [true], pix_fmt := .AV_PIX_FMT_YUV420P, dataframeAlloc := true,
    hostAlloc := true, mluAlloc := true }

/-- Every library call of the software decoder's open succeeds. -/
def cpuCreateOk : CpuCreateEnv :=
  { av_mallocz := true, avcodec_find_decoder := true, avcodec_alloc_context3 := true,
    avcodec_parameters_to_context := true, avcodec_open2 := true, av_frame_alloc := true }

/-- Video frames with timestamps `0, ..., n - 1`. -/
def videoFrames (n : Nat) : List (cnvideoDecOutput × FrameEnv) :=
  (List.range n).map fun i => (videoOut i, frameEnv)

/-- Still images with timestamps `0, ..., n - 1`. -/
def jpegFrames (n : Nat) : List (cnjpegDecOutput × FrameEnv) :=
  (List.range n).map fun i => (jpegOut i, frameEnv)

/-- Software frames with timestamps `0, ..., n - 1`. -/
def cpuFrames (n : Nat) : List (AVFrame × CpuFrameEnv) :=
  (List.range n).map fun i => (avFrame i, cpuFrameEnv)

/-- A decoder with an H264 session of handle 7, opened with interval 1. -/
def videoOpen : MluDecoder :=
  ((MluDecoder.fresh true param).Create K h264 1 (createOk 7)).1

/-- A decoder with an MJPEG session of handle 7, opened with interval 1. -/
def jpegOpen : MluDecoder :=
  ((MluDecoder.fresh true param).Create K mjpeg 1 (createOk 7)).1

/-- A data packet of 100 bytes with timestamp 5. -/
def dataPacket : ESPacket := { size := 100, pts := 5, flags := 0 }

/-- The feed calls return the given codes; nothing happens while the code
waits; a restart gets a session of handle 8. -/
def feedEnv (feed : List Int) : ProcessEnv :=
  { feed := feed, yields := [], create := createOk 8 }

/-- The feed calls return the given codes; nothing happens while the code
waits; the accelerator refuses to create a session for a restart. -/
def feedEnvNoRestart (feed : List Int) : ProcessEnv :=
  { feed := feed, yields := [], create := createFails }

/-- At EOS the decode context of the software decoder still holds `n` frames. -/
def cpuEosEnv (n : Nat) : CpuProcessEnv :=
  { ret := 0, got := none, flushed := cpuFrames n }

/-- A software decoder opened with the given interval. -/
def cpuOpen (interval : Int) : FFmpegCpuDecoder :=
  ((FFmpegCpuDecoder.fresh true param).Create h264 interval cpuCreateOk).1

/-- Nothing happens while a session is torn down; stop and destroy succeed. -/
def quietTeardown : TeardownEnv := { feed := [0], yields := [], stopRet := 0, destroyRet := 0 }

/-- Nothing happens during `Destroy`. -/
def quietDestroy : DestroyEnv := { video := quietTeardown, jpeg := quietTeardown }

/-- An H264 session is opened, the accelerator delivers EOS and then a reset,
and the decoder is destroyed. -/
def eosThenAbortedDestroy : List MluOp :=
  [.Create h264 1 (createOk 7), .videoEvent .CNCODEC_CB_EVENT_EOS,
   .videoEvent .CNCODEC_CB_EVENT_HW_RESET, .Destroy quietDestroy]

/-- The state reached by `eosThenAbortedDestroy` from a decoder as constructed. -/
def eosThenAbortedDestroyEnd : MluDecoder :=
  (MluDecoder.run K eosThenAbortedDestroy (MluDecoder.fresh true param)).getD
    (MluDecoder.fresh true param)

/-- The H264 session after a sequence event whose `cnvideoDecStart` succeeded. -/
def videoStarted : MluDecoder :=
  videoOpen.SequenceCallback K
    { codec := .CNCODEC_H264, width := 1920, height := 1080, minOutputBufNum := 4 } 2 0

/-- During the teardown of the video session the EOS feed is accepted and the
accelerator answers with the EOS event; stop and destroy succeed. -/
def gracefulDestroy : DestroyEnv :=
  { video := { feed := [0], yields := [.video .CNCODEC_CB_EVENT_EOS], stopRet := 0,
               destroyRet := 0 },
    jpeg := quietTeardown }

/-- The started H264 session after `Destroy`. -/
def videoDestroyed : MluDecoder :=
  (videoStarted.Destroy K gracefulDestroy).getD videoStarted

/-- The software decoder after `Destroy`, two frames being drained. -/
def cpuDestroyed : FFmpegCpuDecoder :=
  ((cpuOpen 1).Destroy (cpuEosEnv 2)).getD (cpuOpen 1)

/-- The H264 session after a reset event: the abort flag is set. -/
def videoAborted : MluDecoder := videoStarted.VideoResetCallback

/-- The MJPEG session after a reset event. -/
def jpegAborted : MluDecoder := jpegOpen.JpegResetCallback

/-- Output on the device, decoded buffers handed downstream for reuse. -/
def reuseParam : DataSourceParam :=
  { output_type_ := .OUTPUT_MLU, device_id_ := 0, input_buf_number_ := 2,
    output_buf_number_ := 3, reuse_cndec_buf := true, apply_stride_align_for_scaler_ := false }

/-- A decoder that reuses buffers, with an H264 session of handle 7. -/
def videoOpenReuse : MluDecoder :=
  ((MluDecoder.fresh true reuseParam).Create K h264 1 (createOk 7)).1

/-- The reusing session after the frame with timestamp 0 was delivered. -/
def videoReuseSent : MluDecoder :=
  (videoOpenReuse.VideoFrameCallback (videoOut 0) frameEnv).getD videoOpenReuse

/-- The software decoder, opened with interval 1, after `Process(nullptr, true)`
with two frames still buffered. -/
def cpuDrained : FFmpegCpuDecoder :=
  (((cpuOpen 1).Process none true (cpuEosEnv 2)).map (·.1)).getD (cpuOpen 1)

/-- A planar frame of height 4 whose chroma rows are as long as its luma rows
(all strides 2); byte `i` of the U plane is `100 + i`. -/
def wideChromaFrame : AVFrame :=
  { format := .AV_PIX_FMT_YUV420P, width := 2, height := 4, linesize0 := 2, linesize1 := 2,
    linesize2 := 2, data0 := fun _ => 16, data1 := fun i => 100 + i.toNat,
    data2 := fun i => 200 + i.toNat, pts := 0 }

end Scenario

end CNStream

namespace CNStream

/-- The calls that the callbacks make: calls to the sink, `cnvideoDecStart`, and
taking or releasing a reference on a hardware buffer. -/
def Call.fromCallback : Call → Bool
  | .SendFrameInfo _ => true
  | .SendFlowEos => true
  | .cnvideoDecStart _ => true
  | .cnvideoDecAddReference _ _ => true
  | .cnvideoDecReleaseReference _ _ => true
  | .cnjpegDecAddReference _ _ => true
  | .cnjpegDecReleaseReference _ _ => true
  | _ => false

/-- The second state is the first one after some callbacks: sink, configuration,
interval, stream description and sessions are the same, a set abort flag
stays set, and the log has grown by calls that callbacks make. -/
def MluDecoder.evolves (d d1 : MluDecoder) : Prop :=
  d1.handler_ = d.handler_ ∧ d1.param_ = d.param_ ∧ d1.interval_ = d.interval_ ∧
  d1.info_ = d.info_ ∧ d1.instance_ = d.instance_ ∧ d1.jpg_instance_ = d.jpg_instance_ ∧
  (d.cndec_abort_flag_ = true → d1.cndec_abort_flag_ = true) ∧
  ∃ l, d1.log = d.log ++ l ∧ ∀ c ∈ l, c.fromCallback = true

end CNStream

namespace CNStream

/-! ## Stages of a restart -/

/-- The length given to the accelerator for a data packet of the video session:
`pkt->size`, cut down to `suggestedLibAllocBitStrmBufSize`. -/
def MluDecoder.videoStreamLength (d : MluDecoder) (p : ESPacket) : Nat :=
  if p.size > d.create_info_.suggestedLibAllocBitStrmBufSize
  then d.create_info_.suggestedLibAllocBitStrmBufSize else p.size

/-- The length given to the accelerator for a data packet of the still-image session. -/
def MluDecoder.jpegStreamLength (d : MluDecoder) (p : ESPacket) : Nat :=
  if p.size > d.create_jpg_info_.suggestedLibAllocBitStrmBufSize
  then d.create_jpg_info_.suggestedLibAllocBitStrmBufSize else p.size

/-- The state in which `Process` starts to wait for the pending buffers before
it restarts the video session: three data feeds made, abort flag set. -/
def MluDecoder.afterVideoTimeouts (d : MluDecoder) (p : ESPacket) : MluDecoder :=
  { d with
    log := d.log ++ List.replicate 3
      (.cnvideoDecFeedData d.instance_ false (d.videoStreamLength p) p.pts),
    cndec_abort_flag_ := true }

/-- The state in which `Process` starts to wait for the pending buffers before
it restarts the still-image session. -/
def MluDecoder.afterJpegTimeouts (d : MluDecoder) (p : ESPacket) : MluDecoder :=
  { d with
    log := d.log ++ List.replicate 3
      (.cnjpegDecFeedData d.jpg_instance_ false (d.jpegStreamLength p) p.pts),
    cndec_abort_flag_ := true }

/-- The state in which a restart calls `Create`: the video session has been
aborted and its handle cleared. -/
def MluDecoder.afterVideoAbort (d : MluDecoder) : MluDecoder :=
  { d.emit (.cnvideoDecAbort d.instance_) with instance_ := none }

/-- The state in which a restart calls `Create`: the still-image session has
been aborted and its handle cleared. -/
def MluDecoder.afterJpegAbort (d : MluDecoder) : MluDecoder :=
  { d.emit (.cnjpegDecAbort d.jpg_instance_) with jpg_instance_ := none }

/-- A feed call. -/
def Call.isFeed : Call → Bool
  | .cnvideoDecFeedData _ _ _ _ => true
  | .cnjpegDecFeedData _ _ _ _ => true
  | _ => false

/-- A call that aborts a session. -/
def Call.isAbort : Call → Bool
  | .cnvideoDecAbort _ => true
  | .cnjpegDecAbort _ => true
  | _ => false

/-- A call that creates a session. -/
def Call.isCreate : Call → Bool
  | .cnvideoDecCreate => true
  | .cnjpegDecCreate => true
  | _ => false

/-- A call that stops or destroys a session. -/
def Call.isStopOrDestroy : Call → Bool
  | .cnvideoDecStop _ => true
  | .cnvideoDecDestroy _ => true
  | .cnjpegDecDestroy _ => true
  | _ => false

/-- The calls logged after an earlier log. -/
def callsSince (before after : List Call) : List Call := after.drop before.length

end CNStream

namespace CNStream

/-- The state `d1` is the state `d` after one restart that gave a session with
the handle `handle`: since `d`, exactly three feed calls, one abort call and
one create call were made; the abort and error flags are clear; a session with
that handle is active; the stored stream info and interval are those of `d`. -/
def MluDecoder.restartedFrom (d d1 : MluDecoder) (handle : Nat) : Prop :=
  (callsSince d.log d1.log).countP Call.isFeed = 3 ∧
  (callsSince d.log d1.log).countP Call.isAbort = 1 ∧
  (callsSince d.log d1.log).countP Call.isCreate = 1 ∧
  d1.cndec_abort_flag_ = false ∧ d1.cndec_error_flag_ = false ∧
  (d1.instance_ = some handle ∨ d1.jpg_instance_ = some handle) ∧
  d1.info_ = d.info_ ∧ d1.interval_ = d.interval_

end CNStream

namespace CNStream

/-- A decoder run against the sink adapter: the operations are run on the
decoder, and the `SendFlowEos` calls that the decoder makes during the run are
executed, in order, by the adapter `h`; `created n` is the answer of
`CreateFrameInfo(true)` to the `n`-th of them. -/
def MluDecoder.runOnSink (K : CnCodecRet) (created : Nat → Bool) (ops : List MluOp)
    (d : MluDecoder) (h : RawImgMemHandlerImpl) : Option (MluDecoder × RawImgMemHandlerImpl) :=
  (MluDecoder.run K ops d).map
    fun d1 => (d1, replayFlowEos created (callsSince d.log d1.log) 0 h)

end CNStream

namespace CNStream

/-! ## Open, sequence events and hardware references -/

/-- The local `info` that `MluDecoder::Create(AVStream *st, int interval)` fills
in from the demuxed stream and hands to `Create(&info, interval)`. -/
def MluDecoder.streamInfo (st : AVStream) : VideoStreamInfo :=
  { codec_id := st.codec_id,
    codec_width := if st.width = 0 then 1920 else st.width,
    codec_height := if st.height = 0 then 1080 else st.height,
    progressive :=
      match st.field_order with
      | .AV_FIELD_TT => 0
      | .AV_FIELD_BB => 0
      | .AV_FIELD_TB => 0
      | .AV_FIELD_BT => 0
      | _ => 1,
    color_space := st.color_space, extra_data := [] }

/-- The value of `stride_align` that `CreateVideoDecoder` gives to `cnvideoDecSetAttributes`. -/
def MluDecoder.strideAlign (d : MluDecoder) : Nat :=
  if d.param_.apply_stride_align_for_scaler_ then YUV420SP_STRIDE_ALIGN_FOR_SCALER else 1

/-- An open attempt was turned down before any call to the accelerator: it
returns false, the two session handles, the interval and the two counters are
as before, and the log has not grown. -/
def MluDecoder.rejected (d : MluDecoder) (r : MluDecoder × Bool) : Prop :=
  r.2 = false ∧ r.1.instance_ = d.instance_ ∧ r.1.jpg_instance_ = d.jpg_instance_ ∧
  r.1.interval_ = d.interval_ ∧ r.1.frame_id_ = d.frame_id_ ∧
  r.1.frame_count_ = d.frame_count_ ∧ r.1.log = d.log

/-- The sum that `SequenceCallback` builds in `out_buf_num`: the requested
output buffer count, plus the flow depth when decoded buffers are reused, plus
the input buffer count of the create info, in `uint32_t` arithmetic. -/
def MluDecoder.wantedOutputBufNum (d : MluDecoder) (flowDepth : Nat) : Nat :=
  (d.param_.output_buf_number_ + (if d.param_.reuse_cndec_buf then flowDepth else 0) +
    d.create_info_.inputBufNum) % UINT32_MOD

/-- A call that takes a reference on the hardware buffer `buf`. -/
def Call.isAddReference (buf : Nat) : Call → Bool
  | .cnvideoDecAddReference _ b => b = buf
  | .cnjpegDecAddReference _ b => b = buf
  | _ => false

/-- A call that releases a reference on the hardware buffer `buf`. -/
def Call.isReleaseReference (buf : Nat) : Call → Bool
  | .cnvideoDecReleaseReference _ b => b = buf
  | .cnjpegDecReleaseReference _ b => b = buf
  | _ => false

/-- A descriptor sent to the sink that carries a reuse token (`deAllocator_`). -/
def Call.sendsReuseToken : Call → Bool
  | .SendFrameInfo data =>
    match data.dataframe with
    | some frame => frame.deAllocator_
    | none => false
  | _ => false

/-- A descriptor sent to the sink. -/
def Call.isSendFrameInfo : Call → Bool
  | .SendFrameInfo _ => true
  | _ => false

/-- The reference balance of a callback on the buffer `buf`: among the calls
`l` that the callback made, one more reference was taken than released when a
descriptor with a reuse token was sent, and as many otherwise; at most one
descriptor was sent; the number of pending buffers went up by the number of
reuse tokens handed out. -/
def refBalanced (buf : Nat) (d d1 : MluDecoder) : Prop :=
  (callsSince d.log d1.log).countP (Call.isAddReference buf) =
    (callsSince d.log d1.log).countP (Call.isReleaseReference buf) +
      (callsSince d.log d1.log).countP Call.sendsReuseToken ∧
  (callsSince d.log d1.log).countP Call.sendsReuseToken ≤
    (callsSince d.log d1.log).countP Call.isSendFrameInfo ∧
  (callsSince d.log d1.log).countP Call.isSendFrameInfo ≤ 1 ∧
  d1.cndec_buf_ref_count_ =
    d.cndec_buf_ref_count_ + (callsSince d.log d1.log).countP Call.sendsReuseToken ∧
  (d.param_.output_type_ = .OUTPUT_CPU →
    (callsSince d.log d1.log).countP Call.sendsReuseToken = 0)

/-- The descriptor that `JpegFrameCallback` sends for an image that the
accelerator could not decode: the timestamp, the invalid flag, no picture. -/
def invalidFrameInfo (output : cnjpegDecOutput) : CNFrameInfo :=
  { timestamp := output.pts, flags := CN_FRAME_FLAG_INVALID, dataframe := none }

end CNStream

namespace CNStream

/-! ## Drain, feed outcomes and the converted buffer -/

/-- The calls of the software decoder logged after an earlier log. -/
def cpuCallsSince (before after : List CpuCall) : List CpuCall := after.drop before.length

/-- A drain call: `avcodec_decode_video2` on the empty packet. -/
def CpuCall.isDrain : CpuCall → Bool
  | .avcodec_decode_video2 flush => flush
  | _ => false

/-- What one `Process` call did, as far as the video path and the still-image
path are compared: the return value, the number of feed attempts, the abort and
error flags after the call, the number of sessions aborted for a restart and
the number of `SendFlowEos` calls. -/
structure FeedOutcome where
  ret : Bool
  feeds : Nat
  abort : Bool
  error : Bool
  restarts : Nat
  flowEos : Nat
  deriving DecidableEq, Repr

/-- The outcome of a `Process` call that started in the state `d`. -/
def MluDecoder.feedOutcome (d : MluDecoder) (r : Option (MluDecoder × Bool)) :
    Option FeedOutcome :=
  r.map fun x =>
    { ret := x.2,
      feeds := (callsSince d.log x.1.log).countP Call.isFeed,
      abort := x.1.cndec_abort_flag_,
      error := x.1.cndec_error_flag_,
      restarts := (callsSince d.log x.1.log).countP Call.isAbort,
      flowEos := (callsSince d.log x.1.log).count .SendFlowEos }

/-- The outcome of a feed loop that started in the state `d`: what the loop
decided (`some b`: return `b`; `none`: three timeouts, restart), the number of
feed attempts, and the error flag after the loop. -/
def MluDecoder.loopOutcome (d : MluDecoder) (r : Option (MluDecoder × Option Bool)) :
    Option (Option Bool × Nat × Bool) :=
  r.map fun x =>
    (x.2, (callsSince d.log x.1.log).countP Call.isFeed, x.1.cndec_error_flag_)

/-- The retry logic that the spec gives to both hardware sessions for a data
packet, for a session whose feed call reports a timeout with the code
`timeout`: a timeout is retried while attempts are left, any other code that
is not `success` sets the error flag and fails, `success` is accepted.  The
result is the decision (`some b`: return `b`; `none`: the attempts are used up,
restart), the number of feed attempts, and whether the error flag was set;
`none` when the codes end before a decision. -/
def specFeedRetry (success timeout : Int) : Nat → List Int → Option (Option Bool × Nat × Bool)
  | 0, _ => some (none, 0, false)
  | _ + 1, [] => none
  | n + 1, ret :: rets =>
    if timeout = ret then
      (specFeedRetry success timeout n rets).map fun x => (x.1, x.2.1 + 1, x.2.2)
    else if success ≠ ret then some (some false, 1, true)
    else some (some true, 1, false)

/-- The logic that the spec gives to both hardware sessions for an EOS feed, for
a session whose feed call reports a timeout with the code `timeout`: one
attempt; a timeout sets the abort flag and fails, any other code that is not
`success` sets the error flag and fails, `success` is accepted. -/
def specFeedEos (success timeout ret : Int) : FeedOutcome :=
  if timeout = ret then
    { ret := false, feeds := 1, abort := true, error := false, restarts := 0, flowEos := 0 }
  else if success ≠ ret then
    { ret := false, feeds := 1, abort := false, error := true, restarts := 0, flowEos := 0 }
  else
    { ret := true, feeds := 1, abort := false, error := false, restarts := 0, flowEos := 0 }

/-- The buffer `sp` after the writes `ws` were made on it, in order: a later
write to an offset replaces an earlier one. -/
def applyWrites (mem : Int → Nat) : List (Int × Nat) → Int → Nat
  | [] => mem
  | (i, v) :: ws => applyWrites (fun j => if j = i then v else mem j) ws

/-- The destination stride that `FFmpegCpuDecoder::ProcessFrame` gives to
`FrameCvt2Yuv420sp`: `frame->linesize[0]`, rounded up to a multiple of 128 when
the stride alignment is on. -/
def FFmpegCpuDecoder.dstStride (d : FFmpegCpuDecoder) (frame : AVFrame) : Int :=
  if d.param_.apply_stride_align_for_scaler_ then alignStride frame.linesize0
  else frame.linesize0

/-- The expression `dst_stride * frame->height * 3 / 2`, the size of the buffer
that `FFmpegCpuDecoder::ProcessFrame` allocates for the converted frame. -/
def frameSize (dst_stride height : Int) : Int :=
  Int.tdiv (dst_stride * height * 3) 2

/-- The luma plane as `FrameCvt2Yuv420sp` copies it, by one `memcpy` when the
strides agree and row by row otherwise. -/
def lumaWrites (frame : AVFrame) (dst_stride : Int) : Option (List (Int × Nat)) :=
  if dst_stride = frame.linesize0 then
    memcpyWrites 0 frame.data0 0 (frame.linesize0 * frame.height)
  else lumaRowWrites frame dst_stride 0 frame.height.toNat

/-- The chroma plane as `FrameCvt2Yuv420sp` writes it. -/
def chromaWrites (frame : AVFrame) (dst_stride : Int) (nv21 : Bool) : List (Int × Nat) :=
  (List.range (Int.tdiv frame.height 2).toNat).flatMap
    fun row => chromaRowWrites frame dst_stride nv21 row

end CNStream

/-! # Theorems -/

namespace CNStream

/-! ## Sink adapter -/

/-- Once `eos_sent_` is set, one more `SendFlowEos` call changes nothing. -/
theorem SendFlowEos_of_sent (h : RawImgMemHandlerImpl) (created : Bool)
    (hs : h.eos_sent_ = true) : h.SendFlowEos created = h := by
  simp [RawImgMemHandlerImpl.SendFlowEos, hs]

/-- Once `eos_sent_` is set, any number of `SendFlowEos` calls change nothing. -/
theorem SendFlowEosMany_of_sent (rs : List Bool) (h : RawImgMemHandlerImpl)
    (hs : h.eos_sent_ = true) : h.SendFlowEosMany rs = h := by
  induction rs with
  | nil => rfl
  | cons r rs ih =>
    simp [RawImgMemHandlerImpl.SendFlowEosMany, SendFlowEos_of_sent h r hs, ih]

/-- One `SendFlowEos` call either leaves `eos_sent_` clear and sends no EOS
frame, or sets it and sends exactly one. -/
theorem SendFlowEos_cases (h : RawImgMemHandlerImpl) (created : Bool)
    (hs : h.eos_sent_ = false) :
    ((h.SendFlowEos created).eos_sent_ = false ∧
        eosFramesSent (h.SendFlowEos created).trace = eosFramesSent h.trace) ∨
    ((h.SendFlowEos created).eos_sent_ = true ∧
        eosFramesSent (h.SendFlowEos created).trace = eosFramesSent h.trace + 1) := by
  cases created <;>
    simp [RawImgMemHandlerImpl.SendFlowEos, hs, eosFramesSent, List.count_append]

/-- Any number of `SendFlowEos` calls send at most one more EOS frame, and none
when `eos_sent_` is already set. -/
theorem SendFlowEosMany_count (rs : List Bool) (h : RawImgMemHandlerImpl) :
    eosFramesSent (h.SendFlowEosMany rs).trace ≤
      eosFramesSent h.trace + (if h.eos_sent_ then 0 else 1) := by
  induction rs generalizing h with
  | nil => simp [RawImgMemHandlerImpl.SendFlowEosMany]
  | cons r rs ih =>
    simp only [RawImgMemHandlerImpl.SendFlowEosMany]
    cases hs : h.eos_sent_ with
    | true =>
      rw [SendFlowEos_of_sent h r hs]
      have := ih h
      simpa [hs] using this
    | false =>
      have := ih (h.SendFlowEos r)
      rcases SendFlowEos_cases h r hs with ⟨h1, h2⟩ | ⟨h1, h2⟩
      · simp [h1, h2] at this; simpa using this
      · simp [h1, h2] at this; simpa using this

/-- C5: once `eos_sent_` is set, every later `SendFlowEos` call (with any answer
of `CreateFrameInfo`) leaves the adapter unchanged, trace included: it creates
no frame info and sends nothing; a call that sends the EOS frame sets
`eos_sent_`; and starting with `eos_sent_` clear and no EOS frame sent, any
number of calls send at most one EOS frame. -/
theorem C5_SendFlowEos_idempotent (h : RawImgMemHandlerImpl) (created : Bool)
    (rs : List Bool) :
    (h.eos_sent_ = true → h.SendFlowEos created = h ∧ h.SendFlowEosMany rs = h) ∧
    (eosFramesSent (h.SendFlowEos created).trace ≠ eosFramesSent h.trace →
      (h.SendFlowEos created).eos_sent_ = true) ∧
    (h.eos_sent_ = false → eosFramesSent h.trace = 0 →
      eosFramesSent (h.SendFlowEosMany rs).trace ≤ 1) := by
  refine ⟨fun hs => ⟨SendFlowEos_of_sent h created hs, SendFlowEosMany_of_sent rs h hs⟩, ?_, ?_⟩
  · cases created <;> cases hs : h.eos_sent_ <;>
      simp [RawImgMemHandlerImpl.SendFlowEos, hs, eosFramesSent, List.count_append]
  · intro hs h0
    have := SendFlowEosMany_count rs h
    simpa [hs, h0] using this

/-- C5 at a concrete input: an adapter that has sent its EOS frame is fed three
more calls; a fresh adapter is fed four calls and sends one EOS frame. -/
theorem C5_SendFlowEos_idempotent_witness :
    (({ eos_sent_ := true, trace := [.CreateFrameInfo true true, .SendData true] } :
        RawImgMemHandlerImpl).SendFlowEosMany [true, false, true] =
      { eos_sent_ := true, trace := [.CreateFrameInfo true true, .SendData true] }) ∧
    eosFramesSent (({ eos_sent_ := false, trace := [] } :
        RawImgMemHandlerImpl).SendFlowEosMany [false, true, true, true]).trace = 1 := by
  refine ⟨((C5_SendFlowEos_idempotent
    { eos_sent_ := true, trace := [.CreateFrameInfo true true, .SendData true] } true
    [true, false, true]).1 rfl).2, by decide⟩

end CNStream

namespace CNStream

/-! ## Frame sampling -/

theorem sentFrames_append (a b : List Call) :
    sentFrames (a ++ b) = sentFrames a ++ sentFrames b := by
  induction a with
  | nil => rfl
  | cons c a ih => cases c <;> simp [sentFrames, ih]

theorem cpuSentFrames_append (a b : List CpuCall) :
    cpuSentFrames (a ++ b) = cpuSentFrames a ++ cpuSentFrames b := by
  induction a with
  | nil => rfl
  | cons c a ih => cases c <;> simp [cpuSentFrames, ih]

/-- Effect of `VideoFrameCallback` on a live decoder for a decoded frame: the
decode counter advances, and the frame is sent, with the current frame id,
exactly when the counter was a multiple of the interval. -/
theorem VideoFrameCallback_live (d : MluDecoder) (output : cnvideoDecOutput) (env : FrameEnv)
    (hl : d.live = true) (hN : toSizeT d.interval_ ≠ 0)
    (hf : output.frame.decoded = true) (he : env.good d.param_ = true) :
    ∃ d1, d.VideoFrameCallback output env = some d1 ∧ d.sameSession d1 ∧
      d1.frame_count_ = (d.frame_count_ + 1) % UINT64_MOD ∧
      (d.frame_count_ % toSizeT d.interval_ = 0 →
        ∃ data df, sinkCalls d1.log = sinkCalls d.log ++ [.SendFrameInfo data] ∧
          data.timestamp = output.pts ∧ data.dataframe = some df ∧
          df.frame_id = d.frame_id_ ∧ d1.frame_id_ = (d.frame_id_ + 1) % UINT64_MOD) ∧
      (d.frame_count_ % toSizeT d.interval_ ≠ 0 → d1.log = d.log ∧ d1.frame_id_ = d.frame_id_) := by
  obtain ⟨fi, da, ha⟩ := env
  simp only [MluDecoder.live, Bool.and_eq_true, Bool.not_eq_true', decide_eq_true_eq] at hl
  obtain ⟨⟨⟨h1, h2⟩, h3⟩, h4⟩ := hl
  simp only [cncodecFrame.decoded, Bool.and_eq_true, decide_eq_true_eq] at hf
  simp only [FrameEnv.good, Bool.and_eq_true, Bool.or_eq_true, decide_eq_true_eq] at he
  obtain ⟨⟨he1, he2⟩, he3⟩ := he
  cases fi with
  | nil => simp at he1
  | cons b rest =>
    simp at he1
    subst he1
    subst he2
    by_cases hc : d.frame_count_ % toSizeT d.interval_ = 0
    · rcases he3 with he3 | ⟨he3, he4⟩
      · cases hr : d.param_.reuse_cndec_buf <;>
          simp [MluDecoder.VideoFrameCallback, MluDecoder.ProcessFrame,
            MluDecoder.processDecodedFrame, MluDecoder.emit, createFrameInfoLoop,
            MluDecoder.sameSession, sinkCalls, List.filter_append, Call.isSink, hf, hN, hc, h1, h2, h3, he3, hr]
      · simp [MluDecoder.VideoFrameCallback, MluDecoder.ProcessFrame,
            MluDecoder.processDecodedFrame, MluDecoder.emit, createFrameInfoLoop,
            MluDecoder.sameSession, sinkCalls, List.filter_append, Call.isSink, hf, hN, hc, h1, h2, h3, he3, he4]
    · simp [MluDecoder.VideoFrameCallback, MluDecoder.sameSession, hf, hN, hc]

end CNStream

namespace CNStream

/-- Effect of `JpegFrameCallback` on a live decoder for an image decoded with
success: as for `VideoFrameCallback`. -/
theorem JpegFrameCallback_live (d : MluDecoder) (output : cnjpegDecOutput) (env : FrameEnv)
    (hl : d.live = true) (hN : toSizeT d.interval_ ≠ 0)
    (hf : output.result = 0) (he : env.good d.param_ = true) :
    ∃ d1, d.JpegFrameCallback output env = some d1 ∧ d.sameSession d1 ∧
      d1.frame_count_ = (d.frame_count_ + 1) % UINT64_MOD ∧
      (d.frame_count_ % toSizeT d.interval_ = 0 →
        ∃ data df, sinkCalls d1.log = sinkCalls d.log ++ [.SendFrameInfo data] ∧
          data.timestamp = output.pts ∧ data.dataframe = some df ∧
          df.frame_id = d.frame_id_ ∧ d1.frame_id_ = (d.frame_id_ + 1) % UINT64_MOD) ∧
      (d.frame_count_ % toSizeT d.interval_ ≠ 0 → d1.log = d.log ∧ d1.frame_id_ = d.frame_id_) := by
  obtain ⟨fi, da, ha⟩ := env
  simp only [MluDecoder.live, Bool.and_eq_true, Bool.not_eq_true', decide_eq_true_eq] at hl
  obtain ⟨⟨⟨h1, h2⟩, h3⟩, h4⟩ := hl
  simp only [FrameEnv.good, Bool.and_eq_true, Bool.or_eq_true, decide_eq_true_eq] at he
  obtain ⟨⟨he1, he2⟩, he3⟩ := he
  cases fi with
  | nil => simp at he1
  | cons b rest =>
    simp at he1
    subst he1
    subst he2
    by_cases hc : d.frame_count_ % toSizeT d.interval_ = 0
    · rcases he3 with he3 | ⟨he3, he4⟩
      · cases hr : d.param_.reuse_cndec_buf <;>
          simp [MluDecoder.JpegFrameCallback, MluDecoder.ProcessJpegFrame,
            MluDecoder.processDecodedFrame, MluDecoder.emit, createFrameInfoLoop,
            MluDecoder.sameSession, sinkCalls, List.filter_append, Call.isSink, hf, hN, hc, h1, h2, h3, he3, hr]
      · simp [MluDecoder.JpegFrameCallback, MluDecoder.ProcessJpegFrame,
            MluDecoder.processDecodedFrame, MluDecoder.emit, createFrameInfoLoop,
            MluDecoder.sameSession, sinkCalls, List.filter_append, Call.isSink, hf, hN, hc, h1, h2, h3, he3, he4]
    · simp [MluDecoder.JpegFrameCallback, MluDecoder.sameSession, hf, hN, hc]

theorem createFrameInfoForever_of_mem (l : List Bool) (h : true ∈ l) :
    createFrameInfoForever l = some () := by
  induction l with
  | nil => simp at h
  | cons b l ih =>
    cases b with
    | true => rfl
    | false =>
      simp at h
      simpa [createFrameInfoForever] using ih h

theorem lumaRowWrites_isSome (frame : AVFrame) (dst_stride : Int) (h : 0 ≤ frame.linesize0)
    (rows row : Nat) : ∃ ws, lumaRowWrites frame dst_stride row rows = some ws := by
  induction rows generalizing row with
  | zero => exact ⟨[], rfl⟩
  | succ rows ih =>
    obtain ⟨rest, hrest⟩ := ih (row + 1)
    have hn : ¬ frame.linesize0 < 0 := by omega
    simp [lumaRowWrites, memcpyWrites, hn, hrest]

/-- The conversion accepts every decoded frame. -/
theorem FrameCvt2Yuv420sp_decoded (frame : AVFrame) (dst_stride : Int) (nv21 : Bool)
    (hf : frame.decoded = true) :
    ∃ ws, FrameCvt2Yuv420sp frame dst_stride nv21 = some (true, ws) := by
  simp only [AVFrame.decoded, Bool.and_eq_true, Bool.or_eq_true, decide_eq_true_eq] at hf
  obtain ⟨⟨hfmt, hh⟩, hs⟩ := hf
  have hfmt2 : ¬ (frame.format ≠ .AV_PIX_FMT_YUV420P ∧ frame.format ≠ .AV_PIX_FMT_YUVJ420P ∧
      frame.format ≠ .AV_PIX_FMT_YUYV422) := by
    rcases hfmt with (h | h) | h <;> simp [h]
  by_cases heq : dst_stride = frame.linesize0
  · have hn : ¬ frame.linesize0 * frame.height < 0 := by
      have := Int.mul_nonneg hs hh
      omega
    simp [FrameCvt2Yuv420sp, hfmt2, heq, memcpyWrites, hn]
  · obtain ⟨ws, hws⟩ := lumaRowWrites_isSome frame dst_stride hs frame.height.toNat 0
    simp [FrameCvt2Yuv420sp, hfmt2, heq, hws]

/-- Effect of `FFmpegCpuDecoder::ProcessFrame` for a decoded frame when a sink
is attached and a decode context is open: as for `VideoFrameCallback`. -/
theorem CpuProcessFrame_live (d : FFmpegCpuDecoder) (frame : AVFrame) (env : CpuFrameEnv)
    (hh : d.handler_ = true) (hi : d.instance_ = true) (hN : toSizeT d.interval_ ≠ 0)
    (hf : frame.decoded = true) (he : env.good d.param_ = true) :
    ∃ d1, d.ProcessFrame frame env = some (d1, true) ∧ d.sameSession d1 ∧
      d1.frame_count_ = (d.frame_count_ + 1) % UINT64_MOD ∧
      (d.frame_count_ % toSizeT d.interval_ = 0 →
        ∃ data df, cpuSinkCalls d1.log = cpuSinkCalls d.log ++ [.SendFrameInfo data] ∧
          data.timestamp = frame.pts ∧ data.dataframe = some df ∧
          df.frame_id = d.frame_id_ ∧ d1.frame_id_ = (d.frame_id_ + 1) % UINT64_MOD) ∧
      (d.frame_count_ % toSizeT d.interval_ ≠ 0 → d1.log = d.log ∧ d1.frame_id_ = d.frame_id_) := by
  simp only [CpuFrameEnv.good, Bool.and_eq_true, Bool.or_eq_true, decide_eq_true_eq] at he
  obtain ⟨⟨⟨⟨he1, he2⟩, he3⟩, he4⟩, he5⟩ := he
  have hfmt2 : ¬ (env.pix_fmt ≠ .AV_PIX_FMT_YUV420P ∧ env.pix_fmt ≠ .AV_PIX_FMT_YUVJ420P ∧
      env.pix_fmt ≠ .AV_PIX_FMT_YUYV422) := by
    rcases he2 with (h | h) | h <;> simp [h]
  have hfi := createFrameInfoForever_of_mem env.frameInfo he1
  by_cases hc : d.frame_count_ % toSizeT d.interval_ = 0
  · obtain ⟨ws, hws⟩ := FrameCvt2Yuv420sp_decoded frame
      (if d.param_.apply_stride_align_for_scaler_ then alignStride frame.linesize0
        else frame.linesize0) false hf
    rcases he5 with ⟨ho, hm⟩ | ho
    · simp [FFmpegCpuDecoder.ProcessFrame, FFmpegCpuDecoder.emit, FFmpegCpuDecoder.sameSession,
        cpuSinkCalls, List.filter_append, CpuCall.isSink, hh, hi, hN, hc, hfi, hfmt2, he3, he4, hws, ho, hm]
    · simp [FFmpegCpuDecoder.ProcessFrame, FFmpegCpuDecoder.emit, FFmpegCpuDecoder.sameSession,
        cpuSinkCalls, List.filter_append, CpuCall.isSink, hh, hi, hN, hc, hfi, hfmt2, he3, he4, hws, ho]
  · simp [FFmpegCpuDecoder.ProcessFrame, FFmpegCpuDecoder.sameSession, hN, hc]

end CNStream

namespace CNStream

theorem MluDecoder.sameSession_refl (d : MluDecoder) : d.sameSession d := by
  simp [MluDecoder.sameSession]

theorem MluDecoder.sameSession_trans {a b c : MluDecoder} (h1 : a.sameSession b)
    (h2 : b.sameSession c) : a.sameSession c := by
  simp only [MluDecoder.sameSession] at *
  obtain ⟨a1, a2, a3, a4, a5, a6, a7, a8, a9, a10, a11, a12, a13⟩ := h1
  obtain ⟨b1, b2, b3, b4, b5, b6, b7, b8, b9, b10, b11, b12, b13⟩ := h2
  simp [*]

theorem MluDecoder.live_of_sameSession {a b : MluDecoder} (h : a.sameSession b)
    (hl : a.live = true) : b.live = true := by
  simp only [MluDecoder.sameSession] at h
  obtain ⟨a1, a2, a3, a4, a5, a6, a7, a8, a9, a10, a11, a12, a13⟩ := h
  simpa [MluDecoder.live, a1, a2, a11, a12] using hl

theorem FFmpegCpuDecoder.cpuSameSession_refl (d : FFmpegCpuDecoder) : d.sameSession d := by
  simp [FFmpegCpuDecoder.sameSession]

theorem FFmpegCpuDecoder.cpuSameSession_trans {a b c : FFmpegCpuDecoder} (h1 : a.sameSession b)
    (h2 : b.sameSession c) : a.sameSession c := by
  simp only [FFmpegCpuDecoder.sameSession] at *
  obtain ⟨a1, a2, a3, a4, a5, a6, a7, a8⟩ := h1
  obtain ⟨b1, b2, b3, b4, b5, b6, b7, b8⟩ := h2
  simp [*]

/-- Frame ids handed out from a counter value `id`, wrapping at 64 bits. -/
theorem range_ids_succ (id n : Nat) (hid : id < UINT64_MOD) :
    id :: (List.range n).map (fun i => ((id + 1) % UINT64_MOD + i) % UINT64_MOD) =
      (List.range (n + 1)).map (fun i => (id + i) % UINT64_MOD) := by
  rw [List.range_succ_eq_map, List.map_cons, List.map_map]
  congr 1
  · simp [Nat.mod_eq_of_lt hid]
  · apply List.map_congr_left
    intro i _
    simp only [UINT64_MOD, Function.comp] at *
    omega

/-- Effect of a sequence of decoded frames on a live decoder: all callbacks
return, the decode counter advances by the number of frames, and the
descriptors sent carry consecutive frame ids starting at the frame-id counter. -/
theorem videoFrames_live (frames : List (cnvideoDecOutput × FrameEnv)) (d : MluDecoder)
    (hl : d.live = true) (hN : toSizeT d.interval_ ≠ 0)
    (hcnt : d.frame_count_ < UINT64_MOD) (hid : d.frame_id_ < UINT64_MOD)
    (hfs : ∀ p ∈ frames, p.1.frame.decoded = true ∧ p.2.good d.param_ = true) :
    ∃ (d1 : MluDecoder) (descs : List CNFrameInfo),
      d.videoFrames frames = some d1 ∧ d.sameSession d1 ∧
      d1.frame_count_ = (d.frame_count_ + frames.length) % UINT64_MOD ∧
      d1.frame_id_ = (d.frame_id_ + descs.length) % UINT64_MOD ∧
      descs.length ≤ frames.length ∧
      sinkCalls d1.log = sinkCalls d.log ++ descs.map Call.SendFrameInfo ∧
      descs.map (fun data => data.dataframe.map (·.frame_id)) =
        (List.range descs.length).map (fun i => some ((d.frame_id_ + i) % UINT64_MOD)) := by
  induction frames generalizing d with
  | nil =>
    exact ⟨d, [], rfl, d.sameSession_refl, by simp [Nat.mod_eq_of_lt hcnt],
      by simp [Nat.mod_eq_of_lt hid], by simp, by simp, by simp⟩
  | cons p frames ih =>
    obtain ⟨output, env⟩ := p
    have hp := hfs (output, env) (by simp)
    obtain ⟨d1, hstep, hss, hc1, hsent, hskip⟩ :=
      VideoFrameCallback_live d output env hl hN hp.1 hp.2
    have hl1 := MluDecoder.live_of_sameSession hss hl
    have hN1 : toSizeT d1.interval_ ≠ 0 := by rw [hss.2.2.1]; exact hN
    have hcnt1 : d1.frame_count_ < UINT64_MOD := by
      rw [hc1]; exact Nat.mod_lt _ (by decide)
    have hfs1 : ∀ p ∈ frames, p.1.frame.decoded = true ∧ p.2.good d1.param_ = true := by
      intro q hq
      rw [hss.2.1]
      exact hfs q (by simp [hq])
    by_cases hc : d.frame_count_ % toSizeT d.interval_ = 0
    · obtain ⟨data, df, hlog, hts, hdf, hfid, hid1⟩ := hsent hc
      have hid1' : d1.frame_id_ < UINT64_MOD := by
        rw [hid1]; exact Nat.mod_lt _ (by decide)
      obtain ⟨d2, descs, hrun, hss2, hc2, hi2, hlen2, hlog2, hids2⟩ := ih d1 hl1 hN1 hcnt1 hid1' hfs1
      refine ⟨d2, data :: descs, ?_, MluDecoder.sameSession_trans hss hss2, ?_, ?_, ?_, ?_, ?_⟩
      · simp [MluDecoder.videoFrames, hstep, hrun]
      · rw [hc2, hc1]; simp only [UINT64_MOD, List.length_cons]; omega
      · rw [hi2, hid1]; simp only [UINT64_MOD, List.length_cons]; omega
      · simp only [List.length_cons]; omega
      · rw [hlog2, hlog]; simp
      · rw [List.map_cons, hids2, hdf, hid1, List.length_cons]
        simp only [Option.map_some', hfid]
        have := range_ids_succ d.frame_id_ descs.length hid
        have h2 := congrArg (List.map some) this
        simpa [Function.comp] using h2
    · obtain ⟨hlog, hid1⟩ := hskip hc
      have hid1' : d1.frame_id_ < UINT64_MOD := by rw [hid1]; exact hid
      obtain ⟨d2, descs, hrun, hss2, hc2, hi2, hlen2, hlog2, hids2⟩ := ih d1 hl1 hN1 hcnt1 hid1' hfs1
      refine ⟨d2, descs, ?_, MluDecoder.sameSession_trans hss hss2, ?_, ?_, ?_, ?_, ?_⟩
      · simp [MluDecoder.videoFrames, hstep, hrun]
      · rw [hc2, hc1]; simp only [UINT64_MOD, List.length_cons]; omega
      · rw [hi2, hid1]
      · simp only [List.length_cons]; omega
      · rw [hlog2, hlog]
      · rw [hids2, hid1]

/-- Effect of a sequence of decoded still images on a live decoder: all callbacks
return, the decode counter advances by the number of frames, and the
descriptors sent carry consecutive frame ids starting at the frame-id counter. -/
theorem jpegFrames_live (frames : List (cnjpegDecOutput × FrameEnv)) (d : MluDecoder)
    (hl : d.live = true) (hN : toSizeT d.interval_ ≠ 0)
    (hcnt : d.frame_count_ < UINT64_MOD) (hid : d.frame_id_ < UINT64_MOD)
    (hfs : ∀ p ∈ frames, p.1.result = 0 ∧ p.2.good d.param_ = true) :
    ∃ (d1 : MluDecoder) (descs : List CNFrameInfo),
      d.jpegFrames frames = some d1 ∧ d.sameSession d1 ∧
      d1.frame_count_ = (d.frame_count_ + frames.length) % UINT64_MOD ∧
      d1.frame_id_ = (d.frame_id_ + descs.length) % UINT64_MOD ∧
      descs.length ≤ frames.length ∧
      sinkCalls d1.log = sinkCalls d.log ++ descs.map Call.SendFrameInfo ∧
      descs.map (fun data => data.dataframe.map (·.frame_id)) =
        (List.range descs.length).map (fun i => some ((d.frame_id_ + i) % UINT64_MOD)) := by
  induction frames generalizing d with
  | nil =>
    exact ⟨d, [], rfl, d.sameSession_refl, by simp [Nat.mod_eq_of_lt hcnt],
      by simp [Nat.mod_eq_of_lt hid], by simp, by simp, by simp⟩
  | cons p frames ih =>
    obtain ⟨output, env⟩ := p
    have hp := hfs (output, env) (by simp)
    obtain ⟨d1, hstep, hss, hc1, hsent, hskip⟩ :=
      JpegFrameCallback_live d output env hl hN hp.1 hp.2
    have hl1 := MluDecoder.live_of_sameSession hss hl
    have hN1 : toSizeT d1.interval_ ≠ 0 := by rw [hss.2.2.1]; exact hN
    have hcnt1 : d1.frame_count_ < UINT64_MOD := by
      rw [hc1]; exact Nat.mod_lt _ (by decide)
    have hfs1 : ∀ p ∈ frames, p.1.result = 0 ∧ p.2.good d1.param_ = true := by
      intro q hq
      rw [hss.2.1]
      exact hfs q (by simp [hq])
    by_cases hc : d.frame_count_ % toSizeT d.interval_ = 0
    · obtain ⟨data, df, hlog, hts, hdf, hfid, hid1⟩ := hsent hc
      have hid1' : d1.frame_id_ < UINT64_MOD := by
        rw [hid1]; exact Nat.mod_lt _ (by decide)
      obtain ⟨d2, descs, hrun, hss2, hc2, hi2, hlen2, hlog2, hids2⟩ := ih d1 hl1 hN1 hcnt1 hid1' hfs1
      refine ⟨d2, data :: descs, ?_, MluDecoder.sameSession_trans hss hss2, ?_, ?_, ?_, ?_, ?_⟩
      · simp [MluDecoder.jpegFrames, hstep, hrun]
      · rw [hc2, hc1]; simp only [UINT64_MOD, List.length_cons]; omega
      · rw [hi2, hid1]; simp only [UINT64_MOD, List.length_cons]; omega
      · simp only [List.length_cons]; omega
      · rw [hlog2, hlog]; simp
      · rw [List.map_cons, hids2, hdf, hid1, List.length_cons]
        simp only [Option.map_some', hfid]
        have := range_ids_succ d.frame_id_ descs.length hid
        have h2 := congrArg (List.map some) this
        simpa [Function.comp] using h2
    · obtain ⟨hlog, hid1⟩ := hskip hc
      have hid1' : d1.frame_id_ < UINT64_MOD := by rw [hid1]; exact hid
      obtain ⟨d2, descs, hrun, hss2, hc2, hi2, hlen2, hlog2, hids2⟩ := ih d1 hl1 hN1 hcnt1 hid1' hfs1
      refine ⟨d2, descs, ?_, MluDecoder.sameSession_trans hss hss2, ?_, ?_, ?_, ?_, ?_⟩
      · simp [MluDecoder.jpegFrames, hstep, hrun]
      · rw [hc2, hc1]; simp only [UINT64_MOD, List.length_cons]; omega
      · rw [hi2, hid1]
      · simp only [List.length_cons]; omega
      · rw [hlog2, hlog]
      · rw [hids2, hid1]

/-- Effect of a sequence of decoded frames on a software decoder with a sink and an open context: all callbacks
return, the decode counter advances by the number of frames, and the
descriptors sent carry consecutive frame ids starting at the frame-id counter. -/
theorem cpuFrames_live (frames : List (AVFrame × CpuFrameEnv)) (d : FFmpegCpuDecoder)
    (hh : d.handler_ = true) (hi : d.instance_ = true) (hN : toSizeT d.interval_ ≠ 0)
    (hcnt : d.frame_count_ < UINT64_MOD) (hid : d.frame_id_ < UINT64_MOD)
    (hfs : ∀ p ∈ frames, p.1.decoded = true ∧ p.2.good d.param_ = true) :
    ∃ (d1 : FFmpegCpuDecoder) (descs : List CNFrameInfo),
      d.frames frames = some d1 ∧ d.sameSession d1 ∧
      d1.frame_count_ = (d.frame_count_ + frames.length) % UINT64_MOD ∧
      d1.frame_id_ = (d.frame_id_ + descs.length) % UINT64_MOD ∧
      descs.length ≤ frames.length ∧
      cpuSinkCalls d1.log = cpuSinkCalls d.log ++ descs.map CpuCall.SendFrameInfo ∧
      descs.map (fun data => data.dataframe.map (·.frame_id)) =
        (List.range descs.length).map (fun i => some ((d.frame_id_ + i) % UINT64_MOD)) := by
  induction frames generalizing d with
  | nil =>
    exact ⟨d, [], rfl, d.cpuSameSession_refl, by simp [Nat.mod_eq_of_lt hcnt],
      by simp [Nat.mod_eq_of_lt hid], by simp, by simp, by simp⟩
  | cons p frames ih =>
    obtain ⟨output, env⟩ := p
    have hp := hfs (output, env) (by simp)
    obtain ⟨d1, hstep, hss, hc1, hsent, hskip⟩ :=
      CpuProcessFrame_live d output env hh hi hN hp.1 hp.2
    have hh1 : d1.handler_ = true := by rw [hss.1]; exact hh
    have hi1 : d1.instance_ = true := by rw [hss.2.2.2.1]; exact hi
    have hN1 : toSizeT d1.interval_ ≠ 0 := by rw [hss.2.2.1]; exact hN
    have hcnt1 : d1.frame_count_ < UINT64_MOD := by
      rw [hc1]; exact Nat.mod_lt _ (by decide)
    have hfs1 : ∀ p ∈ frames, p.1.decoded = true ∧ p.2.good d1.param_ = true := by
      intro q hq
      rw [hss.2.1]
      exact hfs q (by simp [hq])
    by_cases hc : d.frame_count_ % toSizeT d.interval_ = 0
    · obtain ⟨data, df, hlog, hts, hdf, hfid, hid1⟩ := hsent hc
      have hid1' : d1.frame_id_ < UINT64_MOD := by
        rw [hid1]; exact Nat.mod_lt _ (by decide)
      obtain ⟨d2, descs, hrun, hss2, hc2, hi2, hlen2, hlog2, hids2⟩ := ih d1 hh1 hi1 hN1 hcnt1 hid1' hfs1
      refine ⟨d2, data :: descs, ?_, FFmpegCpuDecoder.cpuSameSession_trans hss hss2, ?_, ?_, ?_, ?_, ?_⟩
      · simp [FFmpegCpuDecoder.frames, hstep, hrun]
      · rw [hc2, hc1]; simp only [UINT64_MOD, List.length_cons]; omega
      · rw [hi2, hid1]; simp only [UINT64_MOD, List.length_cons]; omega
      · simp only [List.length_cons]; omega
      · rw [hlog2, hlog]; simp
      · rw [List.map_cons, hids2, hdf, hid1, List.length_cons]
        simp only [Option.map_some', hfid]
        have := range_ids_succ d.frame_id_ descs.length hid
        have h2 := congrArg (List.map some) this
        simpa [Function.comp] using h2
    · obtain ⟨hlog, hid1⟩ := hskip hc
      have hid1' : d1.frame_id_ < UINT64_MOD := by rw [hid1]; exact hid
      obtain ⟨d2, descs, hrun, hss2, hc2, hi2, hlen2, hlog2, hids2⟩ := ih d1 hh1 hi1 hN1 hcnt1 hid1' hfs1
      refine ⟨d2, descs, ?_, FFmpegCpuDecoder.cpuSameSession_trans hss hss2, ?_, ?_, ?_, ?_, ?_⟩
      · simp [FFmpegCpuDecoder.frames, hstep, hrun]
      · rw [hc2, hc1]; simp only [UINT64_MOD, List.length_cons]; omega
      · rw [hi2, hid1]
      · simp only [List.length_cons]; omega
      · rw [hlog2, hlog]
      · rw [hids2, hid1]

end CNStream

namespace CNStream

theorem toSizeT_natCast (N : Nat) (h : N < UINT64_MOD) : toSizeT (N : Int) = N := by
  unfold toSizeT
  have h1 : ((N : Int) % (UINT64_MOD : Int)) = (N : Int) := by
    apply Int.emod_eq_of_lt
    · exact Int.natCast_nonneg N
    · exact_mod_cast h
  rw [h1]
  simp

/-- What a successful `Create` leaves behind: the given interval and stream
info are stored, both counters are zero, the abort and error flags are clear,
and a session of the kind selected by the codec is active.  The sink is not
called. -/
theorem Create_success (K : CnCodecRet) (d : MluDecoder) (info : VideoStreamInfo) (interval : Int)
    (env : CreateEnv) (h : (d.Create K info interval env).2 = true) :
    (d.Create K info interval env).1.interval_ = interval ∧
    (d.Create K info interval env).1.info_ = info ∧
    (d.Create K info interval env).1.frame_count_ = 0 ∧
    (d.Create K info interval env).1.frame_id_ = 0 ∧
    (d.Create K info interval env).1.cndec_abort_flag_ = false ∧
    (d.Create K info interval env).1.cndec_error_flag_ = false ∧
    (d.Create K info interval env).1.handler_ = d.handler_ ∧
    (d.Create K info interval env).1.param_ = d.param_ ∧
    sinkCalls (d.Create K info interval env).1.log = sinkCalls d.log ∧
    (if info.codec_id = .AV_CODEC_ID_MJPEG
      then (d.Create K info interval env).1.jpg_instance_ = some env.handle ∧
        (d.Create K info interval env).1.instance_ = d.instance_
      else (d.Create K info interval env).1.instance_ = some env.handle ∧
        (d.Create K info interval env).1.jpg_instance_ = d.jpg_instance_) := by
  unfold MluDecoder.Create at h ⊢
  by_cases hc : info.codec_id = .AV_CODEC_ID_MJPEG
  · simp only [hc, if_true] at h ⊢
    unfold MluDecoder.CreateJpegDecoder at h ⊢
    split at h <;> try simp at h
    split at h <;> try simp at h
    split at h <;> try simp at h
    rename_i h1 h2 h3
    simp [h1, h2, h3, MluDecoder.emit, sinkCalls, List.filter_append, Call.isSink]
  · simp only [hc, if_false] at h ⊢
    unfold MluDecoder.CreateVideoDecoder at h ⊢
    by_cases hi : d.instance_.isSome = true
    · simp [hi] at h
    · by_cases hr1 : K.CNCODEC_SUCCESS = env.createRet
      · by_cases hr2 : K.CNCODEC_SUCCESS = env.setAttrRet
        · cases hcodec : info.codec_id <;>
            simp_all [MluDecoder.emit, sinkCalls, List.filter_append, Call.isSink]
        · cases hcodec : info.codec_id <;> simp_all
      · cases hcodec : info.codec_id <;> simp_all

end CNStream

namespace CNStream

theorem sampledFlags_succ (N c n : Nat) (hc : c < UINT64_MOD) :
    sampledFlags N c (n + 1) =
      decide (c % N = 0) :: sampledFlags N ((c + 1) % UINT64_MOD) n := by
  unfold sampledFlags
  rw [List.range_succ_eq_map, List.map_cons, List.map_map]
  congr 1
  · simp [Nat.mod_eq_of_lt hc]
  · apply List.map_congr_left
    intro k _
    have : ((c + 1) % UINT64_MOD + k) % UINT64_MOD = (c + (k + 1)) % UINT64_MOD := by
      simp only [UINT64_MOD]; omega
    simp [Function.comp, this]

theorem newSinkCalls_append (l : List Call) (c : List Call) (l1 : List Call)
    (h : sinkCalls l1 = sinkCalls l ++ c) : newSinkCalls l l1 = c := by
  simp [newSinkCalls, h]

theorem newCpuSinkCalls_append (l : List CpuCall) (c : List CpuCall) (l1 : List CpuCall)
    (h : cpuSinkCalls l1 = cpuSinkCalls l ++ c) : newCpuSinkCalls l l1 = c := by
  simp [newCpuSinkCalls, h]

/-- On a live decoder the frames that `VideoFrameCallback` sends are those
picked by the sampling rule. -/
theorem videoSent_live (frames : List (cnvideoDecOutput × FrameEnv)) (d : MluDecoder)
    (hl : d.live = true) (hN : toSizeT d.interval_ ≠ 0) (hcnt : d.frame_count_ < UINT64_MOD)
    (hfs : ∀ p ∈ frames, p.1.frame.decoded = true ∧ p.2.good d.param_ = true) :
    d.videoSent frames =
      some (sampledFlags (toSizeT d.interval_) d.frame_count_ frames.length) := by
  induction frames generalizing d with
  | nil => simp [MluDecoder.videoSent, sampledFlags]
  | cons p frames ih =>
    obtain ⟨output, env⟩ := p
    have hp := hfs (output, env) (by simp)
    obtain ⟨d1, hstep, hss, hc1, hsent, hskip⟩ :=
      VideoFrameCallback_live d output env hl hN hp.1 hp.2
    have hl1 := MluDecoder.live_of_sameSession hss hl
    have hN1 : toSizeT d1.interval_ ≠ 0 := by rw [hss.2.2.1]; exact hN
    have hcnt1 : d1.frame_count_ < UINT64_MOD := by
      rw [hc1]; exact Nat.mod_lt _ (by decide)
    have hfs1 : ∀ p ∈ frames, p.1.frame.decoded = true ∧ p.2.good d1.param_ = true := by
      intro q hq
      rw [hss.2.1]
      exact hfs q (by simp [hq])
    have hrest := ih d1 hl1 hN1 hcnt1 hfs1
    rw [hss.2.2.1, hc1] at hrest
    have hflag : frameWasSent output.pts (newSinkCalls d.log d1.log) =
        decide (d.frame_count_ % toSizeT d.interval_ = 0) := by
      by_cases hc : d.frame_count_ % toSizeT d.interval_ = 0
      · obtain ⟨data, df, hlog, hts, -⟩ := hsent hc
        rw [newSinkCalls_append _ _ _ hlog]
        simp [frameWasSent, hts, hc]
      · obtain ⟨hlog, -⟩ := hskip hc
        have : newSinkCalls d.log d1.log = [] := by
          apply newSinkCalls_append
          rw [hlog]; simp
        simp [this, frameWasSent, hc]
    simp only [MluDecoder.videoSent, hstep, hrest, Option.map_some', List.length_cons,
      sampledFlags_succ _ _ _ hcnt, hflag]

/-- On a live decoder the images that `JpegFrameCallback` sends are those
picked by the sampling rule. -/
theorem jpegSent_live (frames : List (cnjpegDecOutput × FrameEnv)) (d : MluDecoder)
    (hl : d.live = true) (hN : toSizeT d.interval_ ≠ 0) (hcnt : d.frame_count_ < UINT64_MOD)
    (hfs : ∀ p ∈ frames, p.1.result = 0 ∧ p.2.good d.param_ = true) :
    d.jpegSent frames =
      some (sampledFlags (toSizeT d.interval_) d.frame_count_ frames.length) := by
  induction frames generalizing d with
  | nil => simp [MluDecoder.jpegSent, sampledFlags]
  | cons p frames ih =>
    obtain ⟨output, env⟩ := p
    have hp := hfs (output, env) (by simp)
    obtain ⟨d1, hstep, hss, hc1, hsent, hskip⟩ :=
      JpegFrameCallback_live d output env hl hN hp.1 hp.2
    have hl1 := MluDecoder.live_of_sameSession hss hl
    have hN1 : toSizeT d1.interval_ ≠ 0 := by rw [hss.2.2.1]; exact hN
    have hcnt1 : d1.frame_count_ < UINT64_MOD := by
      rw [hc1]; exact Nat.mod_lt _ (by decide)
    have hfs1 : ∀ p ∈ frames, p.1.result = 0 ∧ p.2.good d1.param_ = true := by
      intro q hq
      rw [hss.2.1]
      exact hfs q (by simp [hq])
    have hrest := ih d1 hl1 hN1 hcnt1 hfs1
    rw [hss.2.2.1, hc1] at hrest
    have hflag : frameWasSent output.pts (newSinkCalls d.log d1.log) =
        decide (d.frame_count_ % toSizeT d.interval_ = 0) := by
      by_cases hc : d.frame_count_ % toSizeT d.interval_ = 0
      · obtain ⟨data, df, hlog, hts, -⟩ := hsent hc
        rw [newSinkCalls_append _ _ _ hlog]
        simp [frameWasSent, hts, hc]
      · obtain ⟨hlog, -⟩ := hskip hc
        have : newSinkCalls d.log d1.log = [] := by
          apply newSinkCalls_append
          rw [hlog]; simp
        simp [this, frameWasSent, hc]
    simp only [MluDecoder.jpegSent, hstep, hrest, Option.map_some', List.length_cons,
      sampledFlags_succ _ _ _ hcnt, hflag]

/-- On a software decoder with a sink and an open context the frames that `ProcessFrame` sends are those
picked by the sampling rule. -/
theorem cpuSent_live (frames : List (AVFrame × CpuFrameEnv)) (d : FFmpegCpuDecoder)
    (hh : d.handler_ = true) (hi : d.instance_ = true) (hN : toSizeT d.interval_ ≠ 0) (hcnt : d.frame_count_ < UINT64_MOD)
    (hfs : ∀ p ∈ frames, p.1.decoded = true ∧ p.2.good d.param_ = true) :
    d.sent frames =
      some (sampledFlags (toSizeT d.interval_) d.frame_count_ frames.length) := by
  induction frames generalizing d with
  | nil => simp [FFmpegCpuDecoder.sent, sampledFlags]
  | cons p frames ih =>
    obtain ⟨output, env⟩ := p
    have hp := hfs (output, env) (by simp)
    obtain ⟨d1, hstep, hss, hc1, hsent, hskip⟩ :=
      CpuProcessFrame_live d output env hh hi hN hp.1 hp.2
    have hh1 : d1.handler_ = true := by rw [hss.1]; exact hh
    have hi1 : d1.instance_ = true := by rw [hss.2.2.2.1]; exact hi
    have hN1 : toSizeT d1.interval_ ≠ 0 := by rw [hss.2.2.1]; exact hN
    have hcnt1 : d1.frame_count_ < UINT64_MOD := by
      rw [hc1]; exact Nat.mod_lt _ (by decide)
    have hfs1 : ∀ p ∈ frames, p.1.decoded = true ∧ p.2.good d1.param_ = true := by
      intro q hq
      rw [hss.2.1]
      exact hfs q (by simp [hq])
    have hrest := ih d1 hh1 hi1 hN1 hcnt1 hfs1
    rw [hss.2.2.1, hc1] at hrest
    have hflag : cpuFrameWasSent output.pts (newCpuSinkCalls d.log d1.log) =
        decide (d.frame_count_ % toSizeT d.interval_ = 0) := by
      by_cases hc : d.frame_count_ % toSizeT d.interval_ = 0
      · obtain ⟨data, df, hlog, hts, -⟩ := hsent hc
        rw [newCpuSinkCalls_append _ _ _ hlog]
        simp [cpuFrameWasSent, hts, hc]
      · obtain ⟨hlog, -⟩ := hskip hc
        have : newCpuSinkCalls d.log d1.log = [] := by
          apply newCpuSinkCalls_append
          rw [hlog]; simp
        simp [this, cpuFrameWasSent, hc]
    simp only [FFmpegCpuDecoder.sent, hstep, hrest, Option.map_some', List.length_cons,
      sampledFlags_succ _ _ _ hcnt, hflag]

/-- What a successful `FFmpegCpuDecoder::Create` leaves behind. -/
theorem CpuCreate_success (d : FFmpegCpuDecoder) (info : VideoStreamInfo) (interval : Int)
    (env : CpuCreateEnv) (h : (d.Create info interval env).2 = true) :
    (d.Create info interval env).1.interval_ = interval ∧
    (d.Create info interval env).1.frame_count_ = 0 ∧
    (d.Create info interval env).1.frame_id_ = 0 ∧
    (d.Create info interval env).1.handler_ = true ∧
    (d.Create info interval env).1.instance_ = true ∧
    (d.Create info interval env).1.eos_sent_ = false ∧
    (d.Create info interval env).1.eos_got_ = false ∧
    (d.Create info interval env).1.param_ = d.param_ ∧
    (d.Create info interval env).1.log = d.log := by
  unfold FFmpegCpuDecoder.Create FFmpegCpuDecoder.CreateFromStream at h ⊢
  cases h1 : d.handler_ <;> cases h2 : env.av_mallocz <;> cases h3 : env.avcodec_find_decoder <;>
    cases h4 : env.avcodec_alloc_context3 <;> cases h5 : env.avcodec_parameters_to_context <;>
    cases h6 : env.avcodec_open2 <;> cases h7 : env.av_frame_alloc <;> simp_all

/-- C1: after a successful open with interval `N >= 1`, for every sequence of
decoded frames (non-zero width and height, respectively a zero decode result,
respectively a supported format; the sink hands out a frame and the
allocations succeed), frame `k` is sent to the sink by `VideoFrameCallback`,
by `JpegFrameCallback` and by `FFmpegCpuDecoder::ProcessFrame` exactly when
the decode counter `k` (which wraps at 64 bits) is a multiple of `N`. -/
theorem C1_frame_sampling (K : CnCodecRet) (N : Nat) (hN1 : 1 ≤ N) (hN2 : N < UINT64_MOD)
    (d : MluDecoder) (info : VideoStreamInfo) (cenv : CreateEnv)
    (c : FFmpegCpuDecoder) (cinfo : VideoStreamInfo) (ccenv : CpuCreateEnv)
    (vframes : List (cnvideoDecOutput × FrameEnv)) (jframes : List (cnjpegDecOutput × FrameEnv))
    (cframes : List (AVFrame × CpuFrameEnv))
    (hopen : (d.Create K info N cenv).2 = true) (hh : d.handler_ = true)
    (hout : d.param_.output_type_ ≠ .OUTPUT_INVALID)
    (hcopen : (c.Create cinfo N ccenv).2 = true)
    (hv : ∀ p ∈ vframes, p.1.frame.decoded = true ∧ p.2.good d.param_ = true)
    (hj : ∀ p ∈ jframes, p.1.result = 0 ∧ p.2.good d.param_ = true)
    (hc : ∀ p ∈ cframes, p.1.decoded = true ∧ p.2.good c.param_ = true) :
    (d.Create K info N cenv).1.videoSent vframes =
      some ((List.range vframes.length).map fun k => decide (k % UINT64_MOD % N = 0)) ∧
    (d.Create K info N cenv).1.jpegSent jframes =
      some ((List.range jframes.length).map fun k => decide (k % UINT64_MOD % N = 0)) ∧
    (c.Create cinfo N ccenv).1.sent cframes =
      some ((List.range cframes.length).map fun k => decide (k % UINT64_MOD % N = 0)) := by
  obtain ⟨o1, o2, o3, o4, o5, o6, o7, o8, o9, o10⟩ := Create_success K d info N cenv hopen
  obtain ⟨p1, p2, p3, p4, p5, p6, p7, p8, p9⟩ := CpuCreate_success c cinfo N ccenv hcopen
  have hsz : toSizeT (N : Int) = N := toSizeT_natCast N hN2
  have hl : (d.Create K info N cenv).1.live = true := by
    simp [MluDecoder.live, o5, o6, o7, o8, hh, hout]
  have hflags : ∀ n, sampledFlags N 0 n =
      (List.range n).map fun k => decide (k % UINT64_MOD % N = 0) := by
    intro n; simp [sampledFlags]
  refine ⟨?_, ?_, ?_⟩
  · have := videoSent_live vframes (d.Create K info N cenv).1 hl
      (by rw [o1, hsz]; omega) (by rw [o3]; decide) (by rw [o8]; exact hv)
    rw [this, o1, hsz, o3, hflags]
  · have := jpegSent_live jframes (d.Create K info N cenv).1 hl
      (by rw [o1, hsz]; omega) (by rw [o3]; decide) (by rw [o8]; exact hj)
    rw [this, o1, hsz, o3, hflags]
  · have := cpuSent_live cframes (c.Create cinfo N ccenv).1 p4 p5
      (by rw [p1, hsz]; omega) (by rw [p2]; decide) (by rw [p8]; exact hc)
    rw [this, p1, hsz, p2, hflags]

/-- C1 at a concrete input: interval 3 and nine decoded frames; frames 0, 3 and 6
reach the sink, on each of the three paths. -/
theorem C1_frame_sampling_witness :
    ((MluDecoder.fresh true Scenario.param).Create Scenario.K Scenario.h264 3
        (Scenario.createOk 7)).1.videoSent (Scenario.videoFrames 9) =
      some [true, false, false, true, false, false, true, false, false] ∧
    ((MluDecoder.fresh true Scenario.param).Create Scenario.K Scenario.h264 3
        (Scenario.createOk 7)).1.jpegSent (Scenario.jpegFrames 9) =
      some [true, false, false, true, false, false, true, false, false] ∧
    ((FFmpegCpuDecoder.fresh true Scenario.param).Create Scenario.h264 3
        Scenario.cpuCreateOk).1.sent (Scenario.cpuFrames 9) =
      some [true, false, false, true, false, false, true, false, false] :=
  C1_frame_sampling Scenario.K 3 (by decide) (by decide)
    (MluDecoder.fresh true Scenario.param) Scenario.h264 (Scenario.createOk 7)
    (FFmpegCpuDecoder.fresh true Scenario.param) Scenario.h264 Scenario.cpuCreateOk
    (Scenario.videoFrames 9) (Scenario.jpegFrames 9) (Scenario.cpuFrames 9)
    (by decide) (by decide) (by decide) (by decide) (by decide) (by decide) (by decide)

end CNStream

namespace CNStream

/-! ## Callbacks keep the sessions -/

theorem MluDecoder.evolves_refl (d : MluDecoder) : d.evolves d := by
  simp [MluDecoder.evolves, Call.fromCallback]

theorem MluDecoder.evolves_trans {a b c : MluDecoder} (h1 : a.evolves b) (h2 : b.evolves c) :
    a.evolves c := by
  obtain ⟨a1, a2, a3, a4, a5, a6, a7, l1, a8, a9⟩ := h1
  obtain ⟨b1, b2, b3, b4, b5, b6, b7, l2, b8, b9⟩ := h2
  refine ⟨by simp [*], by simp [*], by simp [*], by simp [*], by simp [*], by simp [*],
    fun h => b7 (a7 h), l1 ++ l2, by simp [b8, a8], ?_⟩
  intro c hc
  rcases List.mem_append.1 hc with h | h
  · exact a9 c h
  · exact b9 c h

theorem processDecodedFrame_evolves (d d1 : MluDecoder) (frame : cncodecFrame) (pts : Nat)
    (env : FrameEnv) (ret : Int) (reused : Bool)
    (h : d.processDecodedFrame frame pts env = some (d1, ret, reused)) : d.evolves d1 := by
  unfold MluDecoder.processDecodedFrame at h
  cases hr : d.param_.reuse_cndec_buf <;> simp only [hr] at h <;> (repeat' split at h) <;>
    simp_all [MluDecoder.evolves, MluDecoder.emit, Call.fromCallback] <;>
    (obtain ⟨rfl, -, -⟩ := h; simp [Call.fromCallback])

end CNStream

namespace CNStream

theorem emit_evolves (d : MluDecoder) (c : Call) (hc : c.fromCallback = true) :
    d.evolves (d.emit c) := by
  simp [MluDecoder.evolves, MluDecoder.emit, hc]

theorem VideoFrameCallback_evolves (d d1 : MluDecoder) (output : cnvideoDecOutput)
    (env : FrameEnv) (h : d.VideoFrameCallback output env = some d1) : d.evolves d1 := by
  unfold MluDecoder.VideoFrameCallback at h
  split at h
  · simp at h; subst h; exact d.evolves_refl
  · split at h
    · simp at h
    · dsimp only at h
      split at h
      · split at h
        · simp at h
        · rename_i d3 ret reused hp
          have h3 := processDecodedFrame_evolves _ _ _ _ _ _ _ hp
          have h0 : d.evolves (MluDecoder.emit
              { d with frame_count_ := (d.frame_count_ + 1) % UINT64_MOD }
              (.cnvideoDecAddReference d.instance_ output.frame.buf)) := by
            simp [MluDecoder.evolves, MluDecoder.emit, Call.fromCallback]
          split at h <;> simp at h <;> subst h
          · exact MluDecoder.evolves_trans (MluDecoder.evolves_trans h0 h3) (emit_evolves _ _ rfl)
          · exact MluDecoder.evolves_trans h0 h3
      · simp at h; subst h; simp [MluDecoder.evolves, Call.fromCallback]

theorem JpegFrameCallback_evolves (d d1 : MluDecoder) (output : cnjpegDecOutput)
    (env : FrameEnv) (h : d.JpegFrameCallback output env = some d1) : d.evolves d1 := by
  unfold MluDecoder.JpegFrameCallback at h
  split at h
  · split at h
    · simp at h
    · split at h
      · simp at h
      · simp at h; subst h; exact d.evolves_refl
      · simp at h; subst h; exact emit_evolves _ _ rfl
  · split at h
    · simp at h
    · dsimp only at h
      split at h
      · split at h
        · simp at h
        · rename_i d3 ret reused hp
          have h3 := processDecodedFrame_evolves _ _ _ _ _ _ _ hp
          have h0 : d.evolves (MluDecoder.emit
              { d with frame_count_ := (d.frame_count_ + 1) % UINT64_MOD }
              (.cnjpegDecAddReference d.jpg_instance_ output.frame.buf)) := by
            simp [MluDecoder.evolves, MluDecoder.emit, Call.fromCallback]
          split at h <;> simp at h <;> subst h
          · exact MluDecoder.evolves_trans (MluDecoder.evolves_trans h0 h3) (emit_evolves _ _ rfl)
          · exact MluDecoder.evolves_trans h0 h3
      · simp at h; subst h; simp [MluDecoder.evolves, Call.fromCallback]

theorem SequenceCallback_evolves (K : CnCodecRet) (d : MluDecoder)
    (pFormat : cnvideoDecSequenceInfo) (flowDepth : Nat) (startRet : Int) :
    d.evolves (d.SequenceCallback K pFormat flowDepth startRet) := by
  unfold MluDecoder.SequenceCallback
  simp only [MluDecoder.evolves, MluDecoder.emit, Call.fromCallback]
  split <;> simp

theorem VideoDecodeCallback_evolves (K : CnCodecRet) (d d1 : MluDecoder) (ev : VideoEvent)
    (ret : Int) (h : VideoDecodeCallback K d ev = some (d1, ret)) : d.evolves d1 := by
  cases ev with
  | CNCODEC_CB_EVENT_NEW_FRAME output env =>
    simp only [VideoDecodeCallback, Option.map_eq_some', Prod.mk.injEq] at h
    obtain ⟨a, ha, rfl, -⟩ := h
    exact VideoFrameCallback_evolves _ _ _ _ ha
  | CNCODEC_CB_EVENT_SEQUENCE pFormat flowDepth startRet =>
    simp only [VideoDecodeCallback, Option.some.injEq, Prod.mk.injEq] at h
    obtain ⟨rfl, -⟩ := h
    exact SequenceCallback_evolves _ _ _ _ _
  | CNCODEC_CB_EVENT_STREAM_CORRUPT a b =>
    simp only [VideoDecodeCallback, MluDecoder.CorruptCallback, Option.some.injEq,
      Prod.mk.injEq] at h
    obtain ⟨rfl, -⟩ := h
    exact d.evolves_refl
  | _ =>
    simp only [VideoDecodeCallback, MluDecoder.VideoEosCallback, MluDecoder.VideoResetCallback,
      Option.map_eq_some', Prod.mk.injEq, Option.some.injEq] at h
    first
      | (obtain ⟨rfl, -⟩ := h; simp [MluDecoder.evolves, Call.fromCallback])
      | (obtain ⟨a, ha, rfl, -⟩ := h
         split at ha <;> simp at ha
         subst ha
         simp [MluDecoder.evolves, MluDecoder.emit, Call.fromCallback])

theorem JpegEventCallback_evolves (d d1 : MluDecoder) (ev : JpegEvent)
    (ret : Int) (h : JpegEventCallback d ev = some (d1, ret)) : d.evolves d1 := by
  cases ev with
  | CNCODEC_CB_EVENT_NEW_FRAME data env =>
    cases data with
    | none =>
      simp only [JpegEventCallback, Option.some.injEq, Prod.mk.injEq] at h
      obtain ⟨rfl, -⟩ := h
      exact d.evolves_refl
    | some output =>
      simp only [JpegEventCallback, Option.map_eq_some', Prod.mk.injEq] at h
      obtain ⟨a, ha, rfl, -⟩ := h
      exact JpegFrameCallback_evolves _ _ _ _ ha
  | _ =>
    simp only [JpegEventCallback, MluDecoder.JpegEosCallback, MluDecoder.JpegResetCallback,
      Option.map_eq_some', Prod.mk.injEq, Option.some.injEq] at h
    first
      | (obtain ⟨rfl, -⟩ := h; simp [MluDecoder.evolves, Call.fromCallback])
      | (obtain ⟨a, ha, rfl, -⟩ := h
         split at ha <;> simp at ha
         subst ha
         simp [MluDecoder.evolves, MluDecoder.emit, Call.fromCallback])

theorem applyEnvEvent_evolves (K : CnCodecRet) (d d1 : MluDecoder) (e : EnvEvent)
    (h : d.applyEnvEvent K e = some d1) : d.evolves d1 := by
  cases e with
  | video ev =>
    simp only [MluDecoder.applyEnvEvent, Option.map_eq_some'] at h
    obtain ⟨⟨a, r⟩, ha, rfl⟩ := h
    exact VideoDecodeCallback_evolves K _ _ _ _ ha
  | jpeg ev =>
    simp only [MluDecoder.applyEnvEvent, Option.map_eq_some'] at h
    obtain ⟨⟨a, r⟩, ha, rfl⟩ := h
    exact JpegEventCallback_evolves _ _ _ _ ha
  | release jpeg buf =>
    simp only [MluDecoder.applyEnvEvent, Option.some.injEq] at h
    subst h
    cases jpeg <;> simp [MluDecoder.releaseBuffer, MluDecoder.evolves, MluDecoder.emit, Call.fromCallback]
  | idle =>
    simp only [MluDecoder.applyEnvEvent, Option.some.injEq] at h
    subst h
    exact d.evolves_refl

theorem waitBufRefs_evolves (K : CnCodecRet) (ys ys1 : List EnvEvent) (d d1 : MluDecoder)
    (h : MluDecoder.waitBufRefs K ys d = some (d1, ys1)) :
    d.evolves d1 ∧ d1.cndec_buf_ref_count_ = 0 := by
  induction ys generalizing d with
  | nil =>
    simp only [MluDecoder.waitBufRefs] at h
    split at h <;> simp at h
    obtain ⟨rfl, -⟩ := h
    exact ⟨d.evolves_refl, by assumption⟩
  | cons e es ih =>
    simp only [MluDecoder.waitBufRefs] at h
    split at h
    · simp at h
      obtain ⟨rfl, -⟩ := h
      exact ⟨d.evolves_refl, by assumption⟩
    · split at h
      · simp at h
      · rename_i d2 he
        have h1 := applyEnvEvent_evolves K _ _ _ he
        have h2 := ih d2 h
        exact ⟨MluDecoder.evolves_trans h1 h2.1, h2.2⟩

theorem waitEosGot_evolves (K : CnCodecRet) (ys ys1 : List EnvEvent) (d d1 : MluDecoder)
    (h : MluDecoder.waitEosGot K ys d = some (d1, ys1)) : d.evolves d1 := by
  induction ys generalizing d with
  | nil =>
    simp only [MluDecoder.waitEosGot] at h
    split at h
    · simp at h; obtain ⟨rfl, -⟩ := h; exact d.evolves_refl
    · split at h <;> simp at h
      obtain ⟨rfl, -⟩ := h; exact d.evolves_refl
  | cons e es ih =>
    simp only [MluDecoder.waitEosGot] at h
    split at h
    · simp at h; obtain ⟨rfl, -⟩ := h; exact d.evolves_refl
    · split at h
      · simp at h
      · rename_i d2 he
        have h1 := applyEnvEvent_evolves K _ _ _ he
        split at h
        · simp at h; obtain ⟨rfl, -⟩ := h; exact h1
        · exact MluDecoder.evolves_trans h1 (ih d2 h)

theorem waitBufRefsOrAbort_evolves (K : CnCodecRet) (ys ys1 : List EnvEvent)
    (d d1 : MluDecoder) (h : MluDecoder.waitBufRefsOrAbort K ys d = some (d1, ys1)) :
    d.evolves d1 := by
  induction ys generalizing d with
  | nil =>
    simp only [MluDecoder.waitBufRefsOrAbort] at h
    split at h
    · simp at h; obtain ⟨rfl, -⟩ := h; exact d.evolves_refl
    · split at h <;> simp at h
      obtain ⟨rfl, -⟩ := h; exact d.evolves_refl
  | cons e es ih =>
    simp only [MluDecoder.waitBufRefsOrAbort] at h
    split at h
    · simp at h; obtain ⟨rfl, -⟩ := h; exact d.evolves_refl
    · split at h
      · simp at h
      · rename_i d2 he
        have h1 := applyEnvEvent_evolves K _ _ _ he
        split at h
        · simp at h; obtain ⟨rfl, -⟩ := h; exact h1
        · exact MluDecoder.evolves_trans h1 (ih d2 h)

end CNStream

namespace CNStream

/-! ## Feed, retry and restart -/

/-- The video retry loop on `n` timeouts in a row with `n` attempts left: `n`
feed calls, and the loop ends without a `return`. -/
theorem videoFeedLoop_timeouts (K : CnCodecRet) (len pts : Nat) (n : Nat) (rest : List Int)
    (d : MluDecoder) :
    MluDecoder.videoFeedLoop K len pts n (List.replicate n (-K.CNCODEC_TIMEOUT) ++ rest) d =
      some ({ d with log := d.log ++
        List.replicate n (.cnvideoDecFeedData d.instance_ false len pts) }, none) := by
  induction n generalizing d with
  | zero => simp [MluDecoder.videoFeedLoop]
  | succ n ih =>
    rw [List.replicate_succ, List.cons_append, MluDecoder.videoFeedLoop]
    simp only [↓reduceIte]
    rw [ih]
    simp [MluDecoder.emit, List.replicate_succ]

/-- The video retry loop when fewer timeouts than attempts come before another
return code: one feed call per timeout and one more, then `return`. -/
theorem videoFeedLoop_answer (K : CnCodecRet) (len pts : Nat) (j n : Nat) (hj : j < n)
    (ret : Int) (hret : ret ≠ -K.CNCODEC_TIMEOUT) (rest : List Int) (d : MluDecoder) :
    MluDecoder.videoFeedLoop K len pts n
        (List.replicate j (-K.CNCODEC_TIMEOUT) ++ ret :: rest) d =
      some ({ d with
          log := d.log ++ List.replicate (j + 1) (.cnvideoDecFeedData d.instance_ false len pts),
          cndec_error_flag_ := if K.CNCODEC_SUCCESS ≠ ret then true else d.cndec_error_flag_ },
        some (decide (K.CNCODEC_SUCCESS = ret))) := by
  induction j generalizing n d with
  | zero =>
    obtain ⟨m, rfl⟩ : ∃ m, n = m + 1 := ⟨n - 1, by omega⟩
    have h1 : ¬ (-K.CNCODEC_TIMEOUT = ret) := fun h => hret h.symm
    by_cases h2 : K.CNCODEC_SUCCESS = ret <;>
      simp [MluDecoder.videoFeedLoop, h1, h2, MluDecoder.emit]
  | succ j ih =>
    obtain ⟨m, rfl⟩ : ∃ m, n = m + 1 := ⟨n - 1, by omega⟩
    rw [List.replicate_succ, List.cons_append, MluDecoder.videoFeedLoop]
    simp only [↓reduceIte]
    rw [ih m (by omega)]
    simp [MluDecoder.emit, List.replicate_succ]

/-- The still-image retry loop on `n` timeouts in a row with `n` attempts left. -/
theorem jpegFeedLoop_timeouts (K : CnCodecRet) (len pts : Nat) (n : Nat) (rest : List Int)
    (d : MluDecoder) :
    MluDecoder.jpegFeedLoop K len pts n (List.replicate n K.CNCODEC_TIMEOUT ++ rest) d =
      some ({ d with log := d.log ++
        List.replicate n (.cnjpegDecFeedData d.jpg_instance_ false len pts) }, none) := by
  induction n generalizing d with
  | zero => simp [MluDecoder.jpegFeedLoop]
  | succ n ih =>
    rw [List.replicate_succ, List.cons_append, MluDecoder.jpegFeedLoop]
    simp only [↓reduceIte]
    rw [ih]
    simp [MluDecoder.emit, List.replicate_succ]

/-- The still-image retry loop when fewer timeouts than attempts come before
another return code. -/
theorem jpegFeedLoop_answer (K : CnCodecRet) (len pts : Nat) (j n : Nat) (hj : j < n)
    (ret : Int) (hret : ret ≠ K.CNCODEC_TIMEOUT) (rest : List Int) (d : MluDecoder) :
    MluDecoder.jpegFeedLoop K len pts n
        (List.replicate j K.CNCODEC_TIMEOUT ++ ret :: rest) d =
      some ({ d with
          log := d.log ++ List.replicate (j + 1) (.cnjpegDecFeedData d.jpg_instance_ false len pts),
          cndec_error_flag_ := if K.CNCODEC_SUCCESS ≠ ret then true else d.cndec_error_flag_ },
        some (decide (K.CNCODEC_SUCCESS = ret))) := by
  induction j generalizing n d with
  | zero =>
    obtain ⟨m, rfl⟩ : ∃ m, n = m + 1 := ⟨n - 1, by omega⟩
    have h1 : ¬ (K.CNCODEC_TIMEOUT = ret) := fun h => hret h.symm
    by_cases h2 : K.CNCODEC_SUCCESS = ret <;>
      simp [MluDecoder.jpegFeedLoop, h1, h2, MluDecoder.emit]
  | succ j ih =>
    obtain ⟨m, rfl⟩ : ∃ m, n = m + 1 := ⟨n - 1, by omega⟩
    rw [List.replicate_succ, List.cons_append, MluDecoder.jpegFeedLoop]
    simp only [↓reduceIte]
    rw [ih m (by omega)]
    simp [MluDecoder.emit, List.replicate_succ]

end CNStream

namespace CNStream

/-- The video data path after three timeouts: once the pending buffers are gone,
`Process` aborts the session, clears the handle and calls `Create` with the
stored stream info and interval; the result of `Create` decides. -/
theorem Process_video_restart (K : CnCodecRet) (d : MluDecoder) (p : ESPacket) (env : ProcessEnv)
    (h : Nat) (rest : List Int) (dw : MluDecoder) (ys : List EnvEvent)
    (ha : d.cndec_abort_flag_ = false) (he : d.cndec_error_flag_ = false)
    (hp : isDataPacket (some p) = true) (hi : d.instance_ = some h)
    (hfeed : env.feed = -K.CNCODEC_TIMEOUT :: -K.CNCODEC_TIMEOUT :: -K.CNCODEC_TIMEOUT :: rest)
    (hwait : MluDecoder.waitBufRefs K env.yields (d.afterVideoTimeouts p) = some (dw, ys)) :
    d.Process K (some p) env =
      (if (dw.afterVideoAbort.Create K d.info_ d.interval_ env.create).2 then
        some ((dw.afterVideoAbort.Create K d.info_ d.interval_ env.create).1, true)
      else if (dw.afterVideoAbort.Create K d.info_ d.interval_ env.create).1.handler_ then
        some ((dw.afterVideoAbort.Create K d.info_ d.interval_ env.create).1.emit .SendFlowEos, false)
      else none) := by
  have hloop := videoFeedLoop_timeouts K (d.videoStreamLength p) p.pts 3 rest d
  simp only [List.replicate, List.cons_append, List.nil_append] at hloop
  have hev := (waitBufRefs_evolves K _ _ _ _ hwait).1
  obtain ⟨e1, e2, e3, e4, e5, e6, e7, e8⟩ := hev
  simp only [MluDecoder.afterVideoTimeouts] at e3 e4
  have hst : (d.afterVideoTimeouts p) = { d with
      log := d.log ++ [.cnvideoDecFeedData d.instance_ false (d.videoStreamLength p) p.pts,
        .cnvideoDecFeedData d.instance_ false (d.videoStreamLength p) p.pts,
        .cnvideoDecFeedData d.instance_ false (d.videoStreamLength p) p.pts],
      cndec_abort_flag_ := true } := by
    simp [MluDecoder.afterVideoTimeouts, List.replicate]
  rw [hst] at hwait
  unfold MluDecoder.Process
  simp only [ha, he, hi, hp, hfeed, Bool.or_self, Bool.false_eq_true, if_false, Option.isSome_some,
    if_true]
  simp only [MluDecoder.videoStreamLength] at hloop hwait
  rw [hloop]
  simp only [hwait]
  have hinfo : (MluDecoder.afterVideoAbort dw).info_ = d.info_ := by
    simp [MluDecoder.afterVideoAbort, MluDecoder.emit, e4]
  have hint : (MluDecoder.afterVideoAbort dw).interval_ = d.interval_ := by
    simp [MluDecoder.afterVideoAbort, MluDecoder.emit, e3]
  rw [← hinfo, ← hint]
  simp only [MluDecoder.afterVideoAbort]
  generalize MluDecoder.Create K _ _ _ env.create = r
  obtain ⟨r1, r2⟩ := r
  cases r2 <;> cases hh : r1.handler_ <;> simp [hh]

/-- The still-image data path after three timeouts: once the pending buffers are gone,
`Process` aborts the session, clears the handle and calls `Create` with the
stored stream info and interval; the result of `Create` decides. -/
theorem Process_jpeg_restart (K : CnCodecRet) (d : MluDecoder) (p : ESPacket) (env : ProcessEnv)
    (h : Nat) (rest : List Int) (dw : MluDecoder) (ys : List EnvEvent)
    (ha : d.cndec_abort_flag_ = false) (he : d.cndec_error_flag_ = false)
    (hp : isDataPacket (some p) = true) (hi0 : d.instance_ = none)
    (hi : d.jpg_instance_ = some h)
    (hfeed : env.feed = K.CNCODEC_TIMEOUT :: K.CNCODEC_TIMEOUT :: K.CNCODEC_TIMEOUT :: rest)
    (hwait : MluDecoder.waitBufRefs K env.yields (d.afterJpegTimeouts p) = some (dw, ys)) :
    d.Process K (some p) env =
      (if (dw.afterJpegAbort.Create K d.info_ d.interval_ env.create).2 then
        some ((dw.afterJpegAbort.Create K d.info_ d.interval_ env.create).1, true)
      else if (dw.afterJpegAbort.Create K d.info_ d.interval_ env.create).1.handler_ then
        some ((dw.afterJpegAbort.Create K d.info_ d.interval_ env.create).1.emit .SendFlowEos, false)
      else none) := by
  have hloop := jpegFeedLoop_timeouts K (d.jpegStreamLength p) p.pts 3 rest d
  simp only [List.replicate, List.cons_append, List.nil_append] at hloop
  have hev := (waitBufRefs_evolves K _ _ _ _ hwait).1
  obtain ⟨e1, e2, e3, e4, e5, e6, e7, e8⟩ := hev
  simp only [MluDecoder.afterJpegTimeouts] at e3 e4
  have hst : (d.afterJpegTimeouts p) = { d with
      log := d.log ++ [.cnjpegDecFeedData d.jpg_instance_ false (d.jpegStreamLength p) p.pts,
        .cnjpegDecFeedData d.jpg_instance_ false (d.jpegStreamLength p) p.pts,
        .cnjpegDecFeedData d.jpg_instance_ false (d.jpegStreamLength p) p.pts],
      cndec_abort_flag_ := true } := by
    simp [MluDecoder.afterJpegTimeouts, List.replicate]
  rw [hst] at hwait
  unfold MluDecoder.Process
  simp only [ha, he, hi0, hi, hp, hfeed, Bool.or_self, Bool.false_eq_true, if_false,
    Option.isSome_some, Option.isSome_none, if_true]
  simp only [MluDecoder.jpegStreamLength] at hloop hwait
  rw [hloop]
  simp only [hwait]
  have hinfo : (MluDecoder.afterJpegAbort dw).info_ = d.info_ := by
    simp [MluDecoder.afterJpegAbort, MluDecoder.emit, e4]
  have hint : (MluDecoder.afterJpegAbort dw).interval_ = d.interval_ := by
    simp [MluDecoder.afterJpegAbort, MluDecoder.emit, e3]
  rw [← hinfo, ← hint]
  simp only [MluDecoder.afterJpegAbort]
  generalize MluDecoder.Create K _ _ _ env.create = r
  obtain ⟨r1, r2⟩ := r
  cases r2 <;> cases hh : r1.handler_ <;> simp [hh]

end CNStream

namespace CNStream

/-- On an EOS packet or a null packet, with the abort and error flags clear,
`Process` makes exactly one feed call, on the video session if there is one
and else on the still-image session; nothing else is called (no abort, no
create), the session handles are unchanged, and when the feed call returns the
code that the path compares with (`-CNCODEC_TIMEOUT` on the video path,
`CNCODEC_TIMEOUT` on the still-image path) `Process` returns false with the
abort flag set. -/
theorem Process_eos_single_feed (K : CnCodecRet) (d : MluDecoder) (pkt : Option ESPacket)
    (env : ProcessEnv) (ret : Int) (rest : List Int)
    (ha : d.cndec_abort_flag_ = false) (he : d.cndec_error_flag_ = false)
    (hp : isDataPacket pkt = false) (hfeed : env.feed = ret :: rest) :
    (∀ h, d.instance_ = some h →
      ∃ d1 b, d.Process K pkt env = some (d1, b) ∧
        d1.log = d.log ++ [.cnvideoDecFeedData (some h) true 0 0] ∧
        d1.instance_ = d.instance_ ∧ d1.jpg_instance_ = d.jpg_instance_ ∧
        (ret = -K.CNCODEC_TIMEOUT → b = false ∧ d1.cndec_abort_flag_ = true)) ∧
    (∀ h, d.instance_ = none → d.jpg_instance_ = some h →
      ∃ d1 b, d.Process K pkt env = some (d1, b) ∧
        d1.log = d.log ++ [.cnjpegDecFeedData (some h) true 0 0] ∧
        d1.instance_ = d.instance_ ∧ d1.jpg_instance_ = d.jpg_instance_ ∧
        (ret = K.CNCODEC_TIMEOUT → b = false ∧ d1.cndec_abort_flag_ = true)) := by
  constructor
  · intro h hi
    unfold MluDecoder.Process
    simp only [ha, he, hi, hfeed, Bool.or_self, Bool.false_eq_true, if_false, Option.isSome_some,
      if_true]
    cases pkt with
    | none =>
      by_cases h1 : -K.CNCODEC_TIMEOUT = ret
      · simp [h1, MluDecoder.emit]
      · have h1' : ¬ ret = -K.CNCODEC_TIMEOUT := fun h => h1 h.symm
        by_cases h2 : K.CNCODEC_SUCCESS = ret <;> simp [h1, h1', h2, MluDecoder.emit]
    | some p =>
      simp only [hp]
      by_cases h1 : -K.CNCODEC_TIMEOUT = ret
      · simp [h1, MluDecoder.emit]
      · have h1' : ¬ ret = -K.CNCODEC_TIMEOUT := fun h => h1 h.symm
        by_cases h2 : K.CNCODEC_SUCCESS = ret <;> simp [h1, h1', h2, MluDecoder.emit]
  · intro h hi0 hi
    unfold MluDecoder.Process
    simp only [ha, he, hi0, hi, hfeed, Bool.or_self, Bool.false_eq_true, if_false,
      Option.isSome_some, Option.isSome_none, if_true]
    cases pkt with
    | none =>
      by_cases h1 : K.CNCODEC_TIMEOUT = ret
      · simp [h1, MluDecoder.emit]
      · have h1' : ¬ ret = K.CNCODEC_TIMEOUT := fun h => h1 h.symm
        by_cases h2 : K.CNCODEC_SUCCESS = ret <;> simp [h1, h1', h2, MluDecoder.emit]
    | some p =>
      simp only [hp]
      by_cases h1 : K.CNCODEC_TIMEOUT = ret
      · simp [h1, MluDecoder.emit]
      · have h1' : ¬ ret = K.CNCODEC_TIMEOUT := fun h => h1 h.symm
        by_cases h2 : K.CNCODEC_SUCCESS = ret <;> simp [h1, h1', h2, MluDecoder.emit]

end CNStream

namespace CNStream

/-- The calls that `Create` makes: no feed, no abort, no sink call, and exactly
one create call when it succeeds (at most one when it fails). -/
theorem Create_log (K : CnCodecRet) (d : MluDecoder) (info : VideoStreamInfo) (interval : Int)
    (env : CreateEnv) :
    ∃ cl, (d.Create K info interval env).1.log = d.log ++ cl ∧
      cl.countP Call.isFeed = 0 ∧ cl.countP Call.isAbort = 0 ∧ cl.countP Call.isSink = 0 ∧
      cl.countP Call.isCreate ≤ 1 ∧
      ((d.Create K info interval env).2 = true → cl.countP Call.isCreate = 1) := by
  unfold MluDecoder.Create
  by_cases hc : info.codec_id = .AV_CODEC_ID_MJPEG
  · simp only [hc, if_true]
    unfold MluDecoder.CreateJpegDecoder
    by_cases h1 : d.jpg_instance_.isSome = true
    · exact ⟨[], by simp [h1]⟩
    · by_cases h2 : (decide (info.codec_width > 7680) || decide (info.codec_height > 4320)) = true
      · exact ⟨[], by simp [h1, h2]⟩
      · refine ⟨[.cnjpegDecCreate], ?_⟩
        by_cases h3 : env.createRet = K.CNCODEC_SUCCESS
        · simp [h1, h2, h3, MluDecoder.emit, Call.isFeed, Call.isAbort, Call.isSink, Call.isCreate]
        · have h3' : ¬ K.CNCODEC_SUCCESS = env.createRet := fun h => h3 h.symm
          simp [h1, h2, h3', MluDecoder.emit, Call.isFeed, Call.isAbort, Call.isSink,
            Call.isCreate]
  · simp only [hc, if_false]
    unfold MluDecoder.CreateVideoDecoder
    by_cases h1 : d.instance_.isSome = true
    · exact ⟨[], by simp [h1]⟩
    · by_cases hv : info.codec_id = .AV_CODEC_ID_H264 ∨ info.codec_id = .AV_CODEC_ID_HEVC
      · by_cases h3 : env.createRet = K.CNCODEC_SUCCESS
        · refine ⟨[.cnvideoDecCreate, .cnvideoDecSetAttributes (some env.handle)
            (if d.param_.apply_stride_align_for_scaler_ then YUV420SP_STRIDE_ALIGN_FOR_SCALER
              else 1)], ?_⟩
          by_cases h4 : env.setAttrRet = K.CNCODEC_SUCCESS
          · rcases hv with hv | hv <;>
              simp [h1, h3, h4, hv, MluDecoder.emit, Call.isFeed, Call.isAbort, Call.isSink,
                Call.isCreate]
          · have h4' : ¬ K.CNCODEC_SUCCESS = env.setAttrRet := fun h => h4 h.symm
            rcases hv with hv | hv <;>
              simp [h1, h3, h4', hv, MluDecoder.emit, Call.isFeed, Call.isAbort, Call.isSink,
                Call.isCreate]
        · refine ⟨[.cnvideoDecCreate], ?_⟩
          have h3' : ¬ K.CNCODEC_SUCCESS = env.createRet := fun h => h3 h.symm
          rcases hv with hv | hv <;>
            simp [h1, h3', hv, MluDecoder.emit, Call.isFeed, Call.isAbort, Call.isSink,
              Call.isCreate]
      · refine ⟨[], ?_⟩
        cases hcodec : info.codec_id <;> simp_all

theorem countP_fromCallback (l : List Call) (h : ∀ c ∈ l, c.fromCallback = true) :
    l.countP Call.isFeed = 0 ∧ l.countP Call.isAbort = 0 ∧ l.countP Call.isCreate = 0 ∧
      l.countP Call.isStopOrDestroy = 0 := by
  induction l with
  | nil => simp
  | cons c l ih =>
    have hc := h c (by simp)
    have := ih (fun c hc => h c (by simp [hc]))
    cases c <;> simp_all [Call.fromCallback, Call.isFeed, Call.isAbort, Call.isCreate,
      Call.isStopOrDestroy]

theorem callsSince_append (a b : List Call) : callsSince a (a ++ b) = b := by
  simp [callsSince]

/-- On a decoder with clear flags and an active session, a feed that the
accelerator accepts at the first attempt makes `Process` return true. -/
theorem Process_accept (K : CnCodecRet) (hK1 : K.CNCODEC_SUCCESS ≠ K.CNCODEC_TIMEOUT)
    (hK2 : K.CNCODEC_SUCCESS ≠ -K.CNCODEC_TIMEOUT) (d : MluDecoder) (pkt : Option ESPacket)
    (env : ProcessEnv) (rest : List Int)
    (ha : d.cndec_abort_flag_ = false) (he : d.cndec_error_flag_ = false)
    (hs : d.instance_.isSome = true ∨ d.jpg_instance_.isSome = true)
    (hfeed : env.feed = K.CNCODEC_SUCCESS :: rest) :
    ∃ d1, d.Process K pkt env = some (d1, true) := by
  have hK1' : ¬ K.CNCODEC_TIMEOUT = K.CNCODEC_SUCCESS := fun h => hK1 h.symm
  have hK2' : ¬ -K.CNCODEC_TIMEOUT = K.CNCODEC_SUCCESS := fun h => hK2 h.symm
  unfold MluDecoder.Process
  by_cases hi : d.instance_.isSome = true
  · simp only [ha, he, hi, hfeed, Bool.or_self, Bool.false_eq_true, if_false, if_true]
    cases pkt with
    | none => simp [hK2']
    | some p =>
      cases hp : isDataPacket (some p)
      · simp [hK2']
      · simp [MluDecoder.videoFeedLoop, hK2']
  · have hj : d.jpg_instance_.isSome = true := by
      rcases hs with h | h
      · exact absurd h hi
      · exact h
    simp only [ha, he, hi, hj, hfeed, Bool.or_self, Bool.false_eq_true, if_false, if_true]
    cases pkt with
    | none => simp [hK1']
    | some p =>
      cases hp : isDataPacket (some p)
      · simp [hK1']
      · simp [MluDecoder.jpegFeedLoop, hK1']

end CNStream

namespace CNStream

theorem Call.not_abort_create_of_isFeed (c : Call) (h : c.isFeed = true) :
    c.isAbort = false ∧ c.isCreate = false := by
  cases c <;> simp_all [Call.isFeed, Call.isAbort, Call.isCreate]

theorem Call.not_feed_create_of_isAbort (c : Call) (h : c.isAbort = true) :
    c.isFeed = false ∧ c.isCreate = false := by
  cases c <;> simp_all [Call.isFeed, Call.isAbort, Call.isCreate]

/-- What a successful restart leaves behind, for either session kind: the state
`dr` in which `Create` was called, and the state `d1` that it returned.  The
calls made since `d` are three feeds, one abort and one create (besides what
callbacks did during the wait); the flags are clear, a session is active, and
the stored stream info and interval are those of `d`. -/
theorem restart_success (K : CnCodecRet) (d dw dr : MluDecoder) (feeds : List Call)
    (abort : Call) (env : CreateEnv)
    (hfeeds : feeds.length = 3 ∧ ∀ c ∈ feeds, c.isFeed = true) (habort : abort.isAbort = true)
    (hdw : ∃ l, dw.log = d.log ++ feeds ++ l ∧ ∀ c ∈ l, c.fromCallback = true)
    (hdr : dr.log = dw.log ++ [abort])
    (hc : (dr.Create K d.info_ d.interval_ env).2 = true) :
    (callsSince d.log (dr.Create K d.info_ d.interval_ env).1.log).countP Call.isFeed = 3 ∧
    (callsSince d.log (dr.Create K d.info_ d.interval_ env).1.log).countP Call.isAbort = 1 ∧
    (callsSince d.log (dr.Create K d.info_ d.interval_ env).1.log).countP Call.isCreate = 1 ∧
    (dr.Create K d.info_ d.interval_ env).1.cndec_abort_flag_ = false ∧
    (dr.Create K d.info_ d.interval_ env).1.cndec_error_flag_ = false ∧
    ((dr.Create K d.info_ d.interval_ env).1.instance_ = some env.handle ∨
      (dr.Create K d.info_ d.interval_ env).1.jpg_instance_ = some env.handle) ∧
    (dr.Create K d.info_ d.interval_ env).1.info_ = d.info_ ∧
    (dr.Create K d.info_ d.interval_ env).1.interval_ = d.interval_ := by
  obtain ⟨o1, o2, o3, o4, o5, o6, o7, o8, o9, o10⟩ := Create_success K dr d.info_ d.interval_ env hc
  obtain ⟨cl, hcl, c1, c2, c3, c4, c5⟩ := Create_log K dr d.info_ d.interval_ env
  obtain ⟨l, hl, hlc⟩ := hdw
  obtain ⟨k1, k2, k3, k4⟩ := countP_fromCallback l hlc
  have hlog : (dr.Create K d.info_ d.interval_ env).1.log =
      d.log ++ (feeds ++ l ++ [abort] ++ cl) := by
    rw [hcl, hdr, hl]; simp
  have hf1 : feeds.countP Call.isFeed = 3 := by
    rw [List.countP_eq_length.2 hfeeds.2]; exact hfeeds.1
  have hf2 : feeds.countP Call.isAbort = 0 := by
    rw [List.countP_eq_zero]
    intro c hc
    simp [(Call.not_abort_create_of_isFeed c (hfeeds.2 c hc)).1]
  have hf3 : feeds.countP Call.isCreate = 0 := by
    rw [List.countP_eq_zero]
    intro c hc
    simp [(Call.not_abort_create_of_isFeed c (hfeeds.2 c hc)).2]
  have ha1 : abort.isFeed = false := (Call.not_feed_create_of_isAbort abort habort).1
  have ha3 : abort.isCreate = false := (Call.not_feed_create_of_isAbort abort habort).2
  refine ⟨?_, ?_, ?_, o5, o6, ?_, o2, o1⟩
  · rw [hlog, callsSince_append]
    simp [List.countP_append, hf1, k1, c1, ha1]
  · rw [hlog, callsSince_append]
    simp [List.countP_append, hf2, k2, c2, habort]
  · rw [hlog, callsSince_append]
    simp [List.countP_append, hf3, k3, c5 hc, ha3]
  · by_cases hm : d.info_.codec_id = .AV_CODEC_ID_MJPEG
    · simp only [hm, if_true] at o10
      exact Or.inr o10.1
    · simp only [hm, if_false] at o10
      exact Or.inl o10.1

end CNStream

namespace CNStream

/-- A data packet is fed to a decoder with clear flags.  If the feed call of the
active session answers three times the code that the path retries on
(`-CNCODEC_TIMEOUT` on the video path, `CNCODEC_TIMEOUT` on the still-image
path), `Process` makes exactly three feed calls, waits for the pending buffers,
aborts the session once and calls `Create` once with the stored stream info
and interval; if that `Create` succeeds, `Process` returns true, the flags are
clear and a session is active, so that a later `Process` whose feed is
accepted returns true.  If that code comes fewer than three times before a
successful feed, `Process` returns true after that many feed calls plus one
and does nothing else. -/
theorem Process_retries_then_restart (K : CnCodecRet)
    (hK1 : K.CNCODEC_SUCCESS ≠ K.CNCODEC_TIMEOUT) (hK2 : K.CNCODEC_SUCCESS ≠ -K.CNCODEC_TIMEOUT)
    (d : MluDecoder) (p : ESPacket) (env : ProcessEnv)
    (ha : d.cndec_abort_flag_ = false) (he : d.cndec_error_flag_ = false)
    (hp : isDataPacket (some p) = true) :
    (∀ h rest dw ys, d.instance_ = some h →
      env.feed = -K.CNCODEC_TIMEOUT :: -K.CNCODEC_TIMEOUT :: -K.CNCODEC_TIMEOUT :: rest →
      MluDecoder.waitBufRefs K env.yields (d.afterVideoTimeouts p) = some (dw, ys) →
      (dw.afterVideoAbort.Create K d.info_ d.interval_ env.create).2 = true →
      ∃ d1, d.Process K (some p) env = some (d1, true) ∧
        d1 = (dw.afterVideoAbort.Create K d.info_ d.interval_ env.create).1 ∧
        d.restartedFrom d1 env.create.handle ∧
        ∀ pkt2 env2 rest2, env2.feed = K.CNCODEC_SUCCESS :: rest2 →
          ∃ d2, d1.Process K pkt2 env2 = some (d2, true)) ∧
    (∀ h rest dw ys, d.instance_ = none → d.jpg_instance_ = some h →
      env.feed = K.CNCODEC_TIMEOUT :: K.CNCODEC_TIMEOUT :: K.CNCODEC_TIMEOUT :: rest →
      MluDecoder.waitBufRefs K env.yields (d.afterJpegTimeouts p) = some (dw, ys) →
      (dw.afterJpegAbort.Create K d.info_ d.interval_ env.create).2 = true →
      ∃ d1, d.Process K (some p) env = some (d1, true) ∧
        d1 = (dw.afterJpegAbort.Create K d.info_ d.interval_ env.create).1 ∧
        d.restartedFrom d1 env.create.handle ∧
        ∀ pkt2 env2 rest2, env2.feed = K.CNCODEC_SUCCESS :: rest2 →
          ∃ d2, d1.Process K pkt2 env2 = some (d2, true)) ∧
    (∀ h j rest, d.instance_ = some h → j < 3 →
      env.feed = List.replicate j (-K.CNCODEC_TIMEOUT) ++ K.CNCODEC_SUCCESS :: rest →
      d.Process K (some p) env = some ({ d with log := (d.log ++ List.replicate (j + 1)
        (Call.cnvideoDecFeedData (some h) false (d.videoStreamLength p) p.pts)) }, true)) ∧
    (∀ h j rest, d.instance_ = none → d.jpg_instance_ = some h → j < 3 →
      env.feed = List.replicate j K.CNCODEC_TIMEOUT ++ K.CNCODEC_SUCCESS :: rest →
      d.Process K (some p) env = some ({ d with log := (d.log ++ List.replicate (j + 1)
        (Call.cnjpegDecFeedData (some h) false (d.jpegStreamLength p) p.pts)) }, true)) := by
  refine ⟨?_, ?_, ?_, ?_⟩
  · intro h rest dw ys hi hfeed hwait hc
    have hP := Process_video_restart K d p env h rest dw ys ha he hp hi hfeed hwait
    rw [if_pos hc] at hP
    obtain ⟨e1, e2, e3, e4, e5, e6, e7, l, e8, e9⟩ := (waitBufRefs_evolves K _ _ _ _ hwait).1
    have hrs := restart_success K d dw dw.afterVideoAbort
      (List.replicate 3 (.cnvideoDecFeedData d.instance_ false (d.videoStreamLength p) p.pts))
      (.cnvideoDecAbort dw.instance_) env.create
      ⟨by simp, by intro c hc; rw [List.eq_of_mem_replicate hc]; rfl⟩ rfl
      ⟨l, by rw [e8]; simp [MluDecoder.afterVideoTimeouts], e9⟩
      (by simp [MluDecoder.afterVideoAbort, MluDecoder.emit]) hc
    refine ⟨_, hP, rfl, hrs, ?_⟩
    intro pkt2 env2 rest2 hfeed2
    obtain ⟨r1, r2, r3, r4, r5, r6, r7, r8⟩ := hrs
    refine Process_accept K hK1 hK2 _ pkt2 env2 rest2 r4 r5 ?_ hfeed2
    rcases r6 with r6 | r6
    · left; rw [r6]; rfl
    · right; rw [r6]; rfl
  · intro h rest dw ys hi0 hi hfeed hwait hc
    have hP := Process_jpeg_restart K d p env h rest dw ys ha he hp hi0 hi hfeed hwait
    rw [if_pos hc] at hP
    obtain ⟨e1, e2, e3, e4, e5, e6, e7, l, e8, e9⟩ := (waitBufRefs_evolves K _ _ _ _ hwait).1
    have hrs := restart_success K d dw dw.afterJpegAbort
      (List.replicate 3 (.cnjpegDecFeedData d.jpg_instance_ false (d.jpegStreamLength p) p.pts))
      (.cnjpegDecAbort dw.jpg_instance_) env.create
      ⟨by simp, by intro c hc; rw [List.eq_of_mem_replicate hc]; rfl⟩ rfl
      ⟨l, by rw [e8]; simp [MluDecoder.afterJpegTimeouts], e9⟩
      (by simp [MluDecoder.afterJpegAbort, MluDecoder.emit]) hc
    refine ⟨_, hP, rfl, hrs, ?_⟩
    intro pkt2 env2 rest2 hfeed2
    obtain ⟨r1, r2, r3, r4, r5, r6, r7, r8⟩ := hrs
    refine Process_accept K hK1 hK2 _ pkt2 env2 rest2 r4 r5 ?_ hfeed2
    rcases r6 with r6 | r6
    · left; rw [r6]; rfl
    · right; rw [r6]; rfl
  · intro h j rest hi hj hfeed
    have hloop := videoFeedLoop_answer K (d.videoStreamLength p) p.pts j 3 hj K.CNCODEC_SUCCESS
      hK2 rest d
    unfold MluDecoder.Process
    simp only [ha, he, hi, hp, hfeed, Bool.or_self, Bool.false_eq_true, if_false,
      Option.isSome_some, if_true]
    simp only [MluDecoder.videoStreamLength] at hloop ⊢
    rw [hloop]
    simp [hi, he, ha]
  · intro h j rest hi0 hi hj hfeed
    have hloop := jpegFeedLoop_answer K (d.jpegStreamLength p) p.pts j 3 hj K.CNCODEC_SUCCESS
      hK1 rest d
    unfold MluDecoder.Process
    simp only [ha, he, hi0, hi, hp, hfeed, Bool.or_self, Bool.false_eq_true, if_false,
      Option.isSome_some, Option.isSome_none, if_true]
    simp only [MluDecoder.jpegStreamLength] at hloop ⊢
    rw [hloop]
    simp [hi, hi0, he, ha]

end CNStream

namespace CNStream

/-- A null packet on an H264 session whose feed call answers `-CNCODEC_TIMEOUT`
and on an MJPEG session whose feed call answers `CNCODEC_TIMEOUT`. -/
theorem Process_eos_single_feed_example :
    (∃ d1 b, Scenario.videoOpen.Process Scenario.K none (Scenario.feedEnv [-3, 0]) = some (d1, b) ∧
        d1.log = Scenario.videoOpen.log ++ [.cnvideoDecFeedData (some 7) true 0 0] ∧
        d1.instance_ = Scenario.videoOpen.instance_ ∧
        d1.jpg_instance_ = Scenario.videoOpen.jpg_instance_ ∧
        ((-3 : Int) = -Scenario.K.CNCODEC_TIMEOUT → b = false ∧ d1.cndec_abort_flag_ = true)) ∧
    (∃ d1 b, Scenario.jpegOpen.Process Scenario.K none (Scenario.feedEnv [3, 0]) = some (d1, b) ∧
        d1.log = Scenario.jpegOpen.log ++ [.cnjpegDecFeedData (some 7) true 0 0] ∧
        d1.instance_ = Scenario.jpegOpen.instance_ ∧
        d1.jpg_instance_ = Scenario.jpegOpen.jpg_instance_ ∧
        ((3 : Int) = Scenario.K.CNCODEC_TIMEOUT → b = false ∧ d1.cndec_abort_flag_ = true)) ∧
    (Scenario.videoOpen.Process Scenario.K none (Scenario.feedEnv [-3, 0])).map
        (fun r => (r.2, r.1.cndec_abort_flag_, callsSince Scenario.videoOpen.log r.1.log)) =
      some (false, true, [.cnvideoDecFeedData (some 7) true 0 0]) :=
  ⟨(Process_eos_single_feed Scenario.K Scenario.videoOpen none (Scenario.feedEnv [-3, 0]) (-3) [0]
      rfl rfl rfl rfl).1 7 rfl,
   (Process_eos_single_feed Scenario.K Scenario.jpegOpen none (Scenario.feedEnv [3, 0]) 3 [0]
      rfl rfl rfl rfl).2 7 rfl rfl,
   by decide⟩

/-- Three answers `-CNCODEC_TIMEOUT` on an H264 session with no pending buffer,
and a restart that gets a session of handle 8; then one such answer followed
by a successful feed. -/
theorem Process_retries_then_restart_example :
    (∃ d1, Scenario.videoOpen.Process Scenario.K (some Scenario.dataPacket)
          (Scenario.feedEnv [-3, -3, -3]) = some (d1, true) ∧
        d1 = ((Scenario.videoOpen.afterVideoTimeouts Scenario.dataPacket).afterVideoAbort.Create
          Scenario.K Scenario.videoOpen.info_ Scenario.videoOpen.interval_
          (Scenario.feedEnv [-3, -3, -3]).create).1 ∧
        Scenario.videoOpen.restartedFrom d1 (Scenario.feedEnv [-3, -3, -3]).create.handle ∧
        ∀ pkt2 env2 rest2, env2.feed = Scenario.K.CNCODEC_SUCCESS :: rest2 →
          ∃ d2, d1.Process Scenario.K pkt2 env2 = some (d2, true)) ∧
    (Scenario.videoOpen.Process Scenario.K (some Scenario.dataPacket)
        (Scenario.feedEnv [-3, -3, -3])).map
        (fun r => (r.2, r.1.instance_, callsSince Scenario.videoOpen.log r.1.log)) =
      some (true, some 8,
        [.cnvideoDecFeedData (some 7) false 100 5, .cnvideoDecFeedData (some 7) false 100 5,
         .cnvideoDecFeedData (some 7) false 100 5, .cnvideoDecAbort (some 7), .cnvideoDecCreate,
         .cnvideoDecSetAttributes (some 8) 1]) ∧
    (Scenario.videoOpen.Process Scenario.K (some Scenario.dataPacket)
        (Scenario.feedEnv [-3, 0])).map
        (fun r => (r.2, r.1.instance_, callsSince Scenario.videoOpen.log r.1.log)) =
      some (true, some 7,
        [.cnvideoDecFeedData (some 7) false 100 5, .cnvideoDecFeedData (some 7) false 100 5]) :=
  ⟨(Process_retries_then_restart Scenario.K (by decide) (by decide) Scenario.videoOpen
      Scenario.dataPacket (Scenario.feedEnv [-3, -3, -3]) rfl rfl rfl).1 7 []
      (Scenario.videoOpen.afterVideoTimeouts Scenario.dataPacket) [] rfl rfl rfl rfl,
   by decide, by decide⟩

end CNStream

namespace CNStream

/-- The function `Create` never changes the sink pointer or the configuration. -/
theorem Create_keeps (K : CnCodecRet) (d : MluDecoder) (info : VideoStreamInfo) (interval : Int)
    (env : CreateEnv) :
    (d.Create K info interval env).1.handler_ = d.handler_ ∧
    (d.Create K info interval env).1.param_ = d.param_ := by
  unfold MluDecoder.Create
  by_cases hc : info.codec_id = .AV_CODEC_ID_MJPEG
  · simp only [hc, if_true]
    unfold MluDecoder.CreateJpegDecoder
    by_cases h1 : d.jpg_instance_.isSome = true
    · simp [h1]
    · by_cases h2 : (decide (info.codec_width > 7680) || decide (info.codec_height > 4320)) = true
      · simp [h1, h2]
      · by_cases h3 : env.createRet = K.CNCODEC_SUCCESS
        · simp [h1, h2, h3, MluDecoder.emit]
        · have h3' : ¬ K.CNCODEC_SUCCESS = env.createRet := fun h => h3 h.symm
          simp [h1, h2, h3', MluDecoder.emit]
  · simp only [hc, if_false]
    unfold MluDecoder.CreateVideoDecoder
    by_cases h1 : d.instance_.isSome = true
    · simp [h1]
    · by_cases hv : info.codec_id = .AV_CODEC_ID_H264 ∨ info.codec_id = .AV_CODEC_ID_HEVC
      · by_cases h3 : env.createRet = K.CNCODEC_SUCCESS
        · by_cases h4 : env.setAttrRet = K.CNCODEC_SUCCESS
          · rcases hv with hv | hv <;> simp [h1, h3, h4, hv, MluDecoder.emit]
          · have h4' : ¬ K.CNCODEC_SUCCESS = env.setAttrRet := fun h => h4 h.symm
            rcases hv with hv | hv <;> simp [h1, h3, h4', hv, MluDecoder.emit]
        · have h3' : ¬ K.CNCODEC_SUCCESS = env.createRet := fun h => h3 h.symm
          rcases hv with hv | hv <;> simp [h1, h3', hv, MluDecoder.emit]
      · cases hcodec : info.codec_id <;> simp_all

/-- When the accelerator's create call fails, `Create` returns false with the
abort and error flags cleared and without a session of the selected kind. -/
theorem Create_call_fails (K : CnCodecRet) (d : MluDecoder) (info : VideoStreamInfo)
    (interval : Int) (env : CreateEnv) (hr : K.CNCODEC_SUCCESS ≠ env.createRet) :
    (info.codec_id = .AV_CODEC_ID_H264 ∨ info.codec_id = .AV_CODEC_ID_HEVC →
      d.instance_ = none →
      (d.Create K info interval env).2 = false ∧
      (d.Create K info interval env).1.cndec_abort_flag_ = false ∧
      (d.Create K info interval env).1.cndec_error_flag_ = false ∧
      (d.Create K info interval env).1.instance_ = none ∧
      (d.Create K info interval env).1.jpg_instance_ = d.jpg_instance_) ∧
    (info.codec_id = .AV_CODEC_ID_MJPEG → info.codec_width ≤ 7680 → info.codec_height ≤ 4320 →
      d.jpg_instance_ = none →
      (d.Create K info interval env).2 = false ∧
      (d.Create K info interval env).1.cndec_abort_flag_ = false ∧
      (d.Create K info interval env).1.cndec_error_flag_ = false ∧
      (d.Create K info interval env).1.jpg_instance_ = none ∧
      (d.Create K info interval env).1.instance_ = d.instance_) := by
  constructor
  · intro hv hi
    have hc : ¬ info.codec_id = .AV_CODEC_ID_MJPEG := by rcases hv with h | h <;> simp [h]
    unfold MluDecoder.Create
    simp only [hc, if_false]
    unfold MluDecoder.CreateVideoDecoder
    rcases hv with hv | hv <;> simp [hi, hv, hr, MluDecoder.emit]
  · intro hc hw hh hi
    have h2 : ¬ (info.codec_width > 7680) := by omega
    have h3 : ¬ (info.codec_height > 4320) := by omega
    unfold MluDecoder.Create
    simp only [hc, if_true]
    unfold MluDecoder.CreateJpegDecoder
    simp [hi, h2, h3, hr, MluDecoder.emit]

/-- Without a session and with clear flags, `Process` returns false, feeds
nothing and changes nothing. -/
theorem Process_no_session (K : CnCodecRet) (d : MluDecoder) (pkt : Option ESPacket)
    (env : ProcessEnv) (h1 : d.instance_ = none) (h2 : d.jpg_instance_ = none) :
    d.Process K pkt env = some (d, false) := by
  unfold MluDecoder.Process
  cases ha : d.cndec_abort_flag_ <;> cases he : d.cndec_error_flag_ <;> simp [h1, h2]

end CNStream

namespace CNStream

@[simp] theorem emit_handler (d : MluDecoder) (c : Call) : (d.emit c).handler_ = d.handler_ := rfl

@[simp] theorem emit_instance (d : MluDecoder) (c : Call) : (d.emit c).instance_ = d.instance_ := rfl

@[simp] theorem emit_jpg_instance (d : MluDecoder) (c : Call) :
    (d.emit c).jpg_instance_ = d.jpg_instance_ := rfl

@[simp] theorem emit_abort_flag (d : MluDecoder) (c : Call) :
    (d.emit c).cndec_abort_flag_ = d.cndec_abort_flag_ := rfl

@[simp] theorem emit_error_flag (d : MluDecoder) (c : Call) :
    (d.emit c).cndec_error_flag_ = d.cndec_error_flag_ := rfl

@[simp] theorem emit_log (d : MluDecoder) (c : Call) : (d.emit c).log = d.log ++ [c] := rfl

theorem count_SendFlowEos_of_countP_isSink (l : List Call) (h : l.countP Call.isSink = 0) :
    l.count .SendFlowEos = 0 := by
  rw [List.count_eq_zero]
  intro hm
  rw [List.countP_eq_zero] at h
  exact h _ hm rfl

/-- C8, as the code has it: when the restart after three feed timeouts fails,
`Process` returns false and its last call is one `SendFlowEos`.  When it is
the accelerator's create call that fails, the create attempt has cleared the
abort and error flags again and the handle of the restarted session is null;
if the other session handle is null too, every later `Process` call returns
false without feeding and without changing the state. -/
theorem C8_restart_failure (K : CnCodecRet) (d : MluDecoder) (p : ESPacket) (env : ProcessEnv)
    (ha : d.cndec_abort_flag_ = false) (he : d.cndec_error_flag_ = false)
    (hp : isDataPacket (some p) = true) (hh : d.handler_ = true) :
    (∀ h rest dw ys, d.instance_ = some h →
      env.feed = -K.CNCODEC_TIMEOUT :: -K.CNCODEC_TIMEOUT :: -K.CNCODEC_TIMEOUT :: rest →
      MluDecoder.waitBufRefs K env.yields (d.afterVideoTimeouts p) = some (dw, ys) →
      (dw.afterVideoAbort.Create K d.info_ d.interval_ env.create).2 = false →
      ∃ d1, d.Process K (some p) env = some (d1, false) ∧
        d1 = (dw.afterVideoAbort.Create K d.info_ d.interval_ env.create).1.emit .SendFlowEos ∧
        flowEosCalls (callsSince dw.log d1.log) = 1 ∧
        (d.info_.codec_id = .AV_CODEC_ID_H264 ∨ d.info_.codec_id = .AV_CODEC_ID_HEVC →
          K.CNCODEC_SUCCESS ≠ env.create.createRet →
          d1.cndec_abort_flag_ = false ∧ d1.cndec_error_flag_ = false ∧ d1.instance_ = none ∧
          (d.jpg_instance_ = none →
            ∀ pkt2 env2, d1.Process K pkt2 env2 = some (d1, false)))) ∧
    (∀ h rest dw ys, d.instance_ = none → d.jpg_instance_ = some h →
      env.feed = K.CNCODEC_TIMEOUT :: K.CNCODEC_TIMEOUT :: K.CNCODEC_TIMEOUT :: rest →
      MluDecoder.waitBufRefs K env.yields (d.afterJpegTimeouts p) = some (dw, ys) →
      (dw.afterJpegAbort.Create K d.info_ d.interval_ env.create).2 = false →
      ∃ d1, d.Process K (some p) env = some (d1, false) ∧
        d1 = (dw.afterJpegAbort.Create K d.info_ d.interval_ env.create).1.emit .SendFlowEos ∧
        flowEosCalls (callsSince dw.log d1.log) = 1 ∧
        (d.info_.codec_id = .AV_CODEC_ID_MJPEG → d.info_.codec_width ≤ 7680 →
          d.info_.codec_height ≤ 4320 → K.CNCODEC_SUCCESS ≠ env.create.createRet →
          d1.cndec_abort_flag_ = false ∧ d1.cndec_error_flag_ = false ∧
          d1.jpg_instance_ = none ∧
          ∀ pkt2 env2, d1.Process K pkt2 env2 = some (d1, false))) := by
  constructor
  · intro h rest dw ys hi hfeed hwait hc
    have hP := Process_video_restart K d p env h rest dw ys ha he hp hi hfeed hwait
    obtain ⟨e1, e2, e3, e4, e5, e6, e7, l, e8, e9⟩ := (waitBufRefs_evolves K _ _ _ _ hwait).1
    have hk := Create_keeps K dw.afterVideoAbort d.info_ d.interval_ env.create
    have hhandler : (dw.afterVideoAbort.Create K d.info_ d.interval_ env.create).1.handler_
        = true := by
      rw [hk.1]; simp [MluDecoder.afterVideoAbort, MluDecoder.emit, e1,
        MluDecoder.afterVideoTimeouts, hh]
    rw [hc, hhandler] at hP
    simp only [Bool.false_eq_true, if_false, if_true] at hP
    obtain ⟨cl, hcl, c1, c2, c3, c4, c5⟩ := Create_log K dw.afterVideoAbort d.info_ d.interval_
      env.create
    refine ⟨_, hP, rfl, ?_, ?_⟩
    · have : ((dw.afterVideoAbort.Create K d.info_ d.interval_ env.create).1.emit
          .SendFlowEos).log = dw.log ++ ([.cnvideoDecAbort dw.instance_] ++ cl ++ [.SendFlowEos]) := by
        rw [emit_log, hcl]
        simp [MluDecoder.afterVideoAbort]
      rw [this, callsSince_append]
      simp [flowEosCalls, List.count_append, count_SendFlowEos_of_countP_isSink cl c3]
    · intro hv hr
      have hdi : dw.afterVideoAbort.instance_ = none := by simp [MluDecoder.afterVideoAbort]
      obtain ⟨f1, f2, f3, f4, f5⟩ :=
        (Create_call_fails K dw.afterVideoAbort d.info_ d.interval_ env.create hr).1 hv hdi
      refine ⟨by rw [emit_abort_flag, f2], by rw [emit_error_flag, f3],
        by rw [emit_instance, f4], ?_⟩
      intro hj pkt2 env2
      apply Process_no_session
      · rw [emit_instance, f4]
      · rw [emit_jpg_instance, f5]
        simp [MluDecoder.afterVideoAbort, e6, MluDecoder.afterVideoTimeouts, hj]
  · intro h rest dw ys hi0 hi hfeed hwait hc
    have hP := Process_jpeg_restart K d p env h rest dw ys ha he hp hi0 hi hfeed hwait
    obtain ⟨e1, e2, e3, e4, e5, e6, e7, l, e8, e9⟩ := (waitBufRefs_evolves K _ _ _ _ hwait).1
    have hk := Create_keeps K dw.afterJpegAbort d.info_ d.interval_ env.create
    have hhandler : (dw.afterJpegAbort.Create K d.info_ d.interval_ env.create).1.handler_
        = true := by
      rw [hk.1]; simp [MluDecoder.afterJpegAbort, MluDecoder.emit, e1,
        MluDecoder.afterJpegTimeouts, hh]
    rw [hc, hhandler] at hP
    simp only [Bool.false_eq_true, if_false, if_true] at hP
    obtain ⟨cl, hcl, c1, c2, c3, c4, c5⟩ := Create_log K dw.afterJpegAbort d.info_ d.interval_
      env.create
    refine ⟨_, hP, rfl, ?_, ?_⟩
    · have : ((dw.afterJpegAbort.Create K d.info_ d.interval_ env.create).1.emit
          .SendFlowEos).log = dw.log ++ ([.cnjpegDecAbort dw.jpg_instance_] ++ cl ++ [.SendFlowEos]) := by
        rw [emit_log, hcl]
        simp [MluDecoder.afterJpegAbort]
      rw [this, callsSince_append]
      simp [flowEosCalls, List.count_append, count_SendFlowEos_of_countP_isSink cl c3]
    · intro hm hw hht hr
      have hdi : dw.afterJpegAbort.jpg_instance_ = none := by simp [MluDecoder.afterJpegAbort]
      obtain ⟨f1, f2, f3, f4, f5⟩ :=
        (Create_call_fails K dw.afterJpegAbort d.info_ d.interval_ env.create hr).2 hm hw hht hdi
      refine ⟨by rw [emit_abort_flag, f2], by rw [emit_error_flag, f3],
        by rw [emit_jpg_instance, f4], ?_⟩
      intro pkt2 env2
      apply Process_no_session
      · rw [emit_instance, f5]
        simp [MluDecoder.afterJpegAbort, e5, MluDecoder.afterJpegTimeouts, hi0]
      · rw [emit_jpg_instance, f4]

/-- C8 is not what the code does: on an H264 session, three feed timeouts
followed by a create call that fails leave the abort flag clear (and no
session); `Process` has returned false and called `SendFlowEos` once. -/
theorem C8_restart_failure_counterexample :
    (Scenario.videoOpen.Process Scenario.K (some Scenario.dataPacket)
        (Scenario.feedEnvNoRestart [-3, -3, -3])).map
        (fun r => (r.2, r.1.cndec_abort_flag_, r.1.cndec_error_flag_, r.1.instance_,
          r.1.jpg_instance_, flowEosCalls (callsSince Scenario.videoOpen.log r.1.log))) =
      some (false, false, false, none, none, 1) := by
  rfl

/-- C8 at a concrete input: the H264 session of the counterexample. -/
theorem C8_restart_failure_witness :
    ∃ d1, Scenario.videoOpen.Process Scenario.K (some Scenario.dataPacket)
        (Scenario.feedEnvNoRestart [-3, -3, -3]) = some (d1, false) ∧
      d1 = ((Scenario.videoOpen.afterVideoTimeouts Scenario.dataPacket).afterVideoAbort.Create
        Scenario.K Scenario.videoOpen.info_ Scenario.videoOpen.interval_
        (Scenario.feedEnvNoRestart [-3, -3, -3]).create).1.emit .SendFlowEos ∧
      flowEosCalls (callsSince
        (Scenario.videoOpen.afterVideoTimeouts Scenario.dataPacket).log d1.log) = 1 ∧
      (Scenario.videoOpen.info_.codec_id = .AV_CODEC_ID_H264 ∨
          Scenario.videoOpen.info_.codec_id = .AV_CODEC_ID_HEVC →
        Scenario.K.CNCODEC_SUCCESS ≠ (Scenario.feedEnvNoRestart [-3, -3, -3]).create.createRet →
        d1.cndec_abort_flag_ = false ∧ d1.cndec_error_flag_ = false ∧ d1.instance_ = none ∧
        (Scenario.videoOpen.jpg_instance_ = none →
          ∀ pkt2 env2, d1.Process Scenario.K pkt2 env2 = some (d1, false))) :=
  (C8_restart_failure Scenario.K Scenario.videoOpen Scenario.dataPacket
    (Scenario.feedEnvNoRestart [-3, -3, -3]) rfl rfl rfl rfl).1 7 []
    (Scenario.videoOpen.afterVideoTimeouts Scenario.dataPacket) [] rfl rfl rfl rfl

end CNStream

namespace CNStream

/-! ## Frame ids -/

theorem sentFrames_sinkCalls (l : List Call) : sentFrames (sinkCalls l) = sentFrames l := by
  induction l with
  | nil => rfl
  | cons c l ih =>
    cases c <;> simp_all [sinkCalls, sentFrames, Call.isSink, List.filter]

theorem sentFrames_map (descs : List CNFrameInfo) :
    sentFrames (descs.map Call.SendFrameInfo) = descs := by
  induction descs with
  | nil => rfl
  | cons a l ih => simp [sentFrames, ih]

theorem sentFrames_of_sinkCalls (a b : List Call) (descs : List CNFrameInfo)
    (h : sinkCalls a = sinkCalls b ++ descs.map Call.SendFrameInfo) :
    sentFrames a = sentFrames b ++ descs := by
  rw [← sentFrames_sinkCalls a, h, sentFrames_append, sentFrames_sinkCalls, sentFrames_map]

theorem cpuSentFrames_sinkCalls (l : List CpuCall) :
    cpuSentFrames (cpuSinkCalls l) = cpuSentFrames l := by
  induction l with
  | nil => rfl
  | cons c l ih =>
    cases c <;> simp_all [cpuSinkCalls, cpuSentFrames, CpuCall.isSink, List.filter]

theorem cpuSentFrames_map (descs : List CNFrameInfo) :
    cpuSentFrames (descs.map CpuCall.SendFrameInfo) = descs := by
  induction descs with
  | nil => rfl
  | cons a l ih => simp [cpuSentFrames, ih]

theorem filterMap_of_map_some {α β : Type} (f : α → Option β) (l : List α) (m : List β)
    (h : l.map f = m.map some) : l.filterMap f = m := by
  induction l generalizing m with
  | nil =>
    cases m with
    | nil => rfl
    | cons b m => simp at h
  | cons a l ih =>
    cases m with
    | nil => simp at h
    | cons b m =>
      simp only [List.map_cons, List.cons.injEq] at h
      simp [List.filterMap_cons, h.1, ih m h.2]

/-- Frame ids handed out from zero without reaching the 64-bit limit. -/
theorem ids_from_zero (n : Nat) (hn : n ≤ UINT64_MOD) :
    (List.range n).map (fun i => some ((0 + i) % UINT64_MOD)) = (List.range n).map some := by
  apply List.map_congr_left
  intro i hi
  have : i < n := List.mem_range.1 hi
  simp only [Nat.zero_add]
  rw [Nat.mod_eq_of_lt (by omega)]

/-- Within one session of the hardware decoder: starting with the frame-id
counter at zero, the descriptors sent for any sequence of decoded video frames
carry the ids `0, 1, ..., n - 1` in delivery order, and nothing else goes to
the sink. -/
theorem video_session_ids (frames : List (cnvideoDecOutput × FrameEnv)) (d : MluDecoder)
    (hl : d.live = true) (hN : toSizeT d.interval_ ≠ 0) (hcnt : d.frame_count_ < UINT64_MOD)
    (hid : d.frame_id_ = 0) (hlen : frames.length ≤ UINT64_MOD)
    (hfs : ∀ p ∈ frames, p.1.frame.decoded = true ∧ p.2.good d.param_ = true) :
    ∃ (d1 : MluDecoder) (descs : List CNFrameInfo),
      d.videoFrames frames = some d1 ∧ d.sameSession d1 ∧
      sinkCalls d1.log = sinkCalls d.log ++ descs.map Call.SendFrameInfo ∧
      sentFrameIds d1.log = sentFrameIds d.log ++ List.range descs.length ∧
      descs.length ≤ frames.length := by
  obtain ⟨d1, descs, h1, h2, h3, h4, h5, h6, h7⟩ :=
    videoFrames_live frames d hl hN hcnt (by rw [hid]; decide) hfs
  refine ⟨d1, descs, h1, h2, h6, ?_, h5⟩
  rw [hid, ids_from_zero _ (by omega)] at h7
  unfold sentFrameIds
  rw [sentFrames_of_sinkCalls _ _ _ h6, List.filterMap_append]
  congr 1
  exact filterMap_of_map_some _ _ _ h7

/-- Within one session of the hardware decoder, for still images. -/
theorem jpeg_session_ids (frames : List (cnjpegDecOutput × FrameEnv)) (d : MluDecoder)
    (hl : d.live = true) (hN : toSizeT d.interval_ ≠ 0) (hcnt : d.frame_count_ < UINT64_MOD)
    (hid : d.frame_id_ = 0) (hlen : frames.length ≤ UINT64_MOD)
    (hfs : ∀ p ∈ frames, p.1.result = 0 ∧ p.2.good d.param_ = true) :
    ∃ (d1 : MluDecoder) (descs : List CNFrameInfo),
      d.jpegFrames frames = some d1 ∧ d.sameSession d1 ∧
      sinkCalls d1.log = sinkCalls d.log ++ descs.map Call.SendFrameInfo ∧
      sentFrameIds d1.log = sentFrameIds d.log ++ List.range descs.length ∧
      descs.length ≤ frames.length := by
  obtain ⟨d1, descs, h1, h2, h3, h4, h5, h6, h7⟩ :=
    jpegFrames_live frames d hl hN hcnt (by rw [hid]; decide) hfs
  refine ⟨d1, descs, h1, h2, h6, ?_, h5⟩
  rw [hid, ids_from_zero _ (by omega)] at h7
  unfold sentFrameIds
  rw [sentFrames_of_sinkCalls _ _ _ h6, List.filterMap_append]
  congr 1
  exact filterMap_of_map_some _ _ _ h7

end CNStream

namespace CNStream

/-- Frame ids handed out from `id` without reaching the 64-bit limit. -/
theorem ids_from (id n : Nat) (hn : id + n ≤ UINT64_MOD) :
    (List.range n).map (fun i => some ((id + i) % UINT64_MOD)) =
      ((List.range n).map (id + ·)).map some := by
  rw [List.map_map]
  apply List.map_congr_left
  intro i hi
  have : i < n := List.mem_range.1 hi
  simp only [Function.comp]
  rw [Nat.mod_eq_of_lt (by omega)]

theorem pairwise_lt_ids (id n : Nat) : ((List.range n).map (id + ·)).Pairwise (· < ·) :=
  (List.pairwise_lt_range n).map _ (fun _ _ h => Nat.add_lt_add_left h id)

/-- Inside a session of the hardware decoder: the descriptors sent for a
sequence of decoded video frames carry consecutive ids starting at the
frame-id counter. -/
theorem video_ids_from (frames : List (cnvideoDecOutput × FrameEnv)) (d : MluDecoder)
    (hl : d.live = true) (hN : toSizeT d.interval_ ≠ 0) (hcnt : d.frame_count_ < UINT64_MOD)
    (hlen : d.frame_id_ + frames.length ≤ UINT64_MOD)
    (hfs : ∀ p ∈ frames, p.1.frame.decoded = true ∧ p.2.good d.param_ = true) :
    ∃ (d1 : MluDecoder) (ids : List Nat),
      d.videoFrames frames = some d1 ∧
      sentFrameIds d1.log = sentFrameIds d.log ++ ids ∧
      ids = (List.range ids.length).map (d.frame_id_ + ·) ∧ ids.Pairwise (· < ·) := by
  by_cases hnil : frames = []
  · subst hnil
    exact ⟨d, [], rfl, by simp, by simp, by simp⟩
  · have hpos : 0 < frames.length := List.length_pos.2 hnil
    obtain ⟨d1, descs, h1, h2, h3, h4, h5, h6, h7⟩ :=
      videoFrames_live frames d hl hN hcnt (by omega) hfs
    refine ⟨d1, (List.range descs.length).map (d.frame_id_ + ·), h1, ?_, by simp,
      pairwise_lt_ids _ _⟩
    rw [ids_from _ _ (by omega)] at h7
    unfold sentFrameIds
    rw [sentFrames_of_sinkCalls _ _ _ h6, List.filterMap_append]
    congr 1
    exact filterMap_of_map_some _ _ _ h7

/-- Inside a session of the hardware decoder, for still images. -/
theorem jpeg_ids_from (frames : List (cnjpegDecOutput × FrameEnv)) (d : MluDecoder)
    (hl : d.live = true) (hN : toSizeT d.interval_ ≠ 0) (hcnt : d.frame_count_ < UINT64_MOD)
    (hlen : d.frame_id_ + frames.length ≤ UINT64_MOD)
    (hfs : ∀ p ∈ frames, p.1.result = 0 ∧ p.2.good d.param_ = true) :
    ∃ (d1 : MluDecoder) (ids : List Nat),
      d.jpegFrames frames = some d1 ∧
      sentFrameIds d1.log = sentFrameIds d.log ++ ids ∧
      ids = (List.range ids.length).map (d.frame_id_ + ·) ∧ ids.Pairwise (· < ·) := by
  by_cases hnil : frames = []
  · subst hnil
    exact ⟨d, [], rfl, by simp, by simp, by simp⟩
  · have hpos : 0 < frames.length := List.length_pos.2 hnil
    obtain ⟨d1, descs, h1, h2, h3, h4, h5, h6, h7⟩ :=
      jpegFrames_live frames d hl hN hcnt (by omega) hfs
    refine ⟨d1, (List.range descs.length).map (d.frame_id_ + ·), h1, ?_, by simp,
      pairwise_lt_ids _ _⟩
    rw [ids_from _ _ (by omega)] at h7
    unfold sentFrameIds
    rw [sentFrames_of_sinkCalls _ _ _ h6, List.filterMap_append]
    congr 1
    exact filterMap_of_map_some _ _ _ h7

/-- C2 is not what the code does: an H264 session sends two frames (ids 0 and
1), three feed timeouts make `Process` restart the session with success, and
the next frame is sent with id 0 again. -/
theorem C2_restart_resets_frame_id_counterexample :
    (MluDecoder.run Scenario.K
        [.Create Scenario.h264 1 (Scenario.createOk 7),
         .videoEvent (.CNCODEC_CB_EVENT_NEW_FRAME (Scenario.videoOut 0) Scenario.frameEnv),
         .videoEvent (.CNCODEC_CB_EVENT_NEW_FRAME (Scenario.videoOut 1) Scenario.frameEnv),
         .Process (some Scenario.dataPacket) (Scenario.feedEnv [-3, -3, -3]),
         .videoEvent (.CNCODEC_CB_EVENT_NEW_FRAME (Scenario.videoOut 2) Scenario.frameEnv)]
        (MluDecoder.fresh true Scenario.param)).map
        (fun d => (sentFrameIds d.log, d.instance_, d.log.countP Call.isCreate)) =
      some ([0, 1, 0], some 8, 2) := by
  rfl

/-- C2, as the code has it: inside a session the descriptors sent to the sink
carry consecutive frame ids starting at the frame-id counter, hence strictly
increasing ones (as long as the 64-bit counter does not wrap).  A restart
inside `Process` (three feed timeouts on a data packet, then a successful
`Create`) keeps the stored stream info and interval but sets the frame-id
counter and the decode counter to zero; the descriptors sent after it carry
the ids `0, 1, 2, ...` again. -/
theorem C2_frame_ids_restart (K : CnCodecRet) (d : MluDecoder) (p : ESPacket) (env : ProcessEnv)
    (ha : d.cndec_abort_flag_ = false) (he : d.cndec_error_flag_ = false)
    (hp : isDataPacket (some p) = true) (hh : d.handler_ = true)
    (hout : d.param_.output_type_ ≠ .OUTPUT_INVALID) (hN : toSizeT d.interval_ ≠ 0) :
    (∀ frames : List (cnvideoDecOutput × FrameEnv), d.frame_count_ < UINT64_MOD →
      d.frame_id_ + frames.length ≤ UINT64_MOD →
      (∀ q ∈ frames, q.1.frame.decoded = true ∧ q.2.good d.param_ = true) →
      ∃ d2 ids, d.videoFrames frames = some d2 ∧
        sentFrameIds d2.log = sentFrameIds d.log ++ ids ∧
        ids = (List.range ids.length).map (d.frame_id_ + ·) ∧ ids.Pairwise (· < ·)) ∧
    (∀ frames : List (cnjpegDecOutput × FrameEnv), d.frame_count_ < UINT64_MOD →
      d.frame_id_ + frames.length ≤ UINT64_MOD →
      (∀ q ∈ frames, q.1.result = 0 ∧ q.2.good d.param_ = true) →
      ∃ d2 ids, d.jpegFrames frames = some d2 ∧
        sentFrameIds d2.log = sentFrameIds d.log ++ ids ∧
        ids = (List.range ids.length).map (d.frame_id_ + ·) ∧ ids.Pairwise (· < ·)) ∧
    (∀ h rest dw ys, d.instance_ = some h →
      env.feed = -K.CNCODEC_TIMEOUT :: -K.CNCODEC_TIMEOUT :: -K.CNCODEC_TIMEOUT :: rest →
      MluDecoder.waitBufRefs K env.yields (d.afterVideoTimeouts p) = some (dw, ys) →
      (dw.afterVideoAbort.Create K d.info_ d.interval_ env.create).2 = true →
      ∃ d1, d.Process K (some p) env = some (d1, true) ∧
        d1.frame_id_ = 0 ∧ d1.frame_count_ = 0 ∧ d1.info_ = d.info_ ∧
        d1.interval_ = d.interval_ ∧
        ∀ frames : List (cnvideoDecOutput × FrameEnv), frames.length ≤ UINT64_MOD →
          (∀ q ∈ frames, q.1.frame.decoded = true ∧ q.2.good d.param_ = true) →
          ∃ d2 ids, d1.videoFrames frames = some d2 ∧
            sentFrameIds d2.log = sentFrameIds d1.log ++ ids ∧
            ids = List.range ids.length ∧ ids.Pairwise (· < ·)) ∧
    (∀ h rest dw ys, d.instance_ = none → d.jpg_instance_ = some h →
      env.feed = K.CNCODEC_TIMEOUT :: K.CNCODEC_TIMEOUT :: K.CNCODEC_TIMEOUT :: rest →
      MluDecoder.waitBufRefs K env.yields (d.afterJpegTimeouts p) = some (dw, ys) →
      (dw.afterJpegAbort.Create K d.info_ d.interval_ env.create).2 = true →
      ∃ d1, d.Process K (some p) env = some (d1, true) ∧
        d1.frame_id_ = 0 ∧ d1.frame_count_ = 0 ∧ d1.info_ = d.info_ ∧
        d1.interval_ = d.interval_ ∧
        ∀ frames : List (cnjpegDecOutput × FrameEnv), frames.length ≤ UINT64_MOD →
          (∀ q ∈ frames, q.1.result = 0 ∧ q.2.good d.param_ = true) →
          ∃ d2 ids, d1.jpegFrames frames = some d2 ∧
            sentFrameIds d2.log = sentFrameIds d1.log ++ ids ∧
            ids = List.range ids.length ∧ ids.Pairwise (· < ·)) := by
  have hlive : d.live = true := by simp [MluDecoder.live, hh, ha, he, hout]
  refine ⟨fun frames hcnt hlen hfs => video_ids_from frames d hlive hN hcnt hlen hfs,
    fun frames hcnt hlen hfs => jpeg_ids_from frames d hlive hN hcnt hlen hfs, ?_, ?_⟩
  · intro h rest dw ys hi hfeed hwait hc
    have hP := Process_video_restart K d p env h rest dw ys ha he hp hi hfeed hwait
    rw [if_pos hc] at hP
    obtain ⟨e1, e2, e3, e4, e5, e6, e7, l, e8, e9⟩ := (waitBufRefs_evolves K _ _ _ _ hwait).1
    obtain ⟨o1, o2, o3, o4, o5, o6, o7, o8, o9, o10⟩ :=
      Create_success K dw.afterVideoAbort d.info_ d.interval_ env.create hc
    have hparam : (dw.afterVideoAbort.Create K d.info_ d.interval_ env.create).1.param_
        = d.param_ := by
      rw [o8]; simp [MluDecoder.afterVideoAbort, MluDecoder.emit, e2,
        MluDecoder.afterVideoTimeouts]
    have hhand : (dw.afterVideoAbort.Create K d.info_ d.interval_ env.create).1.handler_
        = true := by
      rw [o7]; simp [MluDecoder.afterVideoAbort, MluDecoder.emit, e1,
        MluDecoder.afterVideoTimeouts, hh]
    refine ⟨_, hP, o4, o3, o2, o1, ?_⟩
    intro frames hlen hfs
    have hlive : (dw.afterVideoAbort.Create K d.info_ d.interval_ env.create).1.live = true := by
      simp [MluDecoder.live, hhand, o5, o6, hparam, hout]
    obtain ⟨d2, descs, g1, g2, g3, g4, g5⟩ := video_session_ids frames _ hlive
      (by rw [o1]; exact hN) (by rw [o3]; decide) o4 hlen (by rw [hparam]; exact hfs)
    exact ⟨d2, List.range descs.length, g1, g4, by simp, List.pairwise_lt_range _⟩
  · intro h rest dw ys hi0 hi hfeed hwait hc
    have hP := Process_jpeg_restart K d p env h rest dw ys ha he hp hi0 hi hfeed hwait
    rw [if_pos hc] at hP
    obtain ⟨e1, e2, e3, e4, e5, e6, e7, l, e8, e9⟩ := (waitBufRefs_evolves K _ _ _ _ hwait).1
    obtain ⟨o1, o2, o3, o4, o5, o6, o7, o8, o9, o10⟩ :=
      Create_success K dw.afterJpegAbort d.info_ d.interval_ env.create hc
    have hparam : (dw.afterJpegAbort.Create K d.info_ d.interval_ env.create).1.param_
        = d.param_ := by
      rw [o8]; simp [MluDecoder.afterJpegAbort, MluDecoder.emit, e2,
        MluDecoder.afterJpegTimeouts]
    have hhand : (dw.afterJpegAbort.Create K d.info_ d.interval_ env.create).1.handler_
        = true := by
      rw [o7]; simp [MluDecoder.afterJpegAbort, MluDecoder.emit, e1,
        MluDecoder.afterJpegTimeouts, hh]
    refine ⟨_, hP, o4, o3, o2, o1, ?_⟩
    intro frames hlen hfs
    have hlive : (dw.afterJpegAbort.Create K d.info_ d.interval_ env.create).1.live = true := by
      simp [MluDecoder.live, hhand, o5, o6, hparam, hout]
    obtain ⟨d2, descs, g1, g2, g3, g4, g5⟩ := jpeg_session_ids frames _ hlive
      (by rw [o1]; exact hN) (by rw [o3]; decide) o4 hlen (by rw [hparam]; exact hfs)
    exact ⟨d2, List.range descs.length, g1, g4, by simp, List.pairwise_lt_range _⟩

end CNStream

namespace CNStream

/-- C2 at a concrete input: the H264 session of the counterexample. -/
theorem C2_frame_ids_restart_witness :
    ∃ d1, Scenario.videoOpen.Process Scenario.K (some Scenario.dataPacket)
        (Scenario.feedEnv [-3, -3, -3]) = some (d1, true) ∧
      d1.frame_id_ = 0 ∧ d1.frame_count_ = 0 ∧ d1.info_ = Scenario.videoOpen.info_ ∧
      d1.interval_ = Scenario.videoOpen.interval_ ∧
      ∀ frames : List (cnvideoDecOutput × FrameEnv), frames.length ≤ UINT64_MOD →
        (∀ q ∈ frames, q.1.frame.decoded = true ∧
          q.2.good Scenario.videoOpen.param_ = true) →
        ∃ d2 ids, d1.videoFrames frames = some d2 ∧
          sentFrameIds d2.log = sentFrameIds d1.log ++ ids ∧
          ids = List.range ids.length ∧ ids.Pairwise (· < ·) :=
  (C2_frame_ids_restart Scenario.K Scenario.videoOpen Scenario.dataPacket
    (Scenario.feedEnv [-3, -3, -3]) rfl rfl rfl rfl (by decide) (by decide)).2.2.1 7 []
    (Scenario.videoOpen.afterVideoTimeouts Scenario.dataPacket) [] rfl rfl rfl rfl

end CNStream

namespace CNStream

/-- Effect of the drain loop of the software decoder: every buffered frame is
given to `ProcessFrame`, in order, and the loop ends. -/
theorem flushLoop_live (frames : List (AVFrame × CpuFrameEnv)) (d : FFmpegCpuDecoder)
    (hh : d.handler_ = true) (hi : d.instance_ = true) (hN : toSizeT d.interval_ ≠ 0)
    (hcnt : d.frame_count_ < UINT64_MOD) (hid : d.frame_id_ < UINT64_MOD)
    (hfs : ∀ p ∈ frames, p.1.decoded = true ∧ p.2.good d.param_ = true) :
    ∃ (d1 : FFmpegCpuDecoder) (descs : List CNFrameInfo),
      FFmpegCpuDecoder.flushLoop frames d = some d1 ∧ d.sameSession d1 ∧
      d1.frame_id_ = (d.frame_id_ + descs.length) % UINT64_MOD ∧
      descs.length ≤ frames.length ∧
      cpuSinkCalls d1.log = cpuSinkCalls d.log ++ descs.map CpuCall.SendFrameInfo ∧
      descs.map (fun data => data.dataframe.map (·.frame_id)) =
        (List.range descs.length).map (fun i => some ((d.frame_id_ + i) % UINT64_MOD)) := by
  induction frames generalizing d with
  | nil =>
    refine ⟨d.emit (.avcodec_decode_video2 true), [], rfl, ?_, ?_, by simp, ?_, by simp⟩
    · simp [FFmpegCpuDecoder.sameSession, FFmpegCpuDecoder.emit]
    · simp [FFmpegCpuDecoder.emit, Nat.mod_eq_of_lt hid]
    · simp [FFmpegCpuDecoder.emit, cpuSinkCalls, List.filter_append, CpuCall.isSink]
  | cons p frames ih =>
    obtain ⟨frame, env⟩ := p
    have hp := hfs (frame, env) (by simp)
    have hss0 : d.sameSession (d.emit (.avcodec_decode_video2 true)) := by
      simp [FFmpegCpuDecoder.sameSession, FFmpegCpuDecoder.emit]
    have hlog0 : cpuSinkCalls (d.emit (.avcodec_decode_video2 true)).log = cpuSinkCalls d.log := by
      simp [FFmpegCpuDecoder.emit, cpuSinkCalls, List.filter_append, CpuCall.isSink]
    obtain ⟨d1, hstep, hss, hc1, hsent, hskip⟩ :=
      CpuProcessFrame_live (d.emit (.avcodec_decode_video2 true)) frame env hh hi hN hp.1 hp.2
    have hss' := FFmpegCpuDecoder.cpuSameSession_trans hss0 hss
    have hh1 : d1.handler_ = true := by rw [hss'.1]; exact hh
    have hi1 : d1.instance_ = true := by rw [hss'.2.2.2.1]; exact hi
    have hN1 : toSizeT d1.interval_ ≠ 0 := by rw [hss'.2.2.1]; exact hN
    have hcnt1 : d1.frame_count_ < UINT64_MOD := by
      rw [hc1]; exact Nat.mod_lt _ (by decide)
    have hfs1 : ∀ p ∈ frames, p.1.decoded = true ∧ p.2.good d1.param_ = true := by
      intro q hq
      rw [hss'.2.1]
      exact hfs q (by simp [hq])
    have hfid0 : (d.emit (.avcodec_decode_video2 true)).frame_id_ = d.frame_id_ := rfl
    have hcnt0 : (d.emit (.avcodec_decode_video2 true)).frame_count_ = d.frame_count_ := rfl
    have hint0 : (d.emit (.avcodec_decode_video2 true)).interval_ = d.interval_ := rfl
    rw [hfid0, hcnt0, hint0, hlog0] at hsent
    rw [hfid0, hcnt0, hint0] at hskip
    by_cases hc : d.frame_count_ % toSizeT d.interval_ = 0
    · obtain ⟨data, df, hlog, hts, hdf, hfid, hid1⟩ := hsent hc
      have hid1' : d1.frame_id_ < UINT64_MOD := by
        rw [hid1]; exact Nat.mod_lt _ (by decide)
      obtain ⟨d2, descs, hrun, hss2, hi2, hlen2, hlog2, hids2⟩ :=
        ih d1 hh1 hi1 hN1 hcnt1 hid1' hfs1
      refine ⟨d2, data :: descs, ?_, FFmpegCpuDecoder.cpuSameSession_trans hss' hss2,
        ?_, ?_, ?_, ?_⟩
      · simp [FFmpegCpuDecoder.flushLoop, hstep, hrun]
      · rw [hi2, hid1]; simp only [UINT64_MOD, List.length_cons]; omega
      · simp only [List.length_cons]; omega
      · rw [hlog2, hlog]; simp
      · rw [List.map_cons, hids2, hdf, hid1, List.length_cons]
        simp only [Option.map_some', hfid]
        have := range_ids_succ d.frame_id_ descs.length hid
        have h2 := congrArg (List.map some) this
        simpa [Function.comp] using h2
    · obtain ⟨hlog, hid1⟩ := hskip hc
      have hid1' : d1.frame_id_ < UINT64_MOD := by rw [hid1]; exact hid
      obtain ⟨d2, descs, hrun, hss2, hi2, hlen2, hlog2, hids2⟩ :=
        ih d1 hh1 hi1 hN1 hcnt1 hid1' hfs1
      refine ⟨d2, descs, ?_, FFmpegCpuDecoder.cpuSameSession_trans hss' hss2, ?_, ?_, ?_, ?_⟩
      · simp [FFmpegCpuDecoder.flushLoop, hstep, hrun]
      · rw [hi2, hid1]
      · simp only [List.length_cons]; omega
      · rw [hlog2, hlog, hlog0]
      · rw [hids2, hid1]

end CNStream

namespace CNStream

/-- C3: one session, from a successful open with interval `N >= 1` to the EOS,
without restart.  On the hardware decoder the decoded frames are delivered to
`VideoFrameCallback` (or `JpegFrameCallback`) and then the EOS callback runs;
on the software decoder the frames are given to `ProcessFrame` and then
`Process` is called with `eos`, which drains the frames still buffered.  In
each case the sink receives the `n` forwarded descriptors, with the frame ids
`0, 1, ..., n - 1` in this order whatever the sampling skipped, and after them
one `SendFlowEos`. -/
theorem C3_session_ids_then_eos (K : CnCodecRet) (N : Nat) (hN1 : 1 ≤ N) (hN2 : N < UINT64_MOD)
    (d : MluDecoder) (info : VideoStreamInfo) (cenv : CreateEnv)
    (c : FFmpegCpuDecoder) (cinfo : VideoStreamInfo) (ccenv : CpuCreateEnv)
    (vframes : List (cnvideoDecOutput × FrameEnv)) (jframes : List (cnjpegDecOutput × FrameEnv))
    (cframes : List (AVFrame × CpuFrameEnv)) (eosEnv : CpuProcessEnv)
    (hopen : (d.Create K info N cenv).2 = true) (hh : d.handler_ = true)
    (hout : d.param_.output_type_ ≠ .OUTPUT_INVALID)
    (hcopen : (c.Create cinfo N ccenv).2 = true)
    (hv : ∀ p ∈ vframes, p.1.frame.decoded = true ∧ p.2.good d.param_ = true)
    (hj : ∀ p ∈ jframes, p.1.result = 0 ∧ p.2.good d.param_ = true)
    (hc : ∀ p ∈ cframes, p.1.decoded = true ∧ p.2.good c.param_ = true)
    (hfl : ∀ p ∈ eosEnv.flushed, p.1.decoded = true ∧ p.2.good c.param_ = true)
    (hvlen : vframes.length ≤ UINT64_MOD) (hjlen : jframes.length ≤ UINT64_MOD)
    (hclen : cframes.length + eosEnv.flushed.length ≤ UINT64_MOD) :
    (∃ (d1 d2 : MluDecoder) (descs : List CNFrameInfo),
      (d.Create K info N cenv).1.videoFrames vframes = some d1 ∧
      d1.VideoEosCallback = some d2 ∧
      sinkCalls d2.log = sinkCalls d.log ++ descs.map Call.SendFrameInfo ++ [.SendFlowEos] ∧
      descs.map (fun data => data.dataframe.map (·.frame_id)) =
        (List.range descs.length).map some) ∧
    (∃ (d1 d2 : MluDecoder) (descs : List CNFrameInfo),
      (d.Create K info N cenv).1.jpegFrames jframes = some d1 ∧
      d1.JpegEosCallback = some d2 ∧
      sinkCalls d2.log = sinkCalls d.log ++ descs.map Call.SendFrameInfo ++ [.SendFlowEos] ∧
      descs.map (fun data => data.dataframe.map (·.frame_id)) =
        (List.range descs.length).map some) ∧
    (∃ (d1 d2 : FFmpegCpuDecoder) (descs : List CNFrameInfo),
      (c.Create cinfo N ccenv).1.frames cframes = some d1 ∧
      d1.Process none true eosEnv = some (d2, false) ∧
      cpuSinkCalls d2.log =
        cpuSinkCalls c.log ++ descs.map CpuCall.SendFrameInfo ++ [.SendFlowEos] ∧
      descs.map (fun data => data.dataframe.map (·.frame_id)) =
        (List.range descs.length).map some) := by
  obtain ⟨o1, o2, o3, o4, o5, o6, o7, o8, o9, o10⟩ := Create_success K d info N cenv hopen
  obtain ⟨p1, p2, p3, p4, p5, p6, p7, p8, p9⟩ := CpuCreate_success c cinfo N ccenv hcopen
  have hsz : toSizeT (N : Int) = N := toSizeT_natCast N hN2
  have hl : (d.Create K info N cenv).1.live = true := by
    simp [MluDecoder.live, o5, o6, o7, o8, hh, hout]
  refine ⟨?_, ?_, ?_⟩
  · obtain ⟨d1, descs, h1, h2, h3, h4, h5, h6, h7⟩ :=
      videoFrames_live vframes (d.Create K info N cenv).1 hl (by rw [o1, hsz]; omega)
        (by rw [o3]; decide) (by rw [o4]; decide) (by rw [o8]; exact hv)
    have hh1 : d1.handler_ = true := by rw [h2.1, o7]; exact hh
    refine ⟨d1, { d1.emit .SendFlowEos with eos_got_ := true }, descs, h1, ?_, ?_, ?_⟩
    · simp [MluDecoder.VideoEosCallback, hh1]
    · simp only [MluDecoder.emit, sinkCalls, List.filter_append] at *
      rw [h6, o9]; simp [Call.isSink]
    · rw [h7, o4, ids_from_zero _ (by omega)]
  · obtain ⟨d1, descs, h1, h2, h3, h4, h5, h6, h7⟩ :=
      jpegFrames_live jframes (d.Create K info N cenv).1 hl (by rw [o1, hsz]; omega)
        (by rw [o3]; decide) (by rw [o4]; decide) (by rw [o8]; exact hj)
    have hh1 : d1.handler_ = true := by rw [h2.1, o7]; exact hh
    refine ⟨d1, { d1.emit .SendFlowEos with eos_got_ := true }, descs, h1, ?_, ?_, ?_⟩
    · simp [MluDecoder.JpegEosCallback, hh1]
    · simp only [MluDecoder.emit, sinkCalls, List.filter_append] at *
      rw [h6, o9]; simp [Call.isSink]
    · rw [h7, o4, ids_from_zero _ (by omega)]
  · obtain ⟨d1, descs1, h1, h2, h3, h4, h5, h6, h7⟩ :=
      cpuFrames_live cframes (c.Create cinfo N ccenv).1 p4 p5 (by rw [p1, hsz]; omega)
        (by rw [p2]; decide) (by rw [p3]; decide) (by rw [p8]; exact hc)
    obtain ⟨s1, s2, s3, s4, s5, s6, s7, s8⟩ := h2
    have hparam1 : d1.param_ = c.param_ := by rw [s2, p8]
    obtain ⟨d2, descs2, g1, g2, g3, g4, g5, g6⟩ :=
      flushLoop_live eosEnv.flushed { d1 with eos_sent_ := true } (by simp [s1, p4])
        (by simp [s4, p5]) (by simp [s3, p1, hsz]; omega)
        (by simp [h3]; exact Nat.mod_lt _ (by decide))
        (by simp [h4]; exact Nat.mod_lt _ (by decide)) (by simpa [hparam1] using hfl)
    have hh2 : d2.handler_ = true := by rw [g2.1]; simp [s1, p4]
    refine ⟨d1, { d2.emit .SendFlowEos with eos_got_ := true }, descs1 ++ descs2, h1, ?_, ?_, ?_⟩
    · have hinst : d1.instance_ = true := by rw [s4, p5]
      have g1' := g1
      simp only [hinst] at g1'
      simp [FFmpegCpuDecoder.Process, hinst, g1', hh2]
    · simp only [FFmpegCpuDecoder.emit, cpuSinkCalls, List.filter_append] at *
      rw [g5, h6, p9]; simp [CpuCall.isSink]
    · rw [List.map_append, h7, g6, List.length_append, List.range_add, List.map_append,
        List.map_map]
      simp only [h4, p3]
      congr 1
      · apply List.map_congr_left
        intro i hi
        have : i < descs1.length := List.mem_range.1 hi
        simp only [Nat.zero_add]
        rw [Nat.mod_eq_of_lt (by omega)]
      · apply List.map_congr_left
        intro i hi
        have : i < descs2.length := List.mem_range.1 hi
        simp only [Function.comp, Nat.zero_add, UINT64_MOD] at *
        congr 1
        omega

end CNStream

namespace CNStream

/-- C3 at a concrete input: interval 1 and ten decoded frames give the ids
`0, ..., 9` followed by one EOS, on the video path, the still-image path and
the software path (eight frames, then two more drained at EOS). -/
theorem C3_session_ids_then_eos_witness :
    (∃ (d1 d2 : MluDecoder) (descs : List CNFrameInfo),
      ((MluDecoder.fresh true Scenario.param).Create Scenario.K Scenario.h264 1
        (Scenario.createOk 7)).1.videoFrames (Scenario.videoFrames 10) = some d1 ∧
      d1.VideoEosCallback = some d2 ∧
      sinkCalls d2.log = sinkCalls (MluDecoder.fresh true Scenario.param).log ++
        descs.map Call.SendFrameInfo ++ [.SendFlowEos] ∧
      descs.map (fun data => data.dataframe.map (·.frame_id)) =
        (List.range descs.length).map some) ∧
    ((Scenario.videoOpen.videoFrames (Scenario.videoFrames 10)).bind
        (fun d1 => d1.VideoEosCallback)).map
        (fun d2 => (sentFrameIds d2.log, (sinkCalls d2.log).getLast?, flowEosCalls d2.log)) =
      some ([0, 1, 2, 3, 4, 5, 6, 7, 8, 9], some .SendFlowEos, 1) ∧
    ((Scenario.jpegOpen.jpegFrames (Scenario.jpegFrames 10)).bind
        (fun d1 => d1.JpegEosCallback)).map
        (fun d2 => (sentFrameIds d2.log, (sinkCalls d2.log).getLast?, flowEosCalls d2.log)) =
      some ([0, 1, 2, 3, 4, 5, 6, 7, 8, 9], some .SendFlowEos, 1) ∧
    (((Scenario.cpuOpen 1).frames (Scenario.cpuFrames 8)).bind
        (fun d1 => d1.Process none true (Scenario.cpuEosEnv 2))).map
        (fun r => (r.2, cpuSentFrameIds r.1.log, (cpuSinkCalls r.1.log).getLast?)) =
      some (false, [0, 1, 2, 3, 4, 5, 6, 7, 8, 9], some .SendFlowEos) :=
  ⟨(C3_session_ids_then_eos Scenario.K 1 (by decide) (by decide)
      (MluDecoder.fresh true Scenario.param) Scenario.h264 (Scenario.createOk 7)
      (FFmpegCpuDecoder.fresh true Scenario.param) Scenario.h264 Scenario.cpuCreateOk
      (Scenario.videoFrames 10) (Scenario.jpegFrames 10) (Scenario.cpuFrames 8)
      (Scenario.cpuEosEnv 2)
      (by decide) (by decide) (by decide) (by decide) (by decide) (by decide) (by decide)
      (by decide) (by decide) (by decide) (by decide)).1,
   by rfl, by rfl, by rfl⟩

end CNStream

namespace CNStream

/-! ## End of stream -/

/-- The sink adapter sends at most one more EOS frame, whatever calls it is fed. -/
theorem replayFlowEos_count (created : Nat → Bool) (log : List Call) (n : Nat)
    (h : RawImgMemHandlerImpl) :
    eosFramesSent (replayFlowEos created log n h).trace ≤
      eosFramesSent h.trace + (if h.eos_sent_ then 0 else 1) := by
  induction log generalizing n h with
  | nil => simp [replayFlowEos]
  | cons c log ih =>
    cases c
    case SendFlowEos =>
      simp only [replayFlowEos]
      have := ih (n + 1) (h.SendFlowEos (created n))
      cases hs : h.eos_sent_ with
      | true =>
        rw [SendFlowEos_of_sent h _ hs]
        simpa [hs] using ih (n + 1) h
      | false =>
        rcases SendFlowEos_cases h (created n) hs with ⟨h1, h2⟩ | ⟨h1, h2⟩
        · simp [h1, h2] at this; simpa using this
        · simp [h1, h2] at this; simpa using this
    all_goals exact ih n h

/-- C4 is not what the code does: after an EOS callback and a reset, `Destroy`
calls `SendFlowEos` a second time. -/
theorem C4_flow_eos_called_twice_counterexample :
    (MluDecoder.run Scenario.K Scenario.eosThenAbortedDestroy
        (MluDecoder.fresh true Scenario.param)).map
        (fun d => (flowEosCalls d.log, sinkCalls d.log, d.instance_)) =
      some (2, [.SendFlowEos, .SendFlowEos], none) := by
  rfl

/-- C4, as the code has it: the decoder may call `SendFlowEos` several times;
it is the sink adapter that lets at most one EOS frame go downstream.  For
every sequence of operations and accelerator events run against a
`RawImgMemHandlerImpl` that has not sent EOS, and whatever
`CreateFrameInfo(true)` answers, at most one EOS frame has been sent
downstream at the end of the run. -/
theorem C4_one_eos_frame_downstream (K : CnCodecRet) (ops : List MluOp) (d d1 : MluDecoder)
    (created : Nat → Bool) (h h1 : RawImgMemHandlerImpl)
    (hs : h.eos_sent_ = false) (h0 : eosFramesSent h.trace = 0)
    (hrun : MluDecoder.runOnSink K created ops d h = some (d1, h1)) :
    eosFramesSent h1.trace ≤ 1 := by
  simp only [MluDecoder.runOnSink, Option.map_eq_some', Prod.mk.injEq] at hrun
  obtain ⟨d2, -, -, rfl⟩ := hrun
  have := replayFlowEos_count created (callsSince d.log d2.log) 0 h
  simpa [hs, h0] using this

/-- C4 at a concrete input: the run of the counterexample calls `SendFlowEos`
twice and one EOS frame goes downstream. -/
theorem C4_one_eos_frame_downstream_witness :
    flowEosCalls Scenario.eosThenAbortedDestroyEnd.log = 2 ∧
    eosFramesSent (replayFlowEos (fun _ => true) Scenario.eosThenAbortedDestroyEnd.log 0
        { eos_sent_ := false, trace := [] }).trace = 1 ∧
    eosFramesSent (replayFlowEos (fun _ => true) Scenario.eosThenAbortedDestroyEnd.log 0
        { eos_sent_ := false, trace := [] }).trace ≤ 1 :=
  ⟨rfl, rfl,
   C4_one_eos_frame_downstream Scenario.K Scenario.eosThenAbortedDestroy
     (MluDecoder.fresh true Scenario.param) Scenario.eosThenAbortedDestroyEnd (fun _ => true)
     { eos_sent_ := false, trace := [] }
     (replayFlowEos (fun _ => true) Scenario.eosThenAbortedDestroyEnd.log 0
        { eos_sent_ := false, trace := [] }) rfl rfl rfl⟩

end CNStream

namespace CNStream

/-! ## Close -/

theorem DestroyVideoDecoder_instance (K : CnCodecRet) (d d1 : MluDecoder) (env : TeardownEnv)
    (h : d.DestroyVideoDecoder K env = some d1) : d1.instance_ = none := by
  unfold MluDecoder.DestroyVideoDecoder at h
  split at h
  · split at h
    · dsimp only at h
      split at h <;> simp at h
      subst h; rfl
    · dsimp only at h
      split at h
      · simp at h
      · split at h
        · simp at h
        · split at h
          · simp at h
          · split at h
            · split at h <;> simp at h
              subst h; rfl
            · split at h
              · split at h <;> simp at h
                subst h; rfl
              · simp at h
                subst h; rfl
  · simp at h
    subst h
    rename_i hn
    simpa using hn

end CNStream

namespace CNStream

/-- On an EOS or null packet `Process` leaves the sink pointer and the session
handles as they are. -/
theorem Process_eos_keeps (K : CnCodecRet) (d d1 : MluDecoder) (pkt : Option ESPacket)
    (env : ProcessEnv) (b : Bool) (hp : isDataPacket pkt = false)
    (h : d.Process K pkt env = some (d1, b)) :
    d1.instance_ = d.instance_ ∧ d1.jpg_instance_ = d.jpg_instance_ ∧
    d1.handler_ = d.handler_ := by
  have key : ∀ (r : Option (MluDecoder × Bool)), r = some (d1, b) →
      (∀ x, r = some x → x.1.instance_ = d.instance_ ∧ x.1.jpg_instance_ = d.jpg_instance_ ∧
        x.1.handler_ = d.handler_) →
      d1.instance_ = d.instance_ ∧ d1.jpg_instance_ = d.jpg_instance_ ∧
        d1.handler_ = d.handler_ := fun r hr hx => hx (d1, b) hr
  apply key _ h
  intro x hx
  unfold MluDecoder.Process at hx
  cases pkt with
  | none =>
    cases ha : d.cndec_abort_flag_ <;> cases he : d.cndec_error_flag_ <;>
      cases hi : d.instance_ <;> cases hj : d.jpg_instance_ <;> cases hf : env.feed <;>
      simp [ha, he, hi, hj, hf] at hx <;>
      (try split at hx) <;> (try split at hx) <;> (try simp at hx) <;>
      (try (subst hx; simp [MluDecoder.emit, hi, hj]))
  | some p =>
    simp only [hp] at hx
    cases ha : d.cndec_abort_flag_ <;> cases he : d.cndec_error_flag_ <;>
      cases hi : d.instance_ <;> cases hj : d.jpg_instance_ <;> cases hf : env.feed <;>
      simp [ha, he, hi, hj, hf] at hx <;>
      (try split at hx) <;> (try split at hx) <;> (try simp at hx) <;>
      (try (subst hx; simp [MluDecoder.emit, hi, hj]))

theorem ProcessAV_eos_keeps (K : CnCodecRet) (d d1 : MluDecoder) (env : ProcessEnv) (b : Bool)
    (h : d.ProcessAV K none true env = some (d1, b)) :
    d1.instance_ = d.instance_ ∧ d1.jpg_instance_ = d.jpg_instance_ ∧
    d1.handler_ = d.handler_ := by
  unfold MluDecoder.ProcessAV at h
  exact Process_eos_keeps K d d1 _ env b (by decide) h

theorem DestroyJpegDecoder_instances (K : CnCodecRet) (d d1 : MluDecoder) (env : TeardownEnv)
    (h : d.DestroyJpegDecoder K env = some d1) :
    d1.jpg_instance_ = none ∧ d1.instance_ = d.instance_ := by
  unfold MluDecoder.DestroyJpegDecoder at h
  split at h
  · dsimp only at h
    split at h
    · simp at h
    · rename_i df hfed
      have hdf : df.instance_ = d.instance_ := by
        split at hfed
        · simp only [Option.map_eq_some'] at hfed
          obtain ⟨⟨a, b⟩, ha, rfl⟩ := hfed
          exact (ProcessAV_eos_keeps K d a _ b ha).1
        · simp at hfed; subst hfed; rfl
      split at h
      · simp at h
      · rename_i d2 ys hw1
        have e1 := waitEosGot_evolves K _ _ _ _ hw1
        split at h
        · simp at h
        · rename_i d3 ys2 hw2
          have e2 := waitBufRefsOrAbort_evolves K _ _ _ _ hw2
          have hd3 : d3.instance_ = d.instance_ := by
            rw [e2.2.2.2.2.1, e1.2.2.2.2.1, hdf]
          split at h
          · split at h <;> simp at h
            subst h
            exact ⟨rfl, by simpa [MluDecoder.emit] using hd3⟩
          · simp at h
            subst h
            exact ⟨rfl, by simpa [MluDecoder.emit] using hd3⟩
  · simp at h
    subst h
    rename_i hn
    exact ⟨by simpa using hn, rfl⟩

/-- After a `Destroy` that returned, both session handles are null. -/
theorem Destroy_instances (K : CnCodecRet) (d d1 : MluDecoder) (env : DestroyEnv)
    (h : d.Destroy K env = some d1) : d1.instance_ = none ∧ d1.jpg_instance_ = none := by
  unfold MluDecoder.Destroy at h
  dsimp only at h
  split at h
  · simp at h
  · rename_i dv hv
    have hdv : dv.instance_ = none := by
      split at hv
      · split at hv
        · exact DestroyVideoDecoder_instance K d dv _ hv
        · split at hv
          · simp at hv
          · split at hv <;> simp at hv
            subst hv; rfl
      · simp at hv
        subst hv
        rename_i hn
        simpa using hn
    split at h
    · split at h
      · obtain ⟨j1, j2⟩ := DestroyJpegDecoder_instances K dv d1 _ h
        exact ⟨by rw [j2, hdv], j1⟩
      · split at h
        · simp at h
        · rename_i d2 ys hw
          have e := (waitBufRefs_evolves K _ _ _ _ hw).1
          split at h <;> simp at h
          subst h
          exact ⟨by simp [MluDecoder.emit, e.2.2.2.2.1, hdv], rfl⟩
    · simp at h
      subst h
      rename_i hn
      exact ⟨hdv, by simpa using hn⟩

/-- Without a session `Destroy` does nothing. -/
theorem Destroy_no_session (K : CnCodecRet) (d : MluDecoder) (env : DestroyEnv)
    (h1 : d.instance_ = none) (h2 : d.jpg_instance_ = none) : d.Destroy K env = some d := by
  simp [MluDecoder.Destroy, h1, h2]

end CNStream

namespace CNStream

theorem CpuDestroy_pointers (c c1 : FFmpegCpuDecoder) (env : CpuProcessEnv)
    (h : c.Destroy env = some c1) :
    c1.instance_ = false ∧ c1.stream_ = false ∧ c1.av_frame_ = false := by
  unfold FFmpegCpuDecoder.Destroy at h
  dsimp only at h
  split at h
  · simp at h
  · rename_i ci hci
    have hi : ci.instance_ = false := by
      split at hci
      · split at hci
        · simp at hci
        · split at hci <;> simp at hci
          subst hci; rfl
      · simp at hci
        subst hci
        rename_i hn
        simpa using hn
    simp only [Option.some.injEq] at h
    subst h
    cases hs : ci.stream_ <;> cases hf : ci.av_frame_ <;>
      simp [hs, hf, hi, FFmpegCpuDecoder.emit]

/-- C9: a second `Destroy` right after a `Destroy` that returned leaves the
decoder as it is, log included: it makes no accelerator call and no sink call.
This holds for `MluDecoder::Destroy`, whatever the outside world would answer,
and for `FFmpegCpuDecoder::Destroy`. -/
theorem C9_destroy_idempotent (K : CnCodecRet) (d d1 : MluDecoder) (env env2 : DestroyEnv)
    (c c1 : FFmpegCpuDecoder) (cenv cenv2 : CpuProcessEnv)
    (h : d.Destroy K env = some d1) (hc : c.Destroy cenv = some c1) :
    d1.Destroy K env2 = some d1 ∧ c1.Destroy cenv2 = some c1 := by
  constructor
  · obtain ⟨h1, h2⟩ := Destroy_instances K d d1 env h
    exact Destroy_no_session K d1 env2 h1 h2
  · obtain ⟨h1, h2, h3⟩ := CpuDestroy_pointers c c1 cenv hc
    simp [FFmpegCpuDecoder.Destroy, h1, h2, h3]

/-- C9 at a concrete input: a started H264 session is destroyed on the graceful
path (one EOS feed, the EOS callback, stop, destroy), a software decoder is
destroyed while two frames are drained; a second `Destroy` changes nothing. -/
theorem C9_destroy_idempotent_witness :
    Scenario.videoStarted.Destroy Scenario.K Scenario.gracefulDestroy =
      some Scenario.videoDestroyed ∧
    callsSince Scenario.videoStarted.log Scenario.videoDestroyed.log =
      [.cnvideoDecFeedData (some 7) true 0 0, .SendFlowEos, .cnvideoDecStop (some 7),
       .cnvideoDecDestroy (some 7)] ∧
    (Scenario.cpuOpen 1).Destroy (Scenario.cpuEosEnv 2) = some Scenario.cpuDestroyed ∧
    Scenario.videoDestroyed.Destroy Scenario.K Scenario.gracefulDestroy =
      some Scenario.videoDestroyed ∧
    Scenario.cpuDestroyed.Destroy (Scenario.cpuEosEnv 2) = some Scenario.cpuDestroyed :=
  ⟨rfl, rfl, rfl,
   C9_destroy_idempotent Scenario.K Scenario.videoStarted Scenario.videoDestroyed
     Scenario.gracefulDestroy Scenario.gracefulDestroy (Scenario.cpuOpen 1) Scenario.cpuDestroyed
     (Scenario.cpuEosEnv 2) (Scenario.cpuEosEnv 2) rfl rfl⟩

end CNStream

namespace CNStream

/-- C10: `Destroy` is called with the abort flag set, a sink attached and one
active session.  Once the pending buffers are gone (`dw` is the state at that
moment; it is the initial state when no buffer is pending), `Destroy` aborts
the session, clears the handle and calls `SendFlowEos`, and that is all it
does: since the call started there is no feed, no stop and no destroy call
and exactly one abort; after the wait the calls are exactly the abort and one
`SendFlowEos`. -/
theorem C10_destroy_when_aborted (K : CnCodecRet) (d : MluDecoder) (env : DestroyEnv)
    (hab : d.cndec_abort_flag_ = true) (hh : d.handler_ = true) :
    (∀ h dw ys, d.instance_ = some h → d.jpg_instance_ = none →
      MluDecoder.waitBufRefs K env.video.yields d = some (dw, ys) →
      ∃ d1, d.Destroy K env = some d1 ∧
        callsSince dw.log d1.log = [.cnvideoDecAbort (some h), .SendFlowEos] ∧
        d1.instance_ = none ∧ d1.jpg_instance_ = none ∧
        (callsSince d.log d1.log).countP Call.isFeed = 0 ∧
        (callsSince d.log d1.log).countP Call.isStopOrDestroy = 0 ∧
        (callsSince d.log d1.log).countP Call.isAbort = 1 ∧
        (d.cndec_buf_ref_count_ = 0 →
          callsSince d.log d1.log = [.cnvideoDecAbort (some h), .SendFlowEos])) ∧
    (∀ h dw ys, d.instance_ = none → d.jpg_instance_ = some h →
      MluDecoder.waitBufRefs K env.jpeg.yields d = some (dw, ys) →
      ∃ d1, d.Destroy K env = some d1 ∧
        callsSince dw.log d1.log = [.cnjpegDecAbort (some h), .SendFlowEos] ∧
        d1.instance_ = none ∧ d1.jpg_instance_ = none ∧
        (callsSince d.log d1.log).countP Call.isFeed = 0 ∧
        (callsSince d.log d1.log).countP Call.isStopOrDestroy = 0 ∧
        (callsSince d.log d1.log).countP Call.isAbort = 1 ∧
        (d.cndec_buf_ref_count_ = 0 →
          callsSince d.log d1.log = [.cnjpegDecAbort (some h), .SendFlowEos])) := by
  constructor
  · intro h dw ys hi hj hwait
    obtain ⟨⟨e1, e2, e3, e4, e5, e6, e7, l, e8, e9⟩, e10⟩ := waitBufRefs_evolves K _ _ _ _ hwait
    obtain ⟨k1, k2, k3, k4⟩ := countP_fromCallback l e9
    have hD : d.Destroy K env = some
        (({ dw.emit (.cnvideoDecAbort dw.instance_) with instance_ := none } : MluDecoder).emit
          .SendFlowEos) := by
      simp [MluDecoder.Destroy, hi, hab, hwait, MluDecoder.emit, e1, hh, e6, hj]
    have hlog : (({ dw.emit (.cnvideoDecAbort dw.instance_) with instance_ := none } :
        MluDecoder).emit .SendFlowEos).log =
        d.log ++ (l ++ [.cnvideoDecAbort (some h), .SendFlowEos]) := by
      simp [MluDecoder.emit, e8, e5, hi]
    refine ⟨_, hD, ?_, rfl, by simp [MluDecoder.emit, e6, hj], ?_, ?_, ?_, ?_⟩
    · simp [MluDecoder.emit, callsSince, e5, hi]
    · rw [hlog, callsSince_append]; simp [List.countP_append, k1, Call.isFeed]
    · rw [hlog, callsSince_append]; simp [List.countP_append, k4, Call.isStopOrDestroy]
    · rw [hlog, callsSince_append]; simp [List.countP_append, k2, Call.isAbort]
    · intro h0
      have hdw : dw = d := by
        cases hy : env.video.yields <;> simp [hy, MluDecoder.waitBufRefs, h0] at hwait <;>
          exact hwait.1.symm
      subst hdw
      simp [MluDecoder.emit, callsSince, hi]
  · intro h dw ys hi hj hwait
    obtain ⟨⟨e1, e2, e3, e4, e5, e6, e7, l, e8, e9⟩, e10⟩ := waitBufRefs_evolves K _ _ _ _ hwait
    obtain ⟨k1, k2, k3, k4⟩ := countP_fromCallback l e9
    have hD : d.Destroy K env = some
        (({ dw.emit (.cnjpegDecAbort dw.jpg_instance_) with jpg_instance_ := none } :
          MluDecoder).emit .SendFlowEos) := by
      simp [MluDecoder.Destroy, hi, hab, hwait, MluDecoder.emit, e1, hh, e6, hj]
    have hlog : (({ dw.emit (.cnjpegDecAbort dw.jpg_instance_) with jpg_instance_ := none } :
        MluDecoder).emit .SendFlowEos).log =
        d.log ++ (l ++ [.cnjpegDecAbort (some h), .SendFlowEos]) := by
      simp [MluDecoder.emit, e8, e6, hj]
    refine ⟨_, hD, ?_, by simp [MluDecoder.emit, e5, hi], rfl, ?_, ?_, ?_, ?_⟩
    · simp [MluDecoder.emit, callsSince, e6, hj]
    · rw [hlog, callsSince_append]; simp [List.countP_append, k1, Call.isFeed]
    · rw [hlog, callsSince_append]; simp [List.countP_append, k4, Call.isStopOrDestroy]
    · rw [hlog, callsSince_append]; simp [List.countP_append, k2, Call.isAbort]
    · intro h0
      have hdw : dw = d := by
        cases hy : env.jpeg.yields <;> simp [hy, MluDecoder.waitBufRefs, h0] at hwait <;>
          exact hwait.1.symm
      subst hdw
      simp [MluDecoder.emit, callsSince, hj]

end CNStream

namespace CNStream

/-- C10 at a concrete input: an H264 session and an MJPEG session, each after a
reset event, with no buffer pending. -/
theorem C10_destroy_when_aborted_witness :
    (∃ d1, Scenario.videoAborted.Destroy Scenario.K Scenario.quietDestroy = some d1 ∧
        callsSince Scenario.videoAborted.log d1.log = [.cnvideoDecAbort (some 7), .SendFlowEos] ∧
        d1.instance_ = none ∧ d1.jpg_instance_ = none ∧
        (callsSince Scenario.videoAborted.log d1.log).countP Call.isFeed = 0 ∧
        (callsSince Scenario.videoAborted.log d1.log).countP Call.isStopOrDestroy = 0 ∧
        (callsSince Scenario.videoAborted.log d1.log).countP Call.isAbort = 1 ∧
        (Scenario.videoAborted.cndec_buf_ref_count_ = 0 →
          callsSince Scenario.videoAborted.log d1.log =
            [.cnvideoDecAbort (some 7), .SendFlowEos])) ∧
    (∃ d1, Scenario.jpegAborted.Destroy Scenario.K Scenario.quietDestroy = some d1 ∧
        callsSince Scenario.jpegAborted.log d1.log = [.cnjpegDecAbort (some 7), .SendFlowEos] ∧
        d1.instance_ = none ∧ d1.jpg_instance_ = none ∧
        (callsSince Scenario.jpegAborted.log d1.log).countP Call.isFeed = 0 ∧
        (callsSince Scenario.jpegAborted.log d1.log).countP Call.isStopOrDestroy = 0 ∧
        (callsSince Scenario.jpegAborted.log d1.log).countP Call.isAbort = 1 ∧
        (Scenario.jpegAborted.cndec_buf_ref_count_ = 0 →
          callsSince Scenario.jpegAborted.log d1.log =
            [.cnjpegDecAbort (some 7), .SendFlowEos])) :=
  ⟨(C10_destroy_when_aborted Scenario.K Scenario.videoAborted Scenario.quietDestroy rfl rfl).1
      7 Scenario.videoAborted [] rfl rfl rfl,
   (C10_destroy_when_aborted Scenario.K Scenario.jpegAborted Scenario.quietDestroy rfl rfl).2
      7 Scenario.jpegAborted [] rfl rfl rfl⟩

end CNStream

namespace CNStream

/-! ## Rejected feeds and fatal events -/

/-- With the abort flag or the error flag set, `Process` returns false at once. -/
theorem Process_flag_set (K : CnCodecRet) (d : MluDecoder) (pkt : Option ESPacket)
    (env : ProcessEnv) (h : d.cndec_abort_flag_ = true ∨ d.cndec_error_flag_ = true) :
    d.Process K pkt env = some (d, false) := by
  unfold MluDecoder.Process
  rcases h with h | h <;> simp [h]

/-- C11: with the abort flag or the error flag set, or without any session
(as after `Destroy`), `Process` returns false and leaves the decoder as it
was, log included: no feed call, no abort call and no create call is made.
The same holds for the `AVPacket` entry point. -/
theorem C11_feed_rejected (K : CnCodecRet) (d : MluDecoder) (pkt : Option ESPacket)
    (env : ProcessEnv) :
    (d.cndec_abort_flag_ = true ∨ d.cndec_error_flag_ = true ∨
        (d.instance_ = none ∧ d.jpg_instance_ = none) →
      d.Process K pkt env = some (d, false) ∧
      ∀ (p : Option AVPacket) (eos : Bool), d.ProcessAV K p eos env = some (d, false)) ∧
    (∀ (d0 : MluDecoder) (env0 : DestroyEnv), d0.Destroy K env0 = some d →
      d.Process K pkt env = some (d, false) ∧
      ∀ (p : Option AVPacket) (eos : Bool), d.ProcessAV K p eos env = some (d, false)) := by
  have key : (d.cndec_abort_flag_ = true ∨ d.cndec_error_flag_ = true ∨
      (d.instance_ = none ∧ d.jpg_instance_ = none)) →
      ∀ q : Option ESPacket, d.Process K q env = some (d, false) := by
    intro h q
    rcases h with h | h | ⟨h1, h2⟩
    · exact Process_flag_set K d q env (Or.inl h)
    · exact Process_flag_set K d q env (Or.inr h)
    · exact Process_no_session K d q env h1 h2
  refine ⟨fun h => ⟨key h pkt, fun p eos => ?_⟩, fun d0 env0 hd => ?_⟩
  · unfold MluDecoder.ProcessAV
    exact key h _
  · have hi := Destroy_instances K d0 d env0 hd
    refine ⟨key (Or.inr (Or.inr hi)) pkt, fun p eos => ?_⟩
    unfold MluDecoder.ProcessAV
    exact key (Or.inr (Or.inr hi)) _

/-- C11 at a concrete input: the H264 session after a reset event is offered a data packet. -/
theorem C11_feed_rejected_witness :
    Scenario.videoAborted.Process Scenario.K (some Scenario.dataPacket) (Scenario.feedEnv [0]) =
        some (Scenario.videoAborted, false) ∧
      ∀ (p : Option AVPacket) (eos : Bool),
        Scenario.videoAborted.ProcessAV Scenario.K p eos (Scenario.feedEnv [0]) =
          some (Scenario.videoAborted, false) :=
  (C11_feed_rejected Scenario.K Scenario.videoAborted (some Scenario.dataPacket)
    (Scenario.feedEnv [0])).1 (Or.inl rfl)

end CNStream

namespace CNStream

/-- C12 is not what the code does: an H264 session receives an out-of-memory
event; the abort flag stays clear, and the next data packet is fed to the
accelerator and accepted. -/
theorem C12_out_of_memory_keeps_feeding_counterexample :
    (VideoDecodeCallback Scenario.K Scenario.videoOpen .CNCODEC_CB_EVENT_OUT_OF_MEMORY).bind
        (fun r => (r.1.Process Scenario.K (some Scenario.dataPacket) (Scenario.feedEnv [0])).map
          (fun q => (r.1.cndec_abort_flag_, callsSince Scenario.videoOpen.log r.1.log, q.2,
            callsSince r.1.log q.1.log))) =
      some (false, [.SendFlowEos], true, [.cnvideoDecFeedData (some 7) false 100 5]) := by
  rfl

/-- C12, as the code has it: a software or hardware reset event, on the video
callback and on the still-image callback, sets the abort flag, and from then
on (whatever further callbacks arrive) every `Process` call returns false and
leaves the decoder as it was, so nothing is fed.  An out-of-memory or
abort-error event on the video callback is handled as an end of stream: one
`SendFlowEos` call to the sink, `eos_got_` set, abort and error flags as they
were. -/
theorem C12_reset_events_abort (K : CnCodecRet) (d : MluDecoder) :
    (∀ ev : VideoEvent, ev = .CNCODEC_CB_EVENT_SW_RESET ∨ ev = .CNCODEC_CB_EVENT_HW_RESET →
      ∃ d1, VideoDecodeCallback K d ev = some (d1, 0) ∧ d1.cndec_abort_flag_ = true ∧
        ∀ d2, d1.evolves d2 → ∀ pkt env, d2.Process K pkt env = some (d2, false)) ∧
    (∀ ev : JpegEvent, ev = .CNCODEC_CB_EVENT_SW_RESET ∨ ev = .CNCODEC_CB_EVENT_HW_RESET →
      ∃ d1, JpegEventCallback d ev = some (d1, 0) ∧ d1.cndec_abort_flag_ = true ∧
        ∀ d2, d1.evolves d2 → ∀ pkt env, d2.Process K pkt env = some (d2, false)) ∧
    (∀ ev : VideoEvent,
      ev = .CNCODEC_CB_EVENT_OUT_OF_MEMORY ∨ ev = .CNCODEC_CB_EVENT_ABORT_ERROR →
      d.handler_ = true →
      ∃ d1, VideoDecodeCallback K d ev = some (d1, 0) ∧
        d1 = { d.emit .SendFlowEos with eos_got_ := true } ∧
        d1.cndec_abort_flag_ = d.cndec_abort_flag_ ∧
        d1.cndec_error_flag_ = d.cndec_error_flag_) := by
  have key : ∀ d1 : MluDecoder, d1.cndec_abort_flag_ = true →
      ∀ d2, d1.evolves d2 → ∀ pkt env, d2.Process K pkt env = some (d2, false) := by
    intro d1 h1 d2 he pkt env
    exact Process_flag_set K d2 pkt env (Or.inl (he.2.2.2.2.2.2.1 h1))
  refine ⟨?_, ?_, ?_⟩
  · intro ev hev
    refine ⟨d.VideoResetCallback, ?_, rfl, key _ rfl⟩
    rcases hev with h | h <;> subst h <;> rfl
  · intro ev hev
    refine ⟨d.JpegResetCallback, ?_, rfl, key _ rfl⟩
    rcases hev with h | h <;> subst h <;> rfl
  · intro ev hev hh
    refine ⟨{ d.emit .SendFlowEos with eos_got_ := true }, ?_, rfl, rfl, rfl⟩
    rcases hev with h | h <;> subst h <;>
      simp [VideoDecodeCallback, MluDecoder.VideoEosCallback, hh]

/-- C12 at a concrete input: the H264 session receives a hardware reset. -/
theorem C12_reset_events_abort_witness :
    ∃ d1, VideoDecodeCallback Scenario.K Scenario.videoOpen .CNCODEC_CB_EVENT_HW_RESET =
        some (d1, 0) ∧ d1.cndec_abort_flag_ = true ∧
      ∀ d2, d1.evolves d2 → ∀ pkt env, d2.Process Scenario.K pkt env = some (d2, false) :=
  (C12_reset_events_abort Scenario.K Scenario.videoOpen).1 .CNCODEC_CB_EVENT_HW_RESET
    (Or.inr rfl)

end CNStream

namespace CNStream

/-! ## Open -/

/-- The function `MluDecoder::Create(VideoStreamInfo*, int)` never reads
`handler_`: its return value is the same with and without a sink. -/
theorem Create_ignores_handler (K : CnCodecRet) (d : MluDecoder) (info : VideoStreamInfo)
    (interval : Int) (env : CreateEnv) (b : Bool) :
    (({ d with handler_ := b }).Create K info interval env).2 =
      (d.Create K info interval env).2 := by
  unfold MluDecoder.Create
  by_cases hc : info.codec_id = .AV_CODEC_ID_MJPEG
  · simp only [hc, if_true]
    unfold MluDecoder.CreateJpegDecoder
    by_cases h1 : d.jpg_instance_.isSome = true
    · simp [h1]
    · by_cases h2 : (decide (info.codec_width > 7680) || decide (info.codec_height > 4320)) = true
      · simp [h1, h2]
      · by_cases h3 : K.CNCODEC_SUCCESS = env.createRet
        · simp [h1, h2, h3, MluDecoder.emit]
        · simp [h1, h2, h3, MluDecoder.emit]
  · simp only [hc, if_false]
    unfold MluDecoder.CreateVideoDecoder
    by_cases h1 : d.instance_.isSome = true
    · simp [h1]
    · by_cases h3 : K.CNCODEC_SUCCESS = env.createRet
      · by_cases h4 : K.CNCODEC_SUCCESS = env.setAttrRet
        · cases hcodec : info.codec_id <;> simp_all [MluDecoder.emit]
        · cases hcodec : info.codec_id <;> simp_all [MluDecoder.emit]
      · cases hcodec : info.codec_id <;> simp_all [MluDecoder.emit]

/-- C13 fails for one of the four entry points.  Without a sink,
`MluDecoder::Create(AVStream*, int)` and both `FFmpegCpuDecoder::Create`
overloads return false and leave the decoder as it was; but
`MluDecoder::Create(VideoStreamInfo*, int)` does not look at `handler_` at
all, and on a decoder without a sink it creates an H264 session (handle 7)
and returns true; the first frame that the session delivers then dereferences
the null sink and the callback does not return. -/
theorem C13_open_without_sink (K : CnCodecRet) :
    (∀ (d : MluDecoder) (st : AVStream) (interval : Int) (env : CreateEnv),
      d.handler_ = false → d.CreateFromStream K st interval env = (d, false)) ∧
    (∀ (c : FFmpegCpuDecoder) (info : VideoStreamInfo) (interval : Int) (env : CpuCreateEnv),
      c.handler_ = false → c.Create info interval env = (c, false)) ∧
    (∀ (c : FFmpegCpuDecoder) (interval : Int) (env : CpuCreateEnv),
      c.handler_ = false → c.CreateFromStream interval env = (c, false)) ∧
    (∀ (d : MluDecoder) (info : VideoStreamInfo) (interval : Int) (env : CreateEnv),
      (({ d with handler_ := false }).Create K info interval env).2 =
        (({ d with handler_ := true }).Create K info interval env).2) ∧
    ((MluDecoder.fresh false Scenario.param).Create Scenario.K Scenario.h264 1
        (Scenario.createOk 7)).2 = true ∧
    ((MluDecoder.fresh false Scenario.param).Create Scenario.K Scenario.h264 1
        (Scenario.createOk 7)).1.instance_ = some 7 ∧
    ((MluDecoder.fresh false Scenario.param).Create Scenario.K Scenario.h264 1
        (Scenario.createOk 7)).1.handler_ = false ∧
    ((MluDecoder.fresh false Scenario.param).Create Scenario.K Scenario.h264 1
        (Scenario.createOk 7)).1.VideoFrameCallback (Scenario.videoOut 0) Scenario.frameEnv =
      none := by
  refine ⟨?_, ?_, ?_, ?_, rfl, rfl, rfl, rfl⟩
  · intro d st interval env h
    simp [MluDecoder.CreateFromStream, h]
  · intro c info interval env h
    simp [FFmpegCpuDecoder.Create, h]
  · intro c interval env h
    simp [FFmpegCpuDecoder.CreateFromStream, h]
  · intro d info interval env
    have h1 := Create_ignores_handler K d info interval env false
    have h2 := Create_ignores_handler K d info interval env true
    rw [h1, h2]

end CNStream

namespace CNStream

/-- With a sink attached, `Create(AVStream*, int)` is `Create(VideoStreamInfo*, int)`
on the stream info built from the demuxed stream. -/
theorem CreateFromStream_eq (K : CnCodecRet) (d : MluDecoder) (st : AVStream) (interval : Int)
    (env : CreateEnv) :
    d.CreateFromStream K st interval env =
      if d.handler_ then d.Create K (MluDecoder.streamInfo st) interval env else (d, false) := by
  unfold MluDecoder.CreateFromStream MluDecoder.streamInfo
  cases d.handler_ <;> cases st.field_order <;> simp

/-- A codec other than MJPEG, H264 and HEVC is turned down. -/
theorem Create_unsupported_codec (K : CnCodecRet) (d : MluDecoder) (info : VideoStreamInfo)
    (interval : Int) (env : CreateEnv)
    (h1 : info.codec_id ≠ .AV_CODEC_ID_MJPEG) (h2 : info.codec_id ≠ .AV_CODEC_ID_H264)
    (h3 : info.codec_id ≠ .AV_CODEC_ID_HEVC) :
    d.rejected (d.Create K info interval env) := by
  unfold MluDecoder.Create MluDecoder.rejected
  simp only [h1, if_false]
  unfold MluDecoder.CreateVideoDecoder
  by_cases hi : d.instance_.isSome = true
  · simp [hi]
  · cases hcodec : info.codec_id <;> simp_all

/-- A still image wider than 7680 or higher than 4320 is turned down, and the
decoder is left as it was. -/
theorem Create_jpeg_too_large (K : CnCodecRet) (d : MluDecoder) (info : VideoStreamInfo)
    (interval : Int) (env : CreateEnv) (h1 : info.codec_id = .AV_CODEC_ID_MJPEG)
    (h2 : info.codec_width > 7680 ∨ info.codec_height > 4320) :
    d.Create K info interval env = (d, false) := by
  unfold MluDecoder.Create
  simp only [h1, if_true]
  unfold MluDecoder.CreateJpegDecoder
  by_cases hi : d.jpg_instance_.isSome = true
  · simp [hi]
  · rcases h2 with h2 | h2 <;> simp [hi, h2]

/-- A still image within 7680x4320, no still-image session being open, reaches
the accelerator's create call, and the open succeeds exactly when that call does. -/
theorem Create_jpeg_in_range (K : CnCodecRet) (d : MluDecoder) (info : VideoStreamInfo)
    (interval : Int) (env : CreateEnv) (h1 : info.codec_id = .AV_CODEC_ID_MJPEG)
    (hw : info.codec_width ≤ 7680) (hh : info.codec_height ≤ 4320)
    (hi : d.jpg_instance_ = none) :
    (d.Create K info interval env).1.log = d.log ++ [.cnjpegDecCreate] ∧
    ((d.Create K info interval env).2 = true ↔ K.CNCODEC_SUCCESS = env.createRet) ∧
    (K.CNCODEC_SUCCESS = env.createRet →
      (d.Create K info interval env).1.jpg_instance_ = some env.handle) := by
  have h2 : ¬ (info.codec_width > 7680) := by omega
  have h3 : ¬ (info.codec_height > 4320) := by omega
  unfold MluDecoder.Create
  simp only [h1, if_true]
  unfold MluDecoder.CreateJpegDecoder
  by_cases hr : K.CNCODEC_SUCCESS = env.createRet
  · simp [hi, h2, h3, hr, MluDecoder.emit]
  · simp [hi, h2, h3, hr, MluDecoder.emit]

/-- C14: an open is turned down, without any call to the accelerator and with
the session handles, the sampling interval, the frame-id counter and the decode
counter left as they were, when (a) the codec is none of MJPEG, H264, HEVC, or
(b) the codec is MJPEG and the coded width exceeds 7680 or the coded height
exceeds 4320; this holds for `Create(VideoStreamInfo*, int)` and, a sink being
attached, for `Create(AVStream*, int)`.  A still image of exactly 7680x4320
passes the resolution check: the accelerator's create call is made and the
open succeeds exactly when that call does. -/
theorem C14_open_unsupported (K : CnCodecRet) (d : MluDecoder) (interval : Int)
    (env : CreateEnv) :
    (∀ info : VideoStreamInfo,
      info.codec_id ≠ .AV_CODEC_ID_MJPEG → info.codec_id ≠ .AV_CODEC_ID_H264 →
      info.codec_id ≠ .AV_CODEC_ID_HEVC → d.rejected (d.Create K info interval env)) ∧
    (∀ info : VideoStreamInfo, info.codec_id = .AV_CODEC_ID_MJPEG →
      info.codec_width > 7680 ∨ info.codec_height > 4320 →
      d.rejected (d.Create K info interval env) ∧ d.Create K info interval env = (d, false)) ∧
    (∀ st : AVStream,
      st.codec_id ≠ .AV_CODEC_ID_MJPEG → st.codec_id ≠ .AV_CODEC_ID_H264 →
      st.codec_id ≠ .AV_CODEC_ID_HEVC → d.rejected (d.CreateFromStream K st interval env)) ∧
    (∀ st : AVStream, st.codec_id = .AV_CODEC_ID_MJPEG →
      st.width > 7680 ∨ st.height > 4320 →
      d.rejected (d.CreateFromStream K st interval env)) ∧
    (∀ info : VideoStreamInfo, info.codec_id = .AV_CODEC_ID_MJPEG →
      info.codec_width = 7680 → info.codec_height = 4320 → d.jpg_instance_ = none →
      (d.Create K info interval env).1.log = d.log ++ [.cnjpegDecCreate] ∧
      ((d.Create K info interval env).2 = true ↔ K.CNCODEC_SUCCESS = env.createRet) ∧
      (K.CNCODEC_SUCCESS = env.createRet →
        (d.Create K info interval env).1.jpg_instance_ = some env.handle)) := by
  have hrej : d.rejected (d, false) := ⟨rfl, rfl, rfl, rfl, rfl, rfl, rfl⟩
  refine ⟨?_, ?_, ?_, ?_, ?_⟩
  · intro info h1 h2 h3
    exact Create_unsupported_codec K d info interval env h1 h2 h3
  · intro info h1 h2
    have h := Create_jpeg_too_large K d info interval env h1 h2
    exact ⟨by rw [h]; exact hrej, h⟩
  · intro st h1 h2 h3
    rw [CreateFromStream_eq]
    cases hh : d.handler_
    · simpa using hrej
    · simpa using Create_unsupported_codec K d (MluDecoder.streamInfo st) interval env h1 h2 h3
  · intro st h1 h2
    rw [CreateFromStream_eq]
    cases hh : d.handler_
    · simpa using hrej
    · have hbig : (MluDecoder.streamInfo st).codec_width > 7680 ∨
          (MluDecoder.streamInfo st).codec_height > 4320 := by
        rcases h2 with h2 | h2
        · left
          have : st.width ≠ 0 := by omega
          simp [MluDecoder.streamInfo, this, h2]
        · right
          have : st.height ≠ 0 := by omega
          simp [MluDecoder.streamInfo, this, h2]
      have h := Create_jpeg_too_large K d (MluDecoder.streamInfo st) interval env h1 hbig
      simp only [if_true]
      rw [h]; exact hrej
  · intro info h1 hw hh hi
    exact Create_jpeg_in_range K d info interval env h1 (by omega) (by omega) hi

/-- C14 at a concrete input: a decoder as constructed is given a still image of 7681x4320. -/
theorem C14_open_unsupported_witness :
    (MluDecoder.fresh true Scenario.param).rejected
        ((MluDecoder.fresh true Scenario.param).Create Scenario.K
          { Scenario.mjpeg with codec_width := 7681, codec_height := 4320 } 1
          (Scenario.createOk 7)) ∧
      (MluDecoder.fresh true Scenario.param).Create Scenario.K
          { Scenario.mjpeg with codec_width := 7681, codec_height := 4320 } 1
          (Scenario.createOk 7) = (MluDecoder.fresh true Scenario.param, false) :=
  (C14_open_unsupported Scenario.K (MluDecoder.fresh true Scenario.param) 1
    (Scenario.createOk 7)).2.1 { Scenario.mjpeg with codec_width := 7681, codec_height := 4320 }
    rfl (Or.inl (by decide))

end CNStream

namespace CNStream

/-- When `Create(VideoStreamInfo*, int)` succeeds. -/
theorem Create_success_iff (K : CnCodecRet) (d : MluDecoder) (info : VideoStreamInfo)
    (interval : Int) (env : CreateEnv) :
    (d.Create K info interval env).2 = true ↔
      (info.codec_id = .AV_CODEC_ID_MJPEG ∧ d.jpg_instance_ = none ∧
        info.codec_width ≤ 7680 ∧ info.codec_height ≤ 4320 ∧
        K.CNCODEC_SUCCESS = env.createRet) ∨
      ((info.codec_id = .AV_CODEC_ID_H264 ∨ info.codec_id = .AV_CODEC_ID_HEVC) ∧
        d.instance_ = none ∧ K.CNCODEC_SUCCESS = env.createRet ∧
        K.CNCODEC_SUCCESS = env.setAttrRet) := by
  unfold MluDecoder.Create
  by_cases hc : info.codec_id = .AV_CODEC_ID_MJPEG
  · simp only [hc, if_true]
    unfold MluDecoder.CreateJpegDecoder
    cases hi : d.jpg_instance_ with
    | some x => simp
    | none =>
      by_cases h2 : info.codec_width > 7680
      · have : ¬ info.codec_width ≤ 7680 := by omega
        simp [h2, this]
      · by_cases h3 : info.codec_height > 4320
        · have : ¬ info.codec_height ≤ 4320 := by omega
          simp [h3, this]
        · have h2' : info.codec_width ≤ 7680 := by omega
          have h3' : info.codec_height ≤ 4320 := by omega
          by_cases hr : K.CNCODEC_SUCCESS = env.createRet
          · simp [h2, h3, h2', h3', hr]
          · simp [h2, h3, h2', h3', hr]
  · simp only [hc, if_false]
    unfold MluDecoder.CreateVideoDecoder
    cases hi : d.instance_ with
    | some x => simp
    | none =>
      by_cases hr1 : K.CNCODEC_SUCCESS = env.createRet
      · by_cases hr2 : K.CNCODEC_SUCCESS = env.setAttrRet
        · cases hcodec : info.codec_id <;> simp_all
        · cases hcodec : info.codec_id <;> simp_all
      · cases hcodec : info.codec_id <;> simp_all

/-- The calls of a successful `Create(VideoStreamInfo*, int)`. -/
theorem Create_success_log (K : CnCodecRet) (d : MluDecoder) (info : VideoStreamInfo)
    (interval : Int) (env : CreateEnv) (h : (d.Create K info interval env).2 = true) :
    (d.Create K info interval env).1.log = d.log ++
      (if info.codec_id = .AV_CODEC_ID_MJPEG then [.cnjpegDecCreate]
        else [.cnvideoDecCreate, .cnvideoDecSetAttributes (some env.handle) d.strideAlign]) := by
  rcases (Create_success_iff K d info interval env).1 h with
    ⟨hc, hi, hw, hh, hr⟩ | ⟨hv, hi, hr1, hr2⟩
  · have h2 : ¬ (info.codec_width > 7680) := by omega
    have h3 : ¬ (info.codec_height > 4320) := by omega
    unfold MluDecoder.Create
    simp only [hc, if_true]
    unfold MluDecoder.CreateJpegDecoder
    have hr' := hr.symm
    simp [hi, h2, h3, hr', MluDecoder.emit]
  · have hc : ¬ info.codec_id = .AV_CODEC_ID_MJPEG := by rcases hv with h | h <;> simp [h]
    unfold MluDecoder.Create
    simp only [hc, if_false]
    unfold MluDecoder.CreateVideoDecoder
    have hr1' := hr1.symm
    have hr2' := hr2.symm
    rcases hv with hv | hv <;>
      simp [hi, hv, hr1', hr2', MluDecoder.emit, MluDecoder.strideAlign]

/-- C15: `Create(VideoStreamInfo*, int)` succeeds exactly when the accelerator
accepts a session of the kind that the codec selects (and no session of that
kind is open yet).  When it succeeds, the session created is a still-image
session if the codec is MJPEG (one `cnjpegDecCreate` call, the video handle
untouched) and a video session otherwise (one `cnvideoDecCreate` call followed
by `cnvideoDecSetAttributes`, the still-image handle untouched); afterwards the
frame-id counter and the decode counter are 0 and the stored interval and
stream info are the ones given. -/
theorem C15_open_selects_profile (K : CnCodecRet) (d : MluDecoder) (info : VideoStreamInfo)
    (interval : Int) (env : CreateEnv) :
    ((d.Create K info interval env).2 = true ↔
      (info.codec_id = .AV_CODEC_ID_MJPEG ∧ d.jpg_instance_ = none ∧
        info.codec_width ≤ 7680 ∧ info.codec_height ≤ 4320 ∧
        K.CNCODEC_SUCCESS = env.createRet) ∨
      ((info.codec_id = .AV_CODEC_ID_H264 ∨ info.codec_id = .AV_CODEC_ID_HEVC) ∧
        d.instance_ = none ∧ K.CNCODEC_SUCCESS = env.createRet ∧
        K.CNCODEC_SUCCESS = env.setAttrRet)) ∧
    ((d.Create K info interval env).2 = true →
      (info.codec_id = .AV_CODEC_ID_MJPEG →
        d.jpg_instance_ = none ∧
        (d.Create K info interval env).1.jpg_instance_ = some env.handle ∧
        (d.Create K info interval env).1.instance_ = d.instance_ ∧
        callsSince d.log (d.Create K info interval env).1.log = [.cnjpegDecCreate]) ∧
      (info.codec_id ≠ .AV_CODEC_ID_MJPEG →
        d.instance_ = none ∧
        (d.Create K info interval env).1.instance_ = some env.handle ∧
        (d.Create K info interval env).1.jpg_instance_ = d.jpg_instance_ ∧
        callsSince d.log (d.Create K info interval env).1.log =
          [.cnvideoDecCreate, .cnvideoDecSetAttributes (some env.handle) d.strideAlign]) ∧
      (d.Create K info interval env).1.frame_id_ = 0 ∧
      (d.Create K info interval env).1.frame_count_ = 0 ∧
      (d.Create K info interval env).1.interval_ = interval ∧
      (d.Create K info interval env).1.info_ = info) := by
  refine ⟨Create_success_iff K d info interval env, fun h => ?_⟩
  obtain ⟨o1, o2, o3, o4, -, -, -, -, -, o10⟩ := Create_success K d info interval env h
  have hlog := Create_success_log K d info interval env h
  have hiff := (Create_success_iff K d info interval env).1 h
  refine ⟨fun hc => ?_, fun hc => ?_, o4, o3, o1, o2⟩
  · simp only [hc, if_true] at o10 hlog
    have hi : d.jpg_instance_ = none := by
      rcases hiff with ⟨-, hi, -⟩ | ⟨hv, -⟩
      · exact hi
      · rcases hv with hv | hv <;> simp [hc] at hv
    exact ⟨hi, o10.1, o10.2, by rw [hlog, callsSince_append]⟩
  · simp only [hc, if_false] at o10 hlog
    have hi : d.instance_ = none := by
      rcases hiff with ⟨hm, -⟩ | ⟨-, hi, -⟩
      · exact absurd hm hc
      · exact hi
    exact ⟨hi, o10.1, o10.2, by rw [hlog, callsSince_append]⟩

/-- C15 at a concrete input: a decoder as constructed opens an H264 stream. -/
theorem C15_open_selects_profile_witness :
    (MluDecoder.fresh true Scenario.param).instance_ = none ∧
    Scenario.videoOpen.instance_ = some 7 ∧
    Scenario.videoOpen.jpg_instance_ = none ∧
    callsSince (MluDecoder.fresh true Scenario.param).log Scenario.videoOpen.log =
      [.cnvideoDecCreate, .cnvideoDecSetAttributes (some 7) 1] :=
  ((C15_open_selects_profile Scenario.K (MluDecoder.fresh true Scenario.param) Scenario.h264 1
    (Scenario.createOk 7)).2 rfl).2.1 (by decide)

/-- C16: with a sink attached, `Create(AVStream*, int)` is
`Create(VideoStreamInfo*, int)` on a stream info whose coded width is 1920 if
the demuxer reports width 0 and the reported width otherwise, and whose coded
height is 1080 if the demuxer reports height 0 and the reported height
otherwise, each dimension on its own; when the open succeeds this is the
stream info stored in the decoder. -/
theorem C16_default_dimensions (K : CnCodecRet) (d : MluDecoder) (st : AVStream)
    (interval : Int) (env : CreateEnv) :
    (d.handler_ = true →
      d.CreateFromStream K st interval env =
        d.Create K (MluDecoder.streamInfo st) interval env) ∧
    (MluDecoder.streamInfo st).codec_width = (if st.width = 0 then 1920 else st.width) ∧
    (MluDecoder.streamInfo st).codec_height = (if st.height = 0 then 1080 else st.height) ∧
    (st.width ≠ 0 → (MluDecoder.streamInfo st).codec_width = st.width) ∧
    (st.height ≠ 0 → (MluDecoder.streamInfo st).codec_height = st.height) ∧
    (MluDecoder.streamInfo st).codec_id = st.codec_id ∧
    ((d.CreateFromStream K st interval env).2 = true →
      (d.CreateFromStream K st interval env).1.info_.codec_width =
        (if st.width = 0 then 1920 else st.width) ∧
      (d.CreateFromStream K st interval env).1.info_.codec_height =
        (if st.height = 0 then 1080 else st.height)) := by
  refine ⟨fun hh => ?_, rfl, rfl, fun h => ?_, fun h => ?_, rfl, fun h => ?_⟩
  · rw [CreateFromStream_eq, hh]; rfl
  · simp [MluDecoder.streamInfo, h]
  · simp [MluDecoder.streamInfo, h]
  · rw [CreateFromStream_eq] at h ⊢
    cases hh : d.handler_
    · simp [hh] at h
    · simp only [hh, if_true] at h ⊢
      have := (Create_success K d (MluDecoder.streamInfo st) interval env h).2.1
      rw [this]
      exact ⟨rfl, rfl⟩

/-- C16 at a concrete input: a demuxed H264 stream that reports width 0 and height 720. -/
theorem C16_default_dimensions_witness :
    ((MluDecoder.fresh true Scenario.param).CreateFromStream Scenario.K
        { codec_id := .AV_CODEC_ID_H264, width := 0, height := 720,
          field_order := .AV_FIELD_PROGRESSIVE, color_space := .AVCOL_SPC_BT709 } 1
        (Scenario.createOk 7)).1.info_.codec_width = 1920 ∧
    ((MluDecoder.fresh true Scenario.param).CreateFromStream Scenario.K
        { codec_id := .AV_CODEC_ID_H264, width := 0, height := 720,
          field_order := .AV_FIELD_PROGRESSIVE, color_space := .AVCOL_SPC_BT709 } 1
        (Scenario.createOk 7)).1.info_.codec_height = 720 :=
  (C16_default_dimensions Scenario.K (MluDecoder.fresh true Scenario.param)
    { codec_id := .AV_CODEC_ID_H264, width := 0, height := 720,
      field_order := .AV_FIELD_PROGRESSIVE, color_space := .AVCOL_SPC_BT709 } 1
    (Scenario.createOk 7)).2.2.2.2.2.2 rfl

end CNStream

namespace CNStream

/-! ## Sequence events -/

/-- C17 is not what the code does: buffers are reused, 3 output buffers are
requested, the flow depth is 2 and there are 2 input buffers, so the sum is 7;
the accelerator reports a minimum of 10, and the output buffer count is set to
11, not to `min 7 32`. -/
theorem C17_minimum_raises_count_counterexample :
    ((Scenario.videoOpenReuse.SequenceCallback Scenario.K
        { codec := .CNCODEC_H264, width := 1920, height := 1080, minOutputBufNum := 10 } 2 0
      ).create_info_.outputBufNum,
     Scenario.videoOpenReuse.param_.output_buf_number_, Scenario.videoOpenReuse.param_.reuse_cndec_buf,
     Scenario.videoOpenReuse.create_info_.inputBufNum,
     min ((3 + 2 + 2) % UINT32_MOD) 32) = (11, 3, true, 2, 7) := by
  decide

/-- C17, as the code has it: the sum `s` is the requested output buffer count,
plus the flow depth when decoded buffers are reused, plus the input buffer
count, in `uint32_t` arithmetic; the output buffer count becomes `min b 32`
where `b` is `s` when `s` exceeds the minimum reported by the accelerator and
that minimum plus one (in `uint32_t` arithmetic) otherwise.  So it is
`min s 32` exactly when `s` exceeds the reported minimum. -/
theorem C17_output_buffer_count (K : CnCodecRet) (d : MluDecoder)
    (pFormat : cnvideoDecSequenceInfo) (flowDepth : Nat) (startRet : Int) :
    (d.SequenceCallback K pFormat flowDepth startRet).create_info_.outputBufNum =
      min (if d.wantedOutputBufNum flowDepth > pFormat.minOutputBufNum
        then d.wantedOutputBufNum flowDepth
        else (pFormat.minOutputBufNum + 1) % UINT32_MOD) 32 ∧
    (d.wantedOutputBufNum flowDepth > pFormat.minOutputBufNum →
      (d.SequenceCallback K pFormat flowDepth startRet).create_info_.outputBufNum =
        min (d.wantedOutputBufNum flowDepth) 32) ∧
    (d.SequenceCallback K pFormat flowDepth startRet).create_info_.outputBufNum ≤ 32 := by
  have hs : ((if d.param_.reuse_cndec_buf = true
        then (d.param_.output_buf_number_ % UINT32_MOD + flowDepth) % UINT32_MOD
        else d.param_.output_buf_number_ % UINT32_MOD) + d.create_info_.inputBufNum) % UINT32_MOD
      = d.wantedOutputBufNum flowDepth := by
    unfold MluDecoder.wantedOutputBufNum UINT32_MOD
    cases d.param_.reuse_cndec_buf <;> simp
  have main : (d.SequenceCallback K pFormat flowDepth startRet).create_info_.outputBufNum =
      min (if d.wantedOutputBufNum flowDepth > pFormat.minOutputBufNum
        then d.wantedOutputBufNum flowDepth
        else (pFormat.minOutputBufNum + 1) % UINT32_MOD) 32 := by
    unfold MluDecoder.SequenceCallback
    simp only [hs]
    by_cases h1 : d.wantedOutputBufNum flowDepth > pFormat.minOutputBufNum
    · by_cases h2 : d.wantedOutputBufNum flowDepth > 32
      · by_cases h3 : K.CNCODEC_SUCCESS = startRet
        · simp [h1, h2, h3, MluDecoder.emit]; omega
        · simp [h1, h2, h3, MluDecoder.emit]; omega
      · by_cases h3 : K.CNCODEC_SUCCESS = startRet
        · simp [h1, h2, h3, MluDecoder.emit]; omega
        · simp [h1, h2, h3, MluDecoder.emit]; omega
    · by_cases h2 : (pFormat.minOutputBufNum + 1) % UINT32_MOD > 32
      · by_cases h3 : K.CNCODEC_SUCCESS = startRet
        · simp [h1, h2, h3, MluDecoder.emit]; omega
        · simp [h1, h2, h3, MluDecoder.emit]; omega
      · by_cases h3 : K.CNCODEC_SUCCESS = startRet
        · simp [h1, h2, h3, MluDecoder.emit]; omega
        · simp [h1, h2, h3, MluDecoder.emit]; omega
  refine ⟨main, fun h => ?_, ?_⟩
  · rw [main, if_pos h]
  · rw [main]; exact Nat.min_le_right _ _

/-- C17 at a concrete input: the sum 7 exceeds the reported minimum 4. -/
theorem C17_output_buffer_count_witness :
    (Scenario.videoOpenReuse.SequenceCallback Scenario.K
        { codec := .CNCODEC_H264, width := 1920, height := 1080, minOutputBufNum := 4 } 2 0
      ).create_info_.outputBufNum = min (Scenario.videoOpenReuse.wantedOutputBufNum 2) 32 :=
  (C17_output_buffer_count Scenario.K Scenario.videoOpenReuse
    { codec := .CNCODEC_H264, width := 1920, height := 1080, minOutputBufNum := 4 } 2 0).2.1
    (by decide)

end CNStream

namespace CNStream

/-! ## Hardware references -/

/-- What `ProcessFrame` and `ProcessJpegFrame` do to the log and to the number
of pending buffers. -/
theorem processDecodedFrame_calls (d d1 : MluDecoder) (frame : cncodecFrame) (pts : Nat)
    (env : FrameEnv) (ret : Int) (reused : Bool)
    (h : d.processDecodedFrame frame pts env = some (d1, ret, reused)) :
    ∃ l, d1.log = d.log ++ l ∧ d1.instance_ = d.instance_ ∧
      d1.jpg_instance_ = d.jpg_instance_ ∧
      l.countP (Call.isAddReference frame.buf) = 0 ∧
      l.countP (Call.isReleaseReference frame.buf) = 0 ∧
      l.countP Call.sendsReuseToken = (if reused then 1 else 0) ∧
      l.countP Call.sendsReuseToken ≤ l.countP Call.isSendFrameInfo ∧
      l.countP Call.isSendFrameInfo ≤ 1 ∧
      d1.cndec_buf_ref_count_ = d.cndec_buf_ref_count_ + (if reused then 1 else 0) ∧
      (d.param_.output_type_ = .OUTPUT_CPU → reused = false) := by
  unfold MluDecoder.processDecodedFrame at h
  split at h
  · simp at h
  · split at h
    · simp at h
    · simp only [Option.some.injEq, Prod.mk.injEq] at h
      obtain ⟨rfl, -, rfl⟩ := h
      exact ⟨[], by simp, rfl, rfl, by simp, by simp, by simp, by simp, by simp, by simp,
        fun _ => rfl⟩
    · split at h
      · simp only [Option.some.injEq, Prod.mk.injEq] at h
        obtain ⟨rfl, -, rfl⟩ := h
        exact ⟨[], by simp, rfl, rfl, by simp, by simp, by simp, by simp, by simp, by simp,
          fun _ => rfl⟩
      · split at h
        · simp only [Option.some.injEq, Prod.mk.injEq] at h
          obtain ⟨rfl, -, rfl⟩ := h
          exact ⟨[], by simp, rfl, rfl, by simp, by simp, by simp, by simp, by simp, by simp,
            fun _ => rfl⟩
        · dsimp only at h
          split at h
          · rename_i hout
            simp only [Option.some.injEq, Prod.mk.injEq] at h
            obtain ⟨rfl, -, rfl⟩ := h
            cases hr : d.param_.reuse_cndec_buf <;>
              refine ⟨[_], by simp [MluDecoder.emit, hr]; rfl, ?_, ?_, ?_, ?_, ?_, ?_, ?_, ?_, ?_⟩ <;>
              simp [MluDecoder.emit, hr, hout, Call.isAddReference, Call.isReleaseReference,
                Call.sendsReuseToken, Call.isSendFrameInfo]
          · split at h
            · simp at h
            · simp only [Option.some.injEq, Prod.mk.injEq] at h
              obtain ⟨rfl, -, rfl⟩ := h
              refine ⟨[_], by simp [MluDecoder.emit]; rfl, ?_, ?_, ?_, ?_, ?_, ?_, ?_, ?_, ?_⟩ <;>
              simp [MluDecoder.emit, Call.isAddReference, Call.isReleaseReference,
                Call.sendsReuseToken, Call.isSendFrameInfo]
          · simp at h

theorem callsSince_self (l : List Call) : callsSince l l = [] := by
  simp [callsSince]

/-- A callback that made no call and left the number of pending buffers as it
was is balanced. -/
theorem refBalanced_of_no_call (buf : Nat) (d d1 : MluDecoder) (hl : d1.log = d.log)
    (hc : d1.cndec_buf_ref_count_ = d.cndec_buf_ref_count_) : refBalanced buf d d1 := by
  unfold refBalanced
  rw [hl, callsSince_self]
  simp [hc]

/-- The reference balance of `VideoFrameCallback`. -/
theorem VideoFrameCallback_balanced (d d1 : MluDecoder) (output : cnvideoDecOutput)
    (env : FrameEnv) (h : d.VideoFrameCallback output env = some d1) :
    refBalanced output.frame.buf d d1 := by
  unfold MluDecoder.VideoFrameCallback at h
  split at h
  · simp at h; subst h
    exact refBalanced_of_no_call _ _ _ rfl rfl
  · split at h
    · simp at h
    · dsimp only at h
      split at h
      · split at h
        · simp at h
        · rename_i d3 ret reused hp
          unfold MluDecoder.ProcessFrame at hp
          obtain ⟨l, hl, -, -, c1, c2, c3, c4, c5, c6, c7⟩ :=
            processDecodedFrame_calls _ _ _ _ _ _ _ hp
          cases reused
          · simp at h; subst h
            unfold refBalanced
            simp only [MluDecoder.emit] at hl c6 c7 ⊢
            rw [hl, List.append_assoc, List.append_assoc, callsSince_append]
            simp only [Bool.false_eq_true, if_false, if_true, Nat.add_zero] at c3 c6
            simp only [List.countP_append]
            generalize List.countP (Call.isAddReference output.frame.buf) l = nA at c1 ⊢
            generalize List.countP (Call.isReleaseReference output.frame.buf) l = nR at c2 ⊢
            generalize List.countP Call.sendsReuseToken l = nT at c3 c4 ⊢
            generalize List.countP Call.isSendFrameInfo l = nS at c4 c5 ⊢
            subst c1 c2 c3
            simp [c6, Call.isAddReference, Call.isReleaseReference, Call.sendsReuseToken,
              Call.isSendFrameInfo]
            omega
          · simp at h; subst h
            unfold refBalanced
            simp only [MluDecoder.emit] at hl c6 c7 ⊢
            rw [hl, List.append_assoc, callsSince_append]
            simp only [Bool.false_eq_true, if_false, if_true, Nat.add_zero] at c3 c6
            have c7' : ¬ d.param_.output_type_ = .OUTPUT_CPU := fun h => by simpa using c7 h
            simp only [List.countP_append]
            generalize List.countP (Call.isAddReference output.frame.buf) l = nA at c1 ⊢
            generalize List.countP (Call.isReleaseReference output.frame.buf) l = nR at c2 ⊢
            generalize List.countP Call.sendsReuseToken l = nT at c3 c4 ⊢
            generalize List.countP Call.isSendFrameInfo l = nS at c4 c5 ⊢
            subst c1 c2 c3
            simp [c6, c7', Call.isAddReference, Call.isReleaseReference, Call.sendsReuseToken,
              Call.isSendFrameInfo]
            omega
      · simp at h; subst h
        exact refBalanced_of_no_call _ _ _ rfl rfl

/-- The reference balance of `JpegFrameCallback`. -/
theorem JpegFrameCallback_balanced (d d1 : MluDecoder) (output : cnjpegDecOutput)
    (env : FrameEnv) (h : d.JpegFrameCallback output env = some d1) :
    refBalanced output.frame.buf d d1 := by
  unfold MluDecoder.JpegFrameCallback at h
  split at h
  · split at h
    · simp at h
    · split at h
      · simp at h
      · simp at h; subst h
        exact refBalanced_of_no_call _ _ _ rfl rfl
      · simp at h; subst h
        unfold refBalanced
        simp only [MluDecoder.emit]
        rw [callsSince_append]
        simp [Call.isAddReference, Call.isReleaseReference, Call.sendsReuseToken,
          Call.isSendFrameInfo]
  · split at h
    · simp at h
    · dsimp only at h
      split at h
      · split at h
        · simp at h
        · rename_i d3 ret reused hp
          unfold MluDecoder.ProcessJpegFrame at hp
          obtain ⟨l, hl, -, -, c1, c2, c3, c4, c5, c6, c7⟩ :=
            processDecodedFrame_calls _ _ _ _ _ _ _ hp
          cases reused
          · simp at h; subst h
            unfold refBalanced
            simp only [MluDecoder.emit] at hl c6 c7 ⊢
            rw [hl, List.append_assoc, List.append_assoc, callsSince_append]
            simp only [Bool.false_eq_true, if_false, if_true, Nat.add_zero] at c3 c6
            simp only [List.countP_append]
            generalize List.countP (Call.isAddReference output.frame.buf) l = nA at c1 ⊢
            generalize List.countP (Call.isReleaseReference output.frame.buf) l = nR at c2 ⊢
            generalize List.countP Call.sendsReuseToken l = nT at c3 c4 ⊢
            generalize List.countP Call.isSendFrameInfo l = nS at c4 c5 ⊢
            subst c1 c2 c3
            simp [c6, Call.isAddReference, Call.isReleaseReference, Call.sendsReuseToken,
              Call.isSendFrameInfo]
            omega
          · simp at h; subst h
            unfold refBalanced
            simp only [MluDecoder.emit] at hl c6 c7 ⊢
            rw [hl, List.append_assoc, callsSince_append]
            simp only [Bool.false_eq_true, if_false, if_true, Nat.add_zero] at c3 c6
            have c7' : ¬ d.param_.output_type_ = .OUTPUT_CPU := fun h => by simpa using c7 h
            simp only [List.countP_append]
            generalize List.countP (Call.isAddReference output.frame.buf) l = nA at c1 ⊢
            generalize List.countP (Call.isReleaseReference output.frame.buf) l = nR at c2 ⊢
            generalize List.countP Call.sendsReuseToken l = nT at c3 c4 ⊢
            generalize List.countP Call.isSendFrameInfo l = nS at c4 c5 ⊢
            subst c1 c2 c3
            simp [c6, c7', Call.isAddReference, Call.isReleaseReference, Call.sendsReuseToken,
              Call.isSendFrameInfo]
            omega
      · simp at h; subst h
        exact refBalanced_of_no_call _ _ _ rfl rfl

/-- The frame callbacks return when a sink is attached, the interval is not
zero, the sink answers the request for a frame (or the loop gives up), and the
output target is the device, or the host with a successful allocation. -/
theorem processDecodedFrame_returns (d : MluDecoder) (frame : cncodecFrame) (pts : Nat)
    (env : FrameEnv) (hh : d.handler_ = true)
    (hf : (createFrameInfoLoop (d.cndec_abort_flag_ || d.cndec_error_flag_)
      env.frameInfo).isSome = true)
    (ho : d.param_.output_type_ = .OUTPUT_MLU ∨
      (d.param_.output_type_ = .OUTPUT_CPU ∧ env.hostAlloc = true)) :
    (d.processDecodedFrame frame pts env).isSome = true := by
  unfold MluDecoder.processDecodedFrame
  simp only [hh, Bool.not_true, Bool.false_eq_true, if_false]
  cases hc : createFrameInfoLoop (d.cndec_abort_flag_ || d.cndec_error_flag_) env.frameInfo with
  | none => simp [hc] at hf
  | some b =>
    cases b
    · simp
    · by_cases hs : (d.cndec_abort_flag_ || d.cndec_error_flag_) = true
      · simp [hs]
      · by_cases ha : env.dataframeAlloc = true
        · rcases ho with ho | ⟨ho, ha2⟩
          · simp [hs, ha, ho]
          · simp [hs, ha, ho, ha2]
        · simp [hs, ha]

end CNStream

namespace CNStream

/-- C18: whenever `VideoFrameCallback` or `JpegFrameCallback` returns, the
calls it made on the frame's hardware buffer are balanced: the number of
add-reference calls is the number of release-reference calls plus the number
of descriptors with a reuse token that it sent (at most one), so the
difference is 1 if the descriptor sent carries a reuse token and 0 otherwise;
with the host as output target no reuse token is handed out, and when nothing
is sent the reference taken is released.  The callbacks do return when a sink
is attached, the interval is not zero, the sink answers the request for a
frame, and the output target is the device or the host with a successful
allocation. -/
theorem C18_reference_balance (d : MluDecoder) (env : FrameEnv) :
    (∀ (output : cnvideoDecOutput) (d1 : MluDecoder),
      d.VideoFrameCallback output env = some d1 → refBalanced output.frame.buf d d1) ∧
    (∀ (output : cnjpegDecOutput) (d1 : MluDecoder),
      d.JpegFrameCallback output env = some d1 → refBalanced output.frame.buf d d1) ∧
    (d.handler_ = true → toSizeT d.interval_ ≠ 0 →
      (createFrameInfoLoop (d.cndec_abort_flag_ || d.cndec_error_flag_)
        env.frameInfo).isSome = true →
      d.param_.output_type_ = .OUTPUT_MLU ∨
        (d.param_.output_type_ = .OUTPUT_CPU ∧ env.hostAlloc = true) →
      (∀ output : cnvideoDecOutput, (d.VideoFrameCallback output env).isSome = true) ∧
      (∀ output : cnjpegDecOutput, (d.JpegFrameCallback output env).isSome = true)) := by
  refine ⟨fun output d1 h => VideoFrameCallback_balanced d d1 output env h,
    fun output d1 h => JpegFrameCallback_balanced d d1 output env h, ?_⟩
  intro hh hN hf ho
  constructor
  · intro output
    unfold MluDecoder.VideoFrameCallback
    by_cases h0 : (decide (output.frame.width = 0) || decide (output.frame.height = 0)) = true
    · simp [h0]
    · simp only [h0, hN, if_false, Bool.false_eq_true]
      by_cases hs : d.frame_count_ % toSizeT d.interval_ = 0
      · simp only [hs, if_true]
        have hp := processDecodedFrame_returns
          (({ d with frame_count_ := (d.frame_count_ + 1) % UINT64_MOD }).emit
            (.cnvideoDecAddReference d.instance_ output.frame.buf)) output.frame output.pts env
          hh hf ho
        unfold MluDecoder.ProcessFrame
        cases hq : MluDecoder.processDecodedFrame _ output.frame output.pts env with
        | none => rw [hq] at hp; simp at hp
        | some r =>
          obtain ⟨d3, ret, reused⟩ := r
          cases reused <;> simp
      · simp [hs]
  · intro output
    unfold MluDecoder.JpegFrameCallback
    by_cases h0 : output.result ≠ 0
    · have h0' : ¬ output.result = 0 := h0
      cases hc : createFrameInfoLoop (d.cndec_abort_flag_ || d.cndec_error_flag_)
          env.frameInfo with
      | none => simp [hc] at hf
      | some b => cases b <;> simp [h0', hh, hc]
    · have h0' : output.result = 0 := by simpa using h0
      simp only [h0', ne_eq, not_true_eq_false, hN, if_false]
      by_cases hs : d.frame_count_ % toSizeT d.interval_ = 0
      · simp only [hs, if_true]
        have hp := processDecodedFrame_returns
          (({ d with frame_count_ := (d.frame_count_ + 1) % UINT64_MOD }).emit
            (.cnjpegDecAddReference d.jpg_instance_ output.frame.buf)) output.frame output.pts
          env hh hf ho
        unfold MluDecoder.ProcessJpegFrame
        cases hq : MluDecoder.processDecodedFrame _ output.frame output.pts env with
        | none => rw [hq] at hp; simp at hp
        | some r =>
          obtain ⟨d3, ret, reused⟩ := r
          cases reused <;> simp
      · simp [hs]

/-- C18 at a concrete input: a session that reuses buffers sends a frame with a
reuse token: one reference taken, none released. -/
theorem C18_reference_balance_witness :
    refBalanced 0 Scenario.videoOpenReuse Scenario.videoReuseSent ∧
    (callsSince Scenario.videoOpenReuse.log Scenario.videoReuseSent.log).countP
      (Call.isAddReference 0) = 1 ∧
    (callsSince Scenario.videoOpenReuse.log Scenario.videoReuseSent.log).countP
      (Call.isReleaseReference 0) = 0 ∧
    (callsSince Scenario.videoOpenReuse.log Scenario.videoReuseSent.log).countP
      Call.sendsReuseToken = 1 :=
  ⟨(C18_reference_balance Scenario.videoOpenReuse Scenario.frameEnv).1 (Scenario.videoOut 0)
    Scenario.videoReuseSent rfl, by decide, by decide, by decide⟩

/-! ## Events that do not end the stream -/

/-- C19 is not what the code does: an H264 session has delivered two frames
(decode counter 2, frame-id counter 2); after a stream-corrupt event both
counters are still 2. -/
theorem C19_corrupt_event_keeps_counters_counterexample :
    ((MluDecoder.run Scenario.K
        [.videoEvent (.CNCODEC_CB_EVENT_NEW_FRAME (Scenario.videoOut 0) Scenario.frameEnv),
         .videoEvent (.CNCODEC_CB_EVENT_NEW_FRAME (Scenario.videoOut 1) Scenario.frameEnv)]
        Scenario.videoOpen).map (fun d => (d.frame_count_, d.frame_id_)),
     (MluDecoder.run Scenario.K
        [.videoEvent (.CNCODEC_CB_EVENT_NEW_FRAME (Scenario.videoOut 0) Scenario.frameEnv),
         .videoEvent (.CNCODEC_CB_EVENT_NEW_FRAME (Scenario.videoOut 1) Scenario.frameEnv),
         .videoEvent (.CNCODEC_CB_EVENT_STREAM_CORRUPT 2 3)]
        Scenario.videoOpen).map (fun d => (d.frame_count_, d.frame_id_))) =
      (some (2, 2), some (2, 2)) := by
  rfl

/-- C19, as the code has it: a stream-corrupt event on the video callback is
only logged.  The callback returns 0 and the decoder is exactly as before:
abort and error flags, sessions, decode counter, frame-id counter and the calls
made so far (so no EOS is sent); a frame delivered next is treated as if the
event had not happened. -/
theorem C19_corrupt_event_changes_nothing (K : CnCodecRet) (d : MluDecoder)
    (frameNumber frameCount : Nat) :
    VideoDecodeCallback K d (.CNCODEC_CB_EVENT_STREAM_CORRUPT frameNumber frameCount) =
      some (d, 0) ∧
    d.CorruptCallback frameNumber frameCount = d ∧
    ∀ (output : cnvideoDecOutput) (env : FrameEnv),
      (VideoDecodeCallback K d (.CNCODEC_CB_EVENT_STREAM_CORRUPT frameNumber frameCount)).bind
          (fun r => VideoDecodeCallback K r.1 (.CNCODEC_CB_EVENT_NEW_FRAME output env)) =
        VideoDecodeCallback K d (.CNCODEC_CB_EVENT_NEW_FRAME output env) :=
  ⟨rfl, rfl, fun _ _ => rfl⟩

end CNStream

namespace CNStream

/-- C20: for a still-image output with a non-zero decode result, when the sink
hands out a frame, `JpegFrameCallback` returns after exactly one call, the
`SendFrameInfo` of a descriptor with the output's timestamp, the invalid flag
and no picture; no reference is taken, no EOS is sent, and the abort and error
flags, the frame-id counter, the decode counter, the sessions and the number
of pending buffers are as before. -/
theorem C20_invalid_image_descriptor (d : MluDecoder) (output : cnjpegDecOutput)
    (env : FrameEnv) (hr : output.result ≠ 0) (hh : d.handler_ = true)
    (hf : createFrameInfoLoop (d.cndec_abort_flag_ || d.cndec_error_flag_) env.frameInfo =
      some true) :
    ∃ d1, d.JpegFrameCallback output env = some d1 ∧
      JpegEventCallback d (.CNCODEC_CB_EVENT_NEW_FRAME (some output) env) = some (d1, 0) ∧
      callsSince d.log d1.log = [.SendFrameInfo (invalidFrameInfo output)] ∧
      (invalidFrameInfo output).timestamp = output.pts ∧
      (invalidFrameInfo output).flags = CN_FRAME_FLAG_INVALID ∧
      (invalidFrameInfo output).dataframe = none ∧
      d1.cndec_abort_flag_ = d.cndec_abort_flag_ ∧
      d1.cndec_error_flag_ = d.cndec_error_flag_ ∧
      d1.frame_id_ = d.frame_id_ ∧ d1.frame_count_ = d.frame_count_ ∧
      d1.instance_ = d.instance_ ∧ d1.jpg_instance_ = d.jpg_instance_ ∧
      d1.cndec_buf_ref_count_ = d.cndec_buf_ref_count_ ∧
      d1 = d.emit (.SendFrameInfo (invalidFrameInfo output)) := by
  have h1 : d.JpegFrameCallback output env =
      some (d.emit (.SendFrameInfo (invalidFrameInfo output))) := by
    unfold MluDecoder.JpegFrameCallback invalidFrameInfo
    simp [hr, hh, hf]
  refine ⟨_, h1, ?_, ?_, rfl, rfl, rfl, rfl, rfl, rfl, rfl, rfl, rfl, rfl, rfl⟩
  · simp [JpegEventCallback, h1]
  · simp [MluDecoder.emit, callsSince_append]

/-- C20 at a concrete input: the MJPEG session gets an image with decode result 1. -/
theorem C20_invalid_image_descriptor_witness :
    ∃ d1, Scenario.jpegOpen.JpegFrameCallback
        { frame := (Scenario.jpegOut 9).frame, pts := 9, result := 1 } Scenario.frameEnv =
        some d1 ∧
      callsSince Scenario.jpegOpen.log d1.log =
        [.SendFrameInfo { timestamp := 9, flags := CN_FRAME_FLAG_INVALID, dataframe := none }] ∧
      d1.frame_id_ = 0 ∧ d1.frame_count_ = 0 ∧ d1.cndec_abort_flag_ = false := by
  obtain ⟨d1, h1, -, h3, -, -, -, h7, -, h9, h10, -⟩ :=
    C20_invalid_image_descriptor Scenario.jpegOpen
      { frame := (Scenario.jpegOut 9).frame, pts := 9, result := 1 } Scenario.frameEnv
      (by decide) rfl rfl
  exact ⟨d1, h1, h3, h9, h10, h7⟩

end CNStream

namespace CNStream

/-! ## End of stream on the software decoder -/

theorem cpuCallsSince_append (a b : List CpuCall) : cpuCallsSince a (a ++ b) = b := by
  simp [cpuCallsSince]

/-- What `FFmpegCpuDecoder::ProcessFrame` does when it returns: the decode
counter goes up by one, pointers and EOS flags stay, and it made no call or the
one `SendFrameInfo` call of a descriptor with the frame's timestamp. -/
theorem CpuProcessFrame_calls (d d1 : FFmpegCpuDecoder) (frame : AVFrame) (env : CpuFrameEnv)
    (b : Bool) (h : d.ProcessFrame frame env = some (d1, b)) :
    d1.handler_ = d.handler_ ∧ d1.instance_ = d.instance_ ∧ d1.eos_sent_ = d.eos_sent_ ∧
    d1.eos_got_ = d.eos_got_ ∧ d1.frame_count_ = (d.frame_count_ + 1) % UINT64_MOD ∧
    (d1.log = d.log ∨
      ∃ data, d1.log = d.log ++ [.SendFrameInfo data] ∧ data.timestamp = frame.pts) := by
  unfold FFmpegCpuDecoder.ProcessFrame at h
  have key : ∀ x : FFmpegCpuDecoder × Bool,
      (x.1 = { d with frame_count_ := (d.frame_count_ + 1) % UINT64_MOD } ∨
        ∃ data, data.timestamp = frame.pts ∧
          x.1 = ({ d with frame_count_ := (d.frame_count_ + 1) % UINT64_MOD,
                          frame_id_ := (d.frame_id_ + 1) % UINT64_MOD }).emit
            (.SendFrameInfo data)) →
      some x = some (d1, b) →
      d1.handler_ = d.handler_ ∧ d1.instance_ = d.instance_ ∧ d1.eos_sent_ = d.eos_sent_ ∧
      d1.eos_got_ = d.eos_got_ ∧ d1.frame_count_ = (d.frame_count_ + 1) % UINT64_MOD ∧
      (d1.log = d.log ∨
        ∃ data, d1.log = d.log ++ [.SendFrameInfo data] ∧ data.timestamp = frame.pts) := by
    intro x hx he
    simp only [Option.some.injEq] at he
    subst he
    rcases hx with hx | ⟨data, hd, hx⟩
    · simp only at hx; subst hx
      exact ⟨rfl, rfl, rfl, rfl, rfl, Or.inl rfl⟩
    · simp only at hx; subst hx
      exact ⟨rfl, rfl, rfl, rfl, rfl, Or.inr ⟨data, rfl, hd⟩⟩
  split at h
  · simp at h
  · dsimp only at h
    split at h
    · exact key _ (Or.inl rfl) h
    · split at h
      · simp at h
      · split at h
        · simp at h
        · split at h
          · simp at h
          · split at h
            · exact key _ (Or.inl rfl) h
            · split at h
              · exact key _ (Or.inl rfl) h
              · split at h
                · exact key _ (Or.inl rfl) h
                · split at h
                  · simp at h
                  · exact key _ (Or.inl rfl) h
                  · split at h
                    · split at h
                      · exact key _ (Or.inl rfl) h
                      · exact key _ (Or.inr ⟨_, rfl, rfl⟩) h
                    · exact key _ (Or.inr ⟨_, rfl, rfl⟩) h
                    · exact key _ (Or.inl rfl) h

/-- What the drain loop does when it ends: one drain call per buffered frame,
each followed by what `ProcessFrame` does with that frame, and a last drain
call, the one that produced no frame. -/
theorem flushLoop_calls (frames : List (AVFrame × CpuFrameEnv)) (d d2 : FFmpegCpuDecoder)
    (h : FFmpegCpuDecoder.flushLoop frames d = some d2) :
    d2.handler_ = d.handler_ ∧ d2.instance_ = d.instance_ ∧ d2.eos_sent_ = d.eos_sent_ ∧
    d2.eos_got_ = d.eos_got_ ∧
    d2.frame_count_ % UINT64_MOD = (d.frame_count_ + frames.length) % UINT64_MOD ∧
    ∃ l, d2.log = d.log ++ l ++ [.avcodec_decode_video2 true] ∧
      l.countP CpuCall.isDrain = frames.length ∧ l.count .SendFlowEos = 0 ∧
      ((cpuSentFrames l).map (·.timestamp)).Sublist (frames.map (·.1.pts)) := by
  induction frames generalizing d with
  | nil =>
    simp only [FFmpegCpuDecoder.flushLoop, Option.some.injEq] at h
    subst h
    exact ⟨rfl, rfl, rfl, rfl, by simp [FFmpegCpuDecoder.emit],
      [], by simp [FFmpegCpuDecoder.emit], by simp, by simp, by simp [cpuSentFrames]⟩
  | cons p frames ih =>
    obtain ⟨frame, fenv⟩ := p
    simp only [FFmpegCpuDecoder.flushLoop] at h
    split at h
    · simp at h
    · rename_i d1 b hp
      obtain ⟨a1, a2, a3, a4, a5, a6⟩ := CpuProcessFrame_calls _ _ _ _ _ hp
      obtain ⟨b1, b2, b3, b4, b5, l, b6, b7, b8, b9⟩ := ih d1 h
      refine ⟨by rw [b1, a1]; rfl, by rw [b2, a2]; rfl, by rw [b3, a3]; rfl,
        by rw [b4, a4]; rfl, ?_, ?_⟩
      · rw [b5, a5]
        simp only [FFmpegCpuDecoder.emit, List.length_cons, UINT64_MOD]
        omega
      · rcases a6 with a6 | ⟨data, a6, a7⟩
        · refine ⟨.avcodec_decode_video2 true :: l, ?_, ?_, ?_, ?_⟩
          · rw [b6, a6]; simp [FFmpegCpuDecoder.emit]
          · simp [List.countP_cons, CpuCall.isDrain, b7]
          · simp [List.count_cons, b8]
          · simp only [cpuSentFrames, List.map_cons]
            exact List.Sublist.cons _ b9
        · refine ⟨.avcodec_decode_video2 true :: .SendFrameInfo data :: l, ?_, ?_, ?_, ?_⟩
          · rw [b6, a6]; simp [FFmpegCpuDecoder.emit]
          · simp [List.countP_cons, CpuCall.isDrain, b7]
          · simp [List.count_cons, b8]
          · simp only [cpuSentFrames, List.map_cons, a7]
            exact List.Sublist.cons₂ _ b9

/-- C21: whenever `FFmpegCpuDecoder::Process` with `eos` set returns, it returns
false with EOS marked as sent and as received, and the calls it made are: one
drain call per buffered frame, each followed by what `ProcessFrame` did with
the frame that the call produced (so the timestamps of the descriptors sent are
a subsequence, in order, of the timestamps of the frames produced, and the
decode counter has advanced by their number), then the drain call that
produced no frame, then one `SendFlowEos`, which is the last call and the only
one.  With a sink attached, a decode context open, a non-zero interval and
frames that `ProcessFrame` can handle, the call does return.  `Process` on an
EOS or null `ESPacket` is this call. -/
theorem C21_software_eos_drain (d : FFmpegCpuDecoder) (pkt : Option AVPacket)
    (env : CpuProcessEnv) :
    (∀ (d2 : FFmpegCpuDecoder) (b : Bool), d.Process pkt true env = some (d2, b) →
      b = false ∧ d2.eos_sent_ = true ∧ d2.eos_got_ = true ∧
      d2.frame_count_ % UINT64_MOD = (d.frame_count_ + env.flushed.length) % UINT64_MOD ∧
      ∃ l, cpuCallsSince d.log d2.log = l ++ [.avcodec_decode_video2 true, .SendFlowEos] ∧
        l.countP CpuCall.isDrain = env.flushed.length ∧ l.count .SendFlowEos = 0 ∧
        ((cpuSentFrames l).map (·.timestamp)).Sublist (env.flushed.map (·.1.pts))) ∧
    (d.handler_ = true → d.instance_ = true → toSizeT d.interval_ ≠ 0 →
      d.frame_count_ < UINT64_MOD → d.frame_id_ < UINT64_MOD →
      (∀ p ∈ env.flushed, p.1.decoded = true ∧ p.2.good d.param_ = true) →
      ∃ d2, d.Process pkt true env = some (d2, false)) ∧
    (∀ q : Option ESPacket, isDataPacket q = false →
      d.ProcessES q env = d.Process none true env) ∧
    d.Process pkt true env = d.Process none true env := by
  refine ⟨?_, ?_, ?_, ?_⟩
  · intro d2 b h
    unfold FFmpegCpuDecoder.Process at h
    split at h
    · simp at h
    · simp only [if_true] at h
      split at h
      · simp at h
      · rename_i d1 hf
        split at h
        · simp at h
        · simp only [Option.some.injEq, Prod.mk.injEq] at h
          obtain ⟨rfl, rfl⟩ := h
          obtain ⟨b1, b2, b3, b4, b5, l, b6, b7, b8, b9⟩ := flushLoop_calls _ _ _ hf
          refine ⟨rfl, ?_, rfl, ?_, l, ?_, b7, b8, b9⟩
          · simp only [FFmpegCpuDecoder.emit]; rw [b3]
          · simp only [FFmpegCpuDecoder.emit]; rw [b5]
          · simp only [FFmpegCpuDecoder.emit]
            rw [b6]
            simp only [List.append_assoc]
            rw [cpuCallsSince_append]
            simp
  · intro hh hi hN hcnt hid hfs
    obtain ⟨d1, descs, h1, h2, -⟩ := flushLoop_live env.flushed { d with eos_sent_ := true }
      hh hi hN hcnt hid hfs
    have hh1 : d1.handler_ = true := by rw [h2.1]; exact hh
    have h1' := h1
    simp only [hi] at h1'
    exact ⟨{ d1.emit .SendFlowEos with eos_got_ := true },
      by simp [FFmpegCpuDecoder.Process, hi, h1', hh1]⟩
  · intro q hq
    unfold FFmpegCpuDecoder.ProcessES
    cases q with
    | none => rfl
    | some p =>
      simp only [isDataPacket] at hq
      simp [isDataPacket, hq]
  · unfold FFmpegCpuDecoder.Process
    simp

/-- C21 at a concrete input: the software decoder, opened with interval 1,
drains two buffered frames. -/
theorem C21_software_eos_drain_witness :
    Scenario.cpuDrained.eos_sent_ = true ∧ Scenario.cpuDrained.eos_got_ = true ∧
    Scenario.cpuDrained.frame_count_ % UINT64_MOD =
      ((Scenario.cpuOpen 1).frame_count_ + (Scenario.cpuEosEnv 2).flushed.length) %
        UINT64_MOD ∧
    ∃ l, cpuCallsSince (Scenario.cpuOpen 1).log Scenario.cpuDrained.log =
        l ++ [.avcodec_decode_video2 true, .SendFlowEos] ∧
      l.countP CpuCall.isDrain = (Scenario.cpuEosEnv 2).flushed.length ∧
      l.count .SendFlowEos = 0 ∧
      ((cpuSentFrames l).map (·.timestamp)).Sublist
        ((Scenario.cpuEosEnv 2).flushed.map (·.1.pts)) :=
  ((C21_software_eos_drain (Scenario.cpuOpen 1) none (Scenario.cpuEosEnv 2)).1
    Scenario.cpuDrained false rfl).2

end CNStream

namespace CNStream

/-! ## Sessions of the two kinds -/

/-- `Create` does nothing when the handle of the kind that the codec selects is set. -/
theorem Create_same_kind_refused (K : CnCodecRet) (d : MluDecoder) (info : VideoStreamInfo)
    (interval : Int) (env : CreateEnv) :
    (info.codec_id = .AV_CODEC_ID_MJPEG → d.jpg_instance_.isSome = true →
      d.Create K info interval env = (d, false)) ∧
    (info.codec_id ≠ .AV_CODEC_ID_MJPEG → d.instance_.isSome = true →
      d.Create K info interval env = (d, false)) := by
  constructor
  · intro hc hi
    simp [MluDecoder.Create, hc, MluDecoder.CreateJpegDecoder, hi]
  · intro hc hi
    simp [MluDecoder.Create, hc, MluDecoder.CreateVideoDecoder, hi]

/-- `Create` leaves the handle of the other kind as it is. -/
theorem Create_other_kind_kept (K : CnCodecRet) (d : MluDecoder) (info : VideoStreamInfo)
    (interval : Int) (env : CreateEnv) :
    (info.codec_id = .AV_CODEC_ID_MJPEG →
      (d.Create K info interval env).1.instance_ = d.instance_) ∧
    (info.codec_id ≠ .AV_CODEC_ID_MJPEG →
      (d.Create K info interval env).1.jpg_instance_ = d.jpg_instance_) := by
  constructor
  · intro hc
    unfold MluDecoder.Create
    simp only [hc, if_true]
    unfold MluDecoder.CreateJpegDecoder
    by_cases h1 : d.jpg_instance_.isSome = true
    · simp [h1]
    · by_cases h2 : (decide (info.codec_width > 7680) || decide (info.codec_height > 4320)) = true
      · simp [h1, h2]
      · by_cases h3 : K.CNCODEC_SUCCESS = env.createRet
        · simp [h1, h2, h3, MluDecoder.emit]
        · simp [h1, h2, h3, MluDecoder.emit]
  · intro hc
    unfold MluDecoder.Create
    simp only [hc, if_false]
    unfold MluDecoder.CreateVideoDecoder
    by_cases h1 : d.instance_.isSome = true
    · simp [h1]
    · by_cases h3 : K.CNCODEC_SUCCESS = env.createRet
      · by_cases h4 : K.CNCODEC_SUCCESS = env.setAttrRet
        · cases hcodec : info.codec_id <;> simp_all [MluDecoder.emit]
        · cases hcodec : info.codec_id <;> simp_all [MluDecoder.emit]
      · cases hcodec : info.codec_id <;> simp_all [MluDecoder.emit]

/-- C22 is not what the code does: a decoder as constructed is opened with an
H264 stream and then, without `Destroy` in between, with an MJPEG stream; both
opens succeed and both session handles are set. -/
theorem C22_both_handles_set_counterexample :
    (((MluDecoder.fresh true Scenario.param).Create Scenario.K Scenario.h264 1
        (Scenario.createOk 7)).2,
     (Scenario.videoOpen.Create Scenario.K Scenario.mjpeg 1 (Scenario.createOk 8)).2,
     (MluDecoder.run Scenario.K
        [.Create Scenario.h264 1 (Scenario.createOk 7),
         .Create Scenario.mjpeg 1 (Scenario.createOk 8)]
        (MluDecoder.fresh true Scenario.param)).map (fun d => (d.instance_, d.jpg_instance_))) =
      (true, true, some (some 7, some 8)) := by
  rfl

/-- C22, as the code has it: each kind of session is guarded on its own.  An
open whose codec selects a kind whose handle is set returns false and changes
nothing, so a session is never replaced; an open never touches the handle of
the other kind; and an open for a still image succeeds while a video session
is active, after which both handles are set (and the other way round). -/
theorem C22_one_session_per_kind (K : CnCodecRet) (d : MluDecoder) (info : VideoStreamInfo)
    (interval : Int) (env : CreateEnv) :
    (info.codec_id = .AV_CODEC_ID_MJPEG → d.jpg_instance_.isSome = true →
      d.Create K info interval env = (d, false)) ∧
    (info.codec_id ≠ .AV_CODEC_ID_MJPEG → d.instance_.isSome = true →
      d.Create K info interval env = (d, false)) ∧
    (info.codec_id = .AV_CODEC_ID_MJPEG →
      (d.Create K info interval env).1.instance_ = d.instance_) ∧
    (info.codec_id ≠ .AV_CODEC_ID_MJPEG →
      (d.Create K info interval env).1.jpg_instance_ = d.jpg_instance_) ∧
    (∀ h : Nat, d.instance_ = some h → d.jpg_instance_ = none →
      info.codec_id = .AV_CODEC_ID_MJPEG → info.codec_width ≤ 7680 →
      info.codec_height ≤ 4320 → K.CNCODEC_SUCCESS = env.createRet →
      (d.Create K info interval env).2 = true ∧
      (d.Create K info interval env).1.instance_ = some h ∧
      (d.Create K info interval env).1.jpg_instance_ = some env.handle) ∧
    (∀ h : Nat, d.jpg_instance_ = some h → d.instance_ = none →
      info.codec_id = .AV_CODEC_ID_H264 ∨ info.codec_id = .AV_CODEC_ID_HEVC →
      K.CNCODEC_SUCCESS = env.createRet → K.CNCODEC_SUCCESS = env.setAttrRet →
      (d.Create K info interval env).2 = true ∧
      (d.Create K info interval env).1.instance_ = some env.handle ∧
      (d.Create K info interval env).1.jpg_instance_ = some h) := by
  have hs := Create_same_kind_refused K d info interval env
  have ho := Create_other_kind_kept K d info interval env
  refine ⟨hs.1, hs.2, ho.1, ho.2, ?_, ?_⟩
  · intro h hi hj hc hw hh hr
    have hok : (d.Create K info interval env).2 = true :=
      (Create_success_iff K d info interval env).2 (Or.inl ⟨hc, hj, hw, hh, hr⟩)
    have o10 := (Create_success K d info interval env hok).2.2.2.2.2.2.2.2.2
    simp only [hc, if_true] at o10
    exact ⟨hok, by rw [o10.2, hi], o10.1⟩
  · intro h hj hi hv hr1 hr2
    have hc : info.codec_id ≠ .AV_CODEC_ID_MJPEG := by rcases hv with h | h <;> simp [h]
    have hok : (d.Create K info interval env).2 = true :=
      (Create_success_iff K d info interval env).2 (Or.inr ⟨hv, hi, hr1, hr2⟩)
    have o10 := (Create_success K d info interval env hok).2.2.2.2.2.2.2.2.2
    simp only [hc, if_false] at o10
    exact ⟨hok, o10.1, by rw [o10.2, hj]⟩

/-- C22 at a concrete input: the H264 session of handle 7 is opened again with an MJPEG stream. -/
theorem C22_one_session_per_kind_witness :
    (Scenario.videoOpen.Create Scenario.K Scenario.mjpeg 1 (Scenario.createOk 8)).2 = true ∧
    (Scenario.videoOpen.Create Scenario.K Scenario.mjpeg 1 (Scenario.createOk 8)).1.instance_ =
      some 7 ∧
    (Scenario.videoOpen.Create Scenario.K Scenario.mjpeg 1
      (Scenario.createOk 8)).1.jpg_instance_ = some (Scenario.createOk 8).handle :=
  (C22_one_session_per_kind Scenario.K Scenario.videoOpen Scenario.mjpeg 1
    (Scenario.createOk 8)).2.2.2.2.1 7 rfl rfl rfl (by decide) (by decide) rfl

end CNStream

namespace CNStream

/-! ## Conversion to the semi-planar layout -/

/-- An offset that no write touches keeps its byte. -/
theorem applyWrites_of_not_mem (ws : List (Int × Nat)) (mem : Int → Nat) (i : Int)
    (h : ∀ p ∈ ws, p.1 ≠ i) : applyWrites mem ws i = mem i := by
  induction ws generalizing mem with
  | nil => rfl
  | cons p ws ih =>
    obtain ⟨j, w⟩ := p
    simp only [applyWrites]
    rw [ih _ (fun q hq => h q (List.mem_cons_of_mem _ hq))]
    have : i ≠ j := fun e => h (j, w) (List.mem_cons_self _ _) e.symm
    simp [this]

/-- An offset that is written, and only ever with the byte `v`, holds `v` in the end. -/
theorem applyWrites_of_consistent (ws : List (Int × Nat)) (mem : Int → Nat) (i : Int) (v : Nat)
    (hm : (i, v) ∈ ws) (hc : ∀ p ∈ ws, p.1 = i → p.2 = v) : applyWrites mem ws i = v := by
  induction ws generalizing mem with
  | nil => simp at hm
  | cons p ws ih =>
    obtain ⟨j, w⟩ := p
    simp only [applyWrites]
    by_cases hex : ∃ q ∈ ws, q.1 = i
    · obtain ⟨q, hq, hqi⟩ := hex
      have hq2 : q.2 = v := hc q (List.mem_cons_of_mem _ hq) hqi
      have hq' : (i, v) ∈ ws := by
        have : q = (i, v) := Prod.ext hqi hq2
        rw [← this]; exact hq
      exact ih _ hq' (fun r hr => hc r (List.mem_cons_of_mem _ hr))
    · have hno : ∀ q ∈ ws, q.1 ≠ i := fun q hq e => hex ⟨q, hq, e⟩
      rw [applyWrites_of_not_mem ws _ i hno]
      rcases List.mem_cons.1 hm with h1 | h1
      · simp only [Prod.mk.injEq] at h1
        simp [h1.1, h1.2]
      · exact absurd rfl (hno (i, v) h1)

/-- The writes of one `memcpy`. -/
theorem mem_memcpyWrites (dst : Int) (src : Int → Nat) (srcOff n : Int) (ws : List (Int × Nat))
    (h : memcpyWrites dst src srcOff n = some ws) (p : Int × Nat) :
    p ∈ ws ↔ ∃ i : Nat, (i : Int) < n ∧ p = (dst + i, src (srcOff + i)) := by
  unfold memcpyWrites at h
  split at h
  · simp at h
  · rename_i hn
    simp only [Option.some.injEq] at h
    subst h
    rw [List.mem_map]
    constructor
    · rintro ⟨i, hi, rfl⟩
      simp at hi
      obtain ⟨a, ha, rfl⟩ := hi
      exact ⟨a, by omega, rfl⟩
    · rintro ⟨i, hi, rfl⟩
      refine ⟨(i : Int), ?_, rfl⟩
      simp
      exact hi

/-- The writes of the luma row loop. -/
theorem mem_lumaRowWrites (frame : AVFrame) (d : Int) (rows row : Nat) (ws : List (Int × Nat))
    (h : lumaRowWrites frame d row rows = some ws) (p : Int × Nat) :
    p ∈ ws ↔ ∃ r c : Nat, row ≤ r ∧ r < row + rows ∧ (c : Int) < frame.linesize0 ∧
      p = ((r : Int) * d + c, frame.data0 ((r : Int) * frame.linesize0 + c)) := by
  induction rows generalizing row ws with
  | zero =>
    simp only [lumaRowWrites, Option.some.injEq] at h
    subst h
    simp
    intro r c h1 h2
    omega
  | succ rows ih =>
    simp only [lumaRowWrites] at h
    split at h
    · simp at h
    · rename_i w1 hw1
      split at h
      · simp at h
      · rename_i w2 hw2
        simp only [Option.some.injEq] at h
        subst h
        rw [List.mem_append, mem_memcpyWrites _ _ _ _ _ hw1, ih (row + 1) w2 hw2]
        constructor
        · rintro (⟨c, hc, rfl⟩ | ⟨r, c, h1, h2, h3, rfl⟩)
          · exact ⟨row, c, le_refl _, by omega, hc, rfl⟩
          · exact ⟨r, c, by omega, by omega, h3, rfl⟩
        · rintro ⟨r, c, h1, h2, h3, rfl⟩
          by_cases hr : r = row
          · subst hr
            exact Or.inl ⟨c, h3, rfl⟩
          · exact Or.inr ⟨r, c, by omega, by omega, h3, rfl⟩

/-- The writes of one turn of the chroma row loop. -/
theorem mem_chromaRowWrites (frame : AVFrame) (d : Int) (nv21 : Bool) (row : Nat)
    (p : Int × Nat) :
    p ∈ chromaRowWrites frame d nv21 row ↔
      ∃ c : Nat, (c : Int) < frame.linesize1 ∧
        (p = (d * frame.height + d * row + (c : Int) * 2,
              if nv21 then frame.data2 (frame.linesize2 * row + c)
              else frame.data1 (frame.linesize1 * row + c)) ∨
         p = (d * frame.height + d * row + (c : Int) * 2 + 1,
              if nv21 then frame.data1 (frame.linesize1 * row + c)
              else frame.data2 (frame.linesize2 * row + c))) := by
  unfold chromaRowWrites
  simp only [List.mem_flatMap, List.mem_range, List.mem_cons, List.mem_singleton,
    List.not_mem_nil, or_false]
  constructor
  · rintro ⟨c, hc, h | h⟩
    · refine ⟨c, by omega, Or.inl ?_⟩
      rw [h]; cases nv21 <;> rfl
    · refine ⟨c, by omega, Or.inr ?_⟩
      rw [h]; cases nv21 <;> rfl
  · rintro ⟨c, hc, h | h⟩
    · refine ⟨c, by omega, Or.inl ?_⟩
      rw [h]; cases nv21 <;> rfl
    · refine ⟨c, by omega, Or.inr ?_⟩
      rw [h]; cases nv21 <;> rfl

/-- Two offsets `r * d + b` with `0 <= b < d` are equal only for the same row and the same `b`. -/
theorem row_offset_unique (d : Int) (r r1 : Nat) (b b1 : Int) (hb : 0 ≤ b) (hbd : b < d)
    (hb1 : 0 ≤ b1) (hbd1 : b1 < d) (h : (r : Int) * d + b = (r1 : Int) * d + b1) :
    r = r1 ∧ b = b1 := by
  have hd : 0 ≤ d := by omega
  rcases Nat.lt_trichotomy r r1 with hlt | heq | hgt
  · exfalso
    have h1 : ((r : Int) + 1) * d ≤ (r1 : Int) * d :=
      mul_le_mul_of_nonneg_right (by exact_mod_cast hlt) hd
    nlinarith
  · subst heq
    exact ⟨rfl, by linarith⟩
  · exfalso
    have h1 : ((r1 : Int) + 1) * d ≤ (r : Int) * d :=
      mul_le_mul_of_nonneg_right (by exact_mod_cast hgt) hd
    nlinarith

/-- An offset `r * d + b` with `r < h` and `b < d` lies below `d * h`. -/
theorem row_offset_lt (d h : Int) (r : Nat) (b : Int) (hr : (r : Int) < h) (hb : 0 ≤ b)
    (hbd : b < d) : (r : Int) * d + b < d * h := by
  have hd : 0 ≤ d := by omega
  have h1 : ((r : Int) + 1) * d ≤ h * d := mul_le_mul_of_nonneg_right (by omega) hd
  nlinarith

/-- The conversion is the luma writes followed by the chroma writes. -/
theorem FrameCvt2Yuv420sp_eq (frame : AVFrame) (d : Int) (nv21 : Bool)
    (hfmt : frame.format = .AV_PIX_FMT_YUV420P ∨ frame.format = .AV_PIX_FMT_YUVJ420P ∨
      frame.format = .AV_PIX_FMT_YUYV422) :
    FrameCvt2Yuv420sp frame d nv21 =
      (lumaWrites frame d).map fun ys => (true, ys ++ chromaWrites frame d nv21) := by
  have hfmt2 : ¬ (frame.format ≠ .AV_PIX_FMT_YUV420P ∧ frame.format ≠ .AV_PIX_FMT_YUVJ420P ∧
      frame.format ≠ .AV_PIX_FMT_YUYV422) := by
    rcases hfmt with h | h | h <;> simp [h]
  unfold FrameCvt2Yuv420sp lumaWrites chromaWrites
  simp only [hfmt2, if_false]
  by_cases hd : d = frame.linesize0
  · simp only [hd, if_true]
    cases memcpyWrites 0 frame.data0 0 (frame.linesize0 * frame.height) <;> rfl
  · simp only [hd, if_false]
    cases lumaRowWrites frame d 0 frame.height.toNat <;> rfl

/-- The luma writes, offset by offset. -/
theorem mem_lumaWrites (frame : AVFrame) (d : Int) (ys : List (Int × Nat))
    (hh : 0 ≤ frame.height) (hs : 0 ≤ frame.linesize0) (h : lumaWrites frame d = some ys)
    (p : Int × Nat) :
    p ∈ ys ↔ ∃ r c : Nat, (r : Int) < frame.height ∧ (c : Int) < frame.linesize0 ∧
      p = ((r : Int) * d + c, frame.data0 ((r : Int) * frame.linesize0 + c)) := by
  unfold lumaWrites at h
  by_cases hd : d = frame.linesize0
  · simp only [hd, if_true] at h
    rw [mem_memcpyWrites _ _ _ _ _ h]
    subst hd
    constructor
    · rintro ⟨i, hi, rfl⟩
      have hpos : 0 < frame.linesize0 := by
        rcases eq_or_lt_of_le hs with h0 | h0
        · rw [← h0] at hi; simp at hi; omega
        · exact h0
      have hq0 : 0 ≤ (i : Int) / frame.linesize0 := Int.ediv_nonneg (by omega) hs
      have hm0 : 0 ≤ (i : Int) % frame.linesize0 := Int.emod_nonneg _ (by omega)
      have hm1 : (i : Int) % frame.linesize0 < frame.linesize0 := Int.emod_lt_of_pos _ hpos
      have hdm : frame.linesize0 * ((i : Int) / frame.linesize0) + (i : Int) % frame.linesize0
          = i := Int.ediv_add_emod _ _
      have hq1 : (i : Int) / frame.linesize0 < frame.height := by
        by_contra hge
        have hge' : frame.height ≤ (i : Int) / frame.linesize0 := by omega
        have := mul_le_mul_of_nonneg_left hge' hs
        nlinarith
      refine ⟨((i : Int) / frame.linesize0).toNat, ((i : Int) % frame.linesize0).toNat, ?_, ?_, ?_⟩
      · rw [Int.toNat_of_nonneg hq0]; exact hq1
      · rw [Int.toNat_of_nonneg hm0]; exact hm1
      · rw [Int.toNat_of_nonneg hq0, Int.toNat_of_nonneg hm0]
        have e : (i : Int) / frame.linesize0 * frame.linesize0 + (i : Int) % frame.linesize0
            = i := by rw [mul_comm]; exact hdm
        rw [e]; simp
    · rintro ⟨r, c, hr, hc, rfl⟩
      have hlt := row_offset_lt frame.linesize0 frame.height r c hr (by omega) hc
      have hr0 : (0 : Int) ≤ (r : Int) * frame.linesize0 := mul_nonneg (by omega) hs
      refine ⟨((r : Int) * frame.linesize0 + c).toNat, ?_, ?_⟩
      · rw [Int.toNat_of_nonneg (by omega)]
        exact hlt
      · rw [Int.toNat_of_nonneg (by omega)]; simp
  · simp only [hd, if_false] at h
    rw [mem_lumaRowWrites _ _ _ _ _ h]
    constructor
    · rintro ⟨r, c, -, h2, h3, rfl⟩
      exact ⟨r, c, by omega, h3, rfl⟩
    · rintro ⟨r, c, h2, h3, rfl⟩
      exact ⟨r, c, Nat.zero_le _, by omega, h3, rfl⟩

/-- The chroma writes, offset by offset. -/
theorem mem_chromaWrites (frame : AVFrame) (d : Int) (nv21 : Bool) (p : Int × Nat) :
    p ∈ chromaWrites frame d nv21 ↔
      ∃ r c : Nat, (r : Int) < Int.tdiv frame.height 2 ∧ (c : Int) < frame.linesize1 ∧
        (p = (d * frame.height + d * r + (c : Int) * 2,
              if nv21 then frame.data2 (frame.linesize2 * r + c)
              else frame.data1 (frame.linesize1 * r + c)) ∨
         p = (d * frame.height + d * r + (c : Int) * 2 + 1,
              if nv21 then frame.data1 (frame.linesize1 * r + c)
              else frame.data2 (frame.linesize2 * r + c))) := by
  unfold chromaWrites
  simp only [List.mem_flatMap, List.mem_range, mem_chromaRowWrites]
  constructor
  · rintro ⟨r, hr, c, hc, h⟩
    exact ⟨r, c, by omega, hc, h⟩
  · rintro ⟨r, c, hr, hc, h⟩
    exact ⟨r, by omega, c, hc, h⟩

/-- With a height and a luma stride that are not negative, the luma plane is copied. -/
theorem lumaWrites_isSome (frame : AVFrame) (d : Int) (hh : 0 ≤ frame.height)
    (hs : 0 ≤ frame.linesize0) : ∃ ys, lumaWrites frame d = some ys := by
  unfold lumaWrites
  by_cases hd : d = frame.linesize0
  · have hn : ¬ frame.linesize0 * frame.height < 0 := not_lt.2 (mul_nonneg hs hh)
    simp [hd, memcpyWrites, hn]
  · simp only [hd, if_false]
    exact lumaRowWrites_isSome frame d hs frame.height.toNat 0

/-- Final content of the luma plane. -/
theorem luma_plane_content (frame : AVFrame) (d : Int) (nv21 : Bool) (mem : Int → Nat)
    (ys : List (Int × Nat)) (hh : 0 ≤ frame.height) (hs : 0 ≤ frame.linesize0)
    (hd : frame.linesize0 ≤ d) (hy : lumaWrites frame d = some ys) (r c : Nat)
    (hr : (r : Int) < frame.height) (hc : (c : Int) < frame.linesize0) :
    applyWrites mem (ys ++ chromaWrites frame d nv21) ((r : Int) * d + c) =
      frame.data0 ((r : Int) * frame.linesize0 + c) := by
  apply applyWrites_of_consistent
  · exact List.mem_append_left _ ((mem_lumaWrites frame d ys hh hs hy _).2 ⟨r, c, hr, hc, rfl⟩)
  · intro p hp hpi
    rcases List.mem_append.1 hp with hp | hp
    · obtain ⟨r1, c1, hr1, hc1, rfl⟩ := (mem_lumaWrites frame d ys hh hs hy _).1 hp
      simp only at hpi
      obtain ⟨e1, e2⟩ := row_offset_unique d r1 r c1 c (by omega) (by omega) (by omega)
        (by omega) hpi
      have e3 : c1 = c := by exact_mod_cast e2
      subst e1 e3
      rfl
    · exfalso
      obtain ⟨r1, c1, hr1, hc1, h | h⟩ := (mem_chromaWrites frame d nv21 _).1 hp
      · rw [h] at hpi
        simp only at hpi
        have hlt := row_offset_lt d frame.height r c hr (by omega) (by omega)
        have h0 : (0 : Int) ≤ d * r1 := mul_nonneg (by omega) (by omega)
        omega
      · rw [h] at hpi
        simp only at hpi
        have hlt := row_offset_lt d frame.height r c hr (by omega) (by omega)
        have h0 : (0 : Int) ≤ d * r1 := mul_nonneg (by omega) (by omega)
        omega

/-- Final content of the chroma plane, when a chroma row fits into a destination row. -/
theorem chroma_plane_content (frame : AVFrame) (d : Int) (nv21 : Bool) (mem : Int → Nat)
    (ys : List (Int × Nat)) (hh : 0 ≤ frame.height) (hs : 0 ≤ frame.linesize0)
    (hd : frame.linesize0 ≤ d) (hfit : 2 * frame.linesize1 ≤ d)
    (hy : lumaWrites frame d = some ys) (r c : Nat)
    (hr : (r : Int) < Int.tdiv frame.height 2) (hc : (c : Int) < frame.linesize1) :
    applyWrites mem (ys ++ chromaWrites frame d nv21)
        (d * frame.height + d * r + (c : Int) * 2) =
      (if nv21 then frame.data2 (frame.linesize2 * r + c)
        else frame.data1 (frame.linesize1 * r + c)) ∧
    applyWrites mem (ys ++ chromaWrites frame d nv21)
        (d * frame.height + d * r + (c : Int) * 2 + 1) =
      (if nv21 then frame.data1 (frame.linesize1 * r + c)
        else frame.data2 (frame.linesize2 * r + c)) := by
  have hd0 : 0 ≤ d := by omega
  have hr0 : (0 : Int) ≤ d * r := mul_nonneg hd0 (by omega)
  have luma_below : ∀ p ∈ ys, p.1 < d * frame.height := by
    intro p hp
    obtain ⟨r1, c1, hr1, hc1, rfl⟩ := (mem_lumaWrites frame d ys hh hs hy _).1 hp
    exact row_offset_lt d frame.height r1 c1 hr1 (by omega) (by omega)
  constructor
  · apply applyWrites_of_consistent
    · exact List.mem_append_right _
        ((mem_chromaWrites frame d nv21 _).2 ⟨r, c, hr, hc, Or.inl rfl⟩)
    · intro p hp hpi
      rcases List.mem_append.1 hp with hp | hp
      · have := luma_below p hp
        omega
      · obtain ⟨r1, c1, hr1, hc1, h | h⟩ := (mem_chromaWrites frame d nv21 _).1 hp
        · rw [h] at hpi ⊢
          simp only at hpi ⊢
          have e : (r1 : Int) * d + (c1 : Int) * 2 = (r : Int) * d + (c : Int) * 2 := by
            linarith [mul_comm d (r1 : Int), mul_comm d (r : Int)]
          obtain ⟨e1, e2⟩ := row_offset_unique d r1 r _ _ (by omega) (by omega) (by omega)
            (by omega) e
          have e3 : c1 = c := by omega
          subst e1 e3
          rfl
        · exfalso
          rw [h] at hpi
          simp only at hpi
          have e : (r1 : Int) * d + ((c1 : Int) * 2 + 1) = (r : Int) * d + (c : Int) * 2 := by
            linarith [mul_comm d (r1 : Int), mul_comm d (r : Int)]
          obtain ⟨e1, e2⟩ := row_offset_unique d r1 r _ _ (by omega) (by omega) (by omega)
            (by omega) e
          omega
  · apply applyWrites_of_consistent
    · exact List.mem_append_right _
        ((mem_chromaWrites frame d nv21 _).2 ⟨r, c, hr, hc, Or.inr rfl⟩)
    · intro p hp hpi
      rcases List.mem_append.1 hp with hp | hp
      · have := luma_below p hp
        omega
      · obtain ⟨r1, c1, hr1, hc1, h | h⟩ := (mem_chromaWrites frame d nv21 _).1 hp
        · exfalso
          rw [h] at hpi
          simp only at hpi
          have e : (r1 : Int) * d + (c1 : Int) * 2 = (r : Int) * d + ((c : Int) * 2 + 1) := by
            linarith [mul_comm d (r1 : Int), mul_comm d (r : Int)]
          obtain ⟨e1, e2⟩ := row_offset_unique d r1 r _ _ (by omega) (by omega) (by omega)
            (by omega) e
          omega
        · rw [h] at hpi ⊢
          simp only at hpi ⊢
          have e : (r1 : Int) * d + ((c1 : Int) * 2 + 1) =
              (r : Int) * d + ((c : Int) * 2 + 1) := by
            linarith [mul_comm d (r1 : Int), mul_comm d (r : Int)]
          obtain ⟨e1, e2⟩ := row_offset_unique d r1 r _ _ (by omega) (by omega) (by omega)
            (by omega) e
          have e3 : c1 = c := by omega
          subst e1 e3
          rfl

/-- C23 is not what the code does: a planar frame of height 4 with luma stride 2
and chroma strides 2 is converted with destination stride 2.  C23 puts
`U[0 * 2 + 1]`, which is 101, at offset `2 * 4 + 0 * 2 + 2 * 1 = 10`; the
chroma row 1, written later, starts at the same offset, and the buffer holds
`U[1 * 2 + 0]`, which is 102, there. -/
theorem C23_chroma_rows_overlap_counterexample :
    ((FrameCvt2Yuv420sp Scenario.wideChromaFrame 2 false).map
        (fun x => (x.1, applyWrites (fun _ => 0) x.2 (2 * 4 + 0 * 2 + 2 * 1))),
     Scenario.wideChromaFrame.data1 (0 * 2 + 1),
     Scenario.wideChromaFrame.data1 (1 * 2 + 0)) = (some (true, 102), 101, 102) := by
  rfl

/-- C23, as the code has it: for a frame in a planar 4:2:0 format (`YUV420P` or
`YUVJ420P`) with height `h >= 0`, luma stride `s >= 0`, chroma strides `l1` and
`l2`, and a destination stride `d >= s` into which a chroma row fits
(`2 * l1 <= d`), `FrameCvt2Yuv420sp` returns true and leaves in the buffer one
luma plane followed by one interleaved chroma plane:
`out[r*d + c] = Y[r*s + c]` for `r < h`, `c < s`, and
`out[d*h + r*d + 2c] = U[r*l1 + c]`, `out[d*h + r*d + 2c + 1] = V[r*l2 + c]` for
`r < h/2`, `c < l1`, with U and V exchanged when `nv21` is set.  For a format
other than `YUV420P`, `YUVJ420P` and `YUYV422` it returns false and writes
nothing. -/
theorem C23_semi_planar_layout (frame : AVFrame) (d : Int) (nv21 : Bool) (mem : Int → Nat) :
    (frame.format = .AV_PIX_FMT_YUV420P ∨ frame.format = .AV_PIX_FMT_YUVJ420P →
      0 ≤ frame.height → 0 ≤ frame.linesize0 → frame.linesize0 ≤ d →
      2 * frame.linesize1 ≤ d →
      ∃ ws, FrameCvt2Yuv420sp frame d nv21 = some (true, ws) ∧
        (∀ r c : Nat, (r : Int) < frame.height → (c : Int) < frame.linesize0 →
          applyWrites mem ws ((r : Int) * d + c) =
            frame.data0 ((r : Int) * frame.linesize0 + c)) ∧
        (∀ r c : Nat, (r : Int) < Int.tdiv frame.height 2 → (c : Int) < frame.linesize1 →
          applyWrites mem ws (d * frame.height + (r : Int) * d + 2 * (c : Int)) =
            (if nv21 then frame.data2 ((r : Int) * frame.linesize2 + c)
              else frame.data1 ((r : Int) * frame.linesize1 + c)) ∧
          applyWrites mem ws (d * frame.height + (r : Int) * d + 2 * (c : Int) + 1) =
            (if nv21 then frame.data1 ((r : Int) * frame.linesize1 + c)
              else frame.data2 ((r : Int) * frame.linesize2 + c)))) ∧
    (frame.format ≠ .AV_PIX_FMT_YUV420P → frame.format ≠ .AV_PIX_FMT_YUVJ420P →
      frame.format ≠ .AV_PIX_FMT_YUYV422 →
      FrameCvt2Yuv420sp frame d nv21 = some (false, [])) := by
  constructor
  · intro hfmt hh hs hd hfit
    obtain ⟨ys, hy⟩ := lumaWrites_isSome frame d hh hs
    have hfmt3 : frame.format = .AV_PIX_FMT_YUV420P ∨ frame.format = .AV_PIX_FMT_YUVJ420P ∨
        frame.format = .AV_PIX_FMT_YUYV422 := by
      rcases hfmt with h | h
      · exact Or.inl h
      · exact Or.inr (Or.inl h)
    refine ⟨ys ++ chromaWrites frame d nv21, ?_, ?_, ?_⟩
    · rw [FrameCvt2Yuv420sp_eq frame d nv21 hfmt3, hy]; rfl
    · intro r c hr hc
      exact luma_plane_content frame d nv21 mem ys hh hs hd hy r c hr hc
    · intro r c hr hc
      have h := chroma_plane_content frame d nv21 mem ys hh hs hd hfit hy r c hr hc
      have e1 : d * frame.height + (r : Int) * d + 2 * (c : Int) =
          d * frame.height + d * r + (c : Int) * 2 := by ring
      have e2 : (r : Int) * frame.linesize1 = frame.linesize1 * r := mul_comm _ _
      have e3 : (r : Int) * frame.linesize2 = frame.linesize2 * r := mul_comm _ _
      rw [e1, e2, e3]
      exact h
  · intro h1 h2 h3
    simp [FrameCvt2Yuv420sp, h1, h2, h3]

/-- C23 at a concrete input: the 4x2 frame of the scenarios, destination stride 4. -/
theorem C23_semi_planar_layout_witness :
    ∃ ws, FrameCvt2Yuv420sp (Scenario.avFrame 0) 4 false = some (true, ws) ∧
      (∀ r c : Nat, (r : Int) < 2 → (c : Int) < 4 →
        applyWrites (fun _ => 0) ws ((r : Int) * 4 + c) =
          (Scenario.avFrame 0).data0 ((r : Int) * 4 + c)) ∧
      (∀ r c : Nat, (r : Int) < Int.tdiv 2 2 → (c : Int) < 2 →
        applyWrites (fun _ => 0) ws (4 * 2 + (r : Int) * 4 + 2 * (c : Int)) =
          (Scenario.avFrame 0).data1 ((r : Int) * 2 + c) ∧
        applyWrites (fun _ => 0) ws (4 * 2 + (r : Int) * 4 + 2 * (c : Int) + 1) =
          (Scenario.avFrame 0).data2 ((r : Int) * 2 + c)) :=
  (C23_semi_planar_layout (Scenario.avFrame 0) 4 false (fun _ => 0)).1 (Or.inl rfl)
    (by decide) (by decide) (by decide) (by decide)

/-- The writes of the conversion stay inside a buffer of `frameSize d h` bytes
when a chroma row fits into a destination row. -/
theorem FrameCvt2Yuv420sp_in_bounds (frame : AVFrame) (d : Int) (nv21 : Bool)
    (ys : List (Int × Nat)) (hh : 0 ≤ frame.height) (hs : 0 ≤ frame.linesize0)
    (hd : frame.linesize0 ≤ d) (hfit : 2 * frame.linesize1 ≤ d)
    (hy : lumaWrites frame d = some ys) :
    ∀ p ∈ ys ++ chromaWrites frame d nv21, 0 ≤ p.1 ∧ p.1 < frameSize d frame.height := by
  have hd0 : 0 ≤ d := by omega
  have hdh : 0 ≤ d * frame.height := mul_nonneg hd0 hh
  have hsz : frameSize d frame.height = d * frame.height * 3 / 2 := by
    unfold frameSize
    exact Int.tdiv_eq_ediv (by omega) (by decide)
  have hhalf : Int.tdiv frame.height 2 = frame.height / 2 := Int.tdiv_eq_ediv hh (by decide)
  intro p hp
  rcases List.mem_append.1 hp with hp | hp
  · obtain ⟨r, c, hr, hc, rfl⟩ := (mem_lumaWrites frame d ys hh hs hy _).1 hp
    have hlt := row_offset_lt d frame.height r c hr (by omega) (by omega)
    have h0 : (0 : Int) ≤ (r : Int) * d := mul_nonneg (by omega) hd0
    simp only
    rw [hsz]
    omega
  · obtain ⟨r, c, hr, hc, h⟩ := (mem_chromaWrites frame d nv21 _).1 hp
    rw [hhalf] at hr
    have h0 : (0 : Int) ≤ d * r := mul_nonneg hd0 (by omega)
    have h1 : d * ((r : Int) + 1) ≤ d * (frame.height / 2) :=
      mul_le_mul_of_nonneg_left (by omega) hd0
    have h2 : d * (2 * (frame.height / 2)) ≤ d * frame.height :=
      mul_le_mul_of_nonneg_left (by omega) hd0
    have h3 : d * ((r : Int) + 1) = d * r + d := by ring
    have h4 : d * (2 * (frame.height / 2)) = 2 * (d * (frame.height / 2)) := by ring
    rw [hsz]
    rcases h with h | h <;> rw [h] <;> simp only <;> omega

/-- C25: for a frame in a planar 4:2:0 format with height `h >= 0`, luma stride
`s >= 0` and a chroma stride `l1` with `2 * l1 <= s`, and for the destination
stride `d` that `ProcessFrame` uses, which is `s` or `s` rounded up to the
next multiple of 128, `FrameCvt2Yuv420sp` returns true and every offset that it
writes is at least 0 and less than `d * h * 3 / 2`, the size of the buffer
that `ProcessFrame` allocates; this holds for odd `h` as well. -/
theorem C25_conversion_in_bounds (c : FFmpegCpuDecoder) (frame : AVFrame) (nv21 : Bool)
    (hfmt : frame.format = .AV_PIX_FMT_YUV420P ∨ frame.format = .AV_PIX_FMT_YUVJ420P)
    (hh : 0 ≤ frame.height) (hs : 0 ≤ frame.linesize0)
    (hfit : 2 * frame.linesize1 ≤ frame.linesize0) :
    (c.dstStride frame = frame.linesize0 ∨ c.dstStride frame = alignStride frame.linesize0) ∧
    (∀ d : Int, d = frame.linesize0 ∨ d = alignStride frame.linesize0 →
      ∃ ws, FrameCvt2Yuv420sp frame d nv21 = some (true, ws) ∧
        ∀ p ∈ ws, 0 ≤ p.1 ∧ p.1 < frameSize d frame.height) ∧
    (∃ ws, FrameCvt2Yuv420sp frame (c.dstStride frame) nv21 = some (true, ws) ∧
      ∀ p ∈ ws, 0 ≤ p.1 ∧ p.1 < frameSize (c.dstStride frame) frame.height) := by
  have hstride : c.dstStride frame = frame.linesize0 ∨
      c.dstStride frame = alignStride frame.linesize0 := by
    unfold FFmpegCpuDecoder.dstStride
    cases c.param_.apply_stride_align_for_scaler_ <;> simp
  have hfmt3 : frame.format = .AV_PIX_FMT_YUV420P ∨ frame.format = .AV_PIX_FMT_YUVJ420P ∨
      frame.format = .AV_PIX_FMT_YUYV422 := by
    rcases hfmt with h | h
    · exact Or.inl h
    · exact Or.inr (Or.inl h)
  have key : ∀ d : Int, d = frame.linesize0 ∨ d = alignStride frame.linesize0 →
      ∃ ws, FrameCvt2Yuv420sp frame d nv21 = some (true, ws) ∧
        ∀ p ∈ ws, 0 ≤ p.1 ∧ p.1 < frameSize d frame.height := by
    intro d hd
    have hge : frame.linesize0 ≤ d := by
      rcases hd with hd | hd
      · omega
      · rw [hd]; unfold alignStride YUV420SP_STRIDE_ALIGN_FOR_SCALER; omega
    obtain ⟨ys, hy⟩ := lumaWrites_isSome frame d hh hs
    refine ⟨ys ++ chromaWrites frame d nv21, ?_, ?_⟩
    · rw [FrameCvt2Yuv420sp_eq frame d nv21 hfmt3, hy]; rfl
    · exact FrameCvt2Yuv420sp_in_bounds frame d nv21 ys hh hs hge (by omega) hy
  exact ⟨hstride, key, key _ hstride⟩

/-- C25 at a concrete input: the 4x2 frame of the scenarios, stride alignment off. -/
theorem C25_conversion_in_bounds_witness :
    ∃ ws, FrameCvt2Yuv420sp (Scenario.avFrame 0)
        ((Scenario.cpuOpen 1).dstStride (Scenario.avFrame 0)) false = some (true, ws) ∧
      ∀ p ∈ ws, 0 ≤ p.1 ∧
        p.1 < frameSize ((Scenario.cpuOpen 1).dstStride (Scenario.avFrame 0))
          (Scenario.avFrame 0).height :=
  (C25_conversion_in_bounds (Scenario.cpuOpen 1) (Scenario.avFrame 0) false (Or.inl rfl)
    (by decide) (by decide) (by decide)).2.2

end CNStream

namespace CNStream

/-! ## The two feed paths -/

theorem countP_isFeed_replicate_video (k : Nat) (h : Option Nat) (len pts : Nat) :
    (List.replicate k (Call.cnvideoDecFeedData h false len pts)).countP Call.isFeed = k := by
  induction k with
  | zero => simp
  | succ k ih => simp [List.replicate_succ, List.countP_cons, ih, Call.isFeed]

theorem countP_isFeed_replicate_jpeg (k : Nat) (h : Option Nat) (len pts : Nat) :
    (List.replicate k (Call.cnjpegDecFeedData h false len pts)).countP Call.isFeed = k := by
  induction k with
  | zero => simp
  | succ k ih => simp [List.replicate_succ, List.countP_cons, ih, Call.isFeed]

/-- The video feed loop is the retry logic of the spec for the timeout code `-CNCODEC_TIMEOUT`. -/
theorem videoFeedLoop_spec (K : CnCodecRet) (len pts : Nat) (n : Nat) (rets : List Int)
    (d : MluDecoder) :
    match specFeedRetry K.CNCODEC_SUCCESS (-K.CNCODEC_TIMEOUT) n rets with
    | none => MluDecoder.videoFeedLoop K len pts n rets d = none
    | some (dec, k, e) =>
      ∃ d1, MluDecoder.videoFeedLoop K len pts n rets d = some (d1, dec) ∧
        d1.log = d.log ++ List.replicate k (.cnvideoDecFeedData d.instance_ false len pts) ∧
        d1.cndec_error_flag_ = (d.cndec_error_flag_ || e) ∧
        d1.cndec_abort_flag_ = d.cndec_abort_flag_ := by
  induction n generalizing rets d with
  | zero => simp [specFeedRetry, MluDecoder.videoFeedLoop]
  | succ n ih =>
    cases rets with
    | nil => simp [specFeedRetry, MluDecoder.videoFeedLoop]
    | cons ret rets =>
      simp only [specFeedRetry, MluDecoder.videoFeedLoop]
      by_cases ht : -K.CNCODEC_TIMEOUT = ret
      · subst ht
        simp only [if_true]
        have := ih rets (d.emit (.cnvideoDecFeedData d.instance_ false len pts))
        cases hs : specFeedRetry K.CNCODEC_SUCCESS (-K.CNCODEC_TIMEOUT) n rets with
        | none => rw [hs] at this; simpa using this
        | some x =>
          obtain ⟨dec, k, e⟩ := x
          rw [hs] at this
          simp only [Option.map_some']
          obtain ⟨d1, h1, h2, h3, h4⟩ := this
          refine ⟨d1, h1, ?_, h3, h4⟩
          rw [h2]
          simp [MluDecoder.emit, List.replicate_succ]
      · by_cases hsucc : K.CNCODEC_SUCCESS = ret
        · simp [ht, hsucc, MluDecoder.emit]
        · simp [ht, hsucc, MluDecoder.emit]

/-- The still-image feed loop is the retry logic of the spec for the timeout code `CNCODEC_TIMEOUT`. -/
theorem jpegFeedLoop_spec (K : CnCodecRet) (len pts : Nat) (n : Nat) (rets : List Int)
    (d : MluDecoder) :
    match specFeedRetry K.CNCODEC_SUCCESS K.CNCODEC_TIMEOUT n rets with
    | none => MluDecoder.jpegFeedLoop K len pts n rets d = none
    | some (dec, k, e) =>
      ∃ d1, MluDecoder.jpegFeedLoop K len pts n rets d = some (d1, dec) ∧
        d1.log = d.log ++ List.replicate k (.cnjpegDecFeedData d.jpg_instance_ false len pts) ∧
        d1.cndec_error_flag_ = (d.cndec_error_flag_ || e) ∧
        d1.cndec_abort_flag_ = d.cndec_abort_flag_ := by
  induction n generalizing rets d with
  | zero => simp [specFeedRetry, MluDecoder.jpegFeedLoop]
  | succ n ih =>
    cases rets with
    | nil => simp [specFeedRetry, MluDecoder.jpegFeedLoop]
    | cons ret rets =>
      simp only [specFeedRetry, MluDecoder.jpegFeedLoop]
      by_cases ht : K.CNCODEC_TIMEOUT = ret
      · subst ht
        simp only [if_true]
        have := ih rets (d.emit (.cnjpegDecFeedData d.jpg_instance_ false len pts))
        cases hs : specFeedRetry K.CNCODEC_SUCCESS K.CNCODEC_TIMEOUT n rets with
        | none => rw [hs] at this; simpa using this
        | some x =>
          obtain ⟨dec, k, e⟩ := x
          rw [hs] at this
          simp only [Option.map_some']
          obtain ⟨d1, h1, h2, h3, h4⟩ := this
          refine ⟨d1, h1, ?_, h3, h4⟩
          rw [h2]
          simp [MluDecoder.emit, List.replicate_succ]
      · by_cases hsucc : K.CNCODEC_SUCCESS = ret
        · simp [ht, hsucc, MluDecoder.emit]
        · simp [ht, hsucc, MluDecoder.emit]

/-- Without a timeout code among the result codes, the retry logic does not
depend on which of the two codes stands for a timeout. -/
theorem specFeedRetry_no_timeout (success timeout : Int) (n : Nat) (rets : List Int)
    (h : ∀ r ∈ rets, r ≠ timeout ∧ r ≠ -timeout) :
    specFeedRetry success timeout n rets = specFeedRetry success (-timeout) n rets := by
  induction n generalizing rets with
  | zero => simp [specFeedRetry]
  | succ n ih =>
    cases rets with
    | nil => simp [specFeedRetry]
    | cons ret rets =>
      have h0 := h ret (by simp)
      have h1 : ¬ timeout = ret := fun e => h0.1 e.symm
      have h2 : ¬ -timeout = ret := fun e => h0.2 e.symm
      simp [specFeedRetry, h1, h2]

/-- The EOS feed of the video path is the logic of the spec for the timeout code `-CNCODEC_TIMEOUT`. -/
theorem Process_video_eos_spec (K : CnCodecRet) (d : MluDecoder) (pkt : Option ESPacket)
    (env : ProcessEnv) (ret : Int) (rest : List Int) (h : Nat)
    (ha : d.cndec_abort_flag_ = false) (he : d.cndec_error_flag_ = false)
    (hi : d.instance_ = some h) (hq : isDataPacket pkt = false) (hf : env.feed = ret :: rest) :
    d.feedOutcome (d.Process K pkt env) =
      some (specFeedEos K.CNCODEC_SUCCESS (-K.CNCODEC_TIMEOUT) ret) := by
  have key : d.Process K pkt env =
      (if -K.CNCODEC_TIMEOUT = ret then
        some ({ ({ d with eos_sent_ := true }).emit (.cnvideoDecFeedData (some h) true 0 0) with
          cndec_abort_flag_ := true }, false)
      else if K.CNCODEC_SUCCESS ≠ ret then
        some ({ ({ d with eos_sent_ := true }).emit (.cnvideoDecFeedData (some h) true 0 0) with
          cndec_error_flag_ := true }, false)
      else some (({ d with eos_sent_ := true }).emit (.cnvideoDecFeedData (some h) true 0 0),
        true)) := by
    unfold MluDecoder.Process
    cases pkt with
    | none => simp [ha, he, hi, hf]
    | some p =>
      have hq' : isDataPacket (some p) = false := hq
      simp [ha, he, hi, hf, hq']
  rw [key]
  unfold specFeedEos MluDecoder.feedOutcome
  by_cases h1 : -K.CNCODEC_TIMEOUT = ret
  · simp [h1, MluDecoder.emit, callsSince_append, Call.isFeed, Call.isAbort, he]
  · by_cases h2 : K.CNCODEC_SUCCESS = ret
    · simp [h1, h2, MluDecoder.emit, callsSince_append, Call.isFeed, Call.isAbort, ha, he]
    · simp [h1, h2, MluDecoder.emit, callsSince_append, Call.isFeed, Call.isAbort, ha]

/-- The EOS feed of the still-image path is the logic of the spec for the timeout code `CNCODEC_TIMEOUT`. -/
theorem Process_jpeg_eos_spec (K : CnCodecRet) (d : MluDecoder) (pkt : Option ESPacket)
    (env : ProcessEnv) (ret : Int) (rest : List Int) (h : Nat)
    (ha : d.cndec_abort_flag_ = false) (he : d.cndec_error_flag_ = false)
    (hi0 : d.instance_ = none) (hi : d.jpg_instance_ = some h)
    (hq : isDataPacket pkt = false) (hf : env.feed = ret :: rest) :
    d.feedOutcome (d.Process K pkt env) =
      some (specFeedEos K.CNCODEC_SUCCESS K.CNCODEC_TIMEOUT ret) := by
  have key : d.Process K pkt env =
      (if K.CNCODEC_TIMEOUT = ret then
        some ({ ({ d with eos_sent_ := true }).emit (.cnjpegDecFeedData (some h) true 0 0) with
          cndec_abort_flag_ := true }, false)
      else if K.CNCODEC_SUCCESS ≠ ret then
        some ({ ({ d with eos_sent_ := true }).emit (.cnjpegDecFeedData (some h) true 0 0) with
          cndec_error_flag_ := true }, false)
      else some (({ d with eos_sent_ := true }).emit (.cnjpegDecFeedData (some h) true 0 0),
        true)) := by
    unfold MluDecoder.Process
    cases pkt with
    | none => simp [ha, he, hi0, hi, hf]
    | some p =>
      have hq' : isDataPacket (some p) = false := hq
      simp [ha, he, hi0, hi, hf, hq']
  rw [key]
  unfold specFeedEos MluDecoder.feedOutcome
  by_cases h1 : K.CNCODEC_TIMEOUT = ret
  · simp [h1, MluDecoder.emit, callsSince_append, Call.isFeed, Call.isAbort, he]
  · by_cases h2 : K.CNCODEC_SUCCESS = ret
    · simp [h1, h2, MluDecoder.emit, callsSince_append, Call.isFeed, Call.isAbort, ha, he]
    · simp [h1, h2, MluDecoder.emit, callsSince_append, Call.isFeed, Call.isAbort, ha]

/-- Outcome of the video feed loop, in terms of the retry logic of the spec. -/
theorem videoFeedLoop_outcome (K : CnCodecRet) (len pts : Nat) (n : Nat) (rets : List Int)
    (d : MluDecoder) :
    d.loopOutcome (MluDecoder.videoFeedLoop K len pts n rets d) =
      (specFeedRetry K.CNCODEC_SUCCESS (-K.CNCODEC_TIMEOUT) n rets).map
        fun x => (x.1, x.2.1, d.cndec_error_flag_ || x.2.2) := by
  have h := videoFeedLoop_spec K len pts n rets d
  cases hs : specFeedRetry K.CNCODEC_SUCCESS (-K.CNCODEC_TIMEOUT) n rets with
  | none => rw [hs] at h; simp [MluDecoder.loopOutcome, h]
  | some x =>
    obtain ⟨dec, k, e⟩ := x
    rw [hs] at h
    obtain ⟨d1, h1, h2, h3, -⟩ := h
    simp [MluDecoder.loopOutcome, h1, h2, h3, callsSince_append, countP_isFeed_replicate_video]

/-- Outcome of the still-image feed loop, in terms of the retry logic of the spec. -/
theorem jpegFeedLoop_outcome (K : CnCodecRet) (len pts : Nat) (n : Nat) (rets : List Int)
    (d : MluDecoder) :
    d.loopOutcome (MluDecoder.jpegFeedLoop K len pts n rets d) =
      (specFeedRetry K.CNCODEC_SUCCESS K.CNCODEC_TIMEOUT n rets).map
        fun x => (x.1, x.2.1, d.cndec_error_flag_ || x.2.2) := by
  have h := jpegFeedLoop_spec K len pts n rets d
  cases hs : specFeedRetry K.CNCODEC_SUCCESS K.CNCODEC_TIMEOUT n rets with
  | none => rw [hs] at h; simp [MluDecoder.loopOutcome, h]
  | some x =>
    obtain ⟨dec, k, e⟩ := x
    rw [hs] at h
    obtain ⟨d1, h1, h2, h3, -⟩ := h
    simp [MluDecoder.loopOutcome, h1, h2, h3, callsSince_append, countP_isFeed_replicate_jpeg]

/-- C24 fails on the code.  The two paths of `Process` are the feed logic of the
spec, but for two different timeout codes: the video path takes
`-CNCODEC_TIMEOUT` for a timeout, the still-image path `CNCODEC_TIMEOUT`.
Given the same result codes, a data feed that answers `-CNCODEC_TIMEOUT` and
then success is retried and accepted on the video path (two attempts, return
true) and fails on the still-image path (one attempt, error flag set, return
false); an EOS feed that answers `CNCODEC_TIMEOUT` sets the error flag on the
video path and the abort flag on the still-image path.  For result codes
without `CNCODEC_TIMEOUT` and `-CNCODEC_TIMEOUT` the two feed loops decide the
same. -/
theorem C24_paths_differ_in_timeout_code (K : CnCodecRet) :
    (Scenario.videoOpen.feedOutcome
        (Scenario.videoOpen.Process Scenario.K (some Scenario.dataPacket)
          (Scenario.feedEnv [-3, 0])) =
      some { ret := true, feeds := 2, abort := false, error := false, restarts := 0,
             flowEos := 0 }) ∧
    (Scenario.jpegOpen.feedOutcome
        (Scenario.jpegOpen.Process Scenario.K (some Scenario.dataPacket)
          (Scenario.feedEnv [-3, 0])) =
      some { ret := false, feeds := 1, abort := false, error := true, restarts := 0,
             flowEos := 0 }) ∧
    (Scenario.videoOpen.feedOutcome
        (Scenario.videoOpen.Process Scenario.K none (Scenario.feedEnv [3])) =
      some { ret := false, feeds := 1, abort := false, error := true, restarts := 0,
             flowEos := 0 }) ∧
    (Scenario.jpegOpen.feedOutcome
        (Scenario.jpegOpen.Process Scenario.K none (Scenario.feedEnv [3])) =
      some { ret := false, feeds := 1, abort := true, error := false, restarts := 0,
             flowEos := 0 }) ∧
    (∀ (len pts n : Nat) (rets : List Int) (d : MluDecoder),
      d.loopOutcome (MluDecoder.videoFeedLoop K len pts n rets d) =
          (specFeedRetry K.CNCODEC_SUCCESS (-K.CNCODEC_TIMEOUT) n rets).map
            (fun x => (x.1, x.2.1, d.cndec_error_flag_ || x.2.2)) ∧
      d.loopOutcome (MluDecoder.jpegFeedLoop K len pts n rets d) =
          (specFeedRetry K.CNCODEC_SUCCESS K.CNCODEC_TIMEOUT n rets).map
            (fun x => (x.1, x.2.1, d.cndec_error_flag_ || x.2.2))) ∧
    (∀ (dv dj : MluDecoder) (pkt : Option ESPacket) (env : ProcessEnv) (ret : Int)
        (rest : List Int) (hv hj : Nat),
      dv.cndec_abort_flag_ = false → dv.cndec_error_flag_ = false → dv.instance_ = some hv →
      dj.cndec_abort_flag_ = false → dj.cndec_error_flag_ = false → dj.instance_ = none →
      dj.jpg_instance_ = some hj → isDataPacket pkt = false → env.feed = ret :: rest →
      dv.feedOutcome (dv.Process K pkt env) =
          some (specFeedEos K.CNCODEC_SUCCESS (-K.CNCODEC_TIMEOUT) ret) ∧
      dj.feedOutcome (dj.Process K pkt env) =
          some (specFeedEos K.CNCODEC_SUCCESS K.CNCODEC_TIMEOUT ret)) ∧
    (∀ (len pts n : Nat) (rets : List Int) (dv dj : MluDecoder),
      (∀ r ∈ rets, r ≠ K.CNCODEC_TIMEOUT ∧ r ≠ -K.CNCODEC_TIMEOUT) →
      dv.cndec_error_flag_ = dj.cndec_error_flag_ →
      dv.loopOutcome (MluDecoder.videoFeedLoop K len pts n rets dv) =
        dj.loopOutcome (MluDecoder.jpegFeedLoop K len pts n rets dj)) := by
  refine ⟨by rfl, by rfl, by rfl, by rfl, ?_, ?_, ?_⟩
  · intro len pts n rets d
    exact ⟨videoFeedLoop_outcome K len pts n rets d, jpegFeedLoop_outcome K len pts n rets d⟩
  · intro dv dj pkt env ret rest hv hj a1 a2 a3 b1 b2 b3 b4 hq hf
    exact ⟨Process_video_eos_spec K dv pkt env ret rest hv a1 a2 a3 hq hf,
      Process_jpeg_eos_spec K dj pkt env ret rest hj b1 b2 b3 b4 hq hf⟩
  · intro len pts n rets dv dj hr he
    rw [videoFeedLoop_outcome, jpegFeedLoop_outcome,
      specFeedRetry_no_timeout K.CNCODEC_SUCCESS K.CNCODEC_TIMEOUT n rets hr, he]

end CNStream

namespace CNStream

/-- A data feed on the video path whose first answer is neither
`-CNCODEC_TIMEOUT` nor success: one feed call, the error flag is set, `Process`
returns false, and nothing is retried or restarted. -/
theorem Process_video_data_refused (K : CnCodecRet) (d : MluDecoder) (p : ESPacket)
    (env : ProcessEnv) (ret : Int) (rest : List Int) (h : Nat)
    (ha : d.cndec_abort_flag_ = false) (he : d.cndec_error_flag_ = false)
    (hp : isDataPacket (some p) = true) (hi : d.instance_ = some h)
    (hf : env.feed = ret :: rest) (h1 : -K.CNCODEC_TIMEOUT ≠ ret) (h2 : K.CNCODEC_SUCCESS ≠ ret) :
    d.feedOutcome (d.Process K (some p) env) =
      some { ret := false, feeds := 1, abort := false, error := true, restarts := 0,
             flowEos := 0 } := by
  unfold MluDecoder.Process
  simp [ha, he, hi, hf, hp, MluDecoder.videoFeedLoop, h1, h2, MluDecoder.feedOutcome,
    MluDecoder.emit, callsSince_append, Call.isFeed, Call.isAbort]

/-- A data feed on the still-image path whose first answer is neither
`CNCODEC_TIMEOUT` nor success: one feed call, the error flag is set, `Process`
returns false, and nothing is retried or restarted. -/
theorem Process_jpeg_data_refused (K : CnCodecRet) (d : MluDecoder) (p : ESPacket)
    (env : ProcessEnv) (ret : Int) (rest : List Int) (h : Nat)
    (ha : d.cndec_abort_flag_ = false) (he : d.cndec_error_flag_ = false)
    (hp : isDataPacket (some p) = true) (hi0 : d.instance_ = none)
    (hi : d.jpg_instance_ = some h)
    (hf : env.feed = ret :: rest) (h1 : K.CNCODEC_TIMEOUT ≠ ret) (h2 : K.CNCODEC_SUCCESS ≠ ret) :
    d.feedOutcome (d.Process K (some p) env) =
      some { ret := false, feeds := 1, abort := false, error := true, restarts := 0,
             flowEos := 0 } := by
  unfold MluDecoder.Process
  simp [ha, he, hi0, hi, hf, hp, MluDecoder.jpegFeedLoop, h1, h2, MluDecoder.feedOutcome,
    MluDecoder.emit, callsSince_append, Call.isFeed, Call.isAbort]

/-- The EOS logic of the spec makes one feed attempt and no restart, whatever the codes. -/
theorem specFeedEos_single (success timeout ret : Int) :
    (specFeedEos success timeout ret).feeds = 1 ∧
    (specFeedEos success timeout ret).restarts = 0 ∧
    (specFeedEos success timeout ret).flowEos = 0 := by
  unfold specFeedEos
  by_cases h1 : timeout = ret
  · simp [h1]
  · by_cases h2 : success = ret <;> simp [h1, h2]

/-- C6 fails on the code.  On an EOS packet or a null packet `Process` makes one
feed call and no abort or create call on both paths, whatever the call
returns; but the two paths compare the return code with different timeout
codes, the video path with `-CNCODEC_TIMEOUT` and the still-image path with
`CNCODEC_TIMEOUT`.  When the feed call reports a timeout as `CNCODEC_TIMEOUT`,
the still-image path returns false with the abort flag set and the video path
returns false with the error flag set and the abort flag clear; when it
reports a timeout as `-CNCODEC_TIMEOUT`, it is the other way round.  So for
either timeout code one of the two sessions does not set the abort flag. -/
theorem C6_eos_timeout_sets_error_flag (K : CnCodecRet) :
    (Scenario.videoOpen.feedOutcome
        (Scenario.videoOpen.Process Scenario.K none (Scenario.feedEnv [3, 0])) =
      some { ret := false, feeds := 1, abort := false, error := true, restarts := 0,
             flowEos := 0 }) ∧
    (Scenario.jpegOpen.feedOutcome
        (Scenario.jpegOpen.Process Scenario.K none (Scenario.feedEnv [3, 0])) =
      some { ret := false, feeds := 1, abort := true, error := false, restarts := 0,
             flowEos := 0 }) ∧
    (Scenario.videoOpen.feedOutcome
        (Scenario.videoOpen.Process Scenario.K none (Scenario.feedEnv [-3, 0])) =
      some { ret := false, feeds := 1, abort := true, error := false, restarts := 0,
             flowEos := 0 }) ∧
    (Scenario.jpegOpen.feedOutcome
        (Scenario.jpegOpen.Process Scenario.K none (Scenario.feedEnv [-3, 0])) =
      some { ret := false, feeds := 1, abort := false, error := true, restarts := 0,
             flowEos := 0 }) ∧
    (K.CNCODEC_TIMEOUT ≠ 0 → K.CNCODEC_SUCCESS ≠ K.CNCODEC_TIMEOUT →
      K.CNCODEC_SUCCESS ≠ -K.CNCODEC_TIMEOUT →
      ∀ (dv dj : MluDecoder) (pkt : Option ESPacket) (env : ProcessEnv) (rest : List Int)
        (hv hj : Nat),
      dv.cndec_abort_flag_ = false → dv.cndec_error_flag_ = false → dv.instance_ = some hv →
      dj.cndec_abort_flag_ = false → dj.cndec_error_flag_ = false → dj.instance_ = none →
      dj.jpg_instance_ = some hj → isDataPacket pkt = false →
      (env.feed = K.CNCODEC_TIMEOUT :: rest →
        dv.feedOutcome (dv.Process K pkt env) =
          some { ret := false, feeds := 1, abort := false, error := true, restarts := 0,
                 flowEos := 0 } ∧
        dj.feedOutcome (dj.Process K pkt env) =
          some { ret := false, feeds := 1, abort := true, error := false, restarts := 0,
                 flowEos := 0 }) ∧
      (env.feed = -K.CNCODEC_TIMEOUT :: rest →
        dv.feedOutcome (dv.Process K pkt env) =
          some { ret := false, feeds := 1, abort := true, error := false, restarts := 0,
                 flowEos := 0 } ∧
        dj.feedOutcome (dj.Process K pkt env) =
          some { ret := false, feeds := 1, abort := false, error := true, restarts := 0,
                 flowEos := 0 })) ∧
    (∀ (d : MluDecoder) (pkt : Option ESPacket) (env : ProcessEnv) (ret : Int) (rest : List Int),
      d.cndec_abort_flag_ = false → d.cndec_error_flag_ = false →
      d.instance_.isSome = true ∨ d.jpg_instance_.isSome = true →
      isDataPacket pkt = false → env.feed = ret :: rest →
      ∃ o, d.feedOutcome (d.Process K pkt env) = some o ∧
        o.feeds = 1 ∧ o.restarts = 0 ∧ o.flowEos = 0) := by
  refine ⟨by rfl, by rfl, by rfl, by rfl, ?_, ?_⟩
  · intro hT h1 h2 dv dj pkt env rest hv hj a1 a2 a3 b1 b2 b3 b4 hq
    have n1 : ¬ (-K.CNCODEC_TIMEOUT = K.CNCODEC_TIMEOUT) := by omega
    have n2 : ¬ (K.CNCODEC_TIMEOUT = -K.CNCODEC_TIMEOUT) := by omega
    constructor
    · intro hf
      rw [Process_video_eos_spec K dv pkt env _ rest hv a1 a2 a3 hq hf,
        Process_jpeg_eos_spec K dj pkt env _ rest hj b1 b2 b3 b4 hq hf]
      simp [specFeedEos, n1, h1]
    · intro hf
      rw [Process_video_eos_spec K dv pkt env _ rest hv a1 a2 a3 hq hf,
        Process_jpeg_eos_spec K dj pkt env _ rest hj b1 b2 b3 b4 hq hf]
      simp [specFeedEos, n2, h2]
  · intro d pkt env ret rest ha he hs hq hf
    cases hi : d.instance_ with
    | some h =>
      exact ⟨_, Process_video_eos_spec K d pkt env ret rest h ha he hi hq hf,
        specFeedEos_single _ _ _⟩
    | none =>
      rw [hi] at hs
      cases hj : d.jpg_instance_ with
      | none => rw [hj] at hs; simp at hs
      | some h =>
        exact ⟨_, Process_jpeg_eos_spec K d pkt env ret rest h ha he hi hj hq hf,
          specFeedEos_single _ _ _⟩

/-- C7 fails on the code.  The two data paths retry on different codes, the
video path on `-CNCODEC_TIMEOUT` and the still-image path on `CNCODEC_TIMEOUT`.
When every feed attempt reports a timeout as `CNCODEC_TIMEOUT`, the
still-image path makes three attempts and one restart and returns true, and
the video path makes one attempt, sets the error flag and returns false, with
no retry and no restart; when every attempt reports `-CNCODEC_TIMEOUT`, it is
the other way round.  The same holds when fewer than three such timeouts come
before a successful feed: the path that compares with the other code makes
one attempt, sets the error flag and returns false. -/
theorem C7_timeout_single_attempt (K : CnCodecRet) :
    (Scenario.videoOpen.feedOutcome
        (Scenario.videoOpen.Process Scenario.K (some Scenario.dataPacket)
          (Scenario.feedEnv [3, 3, 3])) =
      some { ret := false, feeds := 1, abort := false, error := true, restarts := 0,
             flowEos := 0 }) ∧
    (Scenario.jpegOpen.feedOutcome
        (Scenario.jpegOpen.Process Scenario.K (some Scenario.dataPacket)
          (Scenario.feedEnv [3, 3, 3])) =
      some { ret := true, feeds := 3, abort := false, error := false, restarts := 1,
             flowEos := 0 }) ∧
    (Scenario.videoOpen.feedOutcome
        (Scenario.videoOpen.Process Scenario.K (some Scenario.dataPacket)
          (Scenario.feedEnv [-3, -3, -3])) =
      some { ret := true, feeds := 3, abort := false, error := false, restarts := 1,
             flowEos := 0 }) ∧
    (Scenario.jpegOpen.feedOutcome
        (Scenario.jpegOpen.Process Scenario.K (some Scenario.dataPacket)
          (Scenario.feedEnv [-3, -3, -3])) =
      some { ret := false, feeds := 1, abort := false, error := true, restarts := 0,
             flowEos := 0 }) ∧
    (Scenario.videoOpen.feedOutcome
        (Scenario.videoOpen.Process Scenario.K (some Scenario.dataPacket)
          (Scenario.feedEnv [3, 0])) =
      some { ret := false, feeds := 1, abort := false, error := true, restarts := 0,
             flowEos := 0 }) ∧
    (Scenario.jpegOpen.feedOutcome
        (Scenario.jpegOpen.Process Scenario.K (some Scenario.dataPacket)
          (Scenario.feedEnv [-3, -3, 0])) =
      some { ret := false, feeds := 1, abort := false, error := true, restarts := 0,
             flowEos := 0 }) ∧
    (K.CNCODEC_TIMEOUT ≠ 0 → K.CNCODEC_SUCCESS ≠ K.CNCODEC_TIMEOUT →
      K.CNCODEC_SUCCESS ≠ -K.CNCODEC_TIMEOUT →
      ∀ (dv dj : MluDecoder) (p : ESPacket) (env : ProcessEnv) (rest : List Int) (hv hj : Nat),
      dv.cndec_abort_flag_ = false → dv.cndec_error_flag_ = false → dv.instance_ = some hv →
      dj.cndec_abort_flag_ = false → dj.cndec_error_flag_ = false → dj.instance_ = none →
      dj.jpg_instance_ = some hj → isDataPacket (some p) = true →
      (env.feed = K.CNCODEC_TIMEOUT :: rest →
        dv.feedOutcome (dv.Process K (some p) env) =
          some { ret := false, feeds := 1, abort := false, error := true, restarts := 0,
                 flowEos := 0 }) ∧
      (env.feed = -K.CNCODEC_TIMEOUT :: rest →
        dj.feedOutcome (dj.Process K (some p) env) =
          some { ret := false, feeds := 1, abort := false, error := true, restarts := 0,
                 flowEos := 0 })) := by
  refine ⟨by rfl, by rfl, by rfl, by rfl, by rfl, by rfl, ?_⟩
  intro hT h1 h2 dv dj p env rest hv hj a1 a2 a3 b1 b2 b3 b4 hp
  have n1 : -K.CNCODEC_TIMEOUT ≠ K.CNCODEC_TIMEOUT := by omega
  have n2 : K.CNCODEC_TIMEOUT ≠ -K.CNCODEC_TIMEOUT := by omega
  exact ⟨fun hf => Process_video_data_refused K dv p env _ rest hv a1 a2 hp a3 hf n1 h1,
    fun hf => Process_jpeg_data_refused K dj p env _ rest hj b1 b2 hp b3 b4 hf n2 h2⟩

end CNStream

namespace CNStream

/-- The suggested bit-stream buffer size: 1555328 for a stream of 1920x1080; for
a stream of 32768x32768 the product by 3 leaves the range of `int` and the
value stored is 4026531968. -/
theorem suggestedBitStrmBufSize_values :
    suggestedBitStrmBufSize Scenario.h264 = 1555328 ∧
    suggestedBitStrmBufSize { Scenario.h264 with codec_width := 32768, codec_height := 32768 } =
      4026531968 := by
  constructor <;> rfl

end CNStream
